import Mathlib

/-!
# OpenSRF chat server (`osrf_chat.c`): embedding and verified properties

The C program keeps its connection nodes on the heap and reaches them through
two indices: `nodeList` (socket id to node) and `nodeHash` (routable identifier
to node).  The embedding keeps that shape: nodes live in an explicit store
addressed by natural numbers, the two indices hold addresses, and every
function of the C file becomes a function on the whole server state.

Everything the C file takes from outside (socket outcomes, the XML library,
the SHA digest, the stanza templates of the absent header `osrf_chat.h`) is
collected in the record `Env`; the theorems hold for every `Env`.
-/

namespace OpenSRF

/-! ## Data model -/

/-- The values of `node->state` (`OSRF_CHAT_STATE_*` in the header). -/
inductive OSRF_CHAT_STATE where
  | NONE
  | CONNECTING
  | CONNECTED
  | S2S_CHALLENGE
  | S2S_RESPONSE
  | S2S_VERIFY
  | S2S_VERIFY_RESPONSE
  | S2S_VERIFY_FINAL
  deriving DecidableEq, Repr

/-- The bit set `node->xmlstate`: one boolean for each of the flags
`OSRF_CHAT_STATE_INIQ`, `INUSERNAME`, `INRESOURCE`, `INMESSAGE`, `INS2SRESULT`. -/
structure XmlState where
  INIQ : Bool
  INUSERNAME : Bool
  INRESOURCE : Bool
  INMESSAGE : Bool
  INS2SRESULT : Bool
  deriving DecidableEq, Repr

/-- The value `0` of `node->xmlstate`. -/
def XmlState.zero : XmlState :=
  { INIQ := false, INUSERNAME := false, INRESOURCE := false, INMESSAGE := false,
    INS2SRESULT := false }

/-- The value `OSRF_CHAT_STATE_INMESSAGE` of `node->xmlstate`. -/
def XmlState.inMessage : XmlState :=
  { XmlState.zero with INMESSAGE := true }

/-- An XML tree as libxml2 holds it: an element with attributes and children, or a text node. -/
inductive xmlNode where
  | element (name : String) (attrs : List (String × String)) (children : List xmlNode)
  | text (content : String)
  deriving Repr

mutual
/-- Equality of two XML trees is decidable. -/
def xmlNode.decEq : (a b : xmlNode) → Decidable (a = b)
  | .text s, .text t =>
    if h : s = t then isTrue (by rw [h]) else isFalse (fun e => h (xmlNode.text.inj e))
  | .text _, .element _ _ _ => isFalse (fun e => xmlNode.noConfusion e)
  | .element _ _ _, .text _ => isFalse (fun e => xmlNode.noConfusion e)
  | .element n a cs, .element n' a' cs' =>
    if hn : n = n' then
      if ha : a = a' then
        match xmlNode.decEqList cs cs' with
        | isTrue hc => isTrue (by rw [hn, ha, hc])
        | isFalse hc => isFalse (fun e => hc (xmlNode.element.inj e).2.2)
      else isFalse (fun e => ha (xmlNode.element.inj e).2.1)
    else isFalse (fun e => hn (xmlNode.element.inj e).1)
/-- Equality of two lists of XML trees is decidable. -/
def xmlNode.decEqList : (a b : List xmlNode) → Decidable (a = b)
  | [], [] => isTrue rfl
  | [], _ :: _ => isFalse (fun e => List.noConfusion e)
  | _ :: _, [] => isFalse (fun e => List.noConfusion e)
  | x :: xs, y :: ys =>
    match xmlNode.decEq x y with
    | isTrue h1 =>
      match xmlNode.decEqList xs ys with
      | isTrue h2 => isTrue (by rw [h1, h2])
      | isFalse h2 => isFalse (fun e => h2 (List.cons.inj e).2)
    | isFalse h1 => isFalse (fun e => h1 (List.cons.inj e).1)
end

instance : DecidableEq xmlNode := xmlNode.decEq

/-- What the push parser reports to the SAX handler while it consumes a chunk. -/
inductive SaxEvent where
  | startElement (name : String) (atts : List (String × String))
  | endElement (name : String)
  | characters (ch : String)
  | error
  deriving DecidableEq, Repr

mutual
/-- The events the parser reports for a well-formed element subtree: the start of an element,
the events of its children in order, its end; for a text node its characters. -/
def saxEvents : xmlNode → List SaxEvent
  | .element name attrs children =>
    SaxEvent.startElement name attrs :: (saxEventsList children ++ [SaxEvent.endElement name])
  | .text t => [SaxEvent.characters t]
/-- The events of a sequence of sibling nodes. -/
def saxEventsList : List xmlNode → List SaxEvent
  | [] => []
  | c :: cs => saxEvents c ++ saxEventsList cs
end

/-- The C struct `osrfChatNode` (the parser context is represented by the events it delivers,
the back pointer `parent` by the single server state every function receives; the field `to`
is written `to_`). -/
structure osrfChatNode where
  sockid : Int
  type : Nat
  state : OSRF_CHAT_STATE
  xmlstate : XmlState
  inparse : Bool
  remote : Option String
  to_ : Option String
  username : Option String
  resource : Option String
  domain : String
  authkey : Option String
  msgs : Option (List String)
  msgDoc : Option xmlNode
  deriving DecidableEq

/-- One record of the multiplexer's socket list (`socket_node`). -/
structure socket_node where
  endpoint : Nat
  addr_type : Nat
  sock_fd : Int
  parent_id : Int
  deriving DecidableEq, Repr

/-- The value `SERVER_SOCKET` of `socket_node.endpoint`. -/
def SERVER_SOCKET : Nat := 0

/-- The value `CLIENT_SOCKET` of `socket_node.endpoint`. -/
def CLIENT_SOCKET : Nat := 1

/-- The value `INET` of `socket_node.addr_type`. -/
def INET : Nat := 0

/-- The C struct `osrfChatServer` together with the memory and the I/O history it acts on.

* `nodeHash`, `nodeList`, `deadNodes`, `domain`, `secret`, `s2sport`, `port`, `mgr` are the
  fields of the C struct (`mgr` is the socket list `mgr->socket`);
* `heap` is the store of allocated nodes (`none`: not allocated or released), `brk` the next
  address `safe_malloc` hands out;
* `sent` lists the calls of `socket_send_timeout` so far (socket, data), `connects` the hosts
  passed to `socket_open_tcp_client`, `closed` the descriptors passed to `close`;
* `nkeys` counts the calls of `osrfChatMkAuthKey`;
* `xmlError` is the global `__osrfChatXMLErrorOcurred`;
* `useAfterFree` records that `osrfChatRemoveNode` was called with the address of a node that
  is not allocated (a node released before): the C code reads the released record there, and
  its behaviour is undefined from then on. -/
structure osrfChatServer where
  nodeHash : String → Option Nat
  nodeList : Int → Option Nat
  deadNodes : List Nat
  domain : String
  secret : String
  s2sport : Int
  port : Int
  mgr : List socket_node
  heap : Nat → Option osrfChatNode
  brk : Nat
  sent : List (Int × String)
  connects : List String
  closed : List Int
  nkeys : Nat
  xmlError : Bool
  useAfterFree : Bool := false

/-- Everything `osrf_chat.c` obtains from outside the file.

* `send n fd data`: whether the call number `n` of `socket_send_timeout`, on `fd` with `data`,
  returns 0 (`true`) or -1 (`false`);
* `connect n host`: the value returned by the call number `n` of `socket_open_tcp_client`;
* `shahash`, `xmlDocToString`, `xmlParseMemory`: the digest and the XML library;
* `keybuf n`: the text (time, pid, host name) hashed by the call number `n` of
  `osrfChatMkAuthKey`;
* the remaining fields are the stanza templates of `osrf_chat.h`, as functions of the strings
  substituted for their `%s` places, in the order of the arguments. -/
structure Env where
  send : Nat → Int → String → Bool
  connect : Nat → String → Int
  shahash : String → String
  xmlDocToString : Option xmlNode → String
  xmlParseMemory : String → Option xmlNode
  keybuf : Nat → String
  OSRF_CHAT_PARSE_ERROR : String
  OSRF_CHAT_LOGIN_OK : String
  OSRF_CHAT_S2S_INIT : String
  OSRF_CHAT_NO_RECIPIENT : String → String → String
  OSRF_CHAT_START_STREAM : String → String → String
  OSRF_CHAT_S2S_CHALLENGE : String → String
  OSRF_CHAT_S2S_RESPONSE : String → String → String → String
  OSRF_CHAT_S2S_VERIFY_REQUEST : String → String → String → String → String
  OSRF_CHAT_S2S_VERIFY_RESPONSE : String → String → String → String
  OSRF_CHAT_S2S_VERIFY_FINAL : String → String → String

/-! ## Helpers outside `osrf_chat.c` -/

/-- What `%s` prints for a string argument that may be `NULL` (glibc prints `(null)`). -/
def fmtS (s : Option String) : String :=
  s.getD "(null)"

/-- The helper `eq` of the C file: both strings present and equal. -/
def eq (a b : Option String) : Bool :=
  match a, b with
  | some x, some y => decide (x = y)
  | _, _ => false

/-- Modelled from the spec: `jid_get_domain` (absent from the sources) yields the part of the
identifier after the `@` and before the `/`, and the whole identifier when it has no `@`. -/
def jid_get_domain (jid : String) : String :=
  if jid.toList.contains '@' then
    String.mk (((jid.toList.dropWhile (fun c => c != '@')).drop 1).takeWhile (fun c => c != '/'))
  else jid

/-- Modelled from the spec: `xmlSaxAttr` (absent from the sources) looks an attribute up by
name in the attribute array the parser passes to `startElement`. -/
def xmlSaxAttr (atts : List (String × String)) (name : String) : Option String :=
  (atts.find? (fun a => a.1 == name)).map Prod.snd

/-- libxml2 `xmlSetProp` on an attribute list: replace the value in place, else append. -/
def setProp : List (String × String) → String → String → List (String × String)
  | [], k, v => [(k, v)]
  | (k', v') :: rest, k, v => if k' = k then (k, v) :: rest else (k', v') :: setProp rest k v

/-- libxml2 `xmlSetProp`: set an attribute of an element. -/
def xmlSetProp (n : xmlNode) (k v : String) : xmlNode :=
  match n with
  | .element name attrs children => .element name (setProp attrs k v) children
  | .text t => .text t

/-- libxml2 `xmlGetProp`: the value of an attribute, `NULL` without node or attribute. -/
def xmlGetProp (n : Option xmlNode) (k : String) : Option String :=
  match n with
  | some (.element _ attrs _) => xmlSaxAttr attrs k
  | _ => none

/-- Modelled from the spec: `xmlAddAttrs` (absent from the sources) sets every attribute the
parser reported on the node, in order. -/
def xmlAddAttrs (n : xmlNode) (atts : List (String × String)) : xmlNode :=
  atts.foldl (fun acc a => xmlSetProp acc a.1 a.2) n

/-- libxml2 `xmlNewNode`: a fresh element without attributes or children. -/
def xmlNewNode (name : String) : xmlNode :=
  .element name [] []

/-- libxml2 `xmlGetLastChild`. -/
def xmlGetLastChild (n : Option xmlNode) : Option xmlNode :=
  match n with
  | some (.element _ _ children) => children.getLast?
  | _ => none

/-- libxml2 `xmlAddChild`: append `cur` to the children of `parent`; a text node is merged into
an adjacent text node (or into a text parent) instead of being added. -/
def xmlAddChild (parent cur : xmlNode) : xmlNode :=
  match parent, cur with
  | .element n a cs, .text t =>
    match cs.getLast? with
    | some (.text t0) => .element n a (cs.dropLast ++ [.text (t0 ++ t)])
    | _ => .element n a (cs ++ [.text t])
  | .element n a cs, c => .element n a (cs ++ [c])
  | .text t0, .text t => .text (t0 ++ t)
  | .text t0, _ => .text t0

/-- Replace the last child of an element (the node `xmlGetLastChild` returned is changed in
place in C). -/
def setLastChild (n : xmlNode) (c : xmlNode) : xmlNode :=
  match n with
  | .element name attrs children => .element name attrs (children.dropLast ++ [c])
  | .text t => .text t

/-- The function `socket_remove_node` of `socket_bundle.c`: unlink the first record with the
given descriptor. -/
def socket_remove_node : List socket_node → Int → List socket_node
  | [], _ => []
  | head :: rest, sock_fd =>
    if head.sock_fd = sock_fd then rest else head :: socket_remove_node rest sock_fd

/-- The function `_socket_add_node` of `socket_bundle.c`: a new record goes to the head of the
list; `parent_id` is kept only when positive. -/
def _socket_add_node (mgr : List socket_node) (endpoint addr_type : Nat) (sock_fd parent_id : Int) :
    List socket_node :=
  { endpoint := endpoint, addr_type := addr_type, sock_fd := sock_fd,
    parent_id := if parent_id > 0 then parent_id else 0 } :: mgr

/-! ## Memory, containers and sockets as `osrf_chat.c` uses them -/

/-- Apply `f` to the node stored at address `p` (a field assignment through the pointer). -/
def modifyNode (w : osrfChatServer) (p : Nat) (f : osrfChatNode → osrfChatNode) : osrfChatServer :=
  { w with heap := Function.update w.heap p ((w.heap p).map f) }

/-- Allocation of a node with `safe_malloc`: the node is stored at the next free address. -/
def allocNode (w : osrfChatServer) (n : osrfChatNode) : osrfChatServer × Nat :=
  ({ w with heap := Function.update w.heap w.brk (some n), brk := w.brk + 1 }, w.brk)

/-- The function `socket_disconnect` of `socket_bundle.c`: close the descriptor and unlink its
record from the socket list. -/
def socket_disconnect (w : osrfChatServer) (sock_fd : Int) : osrfChatServer :=
  { w with closed := w.closed ++ [sock_fd], mgr := socket_remove_node w.mgr sock_fd }

/-- The function `socket_open_tcp_client` of `socket_bundle.c` as the chat server sees it: the
value returned is the environment's; a descriptor (a value that is not negative) is recorded at
the head of the socket list, the failure value -1 records nothing. -/
def socket_open_tcp_client (E : Env) (w : osrfChatServer) (dest_addr : String) :
    osrfChatServer × Int :=
  let sock_fd := E.connect w.connects.length dest_addr
  let w1 := { w with connects := w.connects ++ [dest_addr] }
  if sock_fd < 0 then (w1, -1)
  else ({ w1 with mgr := _socket_add_node w1.mgr CLIENT_SOCKET INET sock_fd (-1) }, sock_fd)

/-- The function `socket_send_timeout` of `socket_bundle.c` as the chat server sees it: the
call is recorded and its outcome (0 or -1) is the environment's. -/
def socket_send_timeout (E : Env) (w : osrfChatServer) (sock_fd : Int) (data : String) :
    osrfChatServer × Int :=
  ({ w with sent := w.sent ++ [(sock_fd, data)] },
   if E.send w.sent.length sock_fd data then 0 else -1)

/-- Modelled from the spec: `osrfHashSet` (only declared, in `osrf_hash.h`) on `nodeHash`, which
has no `freeItem`: the key is bound to the item, an item bound before is dropped from the
table. -/
def osrfHashSet (w : osrfChatServer) (item : Nat) (key : String) : osrfChatServer :=
  { w with nodeHash := Function.update w.nodeHash key (some item) }

/-- Modelled from the spec: `osrfHashRemove` (only declared, in `osrf_hash.h`) on `nodeHash`,
which has no `freeItem`: the key is unbound, the item it was bound to is not released. -/
def osrfHashRemove (w : osrfChatServer) (key : String) : osrfChatServer :=
  { w with nodeHash := Function.update w.nodeHash key none }

/-- The function `osrfChatNodeFree`: a node that is being parsed is not released, its `inparse`
flag is cleared and it is pushed on `deadNodes`; any other node is released with its fields. -/
def osrfChatNodeFree (w : osrfChatServer) (node : Nat) : osrfChatServer :=
  match w.heap node with
  | none => w
  | some n =>
    if n.inparse then
      { w with heap := Function.update w.heap node (some { n with inparse := false }),
               deadNodes := w.deadNodes ++ [node] }
    else { w with heap := Function.update w.heap node none }

/-- Modelled from the spec: `osrfListRemove` (absent from the sources) on `nodeList`, whose
`freeItem` is `osrfChatNodeFree`: the slot is emptied and the item it held is handed to
`freeItem` (the C comment at the call reads "this will free it"). -/
def nodeListRemove (w : osrfChatServer) (position : Int) : osrfChatServer :=
  match w.nodeList position with
  | none => w
  | some p => osrfChatNodeFree { w with nodeList := Function.update w.nodeList position none } p

/-- Modelled from the spec: `osrfListSet` (absent from the sources) on `nodeList`: the item the
slot held before is handed to `freeItem`, then the slot receives the new item. -/
def nodeListSet (w : osrfChatServer) (item : Nat) (position : Int) : osrfChatServer :=
  let w1 := nodeListRemove w position
  { w1 with nodeList := Function.update w1.nodeList position (some item) }

/-- Modelled from the spec: `osrfListPush` (absent from the sources) on a message queue:
append at the end; nothing happens on a `NULL` list. -/
def msgsPush (msgs : Option (List String)) (item : String) : Option (List String) :=
  msgs.map (fun l => l ++ [item])

/-! ## `osrf_chat.c` -/

/-- The function `osrfNewChatServer`. -/
def osrfNewChatServer (domain secret : String) (s2sport : Int) : osrfChatServer :=
  { nodeHash := fun _ => none, nodeList := fun _ => none, deadNodes := [],
    domain := domain, secret := secret, s2sport := s2sport, port := 0, mgr := [],
    heap := fun _ => none, brk := 0, sent := [], connects := [], closed := [],
    nkeys := 0, xmlError := false }

/-- The function `osrfChatCleanupClients`: the list of dead nodes is replaced by a new empty
list (the list has no `freeItem`, so the nodes it held are not released). -/
def osrfChatCleanupClients (w : osrfChatServer) : osrfChatServer :=
  { w with deadNodes := [] }

/-- The function `osrfNewChatNode`: `NULL` for a socket id below 1. -/
def osrfNewChatNode (sockid : Int) (domain : String) : Option osrfChatNode :=
  if sockid < 1 then none
  else some
    { sockid := 0, type := 0, state := .NONE, xmlstate := XmlState.zero, inparse := false,
      remote := none, to_ := none, username := none, resource := none, domain := domain,
      authkey := none, msgs := none, msgDoc := none }

/-- The function `osrfNewChatS2SNode`. -/
def osrfNewChatS2SNode (domain remote : String) : Option osrfChatNode :=
  (osrfNewChatNode 1 domain).map fun n =>
    { n with state := .S2S_CHALLENGE, sockid := -1, remote := some remote, msgs := some [],
             type := 1 }

/-- The function `osrfChatAddNode`. It returns the new node; a socket id of 0 gives `NULL`.
(For a negative socket id the C code writes through the `NULL` that `osrfNewChatNode` returns;
the embedding returns `NULL` there too.) -/
def osrfChatAddNode (w : osrfChatServer) (sockid : Int) : osrfChatServer × Option Nat :=
  if sockid = 0 then (w, none)
  else
    match osrfNewChatNode sockid w.domain with
    | none => (w, none)
    | some n =>
      let a := allocNode w { n with sockid := sockid }
      (nodeListSet a.1 a.2 sockid, some a.2)

/-- The function `osrfChatRemoveNode`: disconnect the node's socket, remove the entry of
`nodeHash` under the node's `remote`, remove (and thereby free) the entry of `nodeList` at the
node's socket id. The C code has no test of whether the node is still allocated: called with
the address of a released node it reads `sockid` and `remote` from the released record, which
is undefined; the embedding records that in `useAfterFree` and goes no further. -/
def osrfChatRemoveNode (w : osrfChatServer) (node : Nat) : osrfChatServer :=
  match w.heap node with
  | none => { w with useAfterFree := true }
  | some n =>
    let w1 := socket_disconnect w n.sockid
    let w2 :=
      match n.remote with
      | some r => osrfHashRemove w1 r
      | none => w1
    nodeListRemove w2 n.sockid

/-- The function `osrfChatSendRaw`: one call of `socket_send_timeout` on the node's socket;
the result is 0 or -1. -/
def osrfChatSendRaw (E : Env) (w : osrfChatServer) (node : Nat) (msgXML : String) :
    osrfChatServer × Int :=
  match w.heap node with
  | none => (w, -1)
  | some n => socket_send_timeout E w n.sockid msgXML

/-- The function `osrfChatNodeFinish`. -/
def osrfChatNodeFinish (E : Env) (w : osrfChatServer) (node : Nat) : osrfChatServer :=
  osrfChatRemoveNode (osrfChatSendRaw E w node "</stream:stream>").1 node

/-- The function `osrfChatInitS2S`: create the S2S node, connect, and on success queue the
stanza, register the node in both indices and send the stream opening. -/
def osrfChatInitS2S (E : Env) (w : osrfChatServer) (remote : String) (_toAddr : String)
    (msgXML : String) : osrfChatServer × Int :=
  match osrfNewChatS2SNode w.domain remote with
  | none => (w, -1)
  | some s =>
    let a := allocNode w s
    let snode := a.2
    let c := socket_open_tcp_client E a.1 remote
    let w1 := modifyNode c.1 snode (fun n => { n with sockid := c.2 })
    if c.2 < 1 then (w1, -1)
    else
      let w2 := modifyNode w1 snode (fun n => { n with msgs := msgsPush n.msgs msgXML })
      let w3 := osrfHashSet w2 snode remote
      let w4 := nodeListSet w3 snode c.2
      ((osrfChatSendRaw E w4 snode E.OSRF_CHAT_S2S_INIT).1, 0)

/-- The function `osrfChatSend`: route a stanza from `node` to `toAddr`. -/
def osrfChatSend (E : Env) (w : osrfChatServer) (node : Nat) (toAddr fromAddr : Option String)
    (msgXML : String) : osrfChatServer × Int :=
  match toAddr with
  | none => (w, -1)
  | some toAddr =>
    let dombuf := jid_get_domain toAddr
    if dombuf = w.domain then
      match w.nodeHash toAddr with
      | some tonode =>
        let r := osrfChatSendRaw E w tonode msgXML
        if r.2 < 0 then
          let w1 := osrfChatRemoveNode r.1 tonode
          let xml := E.OSRF_CHAT_NO_RECIPIENT toAddr (fmtS fromAddr)
          let r2 := osrfChatSendRaw E w1 node xml
          if r2.2 < 0 then (osrfChatRemoveNode r2.1 node, 0) else (r2.1, 0)
        else (r.1, 0)
      | none =>
        let xml := E.OSRF_CHAT_NO_RECIPIENT toAddr (fmtS fromAddr)
        let r := osrfChatSendRaw E w node xml
        if r.2 < 0 then (osrfChatRemoveNode r.1 node, 0) else (r.1, 0)
    else
      match w.nodeHash dombuf with
      | some tonode =>
        if (w.heap tonode).map (fun n => n.state) = some .CONNECTED then
          let r := osrfChatSendRaw E w tonode msgXML
          if r.2 < 0 then
            let xml := E.OSRF_CHAT_NO_RECIPIENT toAddr (fmtS fromAddr)
            let r2 := osrfChatSendRaw E r.1 node xml
            let w1 := if r2.2 < 0 then osrfChatRemoveNode r2.1 node else r2.1
            (osrfChatRemoveNode w1 tonode, 0)
          else (r.1, 0)
        else
          (modifyNode w tonode (fun n => { n with msgs := msgsPush n.msgs msgXML }), 0)
      | none =>
        let r := osrfChatInitS2S E w dombuf toAddr msgXML
        if r.2 ≠ 0 then
          let xml := E.OSRF_CHAT_NO_RECIPIENT toAddr (fmtS fromAddr)
          ((osrfChatSendRaw E r.1 node xml).1, 0)
        else (r.1, 0)

/-- The function `osrfChatParseError`: raise the global error flag. -/
def osrfChatParseError (w : osrfChatServer) : osrfChatServer :=
  { w with xmlError := true }

/-- The function `osrfChatMkAuthKey`: the digest of a text made of time, pid and host name. -/
def osrfChatMkAuthKey (E : Env) (w : osrfChatServer) : osrfChatServer × String :=
  ({ w with nkeys := w.nkeys + 1 }, E.shahash (E.keybuf w.nkeys))

/-- The function `osrfChatGenerateS2SKey`: `NULL` when an argument is `NULL`, else the digest
of (the digest of (the digest of the secret, followed by `hashdomain`), followed by
`authtoken`). -/
def osrfChatGenerateS2SKey (E : Env) (secret hashdomain authtoken : Option String) :
    Option String :=
  match secret, hashdomain, authtoken with
  | some secret, some hashdomain, some authtoken =>
    let a := E.shahash secret
    let b := a ++ hashdomain
    let c := E.shahash b
    let d := c ++ authtoken
    some (E.shahash d)
  | _, _, _ => none

/-- The loop of `osrfChatHandleS2SConnected` over the queued stanzas: each stanza that parses
is routed again with the `to` and `from` of its root element. -/
def flushMsgs (E : Env) (node : Nat) : List String → osrfChatServer → osrfChatServer
  | [], w => w
  | xml :: rest, w =>
    match E.xmlParseMemory xml with
    | some doc =>
      flushMsgs E node rest
        (osrfChatSend E w node (xmlGetProp (some doc) "to") (xmlGetProp (some doc) "from") xml).1
    | none => flushMsgs E node rest w

/-- The function `osrfChatHandleS2SConnected`. The two tests on `name` exclude each other, so
they are written as one chain. -/
def osrfChatHandleS2SConnected (E : Env) (w : osrfChatServer) (node : Nat) (name : String)
    (_atts : List (String × String)) : osrfChatServer × Int :=
  match w.heap node with
  | none => (w, -1)
  | some n =>
    if name = "db:verify" then
      let xml := E.OSRF_CHAT_S2S_VERIFY_FINAL n.domain (fmtS n.remote)
      let w1 := (osrfChatSendRaw E w node xml).1
      (modifyNode w1 node (fun n => { n with state := .CONNECTED, xmlstate := XmlState.zero }), 0)
    else if name = "db:result" then
      let w1 := modifyNode w node (fun n => { n with state := .CONNECTED })
      let w2 := flushMsgs E node (n.msgs.getD []) w1
      let w3 := modifyNode w2 node (fun n => { n with msgs := none })
      (modifyNode w3 node (fun n => { n with state := .CONNECTED, xmlstate := XmlState.zero }), 0)
    else (w, -1)

/-- The function `osrfChatHandleNewConnection`. -/
def osrfChatHandleNewConnection (E : Env) (w : osrfChatServer) (node : Nat) (name : String)
    (atts : List (String × String)) : osrfChatServer × Int :=
  match w.heap node with
  | none => (w, -1)
  | some n =>
    if name ≠ "stream:stream" then (w, -1)
    else
      let k := osrfChatMkAuthKey E w
      let w1 := modifyNode k.1 node (fun n => { n with authkey := some k.2 })
      match xmlSaxAttr atts "xmlns" with
      | none => (w1, -1)
      | some ns =>
        if ns = "jabber:client" then
          match xmlSaxAttr atts "to" with
          | none => (w1, -1)
          | some domain =>
            if domain ≠ n.domain then (w1, -1)
            else
              let buf := E.OSRF_CHAT_START_STREAM domain k.2
              let w2 := modifyNode w1 node (fun n => { n with state := .CONNECTING })
              ((osrfChatSendRaw E w2 node buf).1, 0)
        else if ns = "jabber:server" then
          let xml := E.OSRF_CHAT_S2S_CHALLENGE k.2
          let w2 := (osrfChatSendRaw E w1 node xml).1
          (modifyNode w2 node (fun n => { n with state := .S2S_RESPONSE, type := 1 }), 0)
        else (w1, -1)

/-- The function `osrfChatHandleConnecting`. -/
def osrfChatHandleConnecting (w : osrfChatServer) (node : Nat) (name : String)
    (_atts : List (String × String)) : osrfChatServer × Int :=
  if name = "iq" then
    (modifyNode w node (fun n => { n with xmlstate := { n.xmlstate with INIQ := true } }), 0)
  else if name = "username" then
    (modifyNode w node (fun n => { n with xmlstate := { n.xmlstate with INUSERNAME := true } }), 0)
  else if name = "resource" then
    (modifyNode w node (fun n => { n with xmlstate := { n.xmlstate with INRESOURCE := true } }), 0)
  else (w, 0)

/-- The function `osrfChatHandleConnected`: `message` starts a new document; any other
element is appended to the children of the document's root. -/
def osrfChatHandleConnected (w : osrfChatServer) (node : Nat) (name : String)
    (atts : List (String × String)) : osrfChatServer × Int :=
  if name = "message" then
    let root := xmlAddAttrs (xmlNewNode name) atts
    (modifyNode w node (fun n =>
      { n with msgDoc := some root, to_ := some ((xmlSaxAttr atts "to").getD ""),
               xmlstate := XmlState.inMessage }), 0)
  else
    let nodep := xmlAddAttrs (xmlNewNode name) atts
    (modifyNode w node (fun n => { n with msgDoc := n.msgDoc.map (fun r => xmlAddChild r nodep) }),
     0)

/-- The function `osrfChatHandleS2SChallenge`. -/
def osrfChatHandleS2SChallenge (E : Env) (w : osrfChatServer) (node : Nat) (name : String)
    (atts : List (String × String)) : osrfChatServer × Int :=
  match w.heap node with
  | none => (w, -1)
  | some n =>
    if name = "stream:stream" then
      match xmlSaxAttr atts "id" with
      | some id =>
        let d := osrfChatGenerateS2SKey E (some w.secret) (some n.domain) (some id)
        let e := E.OSRF_CHAT_S2S_RESPONSE (fmtS n.remote) n.domain (fmtS d)
        let w1 := (osrfChatSendRaw E w node e).1
        (modifyNode w1 node (fun n => { n with state := .S2S_VERIFY }), 0)
      | none => (w, -1)
    else (w, -1)

/-- The function `osrfChatStartElement`: dispatch on the node's state; a status other than 0
raises the error flag. -/
def osrfChatStartElement (E : Env) (w : osrfChatServer) (node : Nat) (name : String)
    (atts : List (String × String)) : osrfChatServer :=
  match w.heap node with
  | none => w
  | some n =>
    let r : osrfChatServer × Int :=
      match n.state with
      | .NONE => osrfChatHandleNewConnection E w node name atts
      | .CONNECTING => osrfChatHandleConnecting w node name atts
      | .CONNECTED => osrfChatHandleConnected w node name atts
      | .S2S_CHALLENGE => osrfChatHandleS2SChallenge E w node name atts
      | .S2S_RESPONSE =>
        if name = "db:result" then
          (modifyNode w node (fun n =>
            { n with remote := (xmlSaxAttr atts "from").orElse (fun _ => n.remote),
                     xmlstate := { n.xmlstate with INS2SRESULT := true } }), 0)
        else (w, -1)
      | .S2S_VERIFY =>
        if name = "db:verify" then
          match xmlSaxAttr atts "id" with
          | some id =>
            let xml := E.OSRF_CHAT_S2S_VERIFY_RESPONSE (fmtS n.remote) n.domain id
            let w1 := (osrfChatSendRaw E w node xml).1
            (modifyNode w1 node (fun n => { n with state := .S2S_VERIFY_FINAL }), 0)
          | none => (w, -1)
        else (w, -1)
      | .S2S_VERIFY_RESPONSE => osrfChatHandleS2SConnected E w node name atts
      | .S2S_VERIFY_FINAL => osrfChatHandleS2SConnected E w node name atts
    if r.2 ≠ 0 then osrfChatParseError r.1 else r.1

/-- The part of `osrfChatEndElement` for a connected node: at the end of `message` the `from`
of a client's stanza is overwritten with the node's `remote`, the document is serialized and
handed to `osrfChatSend`. -/
def endElementConnected (E : Env) (w : osrfChatServer) (node : Nat) (nm : String) :
    osrfChatServer :=
  match w.heap node with
  | none => w
  | some n =>
    if n.state = .CONNECTED ∧ nm = "message" then
      let msg :=
        if n.type = 0 then n.msgDoc.map (fun m => xmlSetProp m "from" (n.remote.getD ""))
        else n.msgDoc
      let w1 := modifyNode w node (fun n => { n with msgDoc := msg })
      let string := E.xmlDocToString msg
      let frm := xmlGetProp msg "from"
      (osrfChatSend E w1 node n.to_ frm string).1
    else w

/-- The part of `osrfChatEndElement` for a node that is logging in: at the end of `iq` the
node's `remote` is built, the login answer is sent, and the node is entered in `nodeHash`
under its `remote`, replacing an entry that is there. -/
def endElementConnecting (E : Env) (w : osrfChatServer) (node : Nat) (nm : String) :
    osrfChatServer :=
  match w.heap node with
  | none => w
  | some n =>
    if n.state = .CONNECTING ∧ n.xmlstate.INIQ = true ∧ nm = "iq" then
      let remote := fmtS n.username ++ "@" ++ n.domain ++ "/" ++ fmtS n.resource
      let w1 := modifyNode w node (fun n =>
        { n with xmlstate := { n.xmlstate with INIQ := false }, remote := some remote })
      let w2 := (osrfChatSendRaw E w1 node E.OSRF_CHAT_LOGIN_OK).1
      let w3 :=
        match w2.nodeHash remote with
        | some _ => osrfHashRemove w2 remote
        | none => w2
      let w4 := osrfHashSet w3 node remote
      modifyNode w4 node (fun n => { n with state := .CONNECTED })
    else w

/-- The function `osrfChatEndElement`. -/
def osrfChatEndElement (E : Env) (w : osrfChatServer) (node : Nat) (nm : String) :
    osrfChatServer :=
  if nm = "stream:stream" then osrfChatNodeFinish E w node
  else endElementConnecting E (endElementConnected E w node nm) node nm

/-- The function `osrfChatHandleCharacter` (`ch` holds the `len` characters reported). -/
def osrfChatHandleCharacter (E : Env) (w : osrfChatServer) (node : Nat) (ch : String) :
    osrfChatServer :=
  match w.heap node with
  | none => w
  | some n =>
    if ch.length = 0 then w
    else if n.state = .CONNECTING then
      if n.xmlstate.INIQ then
        let w1 :=
          if n.xmlstate.INUSERNAME then
            modifyNode w node (fun n =>
              { n with username := some ch, xmlstate := { n.xmlstate with INUSERNAME := false } })
          else w
        if n.xmlstate.INRESOURCE then
          modifyNode w1 node (fun n =>
            { n with resource := some ch, xmlstate := { n.xmlstate with INRESOURCE := false } })
        else w1
      else w
    else if n.state = .CONNECTED then
      modifyNode w node (fun n =>
        { n with msgDoc := n.msgDoc.map (fun root =>
            match xmlGetLastChild (some root) with
            | some last => setLastChild root (xmlAddChild last (.text ch))
            | none => root) })
    else if n.state = .S2S_RESPONSE ∧ n.xmlstate.INS2SRESULT = true then
      let e := osrfChatGenerateS2SKey E (some w.secret) n.remote n.authkey
      if eq (some ch) e then
        let msg := E.OSRF_CHAT_S2S_VERIFY_REQUEST (fmtS n.authkey) n.domain (fmtS n.remote) (fmtS e)
        let w1 := (osrfChatSendRaw E w node msg).1
        modifyNode w1 node (fun n =>
          { n with state := .S2S_VERIFY_RESPONSE, xmlstate := XmlState.zero })
      else w
    else w

/-- One event of the push parser, delivered to the SAX handler of the node. -/
def saxDispatch (E : Env) (w : osrfChatServer) (node : Nat) : SaxEvent → osrfChatServer
  | .startElement name atts => osrfChatStartElement E w node name atts
  | .endElement name => osrfChatEndElement E w node name
  | .characters ch => osrfChatHandleCharacter E w node ch
  | .error => osrfChatParseError w

/-- The call `xmlParseChunk(node->parserCtx, data, ...)`: the events the parser derives from
the chunk are delivered in order. -/
def xmlParseChunk (E : Env) (w : osrfChatServer) (node : Nat) (data : List SaxEvent) :
    osrfChatServer :=
  data.foldl (fun acc ev => saxDispatch E acc node ev) w

/-- The function `osrfChatPushData`: parse the chunk with `inparse` set; -1 is returned, and
the error flag cleared, when the flag was raised. -/
def osrfChatPushData (E : Env) (w : osrfChatServer) (node : Nat) (data : List SaxEvent) :
    osrfChatServer × Int :=
  let w1 := modifyNode w node (fun n => { n with inparse := true })
  let w2 := xmlParseChunk E w1 node data
  let w3 := modifyNode w2 node (fun n => { n with inparse := false })
  if w3.xmlError then ({ w3 with xmlError := false }, -1) else (w3, 0)

/-- The function `osrfChatHandleData`, the multiplexer's `data_received` callback: find or add
the node of the socket, push the chunk, on failure send the parse-error stanza and remove the
node; in every case sweep the dead nodes. -/
def osrfChatHandleData (E : Env) (w : osrfChatServer) (sockid : Int) (data : List SaxEvent) :
    osrfChatServer :=
  if sockid = 0 then w
  else
    let a : osrfChatServer × Option Nat :=
      match w.nodeList sockid with
      | some node => (w, some node)
      | none => osrfChatAddNode w sockid
    match a.2 with
    | some node =>
      let r := osrfChatPushData E a.1 node data
      if r.2 = -1 then
        let w1 := (osrfChatSendRaw E r.1 node E.OSRF_CHAT_PARSE_ERROR).1
        osrfChatCleanupClients (osrfChatRemoveNode w1 node)
      else osrfChatCleanupClients r.1
    | none => osrfChatCleanupClients a.1

/-- The function `osrfChatSocketClosed`, the multiplexer's `on_socket_closed` callback. -/
def osrfChatSocketClosed (w : osrfChatServer) (sockid : Int) : osrfChatServer :=
  match w.nodeList sockid with
  | some node => osrfChatRemoveNode w node
  | none => w

/-- The record of the node `osrfNewChatS2SNode` returns. -/
def s2sNodeRecord (domain remote : String) : osrfChatNode :=
  { sockid := -1, type := 1, state := .S2S_CHALLENGE, xmlstate := XmlState.zero,
    inparse := false, remote := some remote, to_ := none, username := none, resource := none,
    domain := domain, authkey := none, msgs := some [], msgDoc := none }

/-- A child element the chat server stores as received: an element other than `message` and
`stream:stream`, with distinct attribute names, that holds nothing or one non-empty text. -/
def flatChild : xmlNode → Prop
  | .element name attrs [] =>
    name ≠ "message" ∧ name ≠ "stream:stream" ∧ (attrs.map Prod.fst).Nodup
  | .element name attrs [.text t] =>
    name ≠ "message" ∧ name ≠ "stream:stream" ∧ (attrs.map Prod.fst).Nodup ∧ t.length ≠ 0
  | _ => False

/-- The subtree a node hands on at the end of `message`: the document received, with `from`
set to the node's `remote` when the node is a client (type 0). -/
def relayedDoc (c : osrfChatNode) (tree : xmlNode) : xmlNode :=
  if c.type = 0 then xmlSetProp tree "from" (c.remote.getD "") else tree

/-! ## Sample data for the concrete instances -/

mutual
/-- A plain rendering of an XML tree, used as the serializer of the sample environment. -/
def xmlToText : xmlNode → String
  | .element name attrs children =>
    "<" ++ name ++ String.join (attrs.map (fun a => " " ++ a.1 ++ "=" ++ a.2)) ++ ">" ++
      xmlListToText children ++ "</" ++ name ++ ">"
  | .text t => t
/-- The rendering of a sequence of sibling nodes. -/
def xmlListToText : List xmlNode → String
  | [] => ""
  | c :: cs => xmlToText c ++ xmlListToText cs
end

/-- A sample environment: the outcomes of the sends and connects are given; the digest, the
XML library and the stanza templates are simple stand-ins. Every queued text parses as a
message to `c@peer.org`. -/
def sampleEnv (send : Nat → Int → String → Bool) (connect : Nat → String → Int) : Env :=
  { send := send, connect := connect, shahash := fun s => "H(" ++ s ++ ")",
    xmlDocToString := fun d => (d.map xmlToText).getD "",
    xmlParseMemory := fun _ => some (.element "message" [("to", "c@peer.org")] []),
    keybuf := fun _ => "17000000004242host",
    OSRF_CHAT_PARSE_ERROR := "PARSE_ERROR", OSRF_CHAT_LOGIN_OK := "LOGIN_OK",
    OSRF_CHAT_S2S_INIT := "S2S_INIT",
    OSRF_CHAT_NO_RECIPIENT := fun t f => "NO_RECIPIENT " ++ t ++ " " ++ f,
    OSRF_CHAT_START_STREAM := fun d k => "START_STREAM " ++ d ++ " " ++ k,
    OSRF_CHAT_S2S_CHALLENGE := fun k => "S2S_CHALLENGE " ++ k,
    OSRF_CHAT_S2S_RESPONSE := fun a b c => "S2S_RESPONSE " ++ a ++ " " ++ b ++ " " ++ c,
    OSRF_CHAT_S2S_VERIFY_REQUEST :=
      fun a b c d => "S2S_VERIFY_REQUEST " ++ a ++ " " ++ b ++ " " ++ c ++ " " ++ d,
    OSRF_CHAT_S2S_VERIFY_RESPONSE :=
      fun a b c => "S2S_VERIFY_RESPONSE " ++ a ++ " " ++ b ++ " " ++ c,
    OSRF_CHAT_S2S_VERIFY_FINAL := fun a b => "S2S_VERIFY_FINAL " ++ a ++ " " ++ b }

/-- The sample environment in which every send succeeds and every connect returns 7. -/
def sampleEnvOk : Env :=
  sampleEnv (fun _ _ _ => true) (fun _ _ => 7)

/-- A connected client node of the domain `ex.org`. -/
def sampleClient (sockid : Int) (remote : String) : osrfChatNode :=
  { sockid := sockid, type := 0, state := .CONNECTED, xmlstate := XmlState.zero,
    inparse := false, remote := some remote, to_ := none, username := none, resource := none,
    domain := "ex.org", authkey := some "key", msgs := none, msgDoc := none }

/-- The document the sample sender holds: a message to `b@ex.org/r2` with a forged `from`. -/
def sampleDoc : xmlNode :=
  .element "message" [("to", "b@ex.org/r2"), ("from", "forged@ex.org/x")]
    [.element "body" [] [.text "hi"]]

/-- The sample sender: the client `a@ex.org/r1` on socket 5, in the middle of a parse, holding
`sampleDoc`. -/
def sampleSender : osrfChatNode :=
  { sampleClient 5 "a@ex.org/r1" with
    inparse := true, to_ := some "b@ex.org/r2", msgDoc := some sampleDoc,
    xmlstate := XmlState.inMessage }

/-- A sample server of the domain `ex.org` with two connected clients: the sender
`a@ex.org/r1` (address 0, socket 5) and `b@ex.org/r2` (address 1, socket 6). -/
def sampleServer : osrfChatServer :=
  { nodeHash := fun k =>
      if k = "a@ex.org/r1" then some 0 else if k = "b@ex.org/r2" then some 1 else none,
    nodeList := fun k => if k = 5 then some 0 else if k = 6 then some 1 else none,
    deadNodes := [], domain := "ex.org", secret := "secret", s2sport := 5269, port := 5222,
    mgr := [⟨CLIENT_SOCKET, INET, 6, 4⟩, ⟨CLIENT_SOCKET, INET, 5, 4⟩,
            ⟨SERVER_SOCKET, INET, 4, 0⟩],
    heap := fun p =>
      if p = 0 then some sampleSender
      else if p = 1 then some (sampleClient 6 "b@ex.org/r2") else none,
    brk := 2, sent := [], connects := [], closed := [], nkeys := 2, xmlError := false }

/-- An outbound S2S node for `peer.org` on socket 7 with the given state and queue. -/
def samplePeer (state : OSRF_CHAT_STATE) (msgs : List String) : osrfChatNode :=
  { sockid := 7, type := 1, state := state, xmlstate := XmlState.zero,
    inparse := true, remote := some "peer.org", to_ := none, username := none,
    resource := none, domain := "ex.org", authkey := none, msgs := some msgs, msgDoc := none }

/-- The sample server with, in addition, an outbound S2S node for `peer.org` (address 2,
socket 7) in the given state and with the given queue. -/
def sampleServerS2S (state : OSRF_CHAT_STATE) (msgs : List String) : osrfChatServer :=
  { sampleServer with
    nodeHash := Function.update sampleServer.nodeHash "peer.org" (some 2),
    nodeList := Function.update sampleServer.nodeList 7 (some 2),
    heap := Function.update sampleServer.heap 2 (some (samplePeer state msgs)),
    brk := 3 }

/-- A stanza with an element nested two levels below `message`. -/
def nestedStanza : xmlNode :=
  .element "message" [("to", "b@ex.org/r2")] [.element "a" [] [.element "b" [] [.text "x"]]]

/-- A stanza whose children are flat. -/
def flatStanza : xmlNode :=
  .element "message" [("to", "b@ex.org/r2")]
    [.element "body" [] [.text "hi"], .element "thread" [("id", "t1")] []]

/-! ## Consistency of the two indices -/

/-- The states in which a node is bound in `nodeHash`: a connected node, or an outbound S2S
node on its way through the handshake. -/
def inHashState : OSRF_CHAT_STATE → Bool
  | .CONNECTED => true
  | .S2S_CHALLENGE => true
  | .S2S_VERIFY => true
  | .S2S_VERIFY_FINAL => true
  | _ => false

/-- The environment hands out every descriptor of an outbound connection once. -/
def FreshConnects (E : Env) : Prop :=
  ∀ i j h h', 1 ≤ E.connect i h → E.connect i h = E.connect j h' → i = j

/-- The consistency of the indices: every binding of `nodeHash` leads to an allocated node
whose `remote` is the key, which is the node stored in `nodeList` at its socket id and whose
state is one of `inHashState`; every slot of `nodeList` holds an allocated node with that
socket id; addresses from `brk` on are unused; no later connect returns a socket id in use. -/
structure Inv (E : Env) (w : osrfChatServer) : Prop where
  hash : ∀ k p, w.nodeHash k = some p →
    ∃ n, w.heap p = some n ∧ n.remote = some k ∧ w.nodeList n.sockid = some p ∧
      inHashState n.state = true
  list : ∀ k p, w.nodeList k = some p → ∃ n, w.heap p = some n ∧ n.sockid = k
  unused : ∀ p, w.brk ≤ p → w.heap p = none
  conn : ∀ k p, w.nodeList k = some p → ∀ i h, w.connects.length ≤ i → E.connect i h ≠ k

/-- The node `C` is the one being parsed: it is allocated; it is stored in `nodeList` at its
socket id with `inparse` set, or that slot is empty (the node was removed during the parse);
and no later connect returns its socket id. -/
structure Parsing (E : Env) (w : osrfChatServer) (C : Nat) : Prop where
  alive : ∃ n, w.heap C = some n ∧
    ((w.nodeList n.sockid = some C ∧ n.inparse = true) ∨ w.nodeList n.sockid = none) ∧
    ∀ i h, w.connects.length ≤ i → E.connect i h ≠ n.sockid

/-- The node `osrfChatHandleData` pushes a chunk to: the node stored at the socket id, else the
node `osrfChatAddNode` creates. -/
def dataNode (w : osrfChatServer) (sockid : Int) : osrfChatServer × Option Nat :=
  match w.nodeList sockid with
  | some node => (w, some node)
  | none => osrfChatAddNode w sockid

/-- Every event of the chunk reaches the node while the node is still stored in `nodeList` at
the socket id: no event is delivered to a node that an earlier event of the chunk removed. -/
def deliveredWhileRegistered (E : Env) (w : osrfChatServer) (sockid : Int)
    (data : List SaxEvent) : Prop :=
  ∀ node, (dataNode w sockid).2 = some node →
    ∀ i, i < data.length →
      (xmlParseChunk E
        (modifyNode (dataNode w sockid).1 node (fun n => { n with inparse := true }))
        node (data.take i)).nodeList sockid = some node

/-- The states the server reaches from its initial state through the callbacks the multiplexer
invokes: a chunk of data on a socket (`osrfChatHandleData`), the close of a socket
(`osrfChatSocketClosed`), and the multiplexer's own changes of its socket list. A chunk arrives
on a positive socket id: the socket of a node stored in `nodeList` (a client, an inbound or an
outbound S2S link), or a socket without a node yet, whose descriptor no later connect returns;
and its events are delivered while the node is registered. -/
inductive Reachable (E : Env) : osrfChatServer → Prop
  | init (domain secret : String) (s2sport : Int) :
    Reachable E (osrfNewChatServer domain secret s2sport)
  | data (w : osrfChatServer) (sockid : Int) (data : List SaxEvent) :
    Reachable E w → 1 ≤ sockid →
    (w.nodeList sockid = none → ∀ i h, w.connects.length ≤ i → E.connect i h ≠ sockid) →
    deliveredWhileRegistered E w sockid data →
    Reachable E (osrfChatHandleData E w sockid data)
  | closed (w : osrfChatServer) (sockid : Int) :
    Reachable E w → Reachable E (osrfChatSocketClosed w sockid)
  | mux (w : osrfChatServer) (mgr : List socket_node) :
    Reachable E w → Reachable E { w with mgr := mgr }

/-- The sample environment in which every send succeeds and the connect number `i` returns the
descriptor `100 + i`. -/
def sampleEnvFresh : Env :=
  sampleEnv (fun _ _ _ => true) (fun i _ => 100 + i)

/-- The events of a client that opens a stream to `ex.org` and logs in. -/
def loginChunk (username resource : String) : List SaxEvent :=
  [.startElement "stream:stream"
     [("xmlns", "jabber:client"), ("xmlns:stream", "http://etherx.jabber.org/streams"),
      ("to", "ex.org")],
   .startElement "iq" [("type", "set")],
   .startElement "query" [("xmlns", "jabber:iq:auth")],
   .startElement "username" [], .characters username, .endElement "username",
   .startElement "resource" [], .characters resource, .endElement "resource",
   .endElement "query", .endElement "iq"]

/-- A new server of the domain `ex.org` after the client `a@ex.org/r1` logged in on socket 5. -/
def sampleRun1 : osrfChatServer :=
  osrfChatHandleData sampleEnvFresh (osrfNewChatServer "ex.org" "secret" 5269) 5
    (loginChunk "a" "r1")

/-- The state after that client sent a message to `c@peer.org`. -/
def sampleRun2 : osrfChatServer :=
  osrfChatHandleData sampleEnvFresh sampleRun1 5
    (saxEvents (.element "message" [("to", "c@peer.org")] [.element "body" [] [.text "hi"]]))

/-- The state after the peer `peer.org`, to which `sampleRun2` opened the link on the
descriptor 100, answered with its stream opening (stream id `s1`): the outbound node has sent
its key and waits in `S2S_VERIFY`. -/
def sampleRun3 : osrfChatServer :=
  osrfChatHandleData sampleEnvFresh sampleRun2 100
    [.startElement "stream:stream"
       [("xmlns", "jabber:server"), ("xmlns:db", "jabber:server:dialback"), ("id", "s1")]]

/-- The events of a client that opens a stream to `ex.org`, sends an element named
`stream:stream` inside it, and then logs in, all in one chunk. -/
def closeThenLoginChunk : List SaxEvent :=
  [.startElement "stream:stream"
     [("xmlns", "jabber:client"), ("xmlns:stream", "http://etherx.jabber.org/streams"),
      ("to", "ex.org")],
   .startElement "stream:stream" [], .endElement "stream:stream",
   .startElement "iq" [("type", "set")],
   .startElement "username" [], .characters "u", .endElement "username",
   .startElement "resource" [], .characters "r", .endElement "resource",
   .endElement "iq"]

/-- The key a peer of the domain `remote` has to present on a stream whose id is `authkey`, as
`osrfChatHandleCharacter` recomputes it with the secret `secret`. -/
def sampleKey (secret remote authkey : String) : String :=
  fmtS (osrfChatGenerateS2SKey sampleEnvOk (some secret) (some remote) (some authkey))

/-- The events of a peer server that opens a stream to this server, proves its identity
`remote` with the text `key` in `db:result`, and then sends `db:verify`. -/
def inboundS2SChunk (remote key : String) : List SaxEvent :=
  [.startElement "stream:stream"
     [("xmlns", "jabber:server"), ("xmlns:db", "jabber:server:dialback")],
   .startElement "db:result" [("from", remote), ("to", "ex.org")], .characters key,
   .endElement "db:result",
   .startElement "db:verify" [("type", "valid"), ("from", remote), ("to", "ex.org")],
   .endElement "db:verify"]

/-- A new server of the domain `ex.org` after the peer `peer.org` went through the handshake on
socket 5 (the stream id minted for it is the digest of the first key text). -/
def sampleInbound : osrfChatServer :=
  osrfChatHandleData sampleEnvFresh (osrfNewChatServer "ex.org" "secret" 5269) 5
    (inboundS2SChunk "peer.org"
      (sampleKey "secret" "peer.org" (sampleEnvFresh.shahash (sampleEnvFresh.keybuf 0))))

/-- The sample server when the node at address 1 (socket 6) is logging in with the user name
and resource given, the end of `iq` not yet seen. -/
def sampleServerLogin (username resource : Option String) : osrfChatServer :=
  modifyNode sampleServer 1 (fun n =>
    { n with state := .CONNECTING, xmlstate := { n.xmlstate with INIQ := true },
             remote := none, username := username, resource := resource })

/-- A new server of the domain `ex.org` after two clients logged in one after the other with
the same user name `a` and resource `r1`, on socket 5 and then on socket 6. -/
def sampleRunTwice : osrfChatServer :=
  osrfChatHandleData sampleEnvFresh sampleRun1 6 (loginChunk "a" "r1")

/-- The events of a client that opens a stream to `ex.org` and sends an `iq` that holds neither
a user name nor a resource. -/
def emptyLoginChunk : List SaxEvent :=
  [.startElement "stream:stream"
     [("xmlns", "jabber:client"), ("xmlns:stream", "http://etherx.jabber.org/streams"),
      ("to", "ex.org")],
   .startElement "iq" [("type", "set")], .endElement "iq"]

/-- A new server of the domain `ex.org` after that chunk arrived on socket 5. -/
def sampleRunNoName : osrfChatServer :=
  osrfChatHandleData sampleEnvFresh (osrfNewChatServer "ex.org" "secret" 5269) 5 emptyLoginChunk

/-- The state `w1` differs from `w` in that the node at `p` is now `n` and the stanzas `ms`
were sent in addition (the count of the keys minted apart). -/
def Stepped (w w1 : osrfChatServer) (p : Nat) (n : osrfChatNode) (ms : List (Int × String)) :
    Prop :=
  w1.heap = Function.update w.heap p (some n) ∧ w1.sent = w.sent ++ ms ∧
  w1.nodeHash = w.nodeHash ∧ w1.nodeList = w.nodeList ∧ w1.deadNodes = w.deadNodes ∧
  w1.secret = w.secret ∧ w1.domain = w.domain ∧ w1.xmlError = w.xmlError

/-- A server of the domain `peer.org` with the secret of the sample server and one new node
(address 0, socket 9, state `NONE`) for an inbound connection. -/
def samplePeerServer : osrfChatServer :=
  (osrfChatAddNode (osrfNewChatServer "peer.org" "secret" 5269) 9).1

/-- The events of a peer server that opens a stream to this server and presents the text `key`
in `db:result` as the proof of its identity `remote`. -/
def s2sResultChunk (remote key : String) : List SaxEvent :=
  [.startElement "stream:stream"
     [("xmlns", "jabber:server"), ("xmlns:db", "jabber:server:dialback")],
   .startElement "db:result" [("from", remote), ("to", "ex.org")], .characters key,
   .endElement "db:result"]

/-- A new server of the domain `ex.org` after a peer presented the wrong key `wrong` for
`peer.org` on socket 5. -/
def sampleWrongKey : osrfChatServer :=
  osrfChatHandleData sampleEnvFresh (osrfNewChatServer "ex.org" "secret" 5269) 5
    (s2sResultChunk "peer.org" "wrong")

/-- The state after the same peer sent, in a second chunk, `db:result` again with the right
key and then `db:verify`. -/
def sampleWrongKeyRetry : osrfChatServer :=
  osrfChatHandleData sampleEnvFresh sampleWrongKey 5
    [.startElement "db:result" [("from", "peer.org"), ("to", "ex.org")],
     .characters (sampleKey "secret" "peer.org" (sampleEnvFresh.shahash (sampleEnvFresh.keybuf 0))),
     .endElement "db:result",
     .startElement "db:verify" [("type", "valid")], .endElement "db:verify"]

/-- The state after the peer `peer.org`, to which `sampleRun2` opened the link on the
descriptor 100, answered with its stream opening and then sent `db:verify` twice. -/
def sampleRunVerifyTwice : osrfChatServer :=
  osrfChatHandleData sampleEnvFresh sampleRun2 100
    [.startElement "stream:stream"
       [("xmlns", "jabber:server"), ("xmlns:db", "jabber:server:dialback"), ("id", "s1")],
     .startElement "db:verify" [("id", "s1")], .endElement "db:verify",
     .startElement "db:verify" [("id", "s1")], .endElement "db:verify"]

/-- The error flag is raised by the event number `i` of the chunk: it is clear after the first
`i` events and set after the first `i + 1`. -/
def raisedAt (E : Env) (w : osrfChatServer) (node : Nat) (data : List SaxEvent) (i : Nat) :
    Prop :=
  i < data.length ∧ (xmlParseChunk E w node (data.take i)).xmlError = false ∧
    (xmlParseChunk E w node (data.take (i + 1))).xmlError = true

/-- The state after socket 5, the socket of the first of the two clients of `sampleRunTwice`,
was closed by its peer. -/
def sampleRunTwiceClosed : osrfChatServer :=
  osrfChatSocketClosed sampleRunTwice 5

/-- The function `socket_find_node` of `socket_bundle.c`: the first record with the given
descriptor. -/
def socket_find_node : List socket_node → Int → Option socket_node
  | [], _ => none
  | head :: rest, sock_fd => if head.sock_fd = sock_fd then some head else socket_find_node rest sock_fd

/-! ## `utils.c`: the growing buffer -/

/-- The value of a C `int` expression after wrapping to 32 bits (two's complement). -/
def int32 (x : Int) : Int :=
  (x + 2147483648) % 4294967296 - 2147483648

/-- The structure `growing_buffer` (declared in the absent `utils.h` with the `int` fields
`n_used` and `size`): `buf` is the text stored, up to its terminating NUL, as bytes. -/
structure growing_buffer where
  buf : List Nat
  n_used : Int
  size : Int
  deriving DecidableEq, Repr

/-- The function `buffer_init`; `BUFFER_MAX_SIZE` is a constant of the absent `utils.h`.
`NULL` is `none`. -/
def buffer_init (BUFFER_MAX_SIZE : Int) (num_initial_bytes : Int) : Option growing_buffer :=
  if num_initial_bytes > BUFFER_MAX_SIZE then none
  else some { buf := [], n_used := 0, size := num_initial_bytes }

/-- The loop `while( total_len >= gb->size ) gb->size *= 2;` of `buffer_add`, run for at most
`fuel` tests of its condition: the size at which the loop ends, or `none` when it has not ended
by then. -/
def buffer_grow : Nat → Int → Int → Option Int
  | 0, _, _ => none
  | fuel + 1, total_len, size =>
    if total_len ≥ size then buffer_grow fuel total_len (int32 (size * 2)) else some size

/-- The function `buffer_add` (`data` is a C string, the list of its bytes before the NUL). The
result is `none` when the doubling loop has not ended after `fuel` tests; otherwise it holds
the buffer, `none` when `buffer_add` released it because the size passed `BUFFER_MAX_SIZE`,
and the value returned. -/
def buffer_add (BUFFER_MAX_SIZE : Int) (fuel : Nat) (gb : Option growing_buffer)
    (data : List Nat) : Option (Option growing_buffer × Int) :=
  match gb with
  | none => some (none, 0)
  | some gb =>
    let data_len : Int := data.length
    if data_len = 0 then some (some gb, 0)
    else
      let total_len := int32 (data_len + gb.n_used)
      if total_len ≥ gb.size then
        match buffer_grow fuel total_len gb.size with
        | none => none
        | some size =>
          if size > BUFFER_MAX_SIZE then some (none, 0)
          else some (some { buf := gb.buf ++ data, n_used := total_len, size := size }, total_len)
      else some (some { gb with buf := gb.buf ++ data, n_used := total_len }, total_len)

/-! ## `socket_bundle.c`: waiting and dispatching -/

/-- The address type `UNIX` of a socket record (the constants are in the absent header; only
their being distinct matters). -/
def UNIX : Nat := 1

/-- What the dispatcher sees of its surroundings. The callbacks `data_received` and
`on_socket_closed` are given by their effect on the socket list, per call (the number of the
call stands for whatever state they keep). -/
structure MuxEnv where
  /-- The call `select` by its number: the descriptors in the set and the timeout in seconds
  (`none` for no timeout) give the value returned and the descriptors left in the set. -/
  select : Nat → List Int → Option Int → Int × List Int
  /-- The call `accept` on a listening descriptor, by its number. -/
  accept : Nat → Int → Int
  /-- What the `recv` loop of one dispatch reads from a descriptor, by the number of the
  dispatch: the chunks read, then the value of the last `recv` (0: closed by the peer,
  negative: nothing more to read, or an error). -/
  recv : Nat → Int → List String × Int
  /-- The callback `data_received`: call number, socket list, descriptor, data, parent id. -/
  data_received : Nat → List socket_node → Int → String → Int → List socket_node
  /-- The callback `on_socket_closed`: call number, socket list, descriptor. -/
  on_socket_closed : Nat → List socket_node → Int → List socket_node

/-- The structure `socket_manager`: the socket list, and the record of what was done with it:
the timeouts of the calls of `select`, the number of calls of `accept`, of dispatches to
`_socket_handle_client_data` and of callbacks, and for each scan of the list that
`_socket_route_data` started, the latest scan first, the descriptors it dispatched, in
order. -/
structure socket_manager where
  socket : List socket_node
  selects : List (Option Int)
  naccept : Nat
  nrecv : Nat
  ncalls : Nat
  scans : List (List Int)
  deriving DecidableEq, Repr

/-- The function `_socket_handle_new_client`. -/
def _socket_handle_new_client (E : MuxEnv) (mgr : socket_manager) (node : socket_node) :
    socket_manager × Int :=
  let new_sock_fd := E.accept mgr.naccept node.sock_fd
  let mgr1 := { mgr with naccept := mgr.naccept + 1 }
  if new_sock_fd < 0 then (mgr1, -1)
  else if node.addr_type = INET then
    ({ mgr1 with socket := _socket_add_node mgr1.socket CLIENT_SOCKET INET new_sock_fd
                   node.sock_fd }, 0)
  else if node.addr_type = UNIX then
    ({ mgr1 with socket := _socket_add_node mgr1.socket CLIENT_SOCKET UNIX new_sock_fd
                   node.sock_fd }, 0)
  else (mgr1, 0)

/-- The `recv` loop of `_socket_handle_client_data`: each chunk is handed to `data_received`. -/
def recvLoop (E : MuxEnv) (sock_fd parent_id : Int) :
    List String → socket_manager → socket_manager
  | [], mgr => mgr
  | buf :: rest, mgr =>
    recvLoop E sock_fd parent_id rest
      { mgr with socket := E.data_received mgr.ncalls mgr.socket sock_fd buf parent_id,
                 ncalls := mgr.ncalls + 1 }

/-- The function `_socket_handle_client_data`: read what is there and hand it to
`data_received`; -1 when the descriptor is no longer in the list afterwards, and, after
`on_socket_closed`, when the peer closed the socket; else 0. -/
def _socket_handle_client_data (E : MuxEnv) (mgr : socket_manager) (node : socket_node) :
    socket_manager × Int :=
  let sock_fd := node.sock_fd
  let r := E.recv mgr.nrecv sock_fd
  let mgr1 := recvLoop E sock_fd node.parent_id r.1 { mgr with nrecv := mgr.nrecv + 1 }
  match socket_find_node mgr1.socket sock_fd with
  | none => (mgr1, -1)
  | some _ =>
    if r.2 = 0 then
      ({ mgr1 with socket := E.on_socket_closed mgr1.ncalls mgr1.socket sock_fd,
                   ncalls := mgr1.ncalls + 1 }, -1)
    else (mgr1, 0)

/-- The records after the first record with the descriptor `sock_fd`: `node->next` for the
node of that descriptor. -/
def nextOf (l : List socket_node) (sock_fd : Int) : List socket_node :=
  (l.dropWhile (fun s => decide (s.sock_fd ≠ sock_fd))).drop 1

/-- Add a descriptor to the scan in progress (the first one of the record). -/
def noteDispatch (scans : List (List Int)) (sock_fd : Int) : List (List Int) :=
  match scans with
  | [] => [[sock_fd]]
  | cur :: older => (cur ++ [sock_fd]) :: older

/-- The two nested loops of `_socket_route_data`, one round of the inner loop per unit of
`fuel`; `node` is the part of the list from the node under inspection on, `read_set` holds the
descriptors whose bit is set. `none` means that the loops have not ended within `fuel`
rounds. A restart of the outer loop sets `node` to the head of the list and `handled` to 0.
After a dispatch that returns 0 the scan goes on with the records after the record of the
descriptor in the list as it is then. -/
def routeLoop (E : MuxEnv) (num_active : Int) :
    Nat → socket_manager → List Int → Int → List socket_node → Int →
      Option (socket_manager × List Int)
  | 0, _, _, _, _, _ => none
  | fuel + 1, mgr, read_set, last_failed_id, node, handled =>
    match node with
    | [] => some (mgr, read_set)
    | n :: next =>
      if ¬ (handled < num_active) then some (mgr, read_set)
      else if last_failed_id ≠ -1 then
        let mgr1 := { mgr with socket := socket_remove_node mgr.socket last_failed_id,
                               scans := [] :: mgr.scans }
        routeLoop E num_active fuel mgr1 read_set (-1) mgr1.socket 0
      else if n.sock_fd ∈ read_set then
        let read_set1 := read_set.filter (fun fd => decide (fd ≠ n.sock_fd))
        let mgr1 := { mgr with scans := noteDispatch mgr.scans n.sock_fd }
        if n.endpoint = SERVER_SOCKET then
          let r := _socket_handle_new_client E mgr1 n
          routeLoop E num_active fuel r.1 read_set1 last_failed_id next (handled + 1)
        else
          let r := _socket_handle_client_data E mgr1 n
          if r.2 = -1 then
            routeLoop E num_active fuel { r.1 with scans := [] :: r.1.scans } read_set1
              n.sock_fd r.1.socket 0
          else
            routeLoop E num_active fuel r.1 read_set1 last_failed_id
              (nextOf r.1.socket n.sock_fd) (handled + 1)
      else routeLoop E num_active fuel mgr read_set last_failed_id next handled

/-- The function `_socket_route_data`: the result is the manager and the descriptors whose bit
is still set (the value returned is 0). -/
def _socket_route_data (E : MuxEnv) (fuel : Nat) (mgr : socket_manager) (num_active : Int)
    (read_set : List Int) : Option (socket_manager × List Int) :=
  routeLoop E num_active fuel { mgr with scans := [] :: mgr.scans } read_set (-1) mgr.socket 0

/-- The function `socket_wait_all`: the set holds the descriptors of all records; `select` is
called without a timeout for a negative `timeout`, with it for a positive one, and not at all
for 0; the value `select` returned, or 0, goes to `_socket_route_data` as `num_active`. -/
def socket_wait_all (E : MuxEnv) (fuel : Nat) (mgr : socket_manager) (timeout : Int) :
    Option (socket_manager × Int) :=
  let read_set := mgr.socket.map (fun s => s.sock_fd)
  if timeout < 0 then
    let r := E.select mgr.selects.length read_set none
    let mgr1 := { mgr with selects := mgr.selects ++ [none] }
    if r.1 = -1 then some (mgr1, -1)
    else (_socket_route_data E fuel mgr1 r.1 r.2).map (fun x => (x.1, 0))
  else if timeout ≠ 0 then
    let r := E.select mgr.selects.length read_set (some timeout)
    let mgr1 := { mgr with selects := mgr.selects ++ [some timeout] }
    if r.1 = -1 then some (mgr1, -1)
    else (_socket_route_data E fuel mgr1 r.1 r.2).map (fun x => (x.1, 0))
  else (_socket_route_data E fuel mgr 0 read_set).map (fun x => (x.1, 0))

/-- What a run of the loops of `_socket_route_data` that ended with the result `r` has done,
when it started in the scan `cur` (after the scans `older`) with the descriptors `read_set`
marked ready: `d0` are the descriptors dispatched in the rest of that scan, `newer` the scans
started afterwards (the latest first). `flag` is 1 when the run started with a failed
descriptor still to be unlinked, else 0. -/
structure RoutePost (num_active : Int) (read_set : List Int) (flag : Nat) (cur : List Int)
    (older : List (List Int)) (r : socket_manager × List Int) (d0 : List Int)
    (newer : List (List Int)) : Prop where
  scans : r.1.scans = newer ++ (cur ++ d0) :: older
  perScan : ∀ s ∈ newer, (s.length : Int) ≤ num_active
  current : d0 = [] ∨ ((cur ++ d0).length : Int) ≤ num_active
  nodup : (d0 ++ newer.reverse.flatten).Nodup
  ready : ∀ fd ∈ d0 ++ newer.reverse.flatten, fd ∈ read_set
  left : r.2 = read_set.filter (fun fd => decide (fd ∉ d0 ++ newer.reverse.flatten))
  count : (d0 ++ newer.reverse.flatten).length + r.2.length ≤ read_set.length
  restarts : newer.length ≤ 2 * (d0 ++ newer.reverse.flatten).length + flag

/-- A sample surrounding of the dispatcher: `select` reports every descriptor of the set ready,
`accept` returns 20 plus the number of the call, every `recv` loop reads one chunk, and the
peer of descriptor 5 has closed its socket; `data_received` leaves the socket list alone and
`on_socket_closed` unlinks the descriptor. -/
def sampleMuxEnv : MuxEnv :=
  { select := fun _ set _ => ((set.length : Int), set),
    accept := fun i _ => 20 + i,
    recv := fun _ fd => if fd = 5 then ([], 0) else (["<x/>"], -1),
    data_received := fun _ l _ _ _ => l,
    on_socket_closed := fun _ l fd => socket_remove_node l fd }

/-- A manager with the client sockets 5 and 6 and the listening socket 4. -/
def sampleMgr : socket_manager :=
  { socket := [⟨CLIENT_SOCKET, INET, 5, 4⟩, ⟨CLIENT_SOCKET, INET, 6, 4⟩,
               ⟨SERVER_SOCKET, INET, 4, 0⟩],
    selects := [], naccept := 0, nrecv := 0, ncalls := 0, scans := [] }

/-! ## `transport_session.c`: the SAX handlers of the client session -/

/-- The constant `CONNECTING_1` (the header is absent; only that the two constants differ,
and differ from 0, matters). -/
def CONNECTING_1 : Nat := 1

/-- The constant `CONNECTING_2`. -/
def CONNECTING_2 : Nat := 2

/-- The struct `jabber_machine`: the flags of the session (an `int` that only takes the
values 0 and 1 is a `Bool`). -/
structure jabber_machine where
  connected : Bool
  connecting : Nat
  in_message : Bool
  in_message_body : Bool
  in_thread : Bool
  in_subject : Bool
  in_error : Bool
  in_message_error : Bool
  in_iq : Bool
  in_presence : Bool
  in_status : Bool
  deriving DecidableEq, Repr

/-- What `endElementHandler` hands over at the end of a `message` element: the arguments of
the calls `message_init` (body, subject, thread, recipient, sender), `message_set_router_info`
(the four router fields and `router_broadcast`), `message_set_osrf_xid`, and, when there is
one, `set_msg_error` (type and code), for the message that goes to `message_callback`. -/
structure messageCall where
  body : String
  subject : String
  thread : String
  recipient : String
  sender : String
  router_from : String
  router_to : String
  router_class : String
  router_command : String
  router_broadcast : Int
  osrf_xid : String
  error : Option (String × Int)
  deriving DecidableEq, Repr

/-- The struct `transport_session` as far as the handlers use it. A buffer is given by its
text (for the growth of a buffer see `buffer_add`); `message_callback` tells whether the
callback is set, and `calls` records the calls of it, the oldest first. -/
structure transport_session where
  body_buffer : String
  subject_buffer : String
  thread_buffer : String
  from_buffer : String
  status_buffer : String
  recipient_buffer : String
  message_error_type : String
  session_id : String
  message_error_code : Int
  router_to_buffer : String
  router_from_buffer : String
  osrf_xid_buffer : String
  router_class_buffer : String
  router_command_buffer : String
  router_broadcast : Int
  state_machine : jabber_machine
  message_callback : Bool
  calls : List messageCall
  deriving DecidableEq, Repr

/-- The function `init_transport`, as far as the handlers are concerned: empty buffers, all
flags 0, no callback. -/
def init_transport : transport_session :=
  { body_buffer := "", subject_buffer := "", thread_buffer := "", from_buffer := "",
    status_buffer := "", recipient_buffer := "", message_error_type := "", session_id := "",
    message_error_code := 0, router_to_buffer := "", router_from_buffer := "",
    osrf_xid_buffer := "", router_class_buffer := "", router_command_buffer := "",
    router_broadcast := 0,
    state_machine :=
      { connected := false, connecting := 0, in_message := false, in_message_body := false,
        in_thread := false, in_subject := false, in_error := false,
        in_message_error := false, in_iq := false, in_presence := false,
        in_status := false },
    message_callback := false, calls := [] }

/-- The function `get_xml_attr`: the value after the first name in the attribute array that
equals `attr_name`, NULL when there is none. -/
def get_xml_attr (atts : List (String × String)) (attr_name : String) : Option String :=
  (atts.find? (fun a => a.1 == attr_name)).map Prod.snd

/-- The call `buffer_add( buf, data )` on the text of a buffer: nothing is added for NULL. -/
def addText (buf : String) (data : Option String) : String :=
  match data with
  | none => buf
  | some d => buf ++ d

/-- The digits at the head of a text, read as a decimal number after `acc`. -/
def atoiDigits : List Char → Int → Int
  | [], acc => acc
  | c :: cs, acc => if c.isDigit then atoiDigits cs (acc * 10 + (c.toNat - 48 : Nat)) else acc

/-- The library predicate `isspace` in the C locale: the blank and the characters 9 to 13. -/
def isspace (c : Char) : Bool :=
  c = ' ' || (9 ≤ c.toNat && c.toNat ≤ 13)

/-- The library function `strtol` in base 10 on a platform with a `long` of 64 bits: white
space, an optional sign, digits; a value outside `long` is replaced by the nearest bound. -/
def strtol (s : String) : Int :=
  let v : Int :=
    match s.toList.dropWhile isspace with
    | '-' :: r => - atoiDigits r 0
    | '+' :: r => atoiDigits r 0
    | r => atoiDigits r 0
  max (-(2 ^ 63)) (min v (2 ^ 63 - 1))

/-- The library function `atoi`, whose result is an `int` of 32 bits: the value of `strtol`
converted to `int`, that is its low 32 bits read as a signed number (`99999999999` gives
1215752191). -/
def atoi (s : String) : Int :=
  int32 (strtol s)

/-- The function `reset_session_buffers`: twelve buffers are emptied; `status_buffer`,
`router_broadcast` and `message_error_code` are not among what it resets. -/
def reset_session_buffers (ses : transport_session) : transport_session :=
  { ses with body_buffer := "", subject_buffer := "", thread_buffer := "", from_buffer := "",
             recipient_buffer := "", router_from_buffer := "", osrf_xid_buffer := "",
             router_to_buffer := "", router_class_buffer := "", router_command_buffer := "",
             message_error_type := "", session_id := "" }

/-- The function `startElementHandler`. `none` stands for the undefined behaviour of
`atoi( NULL )` (an `error` element without `code`) and of `strcmp( NULL, ... )` (an `iq`
element without `type`). -/
def startElementHandler (ses : transport_session) (name : String)
    (atts : List (String × String)) : Option transport_session :=
  if name = "message" then
    let ses1 := { ses with
      state_machine := { ses.state_machine with in_message := true },
      from_buffer := addText ses.from_buffer (get_xml_attr atts "from"),
      recipient_buffer := addText ses.recipient_buffer (get_xml_attr atts "to"),
      router_from_buffer := addText ses.router_from_buffer (get_xml_attr atts "router_from"),
      osrf_xid_buffer := addText ses.osrf_xid_buffer (get_xml_attr atts "osrf_xid"),
      router_to_buffer := addText ses.router_to_buffer (get_xml_attr atts "router_to"),
      router_class_buffer :=
        addText ses.router_class_buffer (get_xml_attr atts "router_class"),
      router_command_buffer :=
        addText ses.router_command_buffer (get_xml_attr atts "router_command") }
    match get_xml_attr atts "broadcast" with
    | some broadcast => some { ses1 with router_broadcast := atoi broadcast }
    | none => some ses1
  else if ses.state_machine.in_message = true ∧ name = "body" then
    some { ses with state_machine := { ses.state_machine with in_message_body := true } }
  else if ses.state_machine.in_message = true ∧ name = "subject" then
    some { ses with state_machine := { ses.state_machine with in_subject := true } }
  else if ses.state_machine.in_message = true ∧ name = "thread" then
    some { ses with state_machine := { ses.state_machine with in_thread := true } }
  else if name = "presence" then
    some { ses with
      state_machine := { ses.state_machine with in_presence := true },
      from_buffer := addText ses.from_buffer (get_xml_attr atts "from"),
      recipient_buffer := addText ses.recipient_buffer (get_xml_attr atts "to") }
  else if name = "status" then
    some { ses with state_machine := { ses.state_machine with in_status := true } }
  else if name = "stream:error" then
    some { ses with
      state_machine := { ses.state_machine with in_error := true, connected := false } }
  else if name = "stream:stream" then
    if ses.state_machine.connecting = CONNECTING_1 then
      some { ses with
        state_machine := { ses.state_machine with connecting := CONNECTING_2 },
        session_id := addText ses.session_id (get_xml_attr atts "id") }
    else some ses
  else if name = "handshake" then
    some { ses with
      state_machine := { ses.state_machine with connected := true, connecting := 0 } }
  else if name = "error" then
    match get_xml_attr atts "code" with
    | none => none
    | some code =>
      some { ses with
        state_machine := { ses.state_machine with in_message_error := true },
        message_error_type := addText ses.message_error_type (get_xml_attr atts "type"),
        message_error_code := atoi code }
  else if name = "iq" then
    match get_xml_attr atts "type" with
    | none => none
    | some type =>
      if type = "result" ∧ ses.state_machine.connecting = CONNECTING_2 then
        some { ses with
          state_machine :=
            { ses.state_machine with in_iq := true, connected := true, connecting := 0 } }
      else some { ses with state_machine := { ses.state_machine with in_iq := true } }
  else some ses

/-- The function `endElementHandler`. At the end of a `message` element the callback, when
set, gets the message made from the buffers, `router_broadcast` and, when the buffer
`message_error_type` is not empty, the error type and code; then `reset_session_buffers`. -/
def endElementHandler (ses : transport_session) (name : String) : transport_session :=
  if name = "message" then
    let ses1 :=
      if ses.message_callback = true then
        { ses with calls := ses.calls ++ [
          { body := ses.body_buffer, subject := ses.subject_buffer,
            thread := ses.thread_buffer, recipient := ses.recipient_buffer,
            sender := ses.from_buffer, router_from := ses.router_from_buffer,
            router_to := ses.router_to_buffer, router_class := ses.router_class_buffer,
            router_command := ses.router_command_buffer,
            router_broadcast := ses.router_broadcast, osrf_xid := ses.osrf_xid_buffer,
            error := if ses.message_error_type.length > 0
              then some (ses.message_error_type, ses.message_error_code) else none }] }
      else ses
    reset_session_buffers
      { ses1 with state_machine := { ses1.state_machine with in_message := false } }
  else if name = "body" then
    { ses with state_machine := { ses.state_machine with in_message_body := false } }
  else if name = "subject" then
    { ses with state_machine := { ses.state_machine with in_subject := false } }
  else if name = "thread" then
    { ses with state_machine := { ses.state_machine with in_thread := false } }
  else if name = "iq" then
    reset_session_buffers
      { ses with state_machine := { ses.state_machine with in_iq := false } }
  else if name = "presence" then
    reset_session_buffers
      { ses with state_machine := { ses.state_machine with in_presence := false } }
  else if name = "status" then
    { ses with state_machine := { ses.state_machine with in_status := false } }
  else if name = "error" then
    { ses with state_machine := { ses.state_machine with in_message_error := false } }
  else if name = "error:error" then
    { ses with state_machine := { ses.state_machine with in_error := false } }
  else ses

/-- Modelled from the spec: `buffer_add_n` (absent from the sources) appends the first `n`
bytes of the data to the buffer; `characterHandler` passes a chunk and its length, so the
chunk is appended to the text. -/
def buffer_add_n (buf : String) (data : String) : String :=
  buf ++ data

/-- The function `characterHandler`: inside a message the chunk goes to the buffer of each of
body, subject and thread whose flag is set, and inside the status of a presence to the status
buffer. -/
def characterHandler (ses : transport_session) (ch : String) : transport_session :=
  let ses1 :=
    if ses.state_machine.in_message = true then
      let a := if ses.state_machine.in_message_body = true
        then { ses with body_buffer := buffer_add_n ses.body_buffer ch } else ses
      let b := if a.state_machine.in_subject = true
        then { a with subject_buffer := buffer_add_n a.subject_buffer ch } else a
      if b.state_machine.in_thread = true
        then { b with thread_buffer := buffer_add_n b.thread_buffer ch } else b
    else ses
  if ses1.state_machine.in_presence = true ∧ ses1.state_machine.in_status = true then
    { ses1 with status_buffer := buffer_add_n ses1.status_buffer ch }
  else ses1

/-- One event of the push parser, delivered to the handlers of the session (the error and
warning handlers only print). -/
def sessionDispatch (ses : transport_session) : SaxEvent → Option transport_session
  | .startElement name atts => startElementHandler ses name atts
  | .endElement name => some (endElementHandler ses name)
  | .characters ch => some (characterHandler ses ch)
  | .error => some ses

/-- The function `grab_incoming`, the session's `data_received` callback: the events the
parser derives from the data are delivered in order. -/
def grab_incoming (ses : transport_session) (data : List SaxEvent) : Option transport_session :=
  data.foldl (fun acc ev => acc.bind (fun s => sessionDispatch s ev)) (some ses)

/-- A message stanza with the attribute `broadcast`. -/
def sampleBroadcast : xmlNode :=
  .element "message" [("from", "a@ex.org/r"), ("to", "b@ex.org/r"), ("broadcast", "1")]
    [.element "body" [] [.text "x"]]

/-- A message stanza without the attribute `broadcast`. -/
def samplePlain : xmlNode :=
  .element "message" [("from", "c@ex.org/r"), ("to", "d@ex.org/r")]
    [.element "thread" [] [.text "t1"], .element "body" [] [.text "y"]]

/-- A session with the message callback set. -/
def sampleSession : transport_session :=
  { init_transport with message_callback := true }

/-! ## `utils.c`: `uescape` -/

/-- What `uescape` has after a call that adds `data` (not empty) to its buffer, through
`buffer_add`: nothing happens to a NULL buffer; a buffer that `buffer_add` released is used
again by `uescape` afterwards, which is undefined (`none`), as is a doubling loop that has
not ended within `fuel` tests. -/
def uescapeAdd (BUFFER_MAX_SIZE : Int) (fuel : Nat) (gb : Option growing_buffer)
    (data : List Nat) : Option (Option growing_buffer) :=
  match gb with
  | none => some none
  | some g =>
    match buffer_add BUFFER_MAX_SIZE fuel (some g) data with
    | some (some g1, _) => some (some g1)
    | _ => none

/-- The function `buffer_add_char`: `buffer_add` with the string of the one character `c`
(the empty string when `c` is the NUL). -/
def buffer_add_char (BUFFER_MAX_SIZE : Int) (fuel : Nat) (gb : Option growing_buffer)
    (c : Nat) : Option (Option growing_buffer) :=
  uescapeAdd BUFFER_MAX_SIZE fuel gb (if c = 0 then [] else [c])

/-- The macro `OSRF_BUFFER_ADD_CHAR`, by its text in the comment of `utils.c`: the character is
stored at `n_used` when `n_used < size - 1`, else `buffer_add_char` is called. The buffers here
keep `n_used` at the length of the text, so that storing at `n_used` appends. -/
def OSRF_BUFFER_ADD_CHAR (BUFFER_MAX_SIZE : Int) (fuel : Nat) (gb : Option growing_buffer)
    (c : Nat) : Option (Option growing_buffer) :=
  match gb with
  | none => some none
  | some g =>
    if g.n_used < int32 (g.size - 1) then
      some (some { g with buf := g.buf ++ [c], n_used := int32 (g.n_used + 1) })
    else buffer_add_char BUFFER_MAX_SIZE fuel (some g) c

/-- The character of a hexadecimal digit, lower case. -/
def hexDigit (d : Nat) : Nat :=
  if d < 10 then 48 + d else 87 + d

/-- The conversion `%04x` of the library function `vsnprintf`, applied to an `unsigned int`
(the value modulo 2^32): the hexadecimal digits, lower case, without leading zeros beyond the
fourth digit from the right. -/
def fmt04x (c : Nat) : List Nat :=
  let v := c % 4294967296
  ([v / 268435456 % 16, v / 16777216 % 16, v / 1048576 % 16, v / 65536 % 16].dropWhile
      (fun d => d == 0)).map hexDigit ++
    [v / 4096 % 16, v / 256 % 16, v / 16 % 16, v % 16].map hexDigit

/-- The call `buffer_fadd(buf, "\\u%04x", c)`: `buffer_add` with the formatted text, a
backslash, the letter u and the digits. -/
def buffer_fadd_u (BUFFER_MAX_SIZE : Int) (fuel : Nat) (gb : Option growing_buffer)
    (c : Nat) : Option (Option growing_buffer) :=
  uescapeAdd BUFFER_MAX_SIZE fuel gb ([92, 117] ++ fmt04x c)

/-- The loop `for (;clen;clen--)` of `uescape`: each round moves to the next byte and adds its
low six bits to `c`. The result is the value of `c` and the bytes after the last byte read;
`none` when the string ends before the loop does (the loop and the `while` after it then read
behind the terminating NUL). -/
def uescapeFor : Nat → Nat → List Nat → Option (Nat × List Nat)
  | 0, c, rest => some (c, rest)
  | _ + 1, _, [] => none
  | clen + 1, c, b :: rest => uescapeFor clen ((c <<< 6) ||| (b &&& 0x3F)) rest

/-- The escapes of the `switch` of `uescape` under `full_escape`: the character after the
backslash, for the seven characters that have one. -/
def escapeLetter (c : Nat) : Option Nat :=
  if c = 34 then some 34
  else if c = 8 then some 98
  else if c = 12 then some 102
  else if c = 9 then some 116
  else if c = 10 then some 110
  else if c = 13 then some 114
  else if c = 92 then some 92
  else none

/-- The loop `while (string[idx])` of `uescape` with what follows it, one round per unit of
`n`; `string` holds the bytes from `idx` on, up to the terminating NUL. The result is `none`
when the rounds have run out or the behaviour is undefined, `some none` for the value NULL, and
else the text of the buffer, which `buffer_data` copies. `fuel` is handed to `buffer_add`. -/
def uescapeLoop (BUFFER_MAX_SIZE : Int) (full_escape : Bool) (fuel : Nat) :
    Nat → List Nat → Option growing_buffer → Option (Option (List Nat))
  | 0, _, _ => none
  | _ + 1, [], buf =>
    match buf with
    | none => none
    | some g => some (some g.buf)
  | n + 1, b :: rest, buf =>
    if b ≥ 0x80 then
      if b ≥ 0xC0 ∧ b ≤ 0xF4 then
        let start : Nat × Nat :=
          if b &&& 0xF0 = 0xF0 then (3, b ^^^ 0xF0)
          else if b &&& 0xE0 = 0xE0 then (2, b ^^^ 0xE0)
          else if b &&& 0xC0 = 0xC0 then (1, b ^^^ 0xC0)
          else (1, 0)
        match uescapeFor start.1 start.2 rest with
        | none => none
        | some (c, rest1) =>
          match buffer_fadd_u BUFFER_MAX_SIZE fuel buf c with
          | none => none
          | some buf1 => uescapeLoop BUFFER_MAX_SIZE full_escape fuel n rest1 buf1
      else some none
    else
      let added :=
        if full_escape then
          match escapeLetter b with
          | some l =>
            match OSRF_BUFFER_ADD_CHAR BUFFER_MAX_SIZE fuel buf 92 with
            | none => none
            | some buf1 => OSRF_BUFFER_ADD_CHAR BUFFER_MAX_SIZE fuel buf1 l
          | none =>
            if b < 32 then buffer_fadd_u BUFFER_MAX_SIZE fuel buf b
            else OSRF_BUFFER_ADD_CHAR BUFFER_MAX_SIZE fuel buf b
        else OSRF_BUFFER_ADD_CHAR BUFFER_MAX_SIZE fuel buf b
      match added with
      | none => none
      | some buf1 => uescapeLoop BUFFER_MAX_SIZE full_escape fuel n rest buf1

/-- The function `uescape`: `string` holds the bytes of the C string before its NUL, each
from 1 to 255. -/
def uescape (BUFFER_MAX_SIZE : Int) (fuel : Nat) (string : List Nat) (size : Int)
    (full_escape : Int) : Option (Option (List Nat)) :=
  uescapeLoop BUFFER_MAX_SIZE (decide (full_escape ≠ 0)) fuel fuel string
    (buffer_init BUFFER_MAX_SIZE (int32 (size + 64)))

/-- The UTF-8 encoding of a code point, by the arithmetic of its definition: one byte below
0x80, two below 0x800, three below 0x10000, else four. -/
def utf8Encode (cp : Nat) : List Nat :=
  if cp < 0x80 then [cp]
  else if cp < 0x800 then [0xC0 + cp / 64, 0x80 + cp % 64]
  else if cp < 0x10000 then [0xE0 + cp / 4096, 0x80 + cp / 64 % 64, 0x80 + cp % 64]
  else [0xF0 + cp / 262144, 0x80 + cp / 4096 % 64, 0x80 + cp / 64 % 64, 0x80 + cp % 64]

/-- What the rounds of `uescapeLoop` add to the buffer for a string of code points: the byte
itself, through `OSRF_BUFFER_ADD_CHAR`, for a code point below 0x80, and for any other the text
that `buffer_fadd_u` formats. -/
def uescapeOut (cps : List Nat) : List Nat :=
  cps.flatMap (fun cp => if cp < 0x80 then [cp] else [92, 117] ++ fmt04x cp)

/-- Written from the wording of C30, for comparison with the code: the character of a
hexadecimal digit in lower case, which is the digit's place in the text
`0123456789abcdef`. -/
def specHexChar (d : Nat) : Nat :=
  ("0123456789abcdef".toList.getD d '0').toNat

/-- Written from the wording of C30, for comparison with the code: the lower-case
hexadecimal numeral of a code point, most significant digit first (`Nat.digits` gives the
least significant first), with zeros in front up to four digits. -/
def specHex (cp : Nat) : List Nat :=
  List.replicate (4 - (Nat.digits 16 cp).length) '0'.toNat ++
    (Nat.digits 16 cp).reverse.map specHexChar

/-- Written from the wording of C30, for comparison with the code: the escaped text of a
string of code points. An ASCII character stays; any other character becomes a backslash
(92), the letter u and the hexadecimal numeral of the code point. -/
def uescapeSpec (cps : List Nat) : List Nat :=
  cps.flatMap (fun cp => if cp < 0x80 then [cp] else [92, 'u'.toNat] ++ specHex cp)

/-- The record of the first of the two clients of `sampleRunTwice` (address 0, socket 5): it is
connected and keeps the `remote` under which the second client is bound now. -/
def sampleEvicted : osrfChatNode :=
  { sockid := 5, type := 0, state := .CONNECTED, xmlstate := XmlState.zero, inparse := false,
    remote := some "a@ex.org/r1", to_ := none, username := some "a", resource := some "r1",
    domain := "ex.org", authkey := some "H(17000000004242host)", msgs := none, msgDoc := none }

/-- The sample environment in which no send on socket 5 succeeds (the connect number `i`
returns the descriptor `100 + i`). -/
def sampleEnvDeaf5 : Env :=
  sampleEnv (fun _ fd _ => fd != 5) (fun i _ => 100 + i)

/-- The state after `sampleRun2` (the outbound link to `peer.org` on the descriptor 100 is in
`S2S_CHALLENGE`, one stanza queued) when `peer.org` opened a link of its own on socket 8 and
presented its key: the inbound node (address 2) has the `remote` `peer.org` too. -/
def sampleRunInbound : osrfChatServer :=
  osrfChatHandleData sampleEnvFresh sampleRun2 8
    (s2sResultChunk "peer.org"
      (sampleKey "secret" "peer.org" (sampleEnvFresh.shahash (sampleEnvFresh.keybuf 0))))

/-- The state after the peer closed that inbound link (socket 8). -/
def sampleRunInboundClosed : osrfChatServer :=
  osrfChatSocketClosed sampleRunInbound 8

/-- The state after the peer then went through the handshake on the outbound link (descriptor
100): its stream opening, `db:verify`, and the final `db:result`. -/
def sampleRunUnbound : osrfChatServer :=
  osrfChatHandleData sampleEnvFresh sampleRunInboundClosed 100
    [.startElement "stream:stream"
       [("xmlns", "jabber:server"), ("xmlns:db", "jabber:server:dialback"), ("id", "s1")],
     .startElement "db:verify" [("id", "s1")], .endElement "db:verify",
     .startElement "db:result" [("type", "valid")], .endElement "db:result"]

/-- Written from the specification (sections 4.3 and 4.4), for comparison with the code: the
start elements a node expects in its state, on a server of the domain `domain`. `None`: a
stream opening for clients that is addressed to the server's domain, or a stream opening for
servers; `S2SChallenge`: the responder's stream opening with its `id`; `S2SResponse`:
`db:result`; `S2SVerify`: `db:verify` with its `id`; `S2SVerifyResponse`: the initiator's
echo, which step 5 names `db:verify-response`; `S2SVerifyFinal`: the final `db:result`.
`Connecting` and `Connected` are not handshake states; there every element is taken. -/
def specExpects (domain : String) (state : OSRF_CHAT_STATE) (name : String)
    (atts : List (String × String)) : Bool :=
  match state with
  | .NONE =>
    decide (name = "stream:stream") &&
      (match xmlSaxAttr atts "xmlns" with
       | some ns =>
         (decide (ns = "jabber:client") && decide (xmlSaxAttr atts "to" = some domain)) ||
           decide (ns = "jabber:server")
       | none => false)
  | .S2S_CHALLENGE => decide (name = "stream:stream") && (xmlSaxAttr atts "id").isSome
  | .S2S_RESPONSE => decide (name = "db:result")
  | .S2S_VERIFY => decide (name = "db:verify") && (xmlSaxAttr atts "id").isSome
  | .S2S_VERIFY_RESPONSE => decide (name = "db:verify-response")
  | .S2S_VERIFY_FINAL => decide (name = "db:result")
  | .CONNECTING => true
  | .CONNECTED => true

/-- The state is one of the two that `osrfChatStartElement` hands to
`osrfChatHandleS2SConnected`, and the element has one of the two names that handler takes. -/
def sharedHandlerCase (state : OSRF_CHAT_STATE) (name : String) : Prop :=
  (state = .S2S_VERIFY_RESPONSE ∨ state = .S2S_VERIFY_FINAL) ∧
    (name = "db:verify" ∨ name = "db:result")

instance (state : OSRF_CHAT_STATE) (name : String) :
    Decidable (sharedHandlerCase state name) := by
  unfold sharedHandlerCase; infer_instance

/-- The stanzas recorded as sent on the descriptor `fd` after the state `w0` and up to the state
`w1`, in the order of the sends. -/
def sentSince (w0 w1 : osrfChatServer) (fd : Int) : List String :=
  ((w1.sent.drop w0.sent.length).filter (fun m => decide (m.1 = fd))).map (fun m => m.2)

/-- The stanzas arrive on the socket `fd` one by one: `parse` gives the events the XML parser
reports for a stanza, and each stanza is one call of the data callback
`osrfChatHandleData`. -/
def s2sDeliver (E : Env) (parse : String → List SaxEvent) (w : osrfChatServer) (fd : Int)
    (stanzas : List String) : osrfChatServer :=
  stanzas.foldl (fun acc s => osrfChatHandleData E acc fd (parse s)) w

/-- The exchange on the link between the socket `fdI` of the server `wI` (the initiator's
side) and the socket `fdR` of the server `wR` (the responder's side): the responder first
receives the stream opening `OSRF_CHAT_S2S_INIT`, which `osrfChatInitS2S` sent when it
connected; from then on each side receives what the other side sent on the link since its
own last turn, three turns each. No stanza is written down here: what a side receives is read
from the record of the sends of the other side. The result is the pair of the final states
(initiator, responder). -/
def s2sExchange (EI ER : Env) (parse : String → List SaxEvent) (wI wR : osrfChatServer)
    (fdI fdR : Int) : osrfChatServer × osrfChatServer :=
  let wR1 := s2sDeliver ER parse wR fdR [EI.OSRF_CHAT_S2S_INIT]
  let wI1 := s2sDeliver EI parse wI fdI (sentSince wR wR1 fdR)
  let wR2 := s2sDeliver ER parse wR1 fdR (sentSince wI wI1 fdI)
  let wI2 := s2sDeliver EI parse wI1 fdI (sentSince wR1 wR2 fdR)
  let wR3 := s2sDeliver ER parse wR2 fdR (sentSince wI1 wI2 fdI)
  let wI3 := s2sDeliver EI parse wI2 fdI (sentSince wR2 wR3 fdR)
  (wI3, wR3)

/-- Modelled from the spec: the stanza templates of the absent `osrf_chat.h` together with the
XML parser, as far as the handshake of section 4.4 goes through them. The six stanzas of a
handshake between the initiator's domain `dI` and the responder (dialled as `dR`, its own
domain `dL`) with the stream id `k` and the key `key` are read by `parse` as the elements the
section describes: the stream opening in the namespace `jabber:server`; the stream opening
that carries `id`; `db:result` with `from` and the key as its text, in one piece; `db:verify`
with `id` and the key as its text; the initiator's echo, an empty element whose name is the
parameter `echo` (step 5 calls it `db:verify-response`); the final, empty `db:result`. -/
def s2sWire (EI ER : Env) (parse : String → List SaxEvent) (echo dI dR dL k key : String) :
    Prop :=
  (∃ a, parse EI.OSRF_CHAT_S2S_INIT = [.startElement "stream:stream" a] ∧
    xmlSaxAttr a "xmlns" = some "jabber:server") ∧
  (∃ a, parse (ER.OSRF_CHAT_S2S_CHALLENGE k) = [.startElement "stream:stream" a] ∧
    xmlSaxAttr a "id" = some k) ∧
  (∃ a, parse (EI.OSRF_CHAT_S2S_RESPONSE dR dI key) =
      [.startElement "db:result" a, .characters key, .endElement "db:result"] ∧
    xmlSaxAttr a "from" = some dI) ∧
  (∃ a, parse (ER.OSRF_CHAT_S2S_VERIFY_REQUEST k dL dI key) =
      [.startElement "db:verify" a, .characters key, .endElement "db:verify"] ∧
    xmlSaxAttr a "id" = some k) ∧
  (∃ a, parse (EI.OSRF_CHAT_S2S_VERIFY_RESPONSE dR dI k) =
      [.startElement echo a, .endElement echo]) ∧
  (∃ a, parse (ER.OSRF_CHAT_S2S_VERIFY_FINAL dL dI) =
      [.startElement "db:result" a, .endElement "db:result"])

/-- The words of a text: the runs of characters between blanks (`cur` holds the word being
read, last character first). -/
def sampleWords : List Char → List Char → List String
  | [], cur => [String.mk cur.reverse]
  | c :: cs, cur =>
    if c = ' ' then String.mk cur.reverse :: sampleWords cs [] else sampleWords cs (c :: cur)

/-- Modelled from the spec: the events of the stand-in stanzas of `sampleEnv`, each read as
the element section 4.4 describes for it, with the values the stanza carries. The name of the
initiator's echo is the parameter `echo`; with `split` the text of `db:result` is reported in
two pieces (after its first character), as a parser may do. Any other text is not
well-formed. -/
def sampleWire (echo : String) (split : Bool) (s : String) : List SaxEvent :=
  match sampleWords s.data [] with
  | ["S2S_INIT"] =>
    [.startElement "stream:stream"
      [("xmlns", "jabber:server"), ("xmlns:db", "jabber:server:dialback")]]
  | ["S2S_CHALLENGE", k] =>
    [.startElement "stream:stream"
      [("xmlns", "jabber:server"), ("xmlns:db", "jabber:server:dialback"), ("id", k)]]
  | ["S2S_RESPONSE", t, f, key] =>
    if split then
      [.startElement "db:result" [("to", t), ("from", f)],
       .characters (String.mk (key.data.take 1)), .characters (String.mk (key.data.drop 1)),
       .endElement "db:result"]
    else
      [.startElement "db:result" [("to", t), ("from", f)], .characters key,
       .endElement "db:result"]
  | ["S2S_VERIFY_REQUEST", k, d, f, key] =>
    [.startElement "db:verify" [("id", k), ("from", d), ("to", f)], .characters key,
     .endElement "db:verify"]
  | ["S2S_VERIFY_RESPONSE", t, f, k] =>
    [.startElement echo [("type", "valid"), ("to", t), ("from", f), ("id", k)],
     .endElement echo]
  | ["S2S_VERIFY_FINAL", f, t] =>
    [.startElement "db:result" [("type", "valid"), ("from", f), ("to", t)],
     .endElement "db:result"]
  | _ => [.error]

/-- The sample environment in which no send on socket 7 succeeds (the connect number `i`
returns the descriptor `100 + i`). -/
def sampleEnvDeaf7 : Env :=
  sampleEnv (fun _ fd _ => fd != 7) (fun i _ => 100 + i)

/-! ## Field lemmas for the elementary state updates -/

@[simp]
theorem modifyNode_fields (w : osrfChatServer) (p : Nat) (f : osrfChatNode → osrfChatNode) :
    (modifyNode w p f).nodeHash = w.nodeHash ∧
    (modifyNode w p f).nodeList = w.nodeList ∧
    (modifyNode w p f).deadNodes = w.deadNodes ∧
    (modifyNode w p f).domain = w.domain ∧
    (modifyNode w p f).secret = w.secret ∧
    (modifyNode w p f).s2sport = w.s2sport ∧
    (modifyNode w p f).port = w.port ∧
    (modifyNode w p f).mgr = w.mgr ∧
    (modifyNode w p f).heap = Function.update w.heap p ((w.heap p).map f) ∧
    (modifyNode w p f).brk = w.brk ∧
    (modifyNode w p f).sent = w.sent ∧
    (modifyNode w p f).connects = w.connects ∧
    (modifyNode w p f).closed = w.closed ∧
    (modifyNode w p f).nkeys = w.nkeys ∧
    (modifyNode w p f).xmlError = w.xmlError :=
  ⟨rfl, rfl, rfl, rfl, rfl, rfl, rfl, rfl, rfl, rfl, rfl, rfl, rfl, rfl, rfl⟩

@[simp]
theorem allocNode_fields (w : osrfChatServer) (n : osrfChatNode) :
    ((allocNode w n).1).nodeHash = w.nodeHash ∧
    ((allocNode w n).1).nodeList = w.nodeList ∧
    ((allocNode w n).1).deadNodes = w.deadNodes ∧
    ((allocNode w n).1).domain = w.domain ∧
    ((allocNode w n).1).secret = w.secret ∧
    ((allocNode w n).1).s2sport = w.s2sport ∧
    ((allocNode w n).1).port = w.port ∧
    ((allocNode w n).1).mgr = w.mgr ∧
    ((allocNode w n).1).heap = Function.update w.heap w.brk (some n) ∧
    ((allocNode w n).1).brk = w.brk + 1 ∧
    ((allocNode w n).1).sent = w.sent ∧
    ((allocNode w n).1).connects = w.connects ∧
    ((allocNode w n).1).closed = w.closed ∧
    ((allocNode w n).1).nkeys = w.nkeys ∧
    ((allocNode w n).1).xmlError = w.xmlError :=
  ⟨rfl, rfl, rfl, rfl, rfl, rfl, rfl, rfl, rfl, rfl, rfl, rfl, rfl, rfl, rfl⟩

@[simp]
theorem socket_disconnect_fields (w : osrfChatServer) (fd : Int) :
    (socket_disconnect w fd).nodeHash = w.nodeHash ∧
    (socket_disconnect w fd).nodeList = w.nodeList ∧
    (socket_disconnect w fd).deadNodes = w.deadNodes ∧
    (socket_disconnect w fd).domain = w.domain ∧
    (socket_disconnect w fd).secret = w.secret ∧
    (socket_disconnect w fd).s2sport = w.s2sport ∧
    (socket_disconnect w fd).port = w.port ∧
    (socket_disconnect w fd).mgr = socket_remove_node w.mgr fd ∧
    (socket_disconnect w fd).heap = w.heap ∧
    (socket_disconnect w fd).brk = w.brk ∧
    (socket_disconnect w fd).sent = w.sent ∧
    (socket_disconnect w fd).connects = w.connects ∧
    (socket_disconnect w fd).closed = w.closed ++ [fd] ∧
    (socket_disconnect w fd).nkeys = w.nkeys ∧
    (socket_disconnect w fd).xmlError = w.xmlError :=
  ⟨rfl, rfl, rfl, rfl, rfl, rfl, rfl, rfl, rfl, rfl, rfl, rfl, rfl, rfl, rfl⟩

@[simp]
theorem socket_send_timeout_fields (E : Env) (w : osrfChatServer) (fd : Int) (data : String) :
    ((socket_send_timeout E w fd data).1).nodeHash = w.nodeHash ∧
    ((socket_send_timeout E w fd data).1).nodeList = w.nodeList ∧
    ((socket_send_timeout E w fd data).1).deadNodes = w.deadNodes ∧
    ((socket_send_timeout E w fd data).1).domain = w.domain ∧
    ((socket_send_timeout E w fd data).1).secret = w.secret ∧
    ((socket_send_timeout E w fd data).1).s2sport = w.s2sport ∧
    ((socket_send_timeout E w fd data).1).port = w.port ∧
    ((socket_send_timeout E w fd data).1).mgr = w.mgr ∧
    ((socket_send_timeout E w fd data).1).heap = w.heap ∧
    ((socket_send_timeout E w fd data).1).brk = w.brk ∧
    ((socket_send_timeout E w fd data).1).sent = w.sent ++ [(fd, data)] ∧
    ((socket_send_timeout E w fd data).1).connects = w.connects ∧
    ((socket_send_timeout E w fd data).1).closed = w.closed ∧
    ((socket_send_timeout E w fd data).1).nkeys = w.nkeys ∧
    ((socket_send_timeout E w fd data).1).xmlError = w.xmlError :=
  ⟨rfl, rfl, rfl, rfl, rfl, rfl, rfl, rfl, rfl, rfl, rfl, rfl, rfl, rfl, rfl⟩

@[simp]
theorem osrfHashSet_fields (w : osrfChatServer) (item : Nat) (key : String) :
    (osrfHashSet w item key).nodeHash = Function.update w.nodeHash key (some item) ∧
    (osrfHashSet w item key).nodeList = w.nodeList ∧
    (osrfHashSet w item key).deadNodes = w.deadNodes ∧
    (osrfHashSet w item key).domain = w.domain ∧
    (osrfHashSet w item key).secret = w.secret ∧
    (osrfHashSet w item key).s2sport = w.s2sport ∧
    (osrfHashSet w item key).port = w.port ∧
    (osrfHashSet w item key).mgr = w.mgr ∧
    (osrfHashSet w item key).heap = w.heap ∧
    (osrfHashSet w item key).brk = w.brk ∧
    (osrfHashSet w item key).sent = w.sent ∧
    (osrfHashSet w item key).connects = w.connects ∧
    (osrfHashSet w item key).closed = w.closed ∧
    (osrfHashSet w item key).nkeys = w.nkeys ∧
    (osrfHashSet w item key).xmlError = w.xmlError :=
  ⟨rfl, rfl, rfl, rfl, rfl, rfl, rfl, rfl, rfl, rfl, rfl, rfl, rfl, rfl, rfl⟩

@[simp]
theorem osrfHashRemove_fields (w : osrfChatServer) (key : String) :
    (osrfHashRemove w key).nodeHash = Function.update w.nodeHash key none ∧
    (osrfHashRemove w key).nodeList = w.nodeList ∧
    (osrfHashRemove w key).deadNodes = w.deadNodes ∧
    (osrfHashRemove w key).domain = w.domain ∧
    (osrfHashRemove w key).secret = w.secret ∧
    (osrfHashRemove w key).s2sport = w.s2sport ∧
    (osrfHashRemove w key).port = w.port ∧
    (osrfHashRemove w key).mgr = w.mgr ∧
    (osrfHashRemove w key).heap = w.heap ∧
    (osrfHashRemove w key).brk = w.brk ∧
    (osrfHashRemove w key).sent = w.sent ∧
    (osrfHashRemove w key).connects = w.connects ∧
    (osrfHashRemove w key).closed = w.closed ∧
    (osrfHashRemove w key).nkeys = w.nkeys ∧
    (osrfHashRemove w key).xmlError = w.xmlError :=
  ⟨rfl, rfl, rfl, rfl, rfl, rfl, rfl, rfl, rfl, rfl, rfl, rfl, rfl, rfl, rfl⟩

@[simp]
theorem osrfChatParseError_fields (w : osrfChatServer) :
    (osrfChatParseError w).nodeHash = w.nodeHash ∧
    (osrfChatParseError w).nodeList = w.nodeList ∧
    (osrfChatParseError w).deadNodes = w.deadNodes ∧
    (osrfChatParseError w).domain = w.domain ∧
    (osrfChatParseError w).secret = w.secret ∧
    (osrfChatParseError w).s2sport = w.s2sport ∧
    (osrfChatParseError w).port = w.port ∧
    (osrfChatParseError w).mgr = w.mgr ∧
    (osrfChatParseError w).heap = w.heap ∧
    (osrfChatParseError w).brk = w.brk ∧
    (osrfChatParseError w).sent = w.sent ∧
    (osrfChatParseError w).connects = w.connects ∧
    (osrfChatParseError w).closed = w.closed ∧
    (osrfChatParseError w).nkeys = w.nkeys ∧
    (osrfChatParseError w).xmlError = true :=
  ⟨rfl, rfl, rfl, rfl, rfl, rfl, rfl, rfl, rfl, rfl, rfl, rfl, rfl, rfl, rfl⟩

@[simp]
theorem osrfChatCleanupClients_fields (w : osrfChatServer) :
    (osrfChatCleanupClients w).nodeHash = w.nodeHash ∧
    (osrfChatCleanupClients w).nodeList = w.nodeList ∧
    (osrfChatCleanupClients w).deadNodes = [] ∧
    (osrfChatCleanupClients w).domain = w.domain ∧
    (osrfChatCleanupClients w).secret = w.secret ∧
    (osrfChatCleanupClients w).s2sport = w.s2sport ∧
    (osrfChatCleanupClients w).port = w.port ∧
    (osrfChatCleanupClients w).mgr = w.mgr ∧
    (osrfChatCleanupClients w).heap = w.heap ∧
    (osrfChatCleanupClients w).brk = w.brk ∧
    (osrfChatCleanupClients w).sent = w.sent ∧
    (osrfChatCleanupClients w).connects = w.connects ∧
    (osrfChatCleanupClients w).closed = w.closed ∧
    (osrfChatCleanupClients w).nkeys = w.nkeys ∧
    (osrfChatCleanupClients w).xmlError = w.xmlError :=
  ⟨rfl, rfl, rfl, rfl, rfl, rfl, rfl, rfl, rfl, rfl, rfl, rfl, rfl, rfl, rfl⟩

@[simp]
theorem osrfChatMkAuthKey_fields (E : Env) (w : osrfChatServer) :
    ((osrfChatMkAuthKey E w).1).nodeHash = w.nodeHash ∧
    ((osrfChatMkAuthKey E w).1).nodeList = w.nodeList ∧
    ((osrfChatMkAuthKey E w).1).deadNodes = w.deadNodes ∧
    ((osrfChatMkAuthKey E w).1).domain = w.domain ∧
    ((osrfChatMkAuthKey E w).1).secret = w.secret ∧
    ((osrfChatMkAuthKey E w).1).s2sport = w.s2sport ∧
    ((osrfChatMkAuthKey E w).1).port = w.port ∧
    ((osrfChatMkAuthKey E w).1).mgr = w.mgr ∧
    ((osrfChatMkAuthKey E w).1).heap = w.heap ∧
    ((osrfChatMkAuthKey E w).1).brk = w.brk ∧
    ((osrfChatMkAuthKey E w).1).sent = w.sent ∧
    ((osrfChatMkAuthKey E w).1).connects = w.connects ∧
    ((osrfChatMkAuthKey E w).1).closed = w.closed ∧
    ((osrfChatMkAuthKey E w).1).nkeys = w.nkeys + 1 ∧
    ((osrfChatMkAuthKey E w).1).xmlError = w.xmlError :=
  ⟨rfl, rfl, rfl, rfl, rfl, rfl, rfl, rfl, rfl, rfl, rfl, rfl, rfl, rfl, rfl⟩

/-! ## Lemmas on the compound updates -/

@[simp]
theorem osrfChatNodeFree_fields (w : osrfChatServer) (p : Nat) :
    (osrfChatNodeFree w p).nodeHash = w.nodeHash ∧
    (osrfChatNodeFree w p).nodeList = w.nodeList ∧
    (osrfChatNodeFree w p).domain = w.domain ∧
    (osrfChatNodeFree w p).secret = w.secret ∧
    (osrfChatNodeFree w p).mgr = w.mgr ∧
    (osrfChatNodeFree w p).brk = w.brk ∧
    (osrfChatNodeFree w p).sent = w.sent ∧
    (osrfChatNodeFree w p).connects = w.connects ∧
    (osrfChatNodeFree w p).closed = w.closed ∧
    (osrfChatNodeFree w p).nkeys = w.nkeys ∧
    (osrfChatNodeFree w p).xmlError = w.xmlError := by
  unfold osrfChatNodeFree
  split
  · simp
  · split <;> simp

@[simp]
theorem nodeListRemove_fields (w : osrfChatServer) (k : Int) :
    (nodeListRemove w k).nodeHash = w.nodeHash ∧
    (nodeListRemove w k).nodeList = Function.update w.nodeList k none ∧
    (nodeListRemove w k).domain = w.domain ∧
    (nodeListRemove w k).secret = w.secret ∧
    (nodeListRemove w k).mgr = w.mgr ∧
    (nodeListRemove w k).brk = w.brk ∧
    (nodeListRemove w k).sent = w.sent ∧
    (nodeListRemove w k).connects = w.connects ∧
    (nodeListRemove w k).closed = w.closed ∧
    (nodeListRemove w k).nkeys = w.nkeys ∧
    (nodeListRemove w k).xmlError = w.xmlError := by
  unfold nodeListRemove
  split
  · rename_i h
    simp [← h]
  · simp

@[simp]
theorem nodeListSet_fields (w : osrfChatServer) (item : Nat) (k : Int) :
    (nodeListSet w item k).nodeHash = w.nodeHash ∧
    (nodeListSet w item k).nodeList = Function.update w.nodeList k (some item) ∧
    (nodeListSet w item k).heap = (nodeListRemove w k).heap ∧
    (nodeListSet w item k).deadNodes = (nodeListRemove w k).deadNodes ∧
    (nodeListSet w item k).domain = w.domain ∧
    (nodeListSet w item k).secret = w.secret ∧
    (nodeListSet w item k).mgr = w.mgr ∧
    (nodeListSet w item k).brk = w.brk ∧
    (nodeListSet w item k).sent = w.sent ∧
    (nodeListSet w item k).connects = w.connects ∧
    (nodeListSet w item k).closed = w.closed ∧
    (nodeListSet w item k).nkeys = w.nkeys ∧
    (nodeListSet w item k).xmlError = w.xmlError := by
  simp [nodeListSet]

@[simp]
theorem osrfChatSendRaw_fields (E : Env) (w : osrfChatServer) (p : Nat) (m : String) :
    (osrfChatSendRaw E w p m).1.nodeHash = w.nodeHash ∧
    (osrfChatSendRaw E w p m).1.nodeList = w.nodeList ∧
    (osrfChatSendRaw E w p m).1.deadNodes = w.deadNodes ∧
    (osrfChatSendRaw E w p m).1.heap = w.heap ∧
    (osrfChatSendRaw E w p m).1.domain = w.domain ∧
    (osrfChatSendRaw E w p m).1.secret = w.secret ∧
    (osrfChatSendRaw E w p m).1.mgr = w.mgr ∧
    (osrfChatSendRaw E w p m).1.brk = w.brk ∧
    (osrfChatSendRaw E w p m).1.connects = w.connects ∧
    (osrfChatSendRaw E w p m).1.closed = w.closed ∧
    (osrfChatSendRaw E w p m).1.nkeys = w.nkeys ∧
    (osrfChatSendRaw E w p m).1.xmlError = w.xmlError := by
  unfold osrfChatSendRaw
  split <;> simp

theorem osrfChatSendRaw_eq (E : Env) (w : osrfChatServer) (p : Nat) (n : osrfChatNode)
    (m : String) (h : w.heap p = some n) :
    (osrfChatSendRaw E w p m).1.sent = w.sent ++ [(n.sockid, m)] ∧
    (osrfChatSendRaw E w p m).2 = if E.send w.sent.length n.sockid m then 0 else -1 := by
  simp [osrfChatSendRaw, h, socket_send_timeout]

theorem osrfChatSendRaw_sent_grows (E : Env) (w : osrfChatServer) (p : Nat) (m : String) :
    w.sent <+: (osrfChatSendRaw E w p m).1.sent := by
  unfold osrfChatSendRaw
  split <;> simp

@[simp]
theorem osrfChatRemoveNode_fields (w : osrfChatServer) (p : Nat) :
    (osrfChatRemoveNode w p).domain = w.domain ∧
    (osrfChatRemoveNode w p).secret = w.secret ∧
    (osrfChatRemoveNode w p).brk = w.brk ∧
    (osrfChatRemoveNode w p).sent = w.sent ∧
    (osrfChatRemoveNode w p).connects = w.connects ∧
    (osrfChatRemoveNode w p).nkeys = w.nkeys ∧
    (osrfChatRemoveNode w p).xmlError = w.xmlError := by
  unfold osrfChatRemoveNode
  split
  · simp
  · split <;> simp

theorem osrfChatRemoveNode_eq (w : osrfChatServer) (p : Nat) (n : osrfChatNode)
    (h : w.heap p = some n) :
    (osrfChatRemoveNode w p).nodeHash =
        (match n.remote with
         | some r => Function.update w.nodeHash r none
         | none => w.nodeHash) ∧
    (osrfChatRemoveNode w p).nodeList = Function.update w.nodeList n.sockid none ∧
    (osrfChatRemoveNode w p).closed = w.closed ++ [n.sockid] ∧
    (osrfChatRemoveNode w p).mgr = socket_remove_node w.mgr n.sockid := by
  simp only [osrfChatRemoveNode, h]
  cases n.remote <;> simp

theorem xmlSaxAttr_setProp (attrs : List (String × String)) (k v : String) :
    xmlSaxAttr (setProp attrs k v) k = some v := by
  induction attrs with
  | nil => simp [setProp, xmlSaxAttr]
  | cons a rest ih =>
    obtain ⟨k', v'⟩ := a
    by_cases h : k' = k
    · simp [setProp, xmlSaxAttr, h]
    · have hb : (k' == k) = false := by simpa using h
      simp only [setProp, h, if_false, xmlSaxAttr, List.find?_cons, hb]
      simpa [xmlSaxAttr] using ih

theorem nodeListRemove_heap_of_eq (w : osrfChatServer) (k : Int) (node : Nat)
    (h : w.nodeList k = some node) (p : Nat) (hp : p ≠ node) :
    (nodeListRemove w k).heap p = w.heap p := by
  simp only [nodeListRemove, h, osrfChatNodeFree]
  split
  · rfl
  · split <;> simp [Function.update_noteq hp]

theorem osrfChatRemoveNode_heap_of_registered (w : osrfChatServer) (node : Nat)
    (n : osrfChatNode) (hn : w.heap node = some n) (hl : w.nodeList n.sockid = some node)
    (p : Nat) (hp : p ≠ node) :
    (osrfChatRemoveNode w node).heap p = w.heap p := by
  simp only [osrfChatRemoveNode, hn]
  rw [nodeListRemove_heap_of_eq _ _ node _ p hp]
  · cases n.remote <;> simp
  · cases n.remote <;> simpa using hl

/-- C2 on the code: a stanza for an identifier of the server's own domain that is absent from
`nodeHash` makes `osrfChatSend` send exactly one stanza, the `OSRF_CHAT_NO_RECIPIENT` stanza
built from `toAddr` and `fromAddr`, on the sender's socket. The sender is removed from
`nodeList` exactly when that send fails. When it succeeds, both indices, the dead list and the
store are unchanged. When it fails, the slot at the sender's socket id is cleared, no other
slot, no binding under another name and no other node of the store changes, and the binding
under the sender's `remote` is cleared whichever node it leads to: after a second login under
the same name that is another node, which C2 says is left alone. -/
theorem C2_local_miss (E : Env) (w : osrfChatServer) (node : Nat) (n : osrfChatNode)
    (toAddr : String) (fromAddr : Option String) (msgXML : String)
    (hn : w.heap node = some n) (hl : w.nodeList n.sockid = some node)
    (hdom : jid_get_domain toAddr = w.domain) (hmiss : w.nodeHash toAddr = none) :
    (osrfChatSend E w node (some toAddr) fromAddr msgXML).1.sent =
        w.sent ++ [(n.sockid, E.OSRF_CHAT_NO_RECIPIENT toAddr (fmtS fromAddr))] ∧
    ((osrfChatSend E w node (some toAddr) fromAddr msgXML).1.nodeList n.sockid = none ↔
        E.send w.sent.length n.sockid (E.OSRF_CHAT_NO_RECIPIENT toAddr (fmtS fromAddr))
          = false) ∧
    (E.send w.sent.length n.sockid (E.OSRF_CHAT_NO_RECIPIENT toAddr (fmtS fromAddr)) = true →
        (osrfChatSend E w node (some toAddr) fromAddr msgXML).1.nodeHash = w.nodeHash ∧
        (osrfChatSend E w node (some toAddr) fromAddr msgXML).1.nodeList = w.nodeList ∧
        (osrfChatSend E w node (some toAddr) fromAddr msgXML).1.deadNodes = w.deadNodes ∧
        (osrfChatSend E w node (some toAddr) fromAddr msgXML).1.heap = w.heap) ∧
    (∀ k, k ≠ n.sockid →
        (osrfChatSend E w node (some toAddr) fromAddr msgXML).1.nodeList k = w.nodeList k) ∧
    (∀ key, n.remote ≠ some key →
        (osrfChatSend E w node (some toAddr) fromAddr msgXML).1.nodeHash key = w.nodeHash key) ∧
    (∀ p, p ≠ node →
        (osrfChatSend E w node (some toAddr) fromAddr msgXML).1.heap p = w.heap p) ∧
    (E.send w.sent.length n.sockid (E.OSRF_CHAT_NO_RECIPIENT toAddr (fmtS fromAddr)) = false →
        ∀ r, n.remote = some r →
          (osrfChatSend E w node (some toAddr) fromAddr msgXML).1.nodeHash r = none) := by
  have hs := osrfChatSendRaw_eq E w node n (E.OSRF_CHAT_NO_RECIPIENT toAddr (fmtS fromAddr)) hn
  have hh : (osrfChatSendRaw E w node (E.OSRF_CHAT_NO_RECIPIENT toAddr (fmtS fromAddr))).1.heap
      node = some n := by simpa using hn
  have hrm := osrfChatRemoveNode_eq _ node n hh
  simp only [osrfChatSend, hdom, if_true, hmiss]
  cases hsend : E.send w.sent.length n.sockid (E.OSRF_CHAT_NO_RECIPIENT toAddr (fmtS fromAddr))
  · -- the reply fails: the sender is removed
    simp only [hsend] at hs
    have hneg : (osrfChatSendRaw E w node
        (E.OSRF_CHAT_NO_RECIPIENT toAddr (fmtS fromAddr))).2 < 0 := by
      rw [hs.2]; decide
    simp only [hneg, if_true]
    refine ⟨by simp [hs.1], by simp [hrm.2.1], by simp, ?_, ?_, ?_, ?_⟩
    rotate_left 3
    · intro _ r hr
      rw [hrm.1, hr]
      simp
    · intro k hk
      simp [hrm.2.1, Function.update_noteq hk]
    · intro key hkey
      rw [hrm.1]
      cases hr : n.remote with
      | none => simp
      | some r =>
        have : key ≠ r := by
          intro h; apply hkey; rw [hr, h]
        simp [Function.update_noteq this]
    · intro p hp
      rw [osrfChatRemoveNode_heap_of_registered _ node n hh (by simpa using hl) p hp]
      simp
  · simp only [hsend] at hs
    have hneg : ¬ (osrfChatSendRaw E w node
        (E.OSRF_CHAT_NO_RECIPIENT toAddr (fmtS fromAddr))).2 < 0 := by
      rw [hs.2]; decide
    simp only [hneg, if_false]
    refine ⟨by simp [hs.1], by simp [hl], by simp, ?_, ?_, ?_, by simp⟩ <;> intros <;> simp
theorem osrfChatRemoveNode_heap_self (w : osrfChatServer) (node : Nat)
    (n : osrfChatNode) (hn : w.heap node = some n) (hl : w.nodeList n.sockid = some node)
    (hparse : n.inparse = true) :
    (osrfChatRemoveNode w node).heap node = some { n with inparse := false } := by
  have h1 : (match n.remote with
      | some r => osrfHashRemove (socket_disconnect w n.sockid) r
      | none => socket_disconnect w n.sockid).nodeList n.sockid = some node := by
    cases n.remote <;> simpa using hl
  have h2 : (match n.remote with
      | some r => osrfHashRemove (socket_disconnect w n.sockid) r
      | none => socket_disconnect w n.sockid).heap node = some n := by
    cases n.remote <;> simpa using hn
  simp only [osrfChatRemoveNode, hn, nodeListRemove, h1, osrfChatNodeFree]
  simp [h2, hparse]

/-- C3: when the target of a local delivery is found in `nodeHash` but the send to it fails,
`osrfChatSend` removes the target from both indices, sends the `OSRF_CHAT_NO_RECIPIENT` stanza
naming `toAddr` on the sender's socket, and removes the sender exactly when that reply fails
too. (The sender is the node being parsed; a sender that is its own target has had its socket
closed by the first removal, so the reply on it fails.) -/
theorem C3_local_target_fails (E : Env) (w : osrfChatServer) (node T : Nat)
    (n t : osrfChatNode) (toAddr : String) (fromAddr : Option String) (msgXML : String)
    (hn : w.heap node = some n) (hl : w.nodeList n.sockid = some node)
    (hparse : n.inparse = true)
    (hdom : jid_get_domain toAddr = w.domain) (hT : w.nodeHash toAddr = some T)
    (hTn : w.heap T = some t) (hTl : w.nodeList t.sockid = some T)
    (hTr : t.remote = some toAddr)
    (hfail : E.send w.sent.length t.sockid msgXML = false)
    (hself : node = T →
      E.send (w.sent.length + 1) n.sockid (E.OSRF_CHAT_NO_RECIPIENT toAddr (fmtS fromAddr))
        = false) :
    (osrfChatSend E w node (some toAddr) fromAddr msgXML).1.nodeHash toAddr = none ∧
    (osrfChatSend E w node (some toAddr) fromAddr msgXML).1.nodeList t.sockid = none ∧
    (osrfChatSend E w node (some toAddr) fromAddr msgXML).1.sent =
        w.sent ++ [(t.sockid, msgXML),
                   (n.sockid, E.OSRF_CHAT_NO_RECIPIENT toAddr (fmtS fromAddr))] ∧
    ((osrfChatSend E w node (some toAddr) fromAddr msgXML).1.nodeList n.sockid = none ↔
        E.send (w.sent.length + 1) n.sockid (E.OSRF_CHAT_NO_RECIPIENT toAddr (fmtS fromAddr))
          = false) := by
  have hs := osrfChatSendRaw_eq E w T t msgXML hTn
  rw [hfail] at hs
  have hneg : (osrfChatSendRaw E w T msgXML).2 < 0 := by rw [hs.2]; decide
  have hh : (osrfChatSendRaw E w T msgXML).1.heap T = some t := by simpa using hTn
  have hll : (osrfChatSendRaw E w T msgXML).1.nodeList t.sockid = some T := by simpa using hTl
  have hrm := osrfChatRemoveNode_eq _ T t hh
  simp only [hTr] at hrm
  -- the sender's record after the target was removed
  obtain ⟨n1, hn1, hn1s, hn1r, hn1l⟩ : ∃ n1,
      (osrfChatRemoveNode (osrfChatSendRaw E w T msgXML).1 T).heap node = some n1 ∧
      n1.sockid = n.sockid ∧ n1.remote = n.remote ∧
      ((osrfChatRemoveNode (osrfChatSendRaw E w T msgXML).1 T).nodeList n.sockid = none ↔
        node = T) := by
    by_cases hnt : node = T
    · subst hnt
      have htn : t = n := by rw [hTn] at hn; exact Option.some.inj hn
      subst htn
      refine ⟨_, osrfChatRemoveNode_heap_self _ node t hh hll hparse, rfl, rfl, ?_⟩
      simp [hrm.2.1]
    · refine ⟨n, ?_, rfl, rfl, ?_⟩
      · rw [osrfChatRemoveNode_heap_of_registered _ T t hh hll node hnt]
        simpa using hn
      · have hsock : n.sockid ≠ t.sockid := by
          intro h
          rw [h, hTl] at hl
          exact hnt (Option.some.inj hl).symm
        simp [hrm.2.1, Function.update_noteq hsock, hl, hnt]
  have hs2 := osrfChatSendRaw_eq E _ node n1
    (E.OSRF_CHAT_NO_RECIPIENT toAddr (fmtS fromAddr)) hn1
  have hlen : (osrfChatRemoveNode (osrfChatSendRaw E w T msgXML).1 T).sent.length
      = w.sent.length + 1 := by simp [hs.1]
  rw [hlen, hn1s] at hs2
  have hh2 : (osrfChatSendRaw E (osrfChatRemoveNode (osrfChatSendRaw E w T msgXML).1 T) node
      (E.OSRF_CHAT_NO_RECIPIENT toAddr (fmtS fromAddr))).1.heap node = some n1 := by
    simpa using hn1
  have hrm2 := osrfChatRemoveNode_eq _ node n1 hh2
  simp only [osrfChatSend, hdom, if_true, hT, hneg]
  cases hsend : E.send (w.sent.length + 1) n.sockid
      (E.OSRF_CHAT_NO_RECIPIENT toAddr (fmtS fromAddr))
  · rw [hsend] at hs2
    have hneg2 : (osrfChatSendRaw E (osrfChatRemoveNode (osrfChatSendRaw E w T msgXML).1 T)
        node (E.OSRF_CHAT_NO_RECIPIENT toAddr (fmtS fromAddr))).2 < 0 := by
      rw [hs2.2]; decide
    simp only [hneg2, if_true]
    refine ⟨?_, ?_, ?_, ?_⟩
    · rw [hrm2.1]
      cases n1.remote with
      | none => simp [hrm.1]
      | some r => simp [Function.update_apply, hrm.1]
    · rw [hrm2.2.1]
      simp [Function.update_apply, hrm.2.1]
    · simp [hs2.1, hs.1, hn1s]
    · simp [hrm2.2.1, Function.update_apply, hn1s]
  · rw [hsend] at hs2
    have hneg2 : ¬ (osrfChatSendRaw E (osrfChatRemoveNode (osrfChatSendRaw E w T msgXML).1 T)
        node (E.OSRF_CHAT_NO_RECIPIENT toAddr (fmtS fromAddr))).2 < 0 := by
      rw [hs2.2]; decide
    simp only [hneg2, if_false]
    refine ⟨by simp [hrm.1], by simp [hrm.2.1], by simp [hs2.1, hs.1, hn1s], ?_⟩
    have hnt : node ≠ T := by
      intro h
      rw [hself h] at hsend
      exact Bool.noConfusion hsend
    simp [hn1l, hnt]

theorem endElementConnecting_sent_grows (E : Env) (w : osrfChatServer) (p : Nat) (nm : String) :
    w.sent <+: (endElementConnecting E w p nm).sent := by
  have hm : ∀ (o : Option Nat) (w2 : osrfChatServer) (k : String),
      (match o with
        | some _ => osrfHashRemove w2 k
        | none => w2).sent = w2.sent := by
    intro o w2 k
    cases o <;> simp
  unfold endElementConnecting
  split
  · exact List.prefix_refl _
  · split
    · simp only [modifyNode_fields, osrfHashSet_fields, hm]
      simpa using osrfChatSendRaw_sent_grows E (modifyNode w p _) p _
    · exact List.prefix_refl _

theorem endElementConnecting_of_state (E : Env) (w : osrfChatServer) (p : Nat) (nm : String)
    (n : osrfChatNode) (hn : w.heap p = some n) (hs : n.state ≠ .CONNECTING) :
    endElementConnecting E w p nm = w := by
  simp [endElementConnecting, hn, hs]

theorem osrfChatSend_local_hit_sent (E : Env) (w : osrfChatServer) (node T : Nat)
    (t : osrfChatNode) (toAddr : String) (fromAddr : Option String) (msgXML : String)
    (hdom : jid_get_domain toAddr = w.domain) (hT : w.nodeHash toAddr = some T)
    (hTn : w.heap T = some t) :
    (w.sent ++ [(t.sockid, msgXML)]) <+:
      (osrfChatSend E w node (some toAddr) fromAddr msgXML).1.sent := by
  have hs := osrfChatSendRaw_eq E w T t msgXML hTn
  simp only [osrfChatSend, hdom, if_true, hT]
  split
  · split
    · simp only [osrfChatRemoveNode_fields]
      refine List.IsPrefix.trans ?_ (osrfChatSendRaw_sent_grows E _ node _)
      simp [hs.1]
    · refine List.IsPrefix.trans ?_ (osrfChatSendRaw_sent_grows E _ node _)
      simp [hs.1]
  · simp [hs.1]

theorem osrfChatSend_local_hit_ok (E : Env) (w : osrfChatServer) (node T : Nat)
    (t : osrfChatNode) (toAddr : String) (fromAddr : Option String) (msgXML : String)
    (hdom : jid_get_domain toAddr = w.domain) (hT : w.nodeHash toAddr = some T)
    (hTn : w.heap T = some t) (hok : E.send w.sent.length t.sockid msgXML = true) :
    (osrfChatSend E w node (some toAddr) fromAddr msgXML).1 = (osrfChatSendRaw E w T msgXML).1 := by
  have hs := osrfChatSendRaw_eq E w T t msgXML hTn
  rw [hok] at hs
  have hneg : ¬ (osrfChatSendRaw E w T msgXML).2 < 0 := by rw [hs.2]; decide
  simp only [osrfChatSend, hdom, if_true, hT, hneg, if_false]

/-- C1: at the end of `message` on a connected node whose stanza names a `to` of the server's
own domain that is bound in `nodeHash`, the document handed on is the node's document with
`from` set to the node's `remote` when the node is a client (type 0) and the unchanged
document when it is an S2S node; its serialization is sent on the target's socket as the
next send. When that send succeeds it is the only send, both indices, the dead list and the
closed sockets are as before, and the store differs only in the sender's document. -/
theorem C1_message_relay (E : Env) (w : osrfChatServer) (C T : Nat) (c t : osrfChatNode)
    (toAddr r nm : String) (attrs : List (String × String)) (children : List xmlNode)
    (hC : w.heap C = some c) (hstate : c.state = .CONNECTED) (hremote : c.remote = some r)
    (hto : c.to_ = some toAddr) (hdoc : c.msgDoc = some (.element nm attrs children))
    (hdom : jid_get_domain toAddr = w.domain) (hT : w.nodeHash toAddr = some T)
    (hTn : w.heap T = some t) :
    ∃ out : xmlNode,
      (c.type = 0 → out = .element nm (setProp attrs "from" r) children) ∧
      (c.type ≠ 0 → out = .element nm attrs children) ∧
      (c.type = 0 → xmlGetProp (some out) "from" = some r) ∧
      (w.sent ++ [(t.sockid, E.xmlDocToString (some out))]) <+:
        (osrfChatEndElement E w C "message").sent ∧
      (E.send w.sent.length t.sockid (E.xmlDocToString (some out)) = true →
        (osrfChatEndElement E w C "message").sent =
          w.sent ++ [(t.sockid, E.xmlDocToString (some out))] ∧
        (osrfChatEndElement E w C "message").nodeHash = w.nodeHash ∧
        (osrfChatEndElement E w C "message").nodeList = w.nodeList ∧
        (osrfChatEndElement E w C "message").deadNodes = w.deadNodes ∧
        (osrfChatEndElement E w C "message").closed = w.closed ∧
        (∀ p, p ≠ C → (osrfChatEndElement E w C "message").heap p = w.heap p) ∧
        (osrfChatEndElement E w C "message").heap C = some { c with msgDoc := some out }) := by
  -- the document after the `from` step
  obtain ⟨out, hout0, hout1, hmsg⟩ : ∃ out : xmlNode,
      (c.type = 0 → out = .element nm (setProp attrs "from" r) children) ∧
      (c.type ≠ 0 → out = .element nm attrs children) ∧
      (if c.type = 0 then c.msgDoc.map (fun m => xmlSetProp m "from" (c.remote.getD ""))
        else c.msgDoc) = some out := by
    by_cases h0 : c.type = 0
    · exact ⟨_, fun _ => rfl, fun h => absurd h0 h, by simp [h0, hdoc, hremote, xmlSetProp]⟩
    · exact ⟨_, fun h => absurd h h0, fun _ => rfl, by simp [h0, hdoc]⟩
  have hne : ("message" : String) ≠ "stream:stream" := by decide
  -- the store after the document was updated
  obtain ⟨t1, ht1, ht1s⟩ : ∃ t1,
      (modifyNode w C (fun n => { n with msgDoc := some out })).heap T = some t1 ∧
      t1.sockid = t.sockid := by
    by_cases hTC : T = C
    · subst hTC
      have : c = t := by rw [hC] at hTn; exact Option.some.inj hTn
      subst this
      exact ⟨{ c with msgDoc := some out }, by simp [hC], rfl⟩
    · exact ⟨t, by simp [Function.update_noteq hTC, hTn], rfl⟩
  have hstep : endElementConnected E w C "message" =
      (osrfChatSend E (modifyNode w C (fun n => { n with msgDoc := some out })) C
        (some toAddr) (xmlGetProp (some out) "from") (E.xmlDocToString (some out))).1 := by
    simp only [endElementConnected, hC, hstate, hmsg, hto, and_self, if_true]
  have hpre := osrfChatSend_local_hit_sent E
    (modifyNode w C (fun n => { n with msgDoc := some out })) C T t1 toAddr
    (xmlGetProp (some out) "from") (E.xmlDocToString (some out))
    (by simpa using hdom) (by simpa using hT) ht1
  refine ⟨out, hout0, hout1, ?_, ?_, ?_⟩
  · intro h0
    rw [hout0 h0]
    simp [xmlGetProp, xmlSaxAttr_setProp]
  · simp only [osrfChatEndElement, hne, if_false, hstep]
    refine List.IsPrefix.trans ?_ (endElementConnecting_sent_grows E _ C _)
    simpa [ht1s] using hpre
  · intro hok
    have hok1 : E.send (modifyNode w C (fun n => { n with msgDoc := some out })).sent.length
        t1.sockid (E.xmlDocToString (some out)) = true := by simpa [ht1s] using hok
    have hsend := osrfChatSend_local_hit_ok E
      (modifyNode w C (fun n => { n with msgDoc := some out })) C T t1 toAddr
      (xmlGetProp (some out) "from") (E.xmlDocToString (some out))
      (by simpa using hdom) (by simpa using hT) ht1 hok1
    have hheapC : (osrfChatSendRaw E (modifyNode w C (fun n => { n with msgDoc := some out })) T
        (E.xmlDocToString (some out))).1.heap C = some { c with msgDoc := some out } := by
      simp [hC]
    have hfinal : osrfChatEndElement E w C "message" =
        (osrfChatSendRaw E (modifyNode w C (fun n => { n with msgDoc := some out })) T
          (E.xmlDocToString (some out))).1 := by
      simp only [osrfChatEndElement, hne, if_false, hstep, hsend]
      exact endElementConnecting_of_state E _ C _ _ hheapC (by simp [hstate])
    rw [hfinal]
    have hs := osrfChatSendRaw_eq E _ T t1 (E.xmlDocToString (some out)) ht1
    refine ⟨by simp [hs.1, ht1s], by simp, by simp, by simp, by simp, ?_, hheapC⟩
    intro p hp
    simp [Function.update_noteq hp]

@[simp]
theorem socket_open_tcp_client_fields (E : Env) (w : osrfChatServer) (h : String) :
    (socket_open_tcp_client E w h).1.nodeHash = w.nodeHash ∧
    (socket_open_tcp_client E w h).1.nodeList = w.nodeList ∧
    (socket_open_tcp_client E w h).1.deadNodes = w.deadNodes ∧
    (socket_open_tcp_client E w h).1.heap = w.heap ∧
    (socket_open_tcp_client E w h).1.domain = w.domain ∧
    (socket_open_tcp_client E w h).1.secret = w.secret ∧
    (socket_open_tcp_client E w h).1.brk = w.brk ∧
    (socket_open_tcp_client E w h).1.sent = w.sent ∧
    (socket_open_tcp_client E w h).1.connects = w.connects ++ [h] ∧
    (socket_open_tcp_client E w h).1.closed = w.closed ∧
    (socket_open_tcp_client E w h).1.nkeys = w.nkeys ∧
    (socket_open_tcp_client E w h).1.xmlError = w.xmlError := by
  unfold socket_open_tcp_client
  simp only []
  split <;> simp

theorem socket_open_tcp_client_snd (E : Env) (w : osrfChatServer) (h : String) :
    (socket_open_tcp_client E w h).2 =
      if E.connect w.connects.length h < 0 then -1 else E.connect w.connects.length h := by
  unfold socket_open_tcp_client
  simp only []
  split <;> rfl

theorem nodeListRemove_heap_of_ne (w : osrfChatServer) (k : Int) (q : Nat)
    (h : w.nodeList k ≠ some q) : (nodeListRemove w k).heap q = w.heap q := by
  unfold nodeListRemove
  split
  · rfl
  · rename_i p hp
    have hpq : q ≠ p := by
      intro e
      apply h
      rw [hp, e]
    unfold osrfChatNodeFree
    split
    · rfl
    · split <;> simp [Function.update_noteq hpq]

theorem osrfNewChatS2SNode_eq (domain remote : String) :
    osrfNewChatS2SNode domain remote = some (s2sNodeRecord domain remote) := by
  simp [osrfNewChatS2SNode, osrfNewChatNode, s2sNodeRecord]

theorem osrfChatInitS2S_fail (E : Env) (w : osrfChatServer) (remote toAddr msgXML : String)
    (hconn : E.connect w.connects.length remote < 1) :
    (osrfChatInitS2S E w remote toAddr msgXML).2 = -1 ∧
    (osrfChatInitS2S E w remote toAddr msgXML).1.nodeHash = w.nodeHash ∧
    (osrfChatInitS2S E w remote toAddr msgXML).1.nodeList = w.nodeList ∧
    (osrfChatInitS2S E w remote toAddr msgXML).1.deadNodes = w.deadNodes ∧
    (osrfChatInitS2S E w remote toAddr msgXML).1.sent = w.sent ∧
    (osrfChatInitS2S E w remote toAddr msgXML).1.connects = w.connects ++ [remote] ∧
    (osrfChatInitS2S E w remote toAddr msgXML).1.brk = w.brk + 1 ∧
    (∀ p, p ≠ w.brk → (osrfChatInitS2S E w remote toAddr msgXML).1.heap p = w.heap p) := by
  have hc : (socket_open_tcp_client E (allocNode w (s2sNodeRecord w.domain remote)).1
      remote).2 < 1 := by
    rw [socket_open_tcp_client_snd]
    simp only [allocNode_fields]
    split
    · decide
    · exact hconn
  simp only [osrfChatInitS2S, osrfNewChatS2SNode_eq, hc, if_true]
  refine ⟨trivial, by simp, by simp, by simp, by simp, by simp, by simp, ?_⟩
  intro p hp
  simp [allocNode, Function.update_noteq hp]

theorem osrfChatInitS2S_ok (E : Env) (w : osrfChatServer) (remote toAddr msgXML : String)
    (hconn : 1 ≤ E.connect w.connects.length remote)
    (hfree : w.nodeList (E.connect w.connects.length remote) ≠ some w.brk) :
    (osrfChatInitS2S E w remote toAddr msgXML).2 = 0 ∧
    (osrfChatInitS2S E w remote toAddr msgXML).1.nodeHash =
      Function.update w.nodeHash remote (some w.brk) ∧
    (osrfChatInitS2S E w remote toAddr msgXML).1.nodeList =
      Function.update w.nodeList (E.connect w.connects.length remote) (some w.brk) ∧
    (osrfChatInitS2S E w remote toAddr msgXML).1.sent =
      w.sent ++ [(E.connect w.connects.length remote, E.OSRF_CHAT_S2S_INIT)] ∧
    (osrfChatInitS2S E w remote toAddr msgXML).1.connects = w.connects ++ [remote] ∧
    (osrfChatInitS2S E w remote toAddr msgXML).1.brk = w.brk + 1 ∧
    (osrfChatInitS2S E w remote toAddr msgXML).1.heap w.brk =
      some { s2sNodeRecord w.domain remote with
             sockid := E.connect w.connects.length remote, msgs := some [msgXML] } := by
  have hc : (socket_open_tcp_client E (allocNode w (s2sNodeRecord w.domain remote)).1
      remote).2 = E.connect w.connects.length remote := by
    rw [socket_open_tcp_client_snd]
    simp only [allocNode_fields]
    have : ¬ E.connect w.connects.length remote < 0 := by omega
    simp [this]
  have hc1 : ¬ E.connect w.connects.length remote < 1 := by omega
  simp only [osrfChatInitS2S, osrfNewChatS2SNode_eq, hc, hc1, if_false]
  have hheap : (nodeListSet (osrfHashSet (modifyNode (modifyNode
      (socket_open_tcp_client E (allocNode w (s2sNodeRecord w.domain remote)).1 remote).1
      (allocNode w (s2sNodeRecord w.domain remote)).2
      fun n => { n with sockid := E.connect w.connects.length remote })
      (allocNode w (s2sNodeRecord w.domain remote)).2
      fun n => { n with msgs := msgsPush n.msgs msgXML })
      (allocNode w (s2sNodeRecord w.domain remote)).2 remote)
      (allocNode w (s2sNodeRecord w.domain remote)).2
      (E.connect w.connects.length remote)).heap w.brk =
      some { s2sNodeRecord w.domain remote with
             sockid := E.connect w.connects.length remote, msgs := some [msgXML] } := by
    simp only [nodeListSet_fields]
    rw [nodeListRemove_heap_of_ne _ _ _ (by simpa using hfree)]
    simp [allocNode, msgsPush, s2sNodeRecord]
  have hs := osrfChatSendRaw_eq E _ _ _ E.OSRF_CHAT_S2S_INIT hheap
  refine ⟨trivial, by simp [allocNode], by simp [allocNode], ?_, by simp, by simp, ?_⟩
  · simpa using hs.1
  · simpa using hheap


/-- C6: a stanza for another domain whose S2S node is bound in `nodeHash` but not yet connected
is appended, as a copy, at the end of that node's queue; nothing is sent, both indices are
unchanged, no other node changes and no node changes state. -/
theorem C6_queue_while_connecting (E : Env) (w : osrfChatServer) (node T : Nat)
    (t : osrfChatNode) (q : List String) (toAddr : String) (fromAddr : Option String)
    (msgXML : String)
    (hdom : jid_get_domain toAddr ≠ w.domain)
    (hT : w.nodeHash (jid_get_domain toAddr) = some T) (hTn : w.heap T = some t)
    (hstate : t.state ≠ .CONNECTED) (hq : t.msgs = some q) :
    (osrfChatSend E w node (some toAddr) fromAddr msgXML).1.heap T =
        some { t with msgs := some (q ++ [msgXML]) } ∧
    (osrfChatSend E w node (some toAddr) fromAddr msgXML).1.sent = w.sent ∧
    (osrfChatSend E w node (some toAddr) fromAddr msgXML).1.connects = w.connects ∧
    (osrfChatSend E w node (some toAddr) fromAddr msgXML).1.nodeHash = w.nodeHash ∧
    (osrfChatSend E w node (some toAddr) fromAddr msgXML).1.nodeList = w.nodeList ∧
    (∀ p, p ≠ T →
      (osrfChatSend E w node (some toAddr) fromAddr msgXML).1.heap p = w.heap p) ∧
    (∀ p, ((osrfChatSend E w node (some toAddr) fromAddr msgXML).1.heap p).map (fun n => n.state)
      = (w.heap p).map (fun n => n.state)) := by
  have hst : ¬ ((w.heap T).map (fun n => n.state) = some OSRF_CHAT_STATE.CONNECTED) := by
    simp [hTn, hstate]
  simp only [osrfChatSend, hdom, if_false, hT, hst]
  refine ⟨by simp [hTn, hq, msgsPush], by simp, by simp, by simp, by simp, ?_, ?_⟩
  · intro p hp
    simp [Function.update_noteq hp]
  · intro p
    by_cases hp : p = T
    · subst hp
      simp [hTn]
    · simp [Function.update_noteq hp]

/-- C7: a stanza for another domain that is not bound in `nodeHash`, when the outbound
connect succeeds (the descriptor returned is at least 1), creates a new S2S node (type 1) in
state `S2S_CHALLENGE` with `remote` the destination domain, the descriptor as socket id and the
stanza as its only queued message; the node is bound in `nodeHash` under the domain and
stored in `nodeList` at the descriptor, and the stream opening `OSRF_CHAT_S2S_INIT` is sent
on its socket. -/
theorem C7_s2s_initiation (E : Env) (w : osrfChatServer) (node : Nat)
    (toAddr : String) (fromAddr : Option String) (msgXML : String)
    (hdom : jid_get_domain toAddr ≠ w.domain)
    (hmiss : w.nodeHash (jid_get_domain toAddr) = none)
    (hconn : 1 ≤ E.connect w.connects.length (jid_get_domain toAddr))
    (halloc : ∀ k p, w.nodeList k = some p → p < w.brk) :
    ∃ s : osrfChatNode,
      (osrfChatSend E w node (some toAddr) fromAddr msgXML).1.heap w.brk = some s ∧
      s.type = 1 ∧ s.state = .S2S_CHALLENGE ∧ s.remote = some (jid_get_domain toAddr) ∧
      s.msgs = some [msgXML] ∧
      s.sockid = E.connect w.connects.length (jid_get_domain toAddr) ∧
      (osrfChatSend E w node (some toAddr) fromAddr msgXML).1.nodeHash (jid_get_domain toAddr) =
        some w.brk ∧
      (osrfChatSend E w node (some toAddr) fromAddr msgXML).1.nodeList s.sockid = some w.brk ∧
      (osrfChatSend E w node (some toAddr) fromAddr msgXML).1.sent =
        w.sent ++ [(s.sockid, E.OSRF_CHAT_S2S_INIT)] := by
  have hfree : w.nodeList (E.connect w.connects.length (jid_get_domain toAddr)) ≠ some w.brk := by
    intro h
    exact absurd (halloc _ _ h) (lt_irrefl _)
  have h := osrfChatInitS2S_ok E w (jid_get_domain toAddr) toAddr msgXML hconn hfree
  have h0 : ¬ (osrfChatInitS2S E w (jid_get_domain toAddr) toAddr msgXML).2 ≠ 0 := by
    simp [h.1]
  simp only [osrfChatSend, hdom, if_false, hmiss]
  rw [if_neg h0]
  exact ⟨_, h.2.2.2.2.2.2, rfl, rfl, rfl, rfl, rfl, by simp [h.2.1], by simp [h.2.2.1],
    h.2.2.2.1⟩

/-- C8: a stanza for another domain that is not bound in `nodeHash`, when the outbound
connect fails (the value returned is below 1), makes `osrfChatSend` send the
`OSRF_CHAT_NO_RECIPIENT` stanza on the sender's socket, and `nodeHash` and `nodeList` are
exactly as before the call. -/
theorem C8_s2s_unreachable (E : Env) (w : osrfChatServer) (node : Nat) (n : osrfChatNode)
    (toAddr : String) (fromAddr : Option String) (msgXML : String)
    (hn : w.heap node = some n) (hbrk : w.heap w.brk = none)
    (hdom : jid_get_domain toAddr ≠ w.domain)
    (hmiss : w.nodeHash (jid_get_domain toAddr) = none)
    (hconn : E.connect w.connects.length (jid_get_domain toAddr) < 1) :
    (osrfChatSend E w node (some toAddr) fromAddr msgXML).1.sent =
        w.sent ++ [(n.sockid, E.OSRF_CHAT_NO_RECIPIENT toAddr (fmtS fromAddr))] ∧
    (osrfChatSend E w node (some toAddr) fromAddr msgXML).1.nodeHash = w.nodeHash ∧
    (osrfChatSend E w node (some toAddr) fromAddr msgXML).1.nodeList = w.nodeList := by
  have h := osrfChatInitS2S_fail E w (jid_get_domain toAddr) toAddr msgXML hconn
  have h0 : (osrfChatInitS2S E w (jid_get_domain toAddr) toAddr msgXML).2 ≠ 0 := by
    simp [h.1]
  have hne : node ≠ w.brk := by
    intro e
    rw [e, hbrk] at hn
    exact Option.noConfusion hn
  have hh : (osrfChatInitS2S E w (jid_get_domain toAddr) toAddr msgXML).1.heap node = some n := by
    rw [h.2.2.2.2.2.2.2 node hne, hn]
  have hs := osrfChatSendRaw_eq E _ node n (E.OSRF_CHAT_NO_RECIPIENT toAddr (fmtS fromAddr)) hh
  simp only [osrfChatSend, hdom, if_false, hmiss]
  rw [if_pos h0]
  exact ⟨by rw [hs.1, h.2.2.2.2.1], by simp [h.2.1], by simp [h.2.2.1]⟩

theorem osrfChatSend_remote_hit_ok (E : Env) (w : osrfChatServer) (node T : Nat)
    (t : osrfChatNode) (toAddr : String) (fromAddr : Option String) (msgXML : String)
    (hdom : jid_get_domain toAddr ≠ w.domain)
    (hT : w.nodeHash (jid_get_domain toAddr) = some T)
    (hTn : w.heap T = some t) (hstate : t.state = .CONNECTED)
    (hok : E.send w.sent.length t.sockid msgXML = true) :
    (osrfChatSend E w node (some toAddr) fromAddr msgXML).1 = (osrfChatSendRaw E w T msgXML).1 := by
  have hs := osrfChatSendRaw_eq E w T t msgXML hTn
  rw [hok] at hs
  have hneg : ¬ (osrfChatSendRaw E w T msgXML).2 < 0 := by rw [hs.2]; decide
  have hst : (w.heap T).map (fun n => n.state) = some OSRF_CHAT_STATE.CONNECTED := by
    simp [hTn, hstate]
  simp only [osrfChatSend, hdom, if_false, hT, hst, if_true, hneg]

theorem flushMsgs_ok (E : Env) (p : Nat) (n : osrfChatNode) (r : String) :
    ∀ (q : List String) (w : osrfChatServer),
      w.heap p = some n → n.state = .CONNECTED → w.nodeHash r = some p → r ≠ w.domain →
      (∀ x ∈ q, ∃ doc toAddr, E.xmlParseMemory x = some doc ∧
          xmlGetProp (some doc) "to" = some toAddr ∧ jid_get_domain toAddr = r) →
      (∀ i x, q[i]? = some x → E.send (w.sent.length + i) n.sockid x = true) →
      (flushMsgs E p q w).sent = w.sent ++ q.map (fun x => (n.sockid, x)) ∧
      (flushMsgs E p q w).heap = w.heap ∧
      (flushMsgs E p q w).nodeHash = w.nodeHash ∧
      (flushMsgs E p q w).nodeList = w.nodeList ∧
      (flushMsgs E p q w).deadNodes = w.deadNodes ∧
      (flushMsgs E p q w).xmlError = w.xmlError := by
  intro q
  induction q with
  | nil => intro w _ _ _ _ _ _; simp [flushMsgs]
  | cons x rest ih =>
    intro w hn hstate hhash hdom hparse hsend
    obtain ⟨doc, toAddr, hdoc, hto, hjid⟩ := hparse x (List.mem_cons_self _ _)
    have hok : E.send w.sent.length n.sockid x = true := by
      simpa using hsend 0 x (by simp)
    have hstep := osrfChatSend_remote_hit_ok E w p p n toAddr (xmlGetProp (some doc) "from") x
      (by rw [hjid]; exact hdom) (by rw [hjid]; exact hhash) hn hstate hok
    have hs := osrfChatSendRaw_eq E w p n x hn
    simp only [flushMsgs, hdoc, hto, hstep]
    have ih' := ih (osrfChatSendRaw E w p x).1 (by simpa using hn) hstate (by simpa using hhash)
      (by simpa using hdom) (fun y hy => hparse y (List.mem_cons_of_mem _ hy))
      (by
        intro i y hy
        have := hsend (i + 1) y (by simpa using hy)
        rw [hs.1]
        simpa [Nat.add_assoc, Nat.add_comm 1 i] using this)
    refine ⟨?_, ?_, ?_, ?_, ?_, ?_⟩
    · rw [ih'.1, hs.1]; simp
    · rw [ih'.2.1]; simp
    · rw [ih'.2.2.1]; simp
    · rw [ih'.2.2.2.1]; simp
    · rw [ih'.2.2.2.2.1]; simp
    · rw [ih'.2.2.2.2.2]; simp

/-- C5 (as amended): an outbound S2S node in state `S2S_VERIFY_FINAL` that is still the node
bound in `nodeHash` under its `remote`, and that receives the final `db:result`, enters
`CONNECTED`; the stanzas of its queue are sent on its socket in the order of the queue, each
once and nothing else, as long as each of these sends succeeds, and afterwards the node has no
queue (it is released). The queued stanzas are the ones `osrfChatSend` put there: they parse,
and their `to` is of the node's domain. -/
theorem C5_flush_fifo (E : Env) (w : osrfChatServer) (p : Nat) (n : osrfChatNode) (r : String)
    (q : List String) (atts : List (String × String))
    (hn : w.heap p = some n) (hstate : n.state = .S2S_VERIFY_FINAL)
    (_hremote : n.remote = some r) (hq : n.msgs = some q)
    (hhash : w.nodeHash r = some p) (hdom : r ≠ w.domain)
    (hparse : ∀ x ∈ q, ∃ doc toAddr, E.xmlParseMemory x = some doc ∧
        xmlGetProp (some doc) "to" = some toAddr ∧ jid_get_domain toAddr = r)
    (hsend : ∀ i x, q[i]? = some x → E.send (w.sent.length + i) n.sockid x = true) :
    (osrfChatStartElement E w p "db:result" atts).sent =
        w.sent ++ q.map (fun x => (n.sockid, x)) ∧
    (osrfChatStartElement E w p "db:result" atts).heap p =
        some { n with state := .CONNECTED, msgs := none, xmlstate := XmlState.zero } ∧
    (osrfChatStartElement E w p "db:result" atts).xmlError = w.xmlError := by
  have hne : ("db:result" : String) ≠ "db:verify" := by decide
  have hfl := flushMsgs_ok E p { n with state := .CONNECTED } r q
    (modifyNode w p (fun n => { n with state := .CONNECTED }))
    (by simp [hn]) rfl (by simpa using hhash) (by simpa using hdom) hparse
    (by simpa using hsend)
  simp only [osrfChatStartElement, hn, hstate, osrfChatHandleS2SConnected, hne, if_false,
    if_true, hq, Option.getD_some]
  simp only [ne_eq, not_true_eq_false, if_false]
  refine ⟨?_, ?_, ?_⟩
  · simpa using hfl.1
  · simp [hfl.2.1, hn]
  · simpa using hfl.2.2.2.2.2

theorem setProp_of_not_mem (acc : List (String × String)) (k v : String)
    (h : k ∉ acc.map Prod.fst) : setProp acc k v = acc ++ [(k, v)] := by
  induction acc with
  | nil => rfl
  | cons a rest ih =>
    obtain ⟨k', v'⟩ := a
    have hk : k' ≠ k := by
      intro e
      apply h
      simp [e]
    have hr : k ∉ rest.map Prod.fst := by
      intro e
      apply h
      simp only [List.map_cons, List.mem_cons]
      exact Or.inr e
    simp [setProp, hk, ih hr]

theorem foldl_setProp (attrs : List (String × String)) :
    ∀ (name : String) (acc : List (String × String)) (cs : List xmlNode),
      (acc.map Prod.fst ++ attrs.map Prod.fst).Nodup →
      attrs.foldl (fun n a => xmlSetProp n a.1 a.2) (xmlNode.element name acc cs) =
        xmlNode.element name (acc ++ attrs) cs := by
  induction attrs with
  | nil => intro name acc cs _; simp
  | cons a rest ih =>
    intro name acc cs h
    have hk : a.1 ∉ acc.map Prod.fst := by
      intro e
      have := List.nodup_append.mp h
      exact this.2.2 e (by simp)
    have hstep : xmlSetProp (xmlNode.element name acc cs) a.1 a.2 =
        xmlNode.element name (acc ++ [(a.1, a.2)]) cs := by
      simp [xmlSetProp, setProp_of_not_mem acc a.1 a.2 hk]
    rw [List.foldl_cons, hstep,
      ih name (acc ++ [(a.1, a.2)]) cs (by simpa [List.append_assoc] using h)]
    simp

theorem xmlAddAttrs_new (name : String) (attrs : List (String × String))
    (h : (attrs.map Prod.fst).Nodup) :
    xmlAddAttrs (xmlNewNode name) attrs = xmlNode.element name attrs [] := by
  have := foldl_setProp attrs name [] [] (by simpa using h)
  simpa [xmlAddAttrs, xmlNewNode] using this

theorem modifyNode_congr (w : osrfChatServer) (p : Nat) (f g : osrfChatNode → osrfChatNode)
    (h : ∀ n, w.heap p = some n → f n = g n) : modifyNode w p f = modifyNode w p g := by
  unfold modifyNode
  congr 2
  cases hp : w.heap p with
  | none => rfl
  | some n => simp [h n hp]

theorem modifyNode_modifyNode (w : osrfChatServer) (p : Nat)
    (f g : osrfChatNode → osrfChatNode) :
    modifyNode (modifyNode w p f) p g = modifyNode w p (fun n => g (f n)) := by
  unfold modifyNode
  simp [Function.update_idem, Option.map_map, Function.comp_def]

theorem modifyNode_self (w : osrfChatServer) (p : Nat) (n : osrfChatNode)
    (h : w.heap p = some n) : modifyNode w p (fun _ => n) = w := by
  have hh : Function.update w.heap p ((w.heap p).map (fun _ => n)) = w.heap := by
    rw [h]
    exact (Function.update_eq_self_iff).mpr h.symm
  unfold modifyNode
  rw [hh]

theorem endElementConnecting_of_name (E : Env) (w : osrfChatServer) (p : Nat) (nm : String)
    (h : nm ≠ "iq") : endElementConnecting E w p nm = w := by
  unfold endElementConnecting
  split
  · rfl
  · simp [h]

theorem startElement_connected_child (E : Env) (w : osrfChatServer) (C : Nat)
    (n : osrfChatNode) (name : String) (attrs : List (String × String))
    (hn : w.heap C = some n) (hs : n.state = .CONNECTED) (hname : name ≠ "message") :
    osrfChatStartElement E w C name attrs =
      modifyNode w C (fun n =>
        { n with msgDoc := (n.msgDoc.map
            (fun r => xmlAddChild r (xmlAddAttrs (xmlNewNode name) attrs))) }) := by
  simp [osrfChatStartElement, hn, hs, osrfChatHandleConnected, hname]

theorem endElement_connected_other (E : Env) (w : osrfChatServer) (C : Nat)
    (n : osrfChatNode) (name : String)
    (hn : w.heap C = some n) (hs : n.state = .CONNECTED) (hname : name ≠ "message")
    (hname2 : name ≠ "stream:stream") :
    osrfChatEndElement E w C name = w := by
  have h1 : endElementConnected E w C name = w := by
    simp [endElementConnected, hn, hname]
  simp only [osrfChatEndElement, hname2, if_false, h1]
  exact endElementConnecting_of_state E w C name n hn (by simp [hs])

theorem characters_connected (E : Env) (w : osrfChatServer) (C : Nat)
    (n : osrfChatNode) (ch : String)
    (hn : w.heap C = some n) (hs : n.state = .CONNECTED) (hch : ch.length ≠ 0) :
    osrfChatHandleCharacter E w C ch =
      modifyNode w C (fun n =>
        { n with msgDoc := n.msgDoc.map (fun root =>
            match xmlGetLastChild (some root) with
            | some last => setLastChild root (xmlAddChild last (.text ch))
            | none => root) }) := by
  simp [osrfChatHandleCharacter, hn, hs, hch]

/-- One flat child is appended to the document of a connected node as it was received. -/
theorem flatChild_events (E : Env) (C : Nat) (A : List (String × String)) (k : xmlNode)
    (hk : flatChild k) (w : osrfChatServer) (n : osrfChatNode) (done : List xmlNode)
    (hn : w.heap C = some n) (hs : n.state = .CONNECTED)
    (hd : n.msgDoc = some (.element "message" A done)) :
    xmlParseChunk E w C (saxEvents k) =
      modifyNode w C (fun _ => { n with msgDoc := some (.element "message" A (done ++ [k])) }) := by
  match k, hk with
  | .element name attrs [], ⟨h1, h2, h3⟩ =>
    have e1 := startElement_connected_child E w C n name attrs hn hs h1
    have e2 := endElement_connected_other E (osrfChatStartElement E w C name attrs) C
      { n with msgDoc := (n.msgDoc.map
          (fun r => xmlAddChild r (xmlAddAttrs (xmlNewNode name) attrs))) } name
      (by rw [e1]; simp [hn]) hs h1 h2
    simp only [xmlParseChunk, saxEvents, saxEventsList, List.nil_append, List.foldl_cons,
      List.foldl_nil, saxDispatch, e2]
    rw [e1]
    apply modifyNode_congr
    intro m hm
    rw [hn] at hm
    cases Option.some.inj hm
    simp [hd, xmlAddAttrs_new name attrs h3, xmlAddChild]
  | .element name attrs [.text t], ⟨h1, h2, h3, h4⟩ =>
    have e1 := startElement_connected_child E w C n name attrs hn hs h1
    have e2 := characters_connected E (osrfChatStartElement E w C name attrs) C
      { n with msgDoc := (n.msgDoc.map
          (fun r => xmlAddChild r (xmlAddAttrs (xmlNewNode name) attrs))) } t
      (by rw [e1]; simp [hn]) hs h4
    have e3 := endElement_connected_other E
      (osrfChatHandleCharacter E (osrfChatStartElement E w C name attrs) C t) C
      { n with msgDoc := some (.element "message" A (done ++ [.element name attrs [.text t]])) }
      name
      (by
        rw [e2, e1]
        simp [hn, hd, xmlAddAttrs_new name attrs h3, xmlAddChild, xmlGetLastChild, setLastChild])
      hs h1 h2
    simp only [xmlParseChunk, saxEvents, saxEventsList, List.nil_append, List.append_nil,
      List.foldl_cons, List.foldl_nil, saxDispatch, List.cons_append, e3]
    rw [e2, e1, modifyNode_modifyNode]
    apply modifyNode_congr
    intro m hm
    rw [hn] at hm
    cases Option.some.inj hm
    simp [hd, xmlAddAttrs_new name attrs h3, xmlAddChild, xmlGetLastChild, setLastChild]

/-- The flat children of a message are appended to the document in the order received. -/
theorem flatChildren_events (E : Env) (C : Nat) (A : List (String × String)) :
    ∀ (kids : List xmlNode), (∀ k ∈ kids, flatChild k) →
      ∀ (w : osrfChatServer) (n : osrfChatNode) (done : List xmlNode),
        w.heap C = some n → n.state = .CONNECTED →
        n.msgDoc = some (.element "message" A done) →
        xmlParseChunk E w C (saxEventsList kids) =
          modifyNode w C
            (fun _ => { n with msgDoc := some (.element "message" A (done ++ kids)) }) := by
  intro kids
  induction kids with
  | nil =>
    intro _ w n done hn _ hd
    simp only [saxEventsList, xmlParseChunk, List.foldl_nil, List.append_nil]
    have : ({ n with msgDoc := some (.element "message" A done) } : osrfChatNode) = n := by
      rw [← hd]
    rw [this, modifyNode_self w C n hn]
  | cons k rest ih =>
    intro hk w n done hn hs hd
    have e1 := flatChild_events E C A k (hk k (List.mem_cons_self _ _)) w n done hn hs hd
    have e2 := ih (fun x hx => hk x (List.mem_cons_of_mem _ hx))
      (xmlParseChunk E w C (saxEvents k))
      { n with msgDoc := some (.element "message" A (done ++ [k])) } (done ++ [k])
      (by rw [e1]; simp [hn]) hs rfl
    have e3 : xmlParseChunk E w C (saxEventsList (k :: rest)) =
        xmlParseChunk E (xmlParseChunk E w C (saxEvents k)) C (saxEventsList rest) := by
      simp [xmlParseChunk, saxEventsList, List.foldl_append]
    rw [e3, e2, e1, modifyNode_modifyNode]
    simp

/-- C4 (as amended): a message stanza whose attribute names are distinct and whose children
are flat (elements other than `message` and `stream:stream`, with distinct attribute names,
holding nothing or one non-empty text), received on a connected node, is handed to
`osrfChatSend` as the serialization of the very subtree received, except that the root's
`from` is set to the node's `remote` when the node is a client; the stanza is routed to the
root's `to`. -/
theorem C4_flat_stanza_relayed (E : Env) (w : osrfChatServer) (C : Nat) (c : osrfChatNode)
    (atts : List (String × String)) (kids : List xmlNode)
    (hC : w.heap C = some c) (hstate : c.state = .CONNECTED)
    (hatts : (atts.map Prod.fst).Nodup) (hkids : ∀ k ∈ kids, flatChild k) :
    xmlParseChunk E w C (saxEvents (.element "message" atts kids)) =
      (osrfChatSend E
        (modifyNode w C (fun _ =>
          { c with msgDoc := some (relayedDoc c (.element "message" atts kids)),
                   to_ := some ((xmlSaxAttr atts "to").getD ""),
                   xmlstate := XmlState.inMessage }))
        C (some ((xmlSaxAttr atts "to").getD ""))
        (xmlGetProp (some (relayedDoc c (.element "message" atts kids))) "from")
        (E.xmlDocToString (some (relayedDoc c (.element "message" atts kids))))).1 := by
  have hne : ("message" : String) ≠ "stream:stream" := by decide
  have hne2 : ("message" : String) ≠ "iq" := by decide
  -- the start tag
  have e1 : osrfChatStartElement E w C "message" atts =
      modifyNode w C (fun _ =>
        { c with msgDoc := some (.element "message" atts []),
                 to_ := some ((xmlSaxAttr atts "to").getD ""),
                 xmlstate := XmlState.inMessage }) := by
    simp only [osrfChatStartElement, hC, hstate, osrfChatHandleConnected, if_true,
      xmlAddAttrs_new "message" atts hatts, ne_eq, not_true_eq_false, if_false]
    apply modifyNode_congr
    intro m hm
    rw [hC] at hm
    cases Option.some.inj hm
    simp [hstate]
  -- the children
  have e2 := flatChildren_events E C atts kids hkids (osrfChatStartElement E w C "message" atts)
    { c with msgDoc := some (.element "message" atts []),
             to_ := some ((xmlSaxAttr atts "to").getD ""),
             xmlstate := XmlState.inMessage } []
    (by rw [e1]; simp [hC]) hstate rfl
  rw [e1, modifyNode_modifyNode] at e2
  simp only [List.nil_append] at e2
  -- the end tag
  have e3 : xmlParseChunk E w C (saxEvents (.element "message" atts kids)) =
      osrfChatEndElement E
        (xmlParseChunk E (osrfChatStartElement E w C "message" atts) C (saxEventsList kids))
        C "message" := by
    simp [xmlParseChunk, saxEvents, List.foldl_append, saxDispatch]
  rw [e3, e1, e2]
  simp only [osrfChatEndElement, hne, if_false, endElementConnecting_of_name E _ C _ hne2]
  simp only [endElementConnected, modifyNode_fields, Function.update_same, hC, Option.map_some',
    hstate, and_self, if_true, relayedDoc, modifyNode_modifyNode]
  by_cases h0 : c.type = 0 <;> simp [h0]

/-- Instance of C1 on the sample server: the sender `a@ex.org/r1` ends a message to
`b@ex.org/r2` that carries a forged `from`; the stanza goes out on socket 6 with `from`
overwritten, and nothing else is sent. -/
theorem C1_message_relay_witness :
    (osrfChatEndElement sampleEnvOk sampleServer 0 "message").sent =
        [(6, "<message to=b@ex.org/r2 from=a@ex.org/r1><body>hi</body></message>")] ∧
    (osrfChatEndElement sampleEnvOk sampleServer 0 "message").nodeList = sampleServer.nodeList := by
  obtain ⟨out, h0, _, _, _, hok⟩ := C1_message_relay sampleEnvOk sampleServer 0 1 sampleSender
    (sampleClient 6 "b@ex.org/r2") "b@ex.org/r2" "a@ex.org/r1" "message"
    [("to", "b@ex.org/r2"), ("from", "forged@ex.org/x")] [.element "body" [] [.text "hi"]]
    (by decide) (by decide) (by decide) (by decide) (by decide) (by decide) (by decide)
    (by decide)
  have hout := h0 (by decide)
  subst hout
  have h := hok (by decide)
  exact ⟨h.1.trans (by decide!), h.2.2.1⟩

/-- Instance of C2, the input on which it fails: after two logins as `a@ex.org/r1` (sockets 5
and 6) the name is bound to the second node (address 1). The first node (address 0, socket 5)
sends a stanza for `z@ex.org/r9`, which is not connected, and the reply on socket 5 fails. One
`NO_RECIPIENT` was sent, on socket 5, and the first node left `nodeList`; the binding of
`a@ex.org/r1` is gone, although the second node is untouched and still stored in `nodeList`
at socket 6. -/
theorem C2_local_miss_witness :
    sampleRunTwice.nodeHash "a@ex.org/r1" = some 1 ∧
    (osrfChatSend sampleEnvDeaf5 sampleRunTwice 0 (some "z@ex.org/r9") (some "a@ex.org/r1")
        "<message/>").1.sent =
      sampleRunTwice.sent ++ [(5, "NO_RECIPIENT z@ex.org/r9 a@ex.org/r1")] ∧
    (osrfChatSend sampleEnvDeaf5 sampleRunTwice 0 (some "z@ex.org/r9") (some "a@ex.org/r1")
        "<message/>").1.nodeList 5 = none ∧
    (osrfChatSend sampleEnvDeaf5 sampleRunTwice 0 (some "z@ex.org/r9") (some "a@ex.org/r1")
        "<message/>").1.nodeHash "a@ex.org/r1" = none ∧
    (osrfChatSend sampleEnvDeaf5 sampleRunTwice 0 (some "z@ex.org/r9") (some "a@ex.org/r1")
        "<message/>").1.nodeList 6 = some 1 ∧
    ((osrfChatSend sampleEnvDeaf5 sampleRunTwice 0 (some "z@ex.org/r9") (some "a@ex.org/r1")
        "<message/>").1.heap 1).map (fun n => (n.sockid, n.state, n.remote)) =
      some (6, OSRF_CHAT_STATE.CONNECTED, some "a@ex.org/r1") :=
  have h := C2_local_miss sampleEnvDeaf5 sampleRunTwice 0 sampleEvicted "z@ex.org/r9"
    (some "a@ex.org/r1") "<message/>" (by decide!) (by decide!) (by decide!) (by decide!)
  have hfail : sampleEnvDeaf5.send sampleRunTwice.sent.length sampleEvicted.sockid
      (sampleEnvDeaf5.OSRF_CHAT_NO_RECIPIENT "z@ex.org/r9" (fmtS (some "a@ex.org/r1"))) =
      false := by
    simp [sampleEnvDeaf5, sampleEnv, sampleEvicted]
  have h5 : sampleEvicted.sockid = 5 := rfl
  have hr : sampleEvicted.remote = some "a@ex.org/r1" := rfl
  ⟨by decide!, h.1.trans (by decide!), by rw [← h5]; exact h.2.1.mpr hfail,
    h.2.2.2.2.2.2 hfail _ hr,
    (h.2.2.2.1 6 (by rw [h5]; decide)).trans (by decide!),
    by rw [h.2.2.2.2.2.1 1 (by decide)]; decide!⟩

/-- Instance of C3 on the sample server when no send on socket 6 succeeds: the target
`b@ex.org/r2` is removed from both indices and the sender, whose reply succeeds, stays. -/
theorem C3_local_target_fails_witness :
    (osrfChatSend (sampleEnv (fun _ fd _ => fd != 6) (fun _ _ => 7)) sampleServer 0
        (some "b@ex.org/r2") (some "a@ex.org/r1") "<message/>").1.nodeHash "b@ex.org/r2" = none ∧
    (osrfChatSend (sampleEnv (fun _ fd _ => fd != 6) (fun _ _ => 7)) sampleServer 0
        (some "b@ex.org/r2") (some "a@ex.org/r1") "<message/>").1.nodeList 6 = none ∧
    (osrfChatSend (sampleEnv (fun _ fd _ => fd != 6) (fun _ _ => 7)) sampleServer 0
        (some "b@ex.org/r2") (some "a@ex.org/r1") "<message/>").1.sent =
      [(6, "<message/>"), (5, "NO_RECIPIENT b@ex.org/r2 a@ex.org/r1")] :=
  have h := C3_local_target_fails (sampleEnv (fun _ fd _ => fd != 6) (fun _ _ => 7))
    sampleServer 0 1 sampleSender (sampleClient 6 "b@ex.org/r2") "b@ex.org/r2"
    (some "a@ex.org/r1") "<message/>" (by decide) (by decide) (by decide) (by decide)
    (by decide) (by decide) (by decide) (by decide) (by decide) (by decide)
  ⟨h.1, h.2.1, h.2.2.1⟩

/-- Instance of the amended C4 on the sample server: a stanza with two flat children. -/
theorem C4_flat_stanza_relayed_witness :
    (xmlParseChunk sampleEnvOk sampleServer 0 (saxEvents flatStanza)).sent =
      [(6, "<message to=b@ex.org/r2 from=a@ex.org/r1><body>hi</body><thread id=t1></thread></message>")] := by
  have h := C4_flat_stanza_relayed sampleEnvOk sampleServer 0 sampleSender
    [("to", "b@ex.org/r2")]
    [.element "body" [] [.text "hi"], .element "thread" [("id", "t1")] []]
    (by decide) (by decide) (by decide)
    (by
      intro k hk
      simp only [List.mem_cons, List.mem_singleton, List.not_mem_nil, or_false] at hk
      rcases hk with hk | hk
      · subst hk
        simp only [flatChild]
        decide
      · subst hk
        simp only [flatChild]
        decide)
  rw [show flatStanza = xmlNode.element "message" [("to", "b@ex.org/r2")]
    [.element "body" [] [.text "hi"], .element "thread" [("id", "t1")] []] from rfl, h]
  decide!

/-- C4 fails for a nested stanza: for `<message to=..><a><b>x</b></a></message>` received from
the sample sender, the document serialized and routed holds `b` as a child of `message`, next
to an empty `a`; it is not the subtree received (with `from` set). -/
theorem C4_nested_counterexample :
    ((xmlParseChunk sampleEnvOk sampleServer 0 (saxEvents nestedStanza)).heap 0).bind
        (fun n => n.msgDoc) =
      some (.element "message" [("to", "b@ex.org/r2"), ("from", "a@ex.org/r1")]
        [.element "a" [] [], .element "b" [] [.text "x"]]) ∧
    ((xmlParseChunk sampleEnvOk sampleServer 0 (saxEvents nestedStanza)).heap 0).bind
        (fun n => n.msgDoc) ≠ some (relayedDoc sampleSender nestedStanza) ∧
    (xmlParseChunk sampleEnvOk sampleServer 0 (saxEvents nestedStanza)).sent =
      [(6, "<message to=b@ex.org/r2 from=a@ex.org/r1><a></a><b>x</b></message>")] := by
  decide!

/-- Instance of C5: the outbound node for `peer.org` (socket 7) holds two queued stanzas when
the final `db:result` arrives; both go out on socket 7 in the order queued and the queue is
released. -/
theorem C5_flush_fifo_witness :
    (osrfChatStartElement sampleEnvOk (sampleServerS2S .S2S_VERIFY_FINAL ["<m1/>", "<m2/>"]) 2
        "db:result" []).sent = [(7, "<m1/>"), (7, "<m2/>")] ∧
    ((osrfChatStartElement sampleEnvOk (sampleServerS2S .S2S_VERIFY_FINAL ["<m1/>", "<m2/>"]) 2
        "db:result" []).heap 2).map (fun n => (n.state, n.msgs)) =
      some (OSRF_CHAT_STATE.CONNECTED, none) := by
  have h := C5_flush_fifo sampleEnvOk (sampleServerS2S .S2S_VERIFY_FINAL ["<m1/>", "<m2/>"]) 2
    (samplePeer .S2S_VERIFY_FINAL ["<m1/>", "<m2/>"]) "peer.org" ["<m1/>", "<m2/>"] []
    (by decide) (by decide) (by decide) (by decide) (by decide) (by decide)
    (fun _ _ => ⟨_, "c@peer.org", rfl, by decide, by decide⟩)
    (fun _ _ _ => rfl)
  exact ⟨h.1, by rw [h.2.1]; rfl⟩

/-- Instance of C6: while the node for `peer.org` is still in `S2S_VERIFY`, a stanza for
`c@peer.org` is appended to its queue and nothing is sent. -/
theorem C6_queue_while_connecting_witness :
    ((osrfChatSend sampleEnvOk (sampleServerS2S .S2S_VERIFY ["<m1/>"]) 0 (some "c@peer.org")
        (some "a@ex.org/r1") "<m2/>").1.heap 2).bind (fun n => n.msgs) =
      some ["<m1/>", "<m2/>"] ∧
    (osrfChatSend sampleEnvOk (sampleServerS2S .S2S_VERIFY ["<m1/>"]) 0 (some "c@peer.org")
        (some "a@ex.org/r1") "<m2/>").1.sent = [] := by
  have h := C6_queue_while_connecting sampleEnvOk (sampleServerS2S .S2S_VERIFY ["<m1/>"]) 0 2
    (samplePeer .S2S_VERIFY ["<m1/>"]) ["<m1/>"] "c@peer.org" (some "a@ex.org/r1") "<m2/>"
    (by decide) (by decide) (by decide) (by decide) (by decide)
  exact ⟨by rw [h.1]; rfl, h.2.1⟩

/-- Instance of C7 on the sample server: the first stanza for `c@peer.org` opens a link on the
descriptor 7 the connect returns. -/
theorem C7_s2s_initiation_witness :
    (osrfChatSend sampleEnvOk sampleServer 0 (some "c@peer.org") (some "a@ex.org/r1")
        "<m1/>").1.nodeHash "peer.org" = some 2 ∧
    (osrfChatSend sampleEnvOk sampleServer 0 (some "c@peer.org") (some "a@ex.org/r1")
        "<m1/>").1.nodeList 7 = some 2 ∧
    (osrfChatSend sampleEnvOk sampleServer 0 (some "c@peer.org") (some "a@ex.org/r1")
        "<m1/>").1.sent = [(7, "S2S_INIT")] := by
  obtain ⟨s, _, _, _, _, _, hs, hh, hl, hsent⟩ := C7_s2s_initiation sampleEnvOk sampleServer 0
    "c@peer.org" (some "a@ex.org/r1") "<m1/>" (by decide) (by decide) (by decide)
    (by
      intro k p h
      simp only [sampleServer] at h ⊢
      split_ifs at h <;> simp at h <;> omega)
  rw [hs] at hl hsent
  exact ⟨hh, hl, hsent⟩

/-- Instance of C8 on the sample server when the connect fails: the sender is told on its
socket 5 and `peer.org` is not registered. -/
theorem C8_s2s_unreachable_witness :
    (osrfChatSend (sampleEnv (fun _ _ _ => true) (fun _ _ => -1)) sampleServer 0
        (some "c@peer.org") (some "a@ex.org/r1") "<m1/>").1.sent =
      [(5, "NO_RECIPIENT c@peer.org a@ex.org/r1")] ∧
    (osrfChatSend (sampleEnv (fun _ _ _ => true) (fun _ _ => -1)) sampleServer 0
        (some "c@peer.org") (some "a@ex.org/r1") "<m1/>").1.nodeHash = sampleServer.nodeHash :=
  have h := C8_s2s_unreachable (sampleEnv (fun _ _ _ => true) (fun _ _ => -1)) sampleServer 0
    sampleSender "c@peer.org" (some "a@ex.org/r1") "<m1/>" (by decide) (by decide) (by decide)
    (by decide) (by decide)
  ⟨h.1, h.2.1⟩

/-! ## The indices stay consistent -/

theorem Inv.congr {E : Env} {w w' : osrfChatServer} (hi : Inv E w)
    (h1 : w'.nodeHash = w.nodeHash) (h2 : w'.nodeList = w.nodeList) (h3 : w'.heap = w.heap)
    (h4 : w'.brk = w.brk) (h5 : w'.connects = w.connects) : Inv E w' := by
  refine ⟨?_, ?_, ?_, ?_⟩
  · intro k p h
    rw [h1] at h
    rw [h2, h3]
    exact hi.hash k p h
  · intro k p h
    rw [h2] at h
    rw [h3]
    exact hi.list k p h
  · intro p h
    rw [h4] at h
    rw [h3]
    exact hi.unused p h
  · intro k p h
    rw [h2] at h
    rw [h5]
    exact hi.conn k p h

theorem Parsing.transfer {E : Env} {w w' : osrfChatServer} {C : Nat} (hp : Parsing E w C)
    (h2 : w'.nodeList = w.nodeList) (h3 : w'.heap = w.heap)
    (h5 : w'.connects = w.connects) : Parsing E w' C := by
  obtain ⟨n, hn, hl, hc⟩ := hp.alive
  exact ⟨n, by rw [h3]; exact hn, by rw [h2]; exact hl, by rw [h5]; exact hc⟩

theorem Inv.modify {E : Env} {w : osrfChatServer} (hi : Inv E w) (p : Nat)
    (f : osrfChatNode → osrfChatNode)
    (hf : ∀ n, w.heap p = some n → (f n).sockid = n.sockid ∧
      (inHashState n.state = true → (f n).remote = n.remote ∧ inHashState (f n).state = true)) :
    Inv E (modifyNode w p f) := by
  refine ⟨?_, ?_, ?_, ?_⟩
  · intro k q h
    obtain ⟨n, hn, hr, hl, hs⟩ := hi.hash k q (by simpa using h)
    by_cases hq : q = p
    · subst hq
      obtain ⟨h1, h2⟩ := hf n hn
      refine ⟨f n, by simp [hn], ?_, ?_, (h2 hs).2⟩
      · rw [(h2 hs).1, hr]
      · simpa [h1] using hl
    · exact ⟨n, by simp [Function.update_noteq hq, hn], hr, by simpa using hl, hs⟩
  · intro k q h
    obtain ⟨n, hn, hk⟩ := hi.list k q (by simpa using h)
    by_cases hq : q = p
    · subst hq
      exact ⟨f n, by simp [hn], by rw [(hf n hn).1, hk]⟩
    · exact ⟨n, by simp [Function.update_noteq hq, hn], hk⟩
  · intro q h
    have hq := hi.unused q (by simpa using h)
    by_cases hqp : q = p
    · subst hqp
      simp [hq]
    · simp [Function.update_noteq hqp, hq]
  · intro k q h
    simpa using hi.conn k q (by simpa using h)

theorem Parsing.assign {E : Env} {w : osrfChatServer} {C : Nat} (hp : Parsing E w C)
    (p : Nat) (f : osrfChatNode → osrfChatNode)
    (hf : ∀ n, w.heap p = some n → (f n).sockid = n.sockid ∧ (f n).inparse = n.inparse) :
    Parsing E (modifyNode w p f) C := by
  obtain ⟨n, hn, hl, hc⟩ := hp.alive
  by_cases hq : C = p
  · subst hq
    obtain ⟨h1, h2⟩ := hf n hn
    refine ⟨f n, by simp [hn], ?_, ?_⟩
    · simpa [h1, h2] using hl
    · simpa [h1] using hc
  · exact ⟨n, by simp [Function.update_noteq hq, hn], by simpa using hl, by simpa using hc⟩

theorem Inv.sendRaw {E : Env} {w : osrfChatServer} (hi : Inv E w) (p : Nat) (m : String) :
    Inv E (osrfChatSendRaw E w p m).1 :=
  hi.congr (by simp) (by simp) (by simp) (by simp) (by simp)

theorem Parsing.afterSend {E : Env} {w : osrfChatServer} {C : Nat} (hp : Parsing E w C)
    (p : Nat) (m : String) : Parsing E (osrfChatSendRaw E w p m).1 C :=
  hp.transfer (by simp) (by simp) (by simp)

theorem osrfChatRemoveNode_heap_other (w : osrfChatServer) (p : Nat) (n : osrfChatNode)
    (hn : w.heap p = some n)
    (hl : w.nodeList n.sockid = some p ∨ w.nodeList n.sockid = none) (q : Nat) (hq : q ≠ p) :
    (osrfChatRemoveNode w p).heap q = w.heap q := by
  simp only [osrfChatRemoveNode, hn]
  rw [nodeListRemove_heap_of_ne]
  · cases n.remote <;> simp
  · have : w.nodeList n.sockid ≠ some q := by
      rcases hl with h | h
      · rw [h]
        intro e
        exact hq (Option.some.inj e).symm
      · rw [h]
        exact fun e => Option.noConfusion e
    cases n.remote <;> simpa using this

theorem osrfChatRemoveNode_heap_unregistered (w : osrfChatServer) (p : Nat) (n : osrfChatNode)
    (hn : w.heap p = some n) (hl : w.nodeList n.sockid = none) :
    (osrfChatRemoveNode w p).heap = w.heap := by
  have h1 : (match n.remote with
      | some r => osrfHashRemove (socket_disconnect w n.sockid) r
      | none => socket_disconnect w n.sockid).nodeList n.sockid = none := by
    cases n.remote <;> simpa using hl
  simp only [osrfChatRemoveNode, hn, nodeListRemove, h1]
  cases n.remote <;> simp

theorem Inv.removeNode {E : Env} {w : osrfChatServer} (hi : Inv E w) (p : Nat)
    (n : osrfChatNode) (hn : w.heap p = some n)
    (hl : w.nodeList n.sockid = some p ∨ w.nodeList n.sockid = none) :
    Inv E (osrfChatRemoveNode w p) := by
  have hrm := osrfChatRemoveNode_eq w p n hn
  have hother := osrfChatRemoveNode_heap_other w p n hn hl
  have hhash : ∀ k q, (osrfChatRemoveNode w p).nodeHash k = some q →
      w.nodeHash k = some q ∧ n.remote ≠ some k := by
    intro k q h
    rw [hrm.1] at h
    cases hr : n.remote with
    | none => exact ⟨by simpa [hr] using h, fun e => Option.noConfusion e⟩
    | some r =>
      rw [hr] at h
      simp only [Function.update_apply] at h
      split at h
      · exact Option.noConfusion h
      · rename_i hk
        exact ⟨h, fun e => hk (Option.some.inj e).symm⟩
  have hlist : ∀ k q, (osrfChatRemoveNode w p).nodeList k = some q →
      w.nodeList k = some q ∧ k ≠ n.sockid := by
    intro k q h
    rw [hrm.2.1] at h
    simp only [Function.update_apply] at h
    split at h
    · exact Option.noConfusion h
    · rename_i hk
      exact ⟨h, hk⟩
  have hne : ∀ k q, w.nodeList k = some q → k ≠ n.sockid → q ≠ p := by
    intro k q h hk e
    subst e
    obtain ⟨m, hm, hmk⟩ := hi.list k q h
    rw [hn] at hm
    cases Option.some.inj hm
    exact hk hmk.symm
  refine ⟨?_, ?_, ?_, ?_⟩
  · intro k q h
    obtain ⟨h0, hk⟩ := hhash k q h
    obtain ⟨m, hm, hr, hml, hs⟩ := hi.hash k q h0
    have hqp : q ≠ p := by
      intro e
      subst e
      rw [hn] at hm
      cases Option.some.inj hm
      exact hk hr
    have hsock : m.sockid ≠ n.sockid := by
      intro e
      rw [e] at hml
      rcases hl with h1 | h1
      · rw [h1] at hml
        exact hqp (Option.some.inj hml).symm
      · rw [h1] at hml
        exact Option.noConfusion hml
    refine ⟨m, by rw [hother q hqp, hm], hr, ?_, hs⟩
    rw [hrm.2.1, Function.update_noteq hsock, hml]
  · intro k q h
    obtain ⟨h0, hk⟩ := hlist k q h
    obtain ⟨m, hm, hmk⟩ := hi.list k q h0
    exact ⟨m, by rw [hother q (hne k q h0 hk), hm], hmk⟩
  · intro q h
    have hq := hi.unused q (by simpa using h)
    have hqp : q ≠ p := by
      intro e
      subst e
      rw [hn] at hq
      exact Option.noConfusion hq
    rw [hother q hqp, hq]
  · intro k q h i hh hlen
    obtain ⟨h0, _⟩ := hlist k q h
    exact hi.conn k q h0 i hh (by simpa using hlen)

theorem Parsing.afterRemove {E : Env} {w : osrfChatServer} {C : Nat} (hp : Parsing E w C)
    (p : Nat) (n : osrfChatNode) (hn : w.heap p = some n)
    (hl : w.nodeList n.sockid = some p ∨ w.nodeList n.sockid = none) :
    Parsing E (osrfChatRemoveNode w p) C := by
  obtain ⟨c, hc, hcl, hcc⟩ := hp.alive
  have hrm := osrfChatRemoveNode_eq w p n hn
  by_cases hq : C = p
  · subst hq
    rw [hn] at hc
    cases Option.some.inj hc
    rcases hcl with ⟨h1, h2⟩ | h1
    · refine ⟨{ n with inparse := false }, osrfChatRemoveNode_heap_self w C n hn h1 h2, ?_, ?_⟩
      · right
        rw [hrm.2.1]
        simp
      · simpa using hcc
    · refine ⟨n, by rw [osrfChatRemoveNode_heap_unregistered w C n hn h1, hn], ?_, ?_⟩
      · right
        rw [hrm.2.1]
        simp
      · simpa using hcc
  · refine ⟨c, by rw [osrfChatRemoveNode_heap_other w p n hn hl C hq, hc], ?_, ?_⟩
    · rw [hrm.2.1]
      by_cases hs : c.sockid = n.sockid
      · right
        rw [hs]
        simp
      · rw [Function.update_noteq hs]
        exact hcl
    · simpa using hcc

theorem Inv.alive_lt {E : Env} {w : osrfChatServer} (hi : Inv E w) (p : Nat) (n : osrfChatNode)
    (hn : w.heap p = some n) : p < w.brk := by
  by_contra h
  have := hi.unused p (by omega)
  rw [hn] at this
  exact Option.noConfusion this

theorem osrfChatInitS2S_heap_other (E : Env) (w : osrfChatServer)
    (remote toAddr msgXML : String)
    (hfree : w.nodeList (E.connect w.connects.length remote) = none) (p : Nat)
    (hp : p ≠ w.brk) :
    (osrfChatInitS2S E w remote toAddr msgXML).1.heap p = w.heap p := by
  by_cases hconn : E.connect w.connects.length remote < 1
  · exact (osrfChatInitS2S_fail E w remote toAddr msgXML hconn).2.2.2.2.2.2.2 p hp
  · have hc : (socket_open_tcp_client E (allocNode w (s2sNodeRecord w.domain remote)).1
        remote).2 = E.connect w.connects.length remote := by
      rw [socket_open_tcp_client_snd]
      simp only [allocNode_fields]
      have : ¬ E.connect w.connects.length remote < 0 := by omega
      simp [this]
    simp only [osrfChatInitS2S, osrfNewChatS2SNode_eq, hc, hconn, if_false]
    simp only [osrfChatSendRaw_fields, nodeListSet_fields]
    rw [nodeListRemove_heap_of_ne _ _ _ (by simp [hfree])]
    simp [allocNode, Function.update_noteq hp]

theorem Inv.initS2S {E : Env} {w : osrfChatServer} (hinj : FreshConnects E) (hi : Inv E w)
    (remote toAddr msgXML : String) :
    Inv E (osrfChatInitS2S E w remote toAddr msgXML).1 := by
  have hfree : w.nodeList (E.connect w.connects.length remote) = none := by
    cases h : w.nodeList (E.connect w.connects.length remote) with
    | none => rfl
    | some q => exact absurd rfl (hi.conn _ q h w.connects.length remote (le_refl _))
  have hother := osrfChatInitS2S_heap_other E w remote toAddr msgXML hfree
  have hbrk : w.heap w.brk = none := hi.unused _ (le_refl _)
  by_cases hconn : E.connect w.connects.length remote < 1
  · have h := osrfChatInitS2S_fail E w remote toAddr msgXML hconn
    refine ⟨?_, ?_, ?_, ?_⟩
    · intro k p hk
      rw [h.2.1] at hk
      obtain ⟨n, hn, hr, hl, hs⟩ := hi.hash k p hk
      have hp : p ≠ w.brk := ne_of_lt (hi.alive_lt p n hn)
      exact ⟨n, by rw [hother p hp, hn], hr, by rw [h.2.2.1]; exact hl, hs⟩
    · intro k p hk
      rw [h.2.2.1] at hk
      obtain ⟨n, hn, hs⟩ := hi.list k p hk
      have hp : p ≠ w.brk := ne_of_lt (hi.alive_lt p n hn)
      exact ⟨n, by rw [hother p hp, hn], hs⟩
    · intro p hp
      rw [h.2.2.2.2.2.2.1] at hp
      rw [hother p (by omega)]
      exact hi.unused p (by omega)
    · intro k p hk i hh hlen
      rw [h.2.2.1] at hk
      rw [h.2.2.2.2.2.1] at hlen
      exact hi.conn k p hk i hh (by simp at hlen; omega)
  · have hc1 : 1 ≤ E.connect w.connects.length remote := by omega
    have h := osrfChatInitS2S_ok E w remote toAddr msgXML hc1 (by simp [hfree])
    refine ⟨?_, ?_, ?_, ?_⟩
    · intro k p hk
      rw [h.2.1] at hk
      by_cases hkr : k = remote
      · subst hkr
        simp only [Function.update_same] at hk
        cases Option.some.inj hk
        exact ⟨_, h.2.2.2.2.2.2, rfl, by rw [h.2.2.1]; simp, rfl⟩
      · rw [Function.update_noteq hkr] at hk
        obtain ⟨n, hn, hr, hl, hs⟩ := hi.hash k p hk
        have hp : p ≠ w.brk := ne_of_lt (hi.alive_lt p n hn)
        have hsock : n.sockid ≠ E.connect w.connects.length remote := by
          intro e
          rw [e, hfree] at hl
          exact Option.noConfusion hl
        exact ⟨n, by rw [hother p hp, hn], hr,
          by rw [h.2.2.1, Function.update_noteq hsock]; exact hl, hs⟩
    · intro k p hk
      rw [h.2.2.1] at hk
      by_cases hkf : k = E.connect w.connects.length remote
      · subst hkf
        simp only [Function.update_same] at hk
        cases Option.some.inj hk
        exact ⟨_, h.2.2.2.2.2.2, rfl⟩
      · rw [Function.update_noteq hkf] at hk
        obtain ⟨n, hn, hs⟩ := hi.list k p hk
        have hp : p ≠ w.brk := ne_of_lt (hi.alive_lt p n hn)
        exact ⟨n, by rw [hother p hp, hn], hs⟩
    · intro p hp
      rw [h.2.2.2.2.2.1] at hp
      rw [hother p (by omega)]
      exact hi.unused p (by omega)
    · intro k p hk i hh hlen
      rw [h.2.2.1] at hk
      rw [h.2.2.2.2.1] at hlen
      simp only [List.length_append, List.length_singleton] at hlen
      by_cases hkf : k = E.connect w.connects.length remote
      · subst hkf
        intro e
        have := hinj _ _ _ _ hc1 e.symm
        omega
      · rw [Function.update_noteq hkf] at hk
        exact hi.conn k p hk i hh (by omega)

theorem Parsing.afterInitS2S {E : Env} {w : osrfChatServer} {C : Nat} (hi : Inv E w)
    (hp : Parsing E w C) (remote toAddr msgXML : String) :
    Parsing E (osrfChatInitS2S E w remote toAddr msgXML).1 C := by
  obtain ⟨c, hc, hcl, hcc⟩ := hp.alive
  have hfree : w.nodeList (E.connect w.connects.length remote) = none := by
    cases h : w.nodeList (E.connect w.connects.length remote) with
    | none => rfl
    | some q => exact absurd rfl (hi.conn _ q h w.connects.length remote (le_refl _))
  have hC : C ≠ w.brk := ne_of_lt (hi.alive_lt C c hc)
  have hheap := osrfChatInitS2S_heap_other E w remote toAddr msgXML hfree C hC
  have hsock : c.sockid ≠ E.connect w.connects.length remote :=
    fun e => hcc w.connects.length remote (le_refl _) e.symm
  by_cases hconn : E.connect w.connects.length remote < 1
  · have h := osrfChatInitS2S_fail E w remote toAddr msgXML hconn
    refine ⟨c, by rw [hheap, hc], by rw [h.2.2.1]; exact hcl, ?_⟩
    intro i hh hlen
    rw [h.2.2.2.2.2.1] at hlen
    exact hcc i hh (by simp at hlen; omega)
  · have hc1 : 1 ≤ E.connect w.connects.length remote := by omega
    have h := osrfChatInitS2S_ok E w remote toAddr msgXML hc1 (by simp [hfree])
    refine ⟨c, by rw [hheap, hc], by rw [h.2.2.1, Function.update_noteq hsock]; exact hcl, ?_⟩
    intro i hh hlen
    rw [h.2.2.2.2.1] at hlen
    exact hcc i hh (by simp at hlen; omega)

theorem Parsing.loose {E : Env} {w : osrfChatServer} {C : Nat} (hp : Parsing E w C) :
    ∃ n, w.heap C = some n ∧ (w.nodeList n.sockid = some C ∨ w.nodeList n.sockid = none) := by
  obtain ⟨n, hn, hl, _⟩ := hp.alive
  exact ⟨n, hn, hl.imp (fun h => h.1) id⟩

theorem good_remove_self {E : Env} {w : osrfChatServer} {C : Nat} (hi : Inv E w)
    (hp : Parsing E w C) :
    Inv E (osrfChatRemoveNode w C) ∧ Parsing E (osrfChatRemoveNode w C) C := by
  obtain ⟨n, hn, hl⟩ := hp.loose
  exact ⟨hi.removeNode C n hn hl, hp.afterRemove C n hn hl⟩

theorem good_remove_loose {E : Env} {w : osrfChatServer} {C : Nat} (hi : Inv E w)
    (hp : Parsing E w C) (T : Nat)
    (hT : ∃ t, w.heap T = some t ∧ (w.nodeList t.sockid = some T ∨ w.nodeList t.sockid = none)) :
    Inv E (osrfChatRemoveNode w T) ∧ Parsing E (osrfChatRemoveNode w T) C := by
  obtain ⟨t, ht, hl⟩ := hT
  exact ⟨hi.removeNode T t ht hl, hp.afterRemove T t ht hl⟩

theorem loose_after_remove_self {E : Env} {w : osrfChatServer} {C : Nat}
    (hp : Parsing E w C) (T : Nat)
    (hT : ∃ t, w.heap T = some t ∧ (w.nodeList t.sockid = some T ∨ w.nodeList t.sockid = none)) :
    ∃ t, (osrfChatRemoveNode w C).heap T = some t ∧
      ((osrfChatRemoveNode w C).nodeList t.sockid = some T ∨
        (osrfChatRemoveNode w C).nodeList t.sockid = none) := by
  obtain ⟨c, hc, hcl⟩ := hp.loose
  by_cases hTC : T = C
  · subst hTC
    exact (hp.afterRemove T c hc hcl).loose
  · obtain ⟨t, ht, hl⟩ := hT
    have hrm := osrfChatRemoveNode_eq w C c hc
    refine ⟨t, by rw [osrfChatRemoveNode_heap_other w C c hc hcl T hTC, ht], ?_⟩
    rw [hrm.2.1]
    by_cases hs : t.sockid = c.sockid
    · right
      rw [hs]
      simp
    · rw [Function.update_noteq hs]
      exact hl

theorem Inv.hashed_loose {E : Env} {w : osrfChatServer} (hi : Inv E w) (k : String) (T : Nat)
    (h : w.nodeHash k = some T) :
    ∃ t, w.heap T = some t ∧ (w.nodeList t.sockid = some T ∨ w.nodeList t.sockid = none) := by
  obtain ⟨t, ht, _, hl, _⟩ := hi.hash k T h
  exact ⟨t, ht, Or.inl hl⟩

theorem loose_sendRaw (E : Env) (w : osrfChatServer) (p : Nat) (m : String) (T : Nat)
    (hT : ∃ t, w.heap T = some t ∧ (w.nodeList t.sockid = some T ∨ w.nodeList t.sockid = none)) :
    ∃ t, (osrfChatSendRaw E w p m).1.heap T = some t ∧
      ((osrfChatSendRaw E w p m).1.nodeList t.sockid = some T ∨
        (osrfChatSendRaw E w p m).1.nodeList t.sockid = none) := by
  simpa using hT

/-- Routing keeps the indices consistent. -/
theorem osrfChatSend_good {E : Env} {w : osrfChatServer} {C : Nat} (hinj : FreshConnects E)
    (hi : Inv E w) (hp : Parsing E w C) (toAddr fromAddr : Option String) (msgXML : String) :
    Inv E (osrfChatSend E w C toAddr fromAddr msgXML).1 ∧
    Parsing E (osrfChatSend E w C toAddr fromAddr msgXML).1 C := by
  unfold osrfChatSend
  split
  · exact ⟨hi, hp⟩
  · rename_i ta
    simp only []
    split
    · -- local delivery
      split
      · rename_i T hT
        split
        · have h1 := good_remove_loose (hi.sendRaw T msgXML) (hp.afterSend T msgXML) T
            (loose_sendRaw E w T msgXML T (hi.hashed_loose _ T hT))
          split
          · exact good_remove_self (h1.1.sendRaw C _) (h1.2.afterSend C _)
          · exact ⟨h1.1.sendRaw C _, h1.2.afterSend C _⟩
        · exact ⟨hi.sendRaw T msgXML, hp.afterSend T msgXML⟩
      · split
        · exact good_remove_self (hi.sendRaw C _) (hp.afterSend C _)
        · exact ⟨hi.sendRaw C _, hp.afterSend C _⟩
    · -- delivery to another domain
      split
      · rename_i T hT
        split
        · split
          · have hl0 := loose_sendRaw E _ C (E.OSRF_CHAT_NO_RECIPIENT ta (fmtS fromAddr)) T
              (loose_sendRaw E w T msgXML T (hi.hashed_loose _ T hT))
            have hi1 := (hi.sendRaw T msgXML).sendRaw C
              (E.OSRF_CHAT_NO_RECIPIENT ta (fmtS fromAddr))
            have hp1 := (hp.afterSend T msgXML).afterSend C
              (E.OSRF_CHAT_NO_RECIPIENT ta (fmtS fromAddr))
            split
            · have h2 := good_remove_self hi1 hp1
              exact good_remove_loose h2.1 h2.2 T (loose_after_remove_self hp1 T hl0)
            · exact good_remove_loose hi1 hp1 T hl0
          · exact ⟨hi.sendRaw T msgXML, hp.afterSend T msgXML⟩
        · exact ⟨hi.modify T _ (fun n _ => ⟨rfl, fun _ => ⟨rfl, by assumption⟩⟩),
            hp.assign T _ (fun n _ => ⟨rfl, rfl⟩)⟩
      · have h1 : Inv E (osrfChatInitS2S E w (jid_get_domain ta) ta msgXML).1 :=
          hi.initS2S hinj _ _ _
        have h2 : Parsing E (osrfChatInitS2S E w (jid_get_domain ta) ta msgXML).1 C :=
          hp.afterInitS2S hi _ _ _
        split
        · exact ⟨h1.sendRaw C _, h2.afterSend C _⟩
        · exact ⟨h1, h2⟩

theorem flushMsgs_good {E : Env} {C : Nat} (hinj : FreshConnects E) :
    ∀ (q : List String) (w : osrfChatServer), Inv E w → Parsing E w C →
      Inv E (flushMsgs E C q w) ∧ Parsing E (flushMsgs E C q w) C := by
  intro q
  induction q with
  | nil => intro w hi hp; exact ⟨hi, hp⟩
  | cons x rest ih =>
    intro w hi hp
    unfold flushMsgs
    split
    · rename_i doc _
      have h := osrfChatSend_good hinj hi hp (xmlGetProp (some doc) "to")
        (xmlGetProp (some doc) "from") x
      exact ih _ h.1 h.2
    · exact ih w hi hp

theorem good_parseError {E : Env} {w : osrfChatServer} {C : Nat}
    (h : Inv E w ∧ Parsing E w C) :
    Inv E (osrfChatParseError w) ∧ Parsing E (osrfChatParseError w) C :=
  ⟨h.1.congr (by simp) (by simp) (by simp) (by simp) (by simp),
   h.2.transfer (by simp) (by simp) (by simp)⟩

theorem good_status {E : Env} {C : Nat} (r : osrfChatServer × Int)
    (h : Inv E r.1 ∧ Parsing E r.1 C) :
    Inv E (if r.2 ≠ 0 then osrfChatParseError r.1 else r.1) ∧
    Parsing E (if r.2 ≠ 0 then osrfChatParseError r.1 else r.1) C := by
  split
  · exact good_parseError h
  · exact h

/-- A field assignment on the parsed node that leaves socket id, `inparse`, `remote` alone and
keeps a state of `inHashState` inside `inHashState`. -/
theorem good_modify {E : Env} {w : osrfChatServer} {C : Nat} (h : Inv E w ∧ Parsing E w C)
    (f : osrfChatNode → osrfChatNode)
    (hf : ∀ n, w.heap C = some n → (f n).sockid = n.sockid ∧ (f n).inparse = n.inparse ∧
      (inHashState n.state = true → (f n).remote = n.remote ∧ inHashState (f n).state = true)) :
    Inv E (modifyNode w C f) ∧ Parsing E (modifyNode w C f) C :=
  ⟨h.1.modify C f (fun n hn => ⟨(hf n hn).1, (hf n hn).2.2⟩),
   h.2.assign C f (fun n hn => ⟨(hf n hn).1, (hf n hn).2.1⟩)⟩

theorem good_sendRaw {E : Env} {w : osrfChatServer} {C : Nat} (h : Inv E w ∧ Parsing E w C)
    (p : Nat) (m : String) :
    Inv E (osrfChatSendRaw E w p m).1 ∧ Parsing E (osrfChatSendRaw E w p m).1 C :=
  ⟨h.1.sendRaw p m, h.2.afterSend p m⟩

theorem osrfChatHandleS2SConnected_good {E : Env} {w : osrfChatServer} {C : Nat}
    (hinj : FreshConnects E) (hi : Inv E w) (hp : Parsing E w C) (name : String)
    (atts : List (String × String)) :
    Inv E (osrfChatHandleS2SConnected E w C name atts).1 ∧
    Parsing E (osrfChatHandleS2SConnected E w C name atts).1 C := by
  unfold osrfChatHandleS2SConnected
  split
  · exact ⟨hi, hp⟩
  · split
    · exact good_modify (good_sendRaw ⟨hi, hp⟩ C _) _ (fun n _ => ⟨rfl, rfl, fun _ => ⟨rfl, rfl⟩⟩)
    · split
      · rename_i n0 _ _ _
        have h1 := good_modify (C := C) ⟨hi, hp⟩ (fun n => { n with state := .CONNECTED })
          (fun n _ => ⟨rfl, rfl, fun _ => ⟨rfl, rfl⟩⟩)
        have h2 := flushMsgs_good hinj (n0.msgs.getD []) _ h1.1 h1.2
        have h3 := good_modify h2 (fun n => { n with msgs := none })
          (fun n _ => ⟨rfl, rfl, fun hs => ⟨rfl, hs⟩⟩)
        exact good_modify h3 _ (fun n _ => ⟨rfl, rfl, fun _ => ⟨rfl, rfl⟩⟩)
      · exact ⟨hi, hp⟩

theorem osrfChatHandleNewConnection_good {E : Env} {w : osrfChatServer} {C : Nat}
    (hi : Inv E w) (hp : Parsing E w C) (n0 : osrfChatNode) (h0 : w.heap C = some n0)
    (hs : n0.state = .NONE) (name : String) (atts : List (String × String)) :
    Inv E (osrfChatHandleNewConnection E w C name atts).1 ∧
    Parsing E (osrfChatHandleNewConnection E w C name atts).1 C := by
  have hk : Inv E (osrfChatMkAuthKey E w).1 ∧ Parsing E (osrfChatMkAuthKey E w).1 C :=
    ⟨hi.congr (by simp) (by simp) (by simp) (by simp) (by simp),
     hp.transfer (by simp) (by simp) (by simp)⟩
  have h1 := good_modify hk
    (fun n => { n with authkey := some (osrfChatMkAuthKey E w).2 })
    (fun n _ => ⟨rfl, rfl, fun hh => ⟨rfl, hh⟩⟩)
  have hheap1 : (modifyNode (osrfChatMkAuthKey E w).1 C
      (fun n => { n with authkey := some (osrfChatMkAuthKey E w).2 })).heap C =
      some { n0 with authkey := some (osrfChatMkAuthKey E w).2 } := by
    simp [h0]
  simp only [osrfChatHandleNewConnection, h0]
  split
  · exact ⟨hi, hp⟩
  · split
    · exact h1
    · split
      · split
        · exact h1
        · split
          · exact h1
          · refine good_sendRaw (good_modify h1 _ ?_) C _
            intro n hn
            rw [hheap1] at hn
            cases Option.some.inj hn
            exact ⟨rfl, rfl, fun hh => by simp [hs, inHashState] at hh⟩
      · split
        · refine good_modify (good_sendRaw h1 C _) _ ?_
          intro n hn
          simp only [osrfChatSendRaw_fields] at hn
          rw [hheap1] at hn
          cases Option.some.inj hn
          exact ⟨rfl, rfl, fun hh => by simp [hs, inHashState] at hh⟩
        · exact h1

theorem osrfChatStartElement_good {E : Env} {w : osrfChatServer} {C : Nat}
    (hinj : FreshConnects E) (hi : Inv E w) (hp : Parsing E w C) (name : String)
    (atts : List (String × String)) :
    Inv E (osrfChatStartElement E w C name atts) ∧
    Parsing E (osrfChatStartElement E w C name atts) C := by
  unfold osrfChatStartElement
  split
  · exact ⟨hi, hp⟩
  · rename_i n0 h0
    apply good_status
    split
    · rename_i hs
      exact osrfChatHandleNewConnection_good hi hp n0 h0 hs name atts
    · unfold osrfChatHandleConnecting
      split
      · exact good_modify ⟨hi, hp⟩ _ (fun n _ => ⟨rfl, rfl, fun hh => ⟨rfl, hh⟩⟩)
      · split
        · exact good_modify ⟨hi, hp⟩ _ (fun n _ => ⟨rfl, rfl, fun hh => ⟨rfl, hh⟩⟩)
        · split
          · exact good_modify ⟨hi, hp⟩ _ (fun n _ => ⟨rfl, rfl, fun hh => ⟨rfl, hh⟩⟩)
          · exact ⟨hi, hp⟩
    · unfold osrfChatHandleConnected
      split
      · exact good_modify ⟨hi, hp⟩ _ (fun n _ => ⟨rfl, rfl, fun hh => ⟨rfl, hh⟩⟩)
      · exact good_modify ⟨hi, hp⟩ _ (fun n _ => ⟨rfl, rfl, fun hh => ⟨rfl, hh⟩⟩)
    · unfold osrfChatHandleS2SChallenge
      simp only [h0]
      split
      · split
        · exact good_modify (good_sendRaw ⟨hi, hp⟩ C _) _
            (fun n _ => ⟨rfl, rfl, fun _ => ⟨rfl, rfl⟩⟩)
        · exact ⟨hi, hp⟩
      · exact ⟨hi, hp⟩
    · rename_i hs
      split
      · refine good_modify ⟨hi, hp⟩ _ ?_
        intro n hn
        rw [h0] at hn
        cases Option.some.inj hn
        exact ⟨rfl, rfl, fun hh => by simp [hs, inHashState] at hh⟩
      · exact ⟨hi, hp⟩
    · split
      · split
        · exact good_modify (good_sendRaw ⟨hi, hp⟩ C _) _
            (fun n _ => ⟨rfl, rfl, fun _ => ⟨rfl, rfl⟩⟩)
        · exact ⟨hi, hp⟩
      · exact ⟨hi, hp⟩
    · exact osrfChatHandleS2SConnected_good hinj hi hp name atts
    · exact osrfChatHandleS2SConnected_good hinj hi hp name atts

theorem endElementConnected_good {E : Env} {w : osrfChatServer} {C : Nat}
    (hinj : FreshConnects E) (hi : Inv E w) (hp : Parsing E w C) (nm : String) :
    Inv E (endElementConnected E w C nm) ∧ Parsing E (endElementConnected E w C nm) C := by
  unfold endElementConnected
  split
  · exact ⟨hi, hp⟩
  · split
    · simp only []
      refine osrfChatSend_good hinj ?_ ?_ _ _ _
      · refine hi.modify C _ ?_
        intro n _
        exact ⟨rfl, fun hh => ⟨rfl, hh⟩⟩
      · refine hp.assign C _ ?_
        intro n _
        exact ⟨rfl, rfl⟩
    · exact ⟨hi, hp⟩

/-- The login transition keeps the indices consistent when the node is still registered. -/
theorem endElementConnecting_good {E : Env} {w : osrfChatServer} {C : Nat}
    (hi : Inv E w) (hp : Parsing E w C) (hreg : ∃ k, w.nodeList k = some C) (nm : String) :
    Inv E (endElementConnecting E w C nm) ∧ Parsing E (endElementConnecting E w C nm) C := by
  unfold endElementConnecting
  split
  · exact ⟨hi, hp⟩
  · rename_i n0 h0
    split
    · rename_i hc
      obtain ⟨k, hk⟩ := hreg
      obtain ⟨m, hm, hmk⟩ := hi.list k C hk
      rw [h0] at hm
      cases Option.some.inj hm
      subst hmk
      obtain ⟨c, hc0, hcl, hcc⟩ := hp.alive
      rw [h0] at hc0
      cases Option.some.inj hc0
      have hpar : n0.inparse = true := by
        rcases hcl with h | h
        · exact h.2
        · rw [h] at hk
          exact Option.noConfusion hk
      -- the fields of the state after the login
      have hlist : ∀ (o : Option Nat) (w2 : osrfChatServer) (r : String),
          (match o with
            | some _ => osrfHashRemove w2 r
            | none => w2).nodeList = w2.nodeList ∧
          (match o with
            | some _ => osrfHashRemove w2 r
            | none => w2).heap = w2.heap ∧
          (match o with
            | some _ => osrfHashRemove w2 r
            | none => w2).brk = w2.brk ∧
          (match o with
            | some _ => osrfHashRemove w2 r
            | none => w2).connects = w2.connects ∧
          ∀ k, k ≠ r → (match o with
            | some _ => osrfHashRemove w2 r
            | none => w2).nodeHash k = w2.nodeHash k := by
        intro o w2 r
        cases o
        · simp
        · refine ⟨by simp, by simp, by simp, by simp, ?_⟩
          intro k hk
          simp [Function.update_noteq hk]
      simp only []
      generalize hr : fmtS n0.username ++ "@" ++ n0.domain ++ "/" ++ fmtS n0.resource = r
      have he : (osrfChatSendRaw E (modifyNode w C fun n =>
          { n with xmlstate := { n.xmlstate with INIQ := false }, remote := some r }) C
          E.OSRF_CHAT_LOGIN_OK).1.nodeHash r = w.nodeHash r := by simp
      rw [he]
      have hh := hlist (w.nodeHash r)
        (osrfChatSendRaw E (modifyNode w C fun n =>
        { n with xmlstate := { n.xmlstate with INIQ := false }, remote := some r }) C
        E.OSRF_CHAT_LOGIN_OK).1 r
      have hheapC : ∀ q, q ≠ C → Function.update (Function.update w.heap C
          (Option.map (fun n : osrfChatNode =>
            { n with xmlstate := { n.xmlstate with INIQ := false }, remote := some r })
            (w.heap C))) C
          (Option.map (fun n : osrfChatNode => { n with state := .CONNECTED })
            (Function.update w.heap C
              (Option.map (fun n : osrfChatNode =>
                { n with xmlstate := { n.xmlstate with INIQ := false }, remote := some r })
                (w.heap C)) C)) q = w.heap q := by
        intro q hq
        simp [Function.update_noteq hq]
      refine ⟨⟨?_, ?_, ?_, ?_⟩, ⟨?_⟩⟩
      · intro key q hq
        simp only [modifyNode_fields, osrfHashSet_fields, hh.1, hh.2.1,
          osrfChatSendRaw_fields] at hq ⊢
        by_cases hkr : key = r
        · subst hkr
          simp only [Function.update_same] at hq
          cases Option.some.inj hq
          exact ⟨{ n0 with xmlstate := { n0.xmlstate with INIQ := false },
                           remote := some key, state := .CONNECTED },
            by simp [h0], rfl, by simpa using hk, rfl⟩
        · rw [Function.update_noteq hkr, hh.2.2.2.2 key hkr] at hq
          simp only [osrfChatSendRaw_fields, modifyNode_fields] at hq
          obtain ⟨m, hm, hmr, hml, hms⟩ := hi.hash key q hq
          have hqC : q ≠ C := by
            intro e
            subst e
            rw [h0] at hm
            cases Option.some.inj hm
            simp [hc.1, inHashState] at hms
          exact ⟨m, by rw [hheapC q hqC, hm], hmr, hml, hms⟩
      · intro key q hq
        simp only [modifyNode_fields, osrfHashSet_fields, hh.1, hh.2.1,
          osrfChatSendRaw_fields] at hq ⊢
        obtain ⟨m, hm, hmk⟩ := hi.list key q hq
        by_cases hqC : q = C
        · subst hqC
          rw [h0] at hm
          cases Option.some.inj hm
          exact ⟨{ n0 with xmlstate := { n0.xmlstate with INIQ := false },
                           remote := some r, state := .CONNECTED },
            by simp [h0], hmk⟩
        · exact ⟨m, by rw [hheapC q hqC, hm], hmk⟩
      · intro q hq
        simp only [modifyNode_fields, osrfHashSet_fields, hh.1, hh.2.1, hh.2.2.1,
          osrfChatSendRaw_fields] at hq ⊢
        have hqC : q ≠ C := ne_of_gt (lt_of_lt_of_le (hi.alive_lt C n0 h0) hq)
        rw [hheapC q hqC]
        exact hi.unused q hq
      · intro key q hq i h hlen
        simp only [modifyNode_fields, osrfHashSet_fields, hh.1, hh.2.2.2.1,
          osrfChatSendRaw_fields] at hq hlen
        exact hi.conn key q hq i h hlen
      · simp only [modifyNode_fields, osrfHashSet_fields, hh.1, hh.2.1, hh.2.2.2.1,
          osrfChatSendRaw_fields]
        exact ⟨{ n0 with xmlstate := { n0.xmlstate with INIQ := false },
                         remote := some r, state := .CONNECTED },
          by simp [h0], Or.inl ⟨by simpa using hk, hpar⟩, by simpa using hcc⟩
    · exact ⟨hi, hp⟩

theorem osrfChatEndElement_good {E : Env} {w : osrfChatServer} {C : Nat}
    (hinj : FreshConnects E) (hi : Inv E w) (hp : Parsing E w C)
    (hreg : ∃ k, w.nodeList k = some C) (nm : String) :
    Inv E (osrfChatEndElement E w C nm) ∧ Parsing E (osrfChatEndElement E w C nm) C := by
  unfold osrfChatEndElement
  split
  · exact good_remove_self (hi.sendRaw C _) (hp.afterSend C _)
  · by_cases hm : nm = "message"
    · have hne : nm ≠ "iq" := by
        rw [hm]
        decide
      rw [endElementConnecting_of_name E _ C nm hne]
      exact endElementConnected_good hinj hi hp nm
    · have h1 : endElementConnected E w C nm = w := by
        unfold endElementConnected
        split
        · rfl
        · simp [hm]
      rw [h1]
      exact endElementConnecting_good hi hp hreg nm

theorem osrfChatHandleCharacter_good {E : Env} {w : osrfChatServer} {C : Nat}
    (hi : Inv E w) (hp : Parsing E w C) (ch : String) :
    Inv E (osrfChatHandleCharacter E w C ch) ∧
    Parsing E (osrfChatHandleCharacter E w C ch) C := by
  unfold osrfChatHandleCharacter
  split
  · exact ⟨hi, hp⟩
  · rename_i n0 h0
    split
    · exact ⟨hi, hp⟩
    · split
      · split
        · have h1 : ∀ (b : Bool) (f : osrfChatNode → osrfChatNode),
              (∀ n, (f n).sockid = n.sockid ∧ (f n).inparse = n.inparse ∧
                (f n).remote = n.remote ∧ (f n).state = n.state) →
              Inv E (if b = true then modifyNode w C f else w) ∧
              Parsing E (if b = true then modifyNode w C f else w) C := by
            intro b f hf
            split
            · exact good_modify ⟨hi, hp⟩ f
                (fun n _ => ⟨(hf n).1, (hf n).2.1, fun hh => ⟨(hf n).2.2.1, by
                  rw [(hf n).2.2.2]
                  exact hh⟩⟩)
            · exact ⟨hi, hp⟩
          simp only []
          split
          · refine good_modify ?_ _ ?_
            · refine h1 _ _ ?_
              intro n
              exact ⟨rfl, rfl, rfl, rfl⟩
            · intro n _
              exact ⟨rfl, rfl, fun hh => ⟨rfl, hh⟩⟩
          · refine h1 _ _ ?_
            intro n
            exact ⟨rfl, rfl, rfl, rfl⟩
        · exact ⟨hi, hp⟩
      · split
        · exact good_modify ⟨hi, hp⟩ _ (fun n _ => ⟨rfl, rfl, fun hh => ⟨rfl, hh⟩⟩)
        · split
          · rename_i hs
            simp only []
            split
            · refine good_modify (good_sendRaw ⟨hi, hp⟩ C _) _ ?_
              intro n hn
              simp only [osrfChatSendRaw_fields] at hn
              rw [h0] at hn
              cases Option.some.inj hn
              exact ⟨rfl, rfl, fun hh => by simp [hs.1, inHashState] at hh⟩
            · exact ⟨hi, hp⟩
          · exact ⟨hi, hp⟩

theorem saxDispatch_good {E : Env} {w : osrfChatServer} {C : Nat}
    (hinj : FreshConnects E) (hi : Inv E w) (hp : Parsing E w C)
    (hreg : ∃ k, w.nodeList k = some C) (ev : SaxEvent) :
    Inv E (saxDispatch E w C ev) ∧ Parsing E (saxDispatch E w C ev) C := by
  cases ev with
  | startElement name atts => exact osrfChatStartElement_good hinj hi hp name atts
  | endElement name => exact osrfChatEndElement_good hinj hi hp hreg name
  | characters ch => exact osrfChatHandleCharacter_good hi hp ch
  | error => exact good_parseError ⟨hi, hp⟩

theorem xmlParseChunk_good {E : Env} {C : Nat} (hinj : FreshConnects E) (sockid : Int) :
    ∀ (data : List SaxEvent) (w : osrfChatServer), Inv E w → Parsing E w C →
      (∀ i, i < data.length →
        (xmlParseChunk E w C (data.take i)).nodeList sockid = some C) →
      Inv E (xmlParseChunk E w C data) ∧ Parsing E (xmlParseChunk E w C data) C := by
  intro data
  induction data with
  | nil => intro w hi hp _; exact ⟨hi, hp⟩
  | cons ev rest ih =>
    intro w hi hp hreg
    have h0 : w.nodeList sockid = some C := by
      simpa [xmlParseChunk] using hreg 0 (by simp)
    have h1 := saxDispatch_good hinj hi hp ⟨sockid, h0⟩ ev
    have h2 := ih (saxDispatch E w C ev) h1.1 h1.2 (by
      intro i hlt
      have := hreg (i + 1) (by simpa using hlt)
      simpa [xmlParseChunk] using this)
    simpa [xmlParseChunk] using h2

theorem Inv.init (E : Env) (domain secret : String) (s2sport : Int) :
    Inv E (osrfNewChatServer domain secret s2sport) := by
  refine ⟨?_, ?_, ?_, ?_⟩
  · intro k p h
    simp [osrfNewChatServer] at h
  · intro k p h
    simp [osrfNewChatServer] at h
  · intro p _
    rfl
  · intro k p h
    simp [osrfNewChatServer] at h

theorem osrfChatAddNode_eq (w : osrfChatServer) (sockid : Int) (h1 : 1 ≤ sockid)
    (hfree : w.nodeList sockid = none) :
    (osrfChatAddNode w sockid).2 = some w.brk ∧
    (osrfChatAddNode w sockid).1.nodeHash = w.nodeHash ∧
    (osrfChatAddNode w sockid).1.nodeList = Function.update w.nodeList sockid (some w.brk) ∧
    (osrfChatAddNode w sockid).1.brk = w.brk + 1 ∧
    (osrfChatAddNode w sockid).1.connects = w.connects ∧
    (∃ n, (osrfChatAddNode w sockid).1.heap w.brk = some n ∧ n.sockid = sockid) ∧
    (∀ p, p ≠ w.brk → (osrfChatAddNode w sockid).1.heap p = w.heap p) := by
  have h0 : sockid ≠ 0 := by omega
  have hlt : ¬ sockid < 1 := by omega
  simp only [osrfChatAddNode, h0, if_false, osrfNewChatNode, hlt]
  refine ⟨rfl, by simp, by simp [allocNode], by simp, by simp, ?_, ?_⟩
  · refine ⟨{ sockid := sockid, type := 0, state := .NONE, xmlstate := XmlState.zero,
              inparse := false, remote := none, to_ := none, username := none,
              resource := none, domain := w.domain, authkey := none, msgs := none,
              msgDoc := none }, ?_, rfl⟩
    simp only [nodeListSet_fields]
    rw [nodeListRemove_heap_of_ne _ _ _ (by simp [hfree])]
    simp [allocNode]
  · intro p hp
    simp only [nodeListSet_fields]
    rw [nodeListRemove_heap_of_ne _ _ _ (by simp [hfree])]
    simp [allocNode, Function.update_noteq hp]

theorem Inv.addNode {E : Env} {w : osrfChatServer} (hi : Inv E w) (sockid : Int)
    (h1 : 1 ≤ sockid) (hfree : w.nodeList sockid = none)
    (hconn : ∀ i h, w.connects.length ≤ i → E.connect i h ≠ sockid) :
    Inv E (osrfChatAddNode w sockid).1 := by
  obtain ⟨_, e1, e2, e3, e4, ⟨n, hn, hns⟩, e6⟩ := osrfChatAddNode_eq w sockid h1 hfree
  refine ⟨?_, ?_, ?_, ?_⟩
  · intro k p h
    rw [e1] at h
    obtain ⟨m, hm, hr, hl, hs⟩ := hi.hash k p h
    have hp : p ≠ w.brk := ne_of_lt (hi.alive_lt p m hm)
    have hsock : m.sockid ≠ sockid := by
      intro e
      rw [e, hfree] at hl
      exact Option.noConfusion hl
    exact ⟨m, by rw [e6 p hp, hm], hr, by rw [e2, Function.update_noteq hsock]; exact hl, hs⟩
  · intro k p h
    rw [e2] at h
    by_cases hk : k = sockid
    · subst hk
      simp only [Function.update_same] at h
      cases Option.some.inj h
      exact ⟨n, hn, hns⟩
    · rw [Function.update_noteq hk] at h
      obtain ⟨m, hm, hmk⟩ := hi.list k p h
      have hp : p ≠ w.brk := ne_of_lt (hi.alive_lt p m hm)
      exact ⟨m, by rw [e6 p hp, hm], hmk⟩
  · intro p hp
    rw [e3] at hp
    rw [e6 p (by omega)]
    exact hi.unused p (by omega)
  · intro k p h i hh hlen
    rw [e2] at h
    rw [e4] at hlen
    by_cases hk : k = sockid
    · subst hk
      exact hconn i hh hlen
    · rw [Function.update_noteq hk] at h
      exact hi.conn k p h i hh hlen

theorem osrfChatHandleData_eq (E : Env) (w : osrfChatServer) (sockid : Int)
    (data : List SaxEvent) (h0 : sockid ≠ 0) :
    osrfChatHandleData E w sockid data =
      match (dataNode w sockid).2 with
      | some node =>
        if (osrfChatPushData E (dataNode w sockid).1 node data).2 = -1 then
          osrfChatCleanupClients (osrfChatRemoveNode
            (osrfChatSendRaw E (osrfChatPushData E (dataNode w sockid).1 node data).1 node
              E.OSRF_CHAT_PARSE_ERROR).1 node)
        else osrfChatCleanupClients (osrfChatPushData E (dataNode w sockid).1 node data).1
      | none => osrfChatCleanupClients (dataNode w sockid).1 := by
  simp only [osrfChatHandleData, h0, if_false, dataNode]

theorem Inv.lookup {E : Env} {w : osrfChatServer} (hi : Inv E w) (sockid : Int)
    (h1 : 1 ≤ sockid)
    (hconn : w.nodeList sockid = none → ∀ i h, w.connects.length ≤ i → E.connect i h ≠ sockid) :
    Inv E (dataNode w sockid).1 ∧
    ∀ node, (dataNode w sockid).2 = some node →
      (dataNode w sockid).1.nodeList sockid = some node := by
  unfold dataNode
  split
  · rename_i node hnode
    exact ⟨hi, fun p hp => by cases Option.some.inj hp; exact hnode⟩
  · rename_i hnone
    obtain ⟨e0, _, e2, _⟩ := osrfChatAddNode_eq w sockid h1 hnone
    refine ⟨hi.addNode sockid h1 hnone (hconn hnone), ?_⟩
    intro p hp
    rw [e0] at hp
    cases Option.some.inj hp
    rw [e2]
    simp

theorem Inv.cleanup {E : Env} {w : osrfChatServer} (hi : Inv E w) :
    Inv E (osrfChatCleanupClients w) :=
  hi.congr (by simp) (by simp) (by simp) (by simp) (by simp)

/-- A chunk of data on a socket keeps the indices consistent. -/
theorem Inv.handleData {E : Env} {w : osrfChatServer} (hinj : FreshConnects E) (hi : Inv E w)
    (sockid : Int) (data : List SaxEvent) (h1 : 1 ≤ sockid)
    (hconn : w.nodeList sockid = none → ∀ i h, w.connects.length ≤ i → E.connect i h ≠ sockid)
    (hreg : deliveredWhileRegistered E w sockid data) :
    Inv E (osrfChatHandleData E w sockid data) := by
  rw [osrfChatHandleData_eq E w sockid data (by omega)]
  obtain ⟨hi0, hl0⟩ := hi.lookup sockid h1 hconn
  cases hnode : (dataNode w sockid).2 with
  | none => exact hi0.cleanup
  | some node =>
    simp only []
    have hl := hl0 node hnode
    obtain ⟨n, hn, hns⟩ := hi0.list sockid node hl
    -- the parse starts with the node registered and `inparse` set
    have hi1 : Inv E (modifyNode (dataNode w sockid).1 node
        (fun n => { n with inparse := true })) :=
      hi0.modify node _ (fun m _ => ⟨rfl, fun hh => ⟨rfl, hh⟩⟩)
    have hp1 : Parsing E (modifyNode (dataNode w sockid).1 node
        (fun n => { n with inparse := true })) node := by
      refine ⟨{ n with inparse := true }, by simp [hn], Or.inl ⟨?_, rfl⟩, ?_⟩
      · simpa [hns] using hl
      · intro i h hlen
        simpa [hns] using hi0.conn sockid node hl i h (by simpa using hlen)
    have h2 := xmlParseChunk_good hinj sockid data _ hi1 hp1 (hreg node hnode)
    -- after the parse
    have hi3 : Inv E (modifyNode (xmlParseChunk E (modifyNode (dataNode w sockid).1 node
        (fun n => { n with inparse := true })) node data) node
        (fun n => { n with inparse := false })) :=
      h2.1.modify node _ (fun m _ => ⟨rfl, fun hh => ⟨rfl, hh⟩⟩)
    obtain ⟨c, hc, hcl⟩ := h2.2.loose
    have hloose : ∃ t, (modifyNode (xmlParseChunk E (modifyNode (dataNode w sockid).1 node
        (fun n => { n with inparse := true })) node data) node
        (fun n => { n with inparse := false })).heap node = some t ∧
        ((modifyNode (xmlParseChunk E (modifyNode (dataNode w sockid).1 node
          (fun n => { n with inparse := true })) node data) node
          (fun n => { n with inparse := false })).nodeList t.sockid = some node ∨
         (modifyNode (xmlParseChunk E (modifyNode (dataNode w sockid).1 node
          (fun n => { n with inparse := true })) node data) node
          (fun n => { n with inparse := false })).nodeList t.sockid = none) :=
      ⟨{ c with inparse := false }, by simp [hc], by simpa using hcl⟩
    simp only [osrfChatPushData]
    split
    · simp only [show ((-1 : Int) = -1) from rfl, if_true]
      obtain ⟨t, ht, htl⟩ := hloose
      refine Inv.cleanup (Inv.removeNode (Inv.sendRaw ?_ node _) node t ?_ ?_)
      · exact hi3.congr rfl rfl rfl rfl rfl
      · simpa using ht
      · simpa using htl
    · simp only [show ¬ ((0 : Int) = -1) by decide, if_false]
      exact hi3.cleanup

theorem Inv.socketClosed {E : Env} {w : osrfChatServer} (hi : Inv E w) (sockid : Int) :
    Inv E (osrfChatSocketClosed w sockid) := by
  unfold osrfChatSocketClosed
  split
  · rename_i node hnode
    obtain ⟨n, hn, hns⟩ := hi.list sockid node hnode
    exact hi.removeNode node n hn (Or.inl (by rw [hns]; exact hnode))
  · exact hi

/-- Every reachable state has consistent indices. -/
theorem Reachable.inv {E : Env} (hinj : FreshConnects E) {w : osrfChatServer}
    (hw : Reachable E w) : Inv E w := by
  induction hw with
  | init domain secret s2sport => exact Inv.init E domain secret s2sport
  | data w sockid data _ h1 hconn hreg ih => exact ih.handleData hinj sockid data h1 hconn hreg
  | closed w sockid _ ih => exact ih.socketClosed sockid
  | mux w mgr _ ih => exact ih.congr rfl rfl rfl rfl rfl

theorem sampleEnvFresh_fresh : FreshConnects sampleEnvFresh := by
  intro i j h h' _ e
  simp only [sampleEnvFresh, sampleEnv] at e
  omega

theorem sampleEnvFresh_ne_5 : ∀ (i : Nat) (h : String), sampleEnvFresh.connect i h ≠ 5 := by
  intro i h
  simp only [sampleEnvFresh, sampleEnv]
  omega

theorem sampleRun1_reachable : Reachable sampleEnvFresh sampleRun1 := by
  refine Reachable.data _ 5 _ (Reachable.init "ex.org" "secret" 5269) (by decide)
    (fun _ i h _ => sampleEnvFresh_ne_5 i h) ?_
  intro node hnode
  have h0 : (dataNode (osrfNewChatServer "ex.org" "secret" 5269) 5).2 = some 0 := by decide!
  rw [h0] at hnode
  cases Option.some.inj hnode
  decide!

theorem sampleRun2_reachable : Reachable sampleEnvFresh sampleRun2 := by
  refine Reachable.data _ 5 _ sampleRun1_reachable (by decide)
    (fun _ i h _ => sampleEnvFresh_ne_5 i h) ?_
  intro node hnode
  have h0 : (dataNode sampleRun1 5).2 = some 0 := by decide!
  rw [h0] at hnode
  cases Option.some.inj hnode
  decide!

theorem sampleRun3_reachable : Reachable sampleEnvFresh sampleRun3 := by
  refine Reachable.data _ 100 _ sampleRun2_reachable (by decide)
    (fun h => absurd h (by decide!)) ?_
  intro node hnode
  have h0 : (dataNode sampleRun2 100).2 = some 1 := by decide!
  rw [h0] at hnode
  cases Option.some.inj hnode
  decide!

/-- C10 fails on the code: a client on socket 5 sends, in one chunk, a stream opening, an
element named `stream:stream` and a login. The end of the inner element removes the node from
`nodeList` and closes socket 5; the login that follows binds `u@ex.org/r` in `nodeHash` to that
node. After `osrfChatHandleData` returns, the node bound in `nodeHash` is not stored in
`nodeList` at its socket id 5. -/
theorem C10_login_after_removal :
    (osrfChatHandleData sampleEnvOk (osrfNewChatServer "ex.org" "secret" 5269) 5
        closeThenLoginChunk).nodeHash "u@ex.org/r" = some 0 ∧
    ((osrfChatHandleData sampleEnvOk (osrfNewChatServer "ex.org" "secret" 5269) 5
        closeThenLoginChunk).heap 0).map (fun n => (n.sockid, n.state)) =
      some (5, OSRF_CHAT_STATE.CONNECTED) ∧
    (osrfChatHandleData sampleEnvOk (osrfNewChatServer "ex.org" "secret" 5269) 5
        closeThenLoginChunk).nodeList 5 = none ∧
    (osrfChatHandleData sampleEnvOk (osrfNewChatServer "ex.org" "secret" 5269) 5
        closeThenLoginChunk).closed = [5] := by
  decide!

/-! ## The login transition -/

/-- The state after the end of `iq` on a node that is logging in. -/
theorem endElementConnecting_login (E : Env) (w : osrfChatServer) (p : Nat) (n : osrfChatNode)
    (r : String) (hn : w.heap p = some n) (hs : n.state = .CONNECTING)
    (hiq : n.xmlstate.INIQ = true)
    (hr : fmtS n.username ++ "@" ++ n.domain ++ "/" ++ fmtS n.resource = r) :
    (endElementConnecting E w p "iq").heap = Function.update w.heap p
      (some { n with xmlstate := { n.xmlstate with INIQ := false }, remote := some r,
                     state := .CONNECTED }) ∧
    (endElementConnecting E w p "iq").nodeHash = Function.update w.nodeHash r (some p) ∧
    (endElementConnecting E w p "iq").nodeList = w.nodeList ∧
    (endElementConnecting E w p "iq").sent = w.sent ++ [(n.sockid, E.OSRF_CHAT_LOGIN_OK)] ∧
    (endElementConnecting E w p "iq").deadNodes = w.deadNodes ∧
    (endElementConnecting E w p "iq").mgr = w.mgr ∧
    (endElementConnecting E w p "iq").xmlError = w.xmlError := by
  simp only [endElementConnecting, hn, hs, hiq, and_self, if_true, hr]
  have hraw := osrfChatSendRaw_eq E (modifyNode w p fun n =>
      { n with xmlstate := { n.xmlstate with INIQ := false }, remote := some r }) p
      { n with xmlstate := { n.xmlstate with INIQ := false }, remote := some r }
      E.OSRF_CHAT_LOGIN_OK (by simp [hn])
  have he : (osrfChatSendRaw E (modifyNode w p fun n =>
      { n with xmlstate := { n.xmlstate with INIQ := false }, remote := some r }) p
      E.OSRF_CHAT_LOGIN_OK).1.nodeHash r = w.nodeHash r := by simp
  rw [he]
  cases w.nodeHash r <;> simp [hn, hraw.1]

/-! ## Which nodes are bound when they become connected -/

/-- C11 (as amended): a client node that completes its login is the value of `nodeHash` under
its `remote` when its state is `CONNECTED`. An S2S node is not entered in `nodeHash` when it
becomes `CONNECTED`. An outbound node (state `S2S_VERIFY_FINAL`) that receives the final
`db:result` is the value under its `remote` then, when it still was before (the binding
`osrfChatInitS2S` made was not removed since) and its queue, of stanzas for that domain, is
sent without a failure. An inbound node (state `S2S_VERIFY_RESPONSE`) that receives `db:verify`
becomes `CONNECTED` with `nodeHash` left as it was. -/
theorem C11_connected_is_bound (E : Env) (w : osrfChatServer) (p : Nat) (n : osrfChatNode)
    (hn : w.heap p = some n) :
    (n.state = .CONNECTING → n.xmlstate.INIQ = true →
      ∃ n', (osrfChatEndElement E w p "iq").heap p = some n' ∧ n'.state = .CONNECTED ∧
        n'.remote = some (fmtS n.username ++ "@" ++ n.domain ++ "/" ++ fmtS n.resource) ∧
        (osrfChatEndElement E w p "iq").nodeHash
          (fmtS n.username ++ "@" ++ n.domain ++ "/" ++ fmtS n.resource) = some p) ∧
    (n.state = .S2S_VERIFY_FINAL →
      ∀ (r : String) (q : List String) (atts : List (String × String)),
        n.remote = some r → w.nodeHash r = some p → r ≠ w.domain → n.msgs = some q →
        (∀ x ∈ q, ∃ doc toAddr, E.xmlParseMemory x = some doc ∧
          xmlGetProp (some doc) "to" = some toAddr ∧ jid_get_domain toAddr = r) →
        (∀ i x, q[i]? = some x → E.send (w.sent.length + i) n.sockid x = true) →
        ∃ n', (osrfChatStartElement E w p "db:result" atts).heap p = some n' ∧
          n'.state = .CONNECTED ∧ n'.remote = some r ∧
          (osrfChatStartElement E w p "db:result" atts).nodeHash r = some p) ∧
    (n.state = .S2S_VERIFY_RESPONSE →
      ∀ atts : List (String × String),
        ∃ n', (osrfChatStartElement E w p "db:verify" atts).heap p = some n' ∧
          n'.state = .CONNECTED ∧ n'.remote = n.remote ∧
          (osrfChatStartElement E w p "db:verify" atts).nodeHash = w.nodeHash) := by
  refine ⟨?_, ?_, ?_⟩
  · intro hs hiq
    have hne : ("iq" : String) ≠ "stream:stream" := by decide
    have h1 : endElementConnected E w p "iq" = w := by
      simp [endElementConnected, hn, hs]
    have hl := endElementConnecting_login E w p n _ hn hs hiq rfl
    simp only [osrfChatEndElement, hne, if_false, h1]
    refine ⟨{ n with xmlstate := { n.xmlstate with INIQ := false },
                     remote := some (fmtS n.username ++ "@" ++ n.domain ++ "/" ++ fmtS n.resource),
                     state := .CONNECTED }, ?_, rfl, rfl, ?_⟩
    · rw [hl.1]; simp
    · rw [hl.2.1]; simp
  · intro hs r q atts hr hh hd hq hparse hsend
    have hne : ("db:result" : String) ≠ "db:verify" := by decide
    have hfl := flushMsgs_ok E p { n with state := .CONNECTED } r q
      (modifyNode w p (fun n => { n with state := .CONNECTED }))
      (by simp [hn]) rfl (by simpa using hh) (by simpa using hd) hparse
      (by simpa using hsend)
    simp only [osrfChatStartElement, hn, hs, osrfChatHandleS2SConnected, hne, if_false,
      if_true, hq, Option.getD_some]
    simp only [ne_eq, not_true_eq_false, if_false]
    refine ⟨{ n with state := .CONNECTED, msgs := none, xmlstate := XmlState.zero }, ?_, rfl,
      hr, ?_⟩
    · simp [hfl.2.1, hn]
    · simpa [hfl.2.2.1] using hh
  · intro hs atts
    simp only [osrfChatStartElement, hn, hs, osrfChatHandleS2SConnected, if_true]
    simp only [ne_eq, not_true_eq_false, if_false]
    refine ⟨{ n with state := .CONNECTED, xmlstate := XmlState.zero }, ?_, rfl, rfl, ?_⟩
    · simp [osrfChatSendRaw_eq E w p n _ hn, hn]
    · simp

/-- Instance of C11: on the sample server the node at address 1 (socket 6), when it is logging
in as `b@ex.org/r2`, is bound under that name at the end of `iq`; and the outbound node for
`peer.org` (address 2, socket 7, bound under `peer.org`, two stanzas queued) is still bound
under `peer.org` when the final `db:result` has made it `CONNECTED`. -/
theorem C11_connected_is_bound_witness :
    (∃ n', (osrfChatEndElement sampleEnvOk
        (modifyNode sampleServer 1 (fun n =>
          { n with state := .CONNECTING, xmlstate := { n.xmlstate with INIQ := true },
                   username := some "b", resource := some "r2" })) 1 "iq").heap 1 = some n' ∧
      n'.state = .CONNECTED ∧ n'.remote = some "b@ex.org/r2" ∧
      (osrfChatEndElement sampleEnvOk
        (modifyNode sampleServer 1 (fun n =>
          { n with state := .CONNECTING, xmlstate := { n.xmlstate with INIQ := true },
                   username := some "b", resource := some "r2" })) 1 "iq").nodeHash
        "b@ex.org/r2" = some 1) ∧
    (∃ n', (osrfChatStartElement sampleEnvOk
        (sampleServerS2S .S2S_VERIFY_FINAL ["<m1/>", "<m2/>"]) 2 "db:result" []).heap 2 =
          some n' ∧
      n'.state = .CONNECTED ∧ n'.remote = some "peer.org" ∧
      (osrfChatStartElement sampleEnvOk
        (sampleServerS2S .S2S_VERIFY_FINAL ["<m1/>", "<m2/>"]) 2 "db:result" []).nodeHash
        "peer.org" = some 2) :=
  ⟨(C11_connected_is_bound sampleEnvOk
    (modifyNode sampleServer 1 (fun n =>
      { n with state := .CONNECTING, xmlstate := { n.xmlstate with INIQ := true },
               username := some "b", resource := some "r2" })) 1
    { sampleClient 6 "b@ex.org/r2" with
      state := .CONNECTING, xmlstate := { XmlState.zero with INIQ := true },
      username := some "b", resource := some "r2" } (by decide)).1 rfl rfl,
   (C11_connected_is_bound sampleEnvOk (sampleServerS2S .S2S_VERIFY_FINAL ["<m1/>", "<m2/>"]) 2
    (samplePeer .S2S_VERIFY_FINAL ["<m1/>", "<m2/>"]) (by decide)).2.1 rfl "peer.org"
    ["<m1/>", "<m2/>"] [] rfl (by decide) (by decide) rfl
    (fun _ _ => ⟨_, "c@peer.org", rfl, by decide, by decide⟩)
    (fun _ _ _ => rfl)⟩

/-- C11 fails as stated, for both kinds of S2S node. Inbound: the peer `peer.org` completes
the handshake on socket 5 of a new server; its node (address 0) is `CONNECTED` with `remote`
`peer.org`, is stored in `nodeList`, and `nodeHash` holds nothing under `peer.org`. Outbound:
in the run `sampleRunUnbound` the outbound node (address 1, descriptor 100) lost its binding
when an inbound link of the same peer was closed; after the final `db:result` it is
`CONNECTED` with `remote` `peer.org`, and `nodeHash` leads from `peer.org` to another node
(address 3), which is in `S2S_CHALLENGE`. -/
theorem C11_inbound_counterexample :
    (sampleInbound.heap 0).map (fun n => (n.state, n.remote, n.type)) =
      some (OSRF_CHAT_STATE.CONNECTED, some "peer.org", 1) ∧
    sampleInbound.nodeList 5 = some 0 ∧
    sampleInbound.nodeHash "peer.org" = none ∧
    sampleInbound.sent.map Prod.fst = [5, 5, 5] ∧
    (sampleRunUnbound.heap 1).map (fun n => (n.state, n.remote, n.type)) =
      some (OSRF_CHAT_STATE.CONNECTED, some "peer.org", 1) ∧
    sampleRunUnbound.nodeList 100 = some 1 ∧
    sampleRunUnbound.nodeHash "peer.org" = some 3 ∧
    (sampleRunUnbound.heap 3).map (fun n => n.state) = some OSRF_CHAT_STATE.S2S_CHALLENGE := by
  decide!

/-! ## Two logins under one name -/

/-- C12: when the node `B` completes its login with a user name and a resource under which a
node `A` is bound in `nodeHash`, afterwards `nodeHash` maps that name to `B`, while `A` is
still stored in `nodeList` at its own socket id and its record, the state included, is
unchanged. -/
theorem C12_name_collision (E : Env) (w : osrfChatServer) (A B : Nat) (a b : osrfChatNode)
    (u res : String)
    (hA : w.heap A = some a) (hB : w.heap B = some b) (hne : A ≠ B)
    (hs : b.state = .CONNECTING) (hiq : b.xmlstate.INIQ = true)
    (hu : b.username = some u) (hres : b.resource = some res)
    (_hhash : w.nodeHash (u ++ "@" ++ b.domain ++ "/" ++ res) = some A)
    (hlist : w.nodeList a.sockid = some A) :
    (osrfChatEndElement E w B "iq").nodeHash (u ++ "@" ++ b.domain ++ "/" ++ res) = some B ∧
    (osrfChatEndElement E w B "iq").nodeList a.sockid = some A ∧
    (osrfChatEndElement E w B "iq").heap A = some a ∧
    ((osrfChatEndElement E w B "iq").heap B).map (fun n => n.state) = some .CONNECTED := by
  have hne2 : ("iq" : String) ≠ "stream:stream" := by decide
  have h1 : endElementConnected E w B "iq" = w := by
    simp [endElementConnected, hB, hs]
  have hl := endElementConnecting_login E w B b (u ++ "@" ++ b.domain ++ "/" ++ res) hB hs hiq
    (by simp [hu, hres, fmtS])
  simp only [osrfChatEndElement, hne2, if_false, h1]
  refine ⟨?_, ?_, ?_, ?_⟩
  · rw [hl.2.1]; simp
  · rw [hl.2.2.1]; exact hlist
  · rw [hl.1, Function.update_noteq hne]; exact hA
  · rw [hl.1]; simp

/-- Instance of C12: on the sample server `a@ex.org/r1` is the node at address 0 (socket 5);
the node at address 1 logs in under the same name and takes the binding over, the node at
address 0 stays in `nodeList` at socket 5 as it was. -/
theorem C12_name_collision_witness :
    (osrfChatEndElement sampleEnvOk (sampleServerLogin (some "a") (some "r1")) 1
      "iq").nodeHash "a@ex.org/r1" = some 1 ∧
    (osrfChatEndElement sampleEnvOk (sampleServerLogin (some "a") (some "r1")) 1
      "iq").nodeList 5 = some 0 ∧
    (osrfChatEndElement sampleEnvOk (sampleServerLogin (some "a") (some "r1")) 1
      "iq").heap 0 = some sampleSender :=
  have h := C12_name_collision sampleEnvOk (sampleServerLogin (some "a") (some "r1")) 0 1
    sampleSender
    { sampleClient 6 "b@ex.org/r2" with
      state := .CONNECTING, xmlstate := { XmlState.zero with INIQ := true }, remote := none,
      username := some "a", resource := some "r1" }
    "a" "r1" (by decide) (by decide) (by decide) rfl rfl rfl rfl (by decide) (by decide)
  ⟨h.1, h.2.1, h.2.2.1⟩

/-- The same on a run from the initial state: after the two logins as `a@ex.org/r1`, on socket
5 and then on socket 6, the name is bound to the second node (address 1), and the first node
(address 0) is still stored at socket 5, connected. -/
theorem sampleRunTwice_collision :
    sampleRunTwice.nodeHash "a@ex.org/r1" = some 1 ∧
    sampleRunTwice.nodeList 5 = some 0 ∧ sampleRunTwice.nodeList 6 = some 1 ∧
    (sampleRunTwice.heap 0).map (fun n => (n.state, n.remote)) =
      some (OSRF_CHAT_STATE.CONNECTED, some "a@ex.org/r1") ∧
    (sampleRun1.heap 0).map (fun n => (n.state, n.remote)) =
      some (OSRF_CHAT_STATE.CONNECTED, some "a@ex.org/r1") := by
  decide!

/-! ## A login without user name or resource -/

/-- C13 fails on the code: a client opens its stream on socket 5 of a new server
and sends an `iq` without user name and without resource. At the end of `iq` its node (address
0) is `CONNECTED` all the same: `remote` is the text printed for the two `NULL` strings, the
login answer is sent, and `nodeHash` binds that text to the node. The same happens on the
sample server when only the resource is missing. -/
theorem C13_login_without_name :
    (sampleRunNoName.heap 0).map (fun n => (n.state, n.username, n.resource, n.remote)) =
      some (OSRF_CHAT_STATE.CONNECTED, none, none, some "(null)@ex.org/(null)") ∧
    sampleRunNoName.nodeHash "(null)@ex.org/(null)" = some 0 ∧
    sampleRunNoName.nodeList 5 = some 0 ∧
    sampleRunNoName.sent =
      [(5, "START_STREAM ex.org H(17000000004242host)"), (5, "LOGIN_OK")] ∧
    ((osrfChatEndElement sampleEnvOk (sampleServerLogin (some "b") none) 1 "iq").heap 1).map
        (fun n => (n.state, n.remote)) =
      some (OSRF_CHAT_STATE.CONNECTED, some "b@ex.org/(null)") := by
  decide!

/-! ## The opening of a client stream -/

/-- C14: a node in state `NONE` (its `domain` is the server's, as `osrfChatAddNode` sets it)
receives the start of `stream:stream` with `xmlns` `jabber:client`. When the attribute `to` is
the server's domain, the node enters `CONNECTING`, the key minted is stored as its `authkey`
and the opening stanza of the stream with that key is sent on its socket, without an error.
When `to` is another domain or is absent, the state stays `NONE`, nothing is sent, and the
error flag is raised. So the node enters `CONNECTING` exactly when `to` is the server's
domain. -/
theorem C14_client_stream_open (E : Env) (w : osrfChatServer) (p : Nat) (n : osrfChatNode)
    (atts : List (String × String))
    (hn : w.heap p = some n) (hs : n.state = .NONE) (hd : n.domain = w.domain)
    (hns : xmlSaxAttr atts "xmlns" = some "jabber:client") :
    (xmlSaxAttr atts "to" = some w.domain →
      (osrfChatStartElement E w p "stream:stream" atts).heap p =
        some { n with state := .CONNECTING, authkey := some (E.shahash (E.keybuf w.nkeys)) } ∧
      (osrfChatStartElement E w p "stream:stream" atts).sent = w.sent ++
        [(n.sockid, E.OSRF_CHAT_START_STREAM w.domain (E.shahash (E.keybuf w.nkeys)))] ∧
      (osrfChatStartElement E w p "stream:stream" atts).xmlError = w.xmlError) ∧
    (xmlSaxAttr atts "to" ≠ some w.domain →
      ((osrfChatStartElement E w p "stream:stream" atts).heap p).map (fun m => m.state) =
        some .NONE ∧
      (osrfChatStartElement E w p "stream:stream" atts).sent = w.sent ∧
      (osrfChatStartElement E w p "stream:stream" atts).xmlError = true) ∧
    (((osrfChatStartElement E w p "stream:stream" atts).heap p).map (fun m => m.state) =
        some .CONNECTING ↔ xmlSaxAttr atts "to" = some w.domain) := by
  have key : ∀ o : Option String, xmlSaxAttr atts "to" = o →
      (o = some w.domain →
        (osrfChatStartElement E w p "stream:stream" atts).heap p =
          some { n with state := .CONNECTING,
                        authkey := some (E.shahash (E.keybuf w.nkeys)) } ∧
        (osrfChatStartElement E w p "stream:stream" atts).sent = w.sent ++
          [(n.sockid, E.OSRF_CHAT_START_STREAM w.domain (E.shahash (E.keybuf w.nkeys)))] ∧
        (osrfChatStartElement E w p "stream:stream" atts).xmlError = w.xmlError) ∧
      (o ≠ some w.domain →
        ((osrfChatStartElement E w p "stream:stream" atts).heap p).map (fun m => m.state) =
          some .NONE ∧
        (osrfChatStartElement E w p "stream:stream" atts).sent = w.sent ∧
        (osrfChatStartElement E w p "stream:stream" atts).xmlError = true) := by
    intro o ho
    cases o with
    | none =>
      refine ⟨fun h => Option.noConfusion h, fun _ => ?_⟩
      simp [osrfChatStartElement, hn, hs, osrfChatHandleNewConnection, hns, ho,
        osrfChatMkAuthKey]
    | some d =>
      by_cases hdd : d = w.domain
      · subst hdd
        refine ⟨fun _ => ?_, fun h => absurd rfl h⟩
        have hraw := osrfChatSendRaw_eq E
          (modifyNode (modifyNode (osrfChatMkAuthKey E w).1 p
            (fun m => { m with authkey := some (osrfChatMkAuthKey E w).2 })) p
            (fun m => { m with state := .CONNECTING })) p
          { n with state := .CONNECTING, authkey := some (E.shahash (E.keybuf w.nkeys)) }
          (E.OSRF_CHAT_START_STREAM w.domain (E.shahash (E.keybuf w.nkeys)))
          (by simp [hn, osrfChatMkAuthKey])
        simp only [osrfChatStartElement, hn, hs, osrfChatHandleNewConnection, hns, ho, hd,
          ne_eq, not_true_eq_false, if_false, if_true]
        refine ⟨?_, ?_, ?_⟩
        · simp [hn, osrfChatMkAuthKey, hd]
        · simpa [osrfChatMkAuthKey] using hraw.1
        · simp [osrfChatMkAuthKey]
      · refine ⟨fun h => absurd (Option.some.inj h) hdd, fun _ => ?_⟩
        simp [osrfChatStartElement, hn, hs, osrfChatHandleNewConnection, hns, ho, hd, hdd,
          osrfChatMkAuthKey]
  have k := key _ rfl
  refine ⟨k.1, k.2, ?_⟩
  constructor
  · intro h
    by_contra hc
    rw [(k.2 hc).1] at h
    exact absurd h (by decide)
  · intro h
    rw [(k.1 h).1]
    rfl

/-- Instance of C14: a new node on socket 5 of a new server for `ex.org` that opens a client
stream to `ex.org` enters `CONNECTING` and is sent the opening stanza with its key. -/
theorem C14_client_stream_open_witness :
    ((osrfChatStartElement sampleEnvOk
        (osrfChatAddNode (osrfNewChatServer "ex.org" "secret" 5269) 5).1 0 "stream:stream"
        [("xmlns", "jabber:client"), ("to", "ex.org")]).heap 0).map (fun m => m.state) =
      some .CONNECTING ∧
    (osrfChatStartElement sampleEnvOk
        (osrfChatAddNode (osrfNewChatServer "ex.org" "secret" 5269) 5).1 0 "stream:stream"
        [("xmlns", "jabber:client"), ("to", "ex.org")]).sent =
      [(5, "START_STREAM ex.org H(17000000004242host)")] ∧
    ((osrfChatStartElement sampleEnvOk
        (osrfChatAddNode (osrfNewChatServer "ex.org" "secret" 5269) 5).1 0 "stream:stream"
        [("xmlns", "jabber:client"), ("to", "other.org")]).heap 0).map (fun m => m.state) =
      some .NONE ∧
    (osrfChatStartElement sampleEnvOk
        (osrfChatAddNode (osrfNewChatServer "ex.org" "secret" 5269) 5).1 0 "stream:stream"
        [("xmlns", "jabber:client"), ("to", "other.org")]).xmlError = true :=
  have h1 := C14_client_stream_open sampleEnvOk
    (osrfChatAddNode (osrfNewChatServer "ex.org" "secret" 5269) 5).1 0
    { sockid := 5, type := 0, state := .NONE, xmlstate := XmlState.zero, inparse := false,
      remote := none, to_ := none, username := none, resource := none, domain := "ex.org",
      authkey := none, msgs := none, msgDoc := none }
    [("xmlns", "jabber:client"), ("to", "ex.org")] (by decide) rfl rfl (by decide)
  have h2 := C14_client_stream_open sampleEnvOk
    (osrfChatAddNode (osrfNewChatServer "ex.org" "secret" 5269) 5).1 0
    { sockid := 5, type := 0, state := .NONE, xmlstate := XmlState.zero, inparse := false,
      remote := none, to_ := none, username := none, resource := none, domain := "ex.org",
      authkey := none, msgs := none, msgDoc := none }
    [("xmlns", "jabber:client"), ("to", "other.org")] (by decide) rfl rfl (by decide)
  ⟨h1.2.2.2 (by decide), (h1.1 (by decide)).2.1, (h2.2.1 (by decide)).1,
    (h2.2.1 (by decide)).2.2⟩

/-! ## The key of the S2S handshake -/

/-- C15 (as amended): an outbound S2S node in state `S2S_CHALLENGE` that receives the start of
`stream:stream` with the stream id `id` sends, in the `db:result` stanza addressed to its
`remote`, the digest of (the digest of (the digest of the secret, followed by the node's own
`domain`), followed by `id`), and enters `S2S_VERIFY`. The domain that enters the key is the
initiator's own, not the remote one. -/
theorem C15_initiator_key (E : Env) (w : osrfChatServer) (p : Nat) (n : osrfChatNode)
    (atts : List (String × String)) (id : String)
    (hn : w.heap p = some n) (hs : n.state = .S2S_CHALLENGE)
    (hid : xmlSaxAttr atts "id" = some id) :
    (osrfChatStartElement E w p "stream:stream" atts).sent = w.sent ++
      [(n.sockid, E.OSRF_CHAT_S2S_RESPONSE (fmtS n.remote) n.domain
        (E.shahash (E.shahash (E.shahash w.secret ++ n.domain) ++ id)))] ∧
    (osrfChatStartElement E w p "stream:stream" atts).heap p =
      some { n with state := .S2S_VERIFY } ∧
    (osrfChatStartElement E w p "stream:stream" atts).xmlError = w.xmlError := by
  have hraw := osrfChatSendRaw_eq E w p n
    (E.OSRF_CHAT_S2S_RESPONSE (fmtS n.remote) n.domain
      (E.shahash (E.shahash (E.shahash w.secret ++ n.domain) ++ id))) hn
  simp only [osrfChatStartElement, hn, hs, osrfChatHandleS2SChallenge, if_true, hid,
    osrfChatGenerateS2SKey, fmtS]
  simp only [ne_eq, not_true_eq_false, if_false]
  refine ⟨?_, ?_, ?_⟩
  · simpa [fmtS] using hraw.1
  · simp [hn]
  · simp

/-- Instance of C15: the outbound node of `ex.org` for `peer.org` (socket 7) answers the
stream id `id1` with the key built from `ex.org`. -/
theorem C15_initiator_key_witness :
    (osrfChatStartElement sampleEnvOk (sampleServerS2S .S2S_CHALLENGE []) 2 "stream:stream"
      [("id", "id1")]).sent =
      [(7, "S2S_RESPONSE peer.org ex.org H(H(H(secret)ex.org)id1)")] :=
  (C15_initiator_key sampleEnvOk (sampleServerS2S .S2S_CHALLENGE []) 2
    (samplePeer .S2S_CHALLENGE []) [("id", "id1")] "id1" (by decide) rfl (by decide)).1

/-- C15 fails as stated: for the initiator `ex.org` and the responder `peer.org`
the stanza sent holds the key built from `ex.org`; the stanza with the key built from the
responder's domain `peer.org` is another one. -/
theorem C15_remote_domain_counterexample :
    (osrfChatStartElement sampleEnvOk (sampleServerS2S .S2S_CHALLENGE []) 2 "stream:stream"
      [("id", "id1")]).sent =
      [(7, sampleEnvOk.OSRF_CHAT_S2S_RESPONSE "peer.org" "ex.org"
        (sampleKey "secret" "ex.org" "id1"))] ∧
    (osrfChatStartElement sampleEnvOk (sampleServerS2S .S2S_CHALLENGE []) 2 "stream:stream"
      [("id", "id1")]).sent ≠
      [(7, sampleEnvOk.OSRF_CHAT_S2S_RESPONSE "peer.org" "ex.org"
        (sampleKey "secret" "peer.org" "id1"))] ∧
    sampleKey "secret" "ex.org" "id1" ≠ sampleKey "secret" "peer.org" "id1" := by
  decide!

/-! ## The transitions of the S2S handshake -/

/-- A send through a node that is allocated only extends the record of the sends. -/
theorem osrfChatSendRaw_state (E : Env) (w : osrfChatServer) (p : Nat) (n : osrfChatNode)
    (m : String) (hn : w.heap p = some n) :
    (osrfChatSendRaw E w p m).1 = { w with sent := w.sent ++ [(n.sockid, m)] } := by
  simp [osrfChatSendRaw, hn, socket_send_timeout]

theorem Stepped.heap_eq {w w1 : osrfChatServer} {p : Nat} {n : osrfChatNode}
    {ms : List (Int × String)} (h : Stepped w w1 p n ms) : w1.heap p = some n := by
  rw [h.1]; simp

theorem Stepped.trans {w w1 w2 : osrfChatServer} {p : Nat} {n1 n2 : osrfChatNode}
    {ms1 ms2 : List (Int × String)} (h1 : Stepped w w1 p n1 ms1) (h2 : Stepped w1 w2 p n2 ms2) :
    Stepped w w2 p n2 (ms1 ++ ms2) := by
  obtain ⟨a1, a2, a3, a4, a5, a6, a7, a8⟩ := h1
  obtain ⟨b1, b2, b3, b4, b5, b6, b7, b8⟩ := h2
  refine ⟨?_, ?_, ?_, ?_, ?_, ?_, ?_, ?_⟩
  · rw [b1, a1]; simp
  · rw [b2, a2]; simp
  · rw [b3, a3]
  · rw [b4, a4]
  · rw [b5, a5]
  · rw [b6, a6]
  · rw [b7, a7]
  · rw [b8, a8]

/-- A new inbound node that receives a stream opening in the namespace `jabber:server` mints
its key, sends the challenge and enters `S2S_RESPONSE`. -/
theorem startElement_s2s_open (E : Env) (w : osrfChatServer) (p : Nat) (n : osrfChatNode)
    (atts : List (String × String))
    (hn : w.heap p = some n) (hs : n.state = .NONE)
    (hns : xmlSaxAttr atts "xmlns" = some "jabber:server") :
    Stepped w (osrfChatStartElement E w p "stream:stream" atts) p
      { n with authkey := some (E.shahash (E.keybuf w.nkeys)), state := .S2S_RESPONSE, type := 1 }
      [(n.sockid, E.OSRF_CHAT_S2S_CHALLENGE (E.shahash (E.keybuf w.nkeys)))] := by
  have hne : ("jabber:server" : String) ≠ "jabber:client" := by decide
  have hraw := osrfChatSendRaw_state E
    (modifyNode (osrfChatMkAuthKey E w).1 p
      (fun m => { m with authkey := some (osrfChatMkAuthKey E w).2 })) p
    { n with authkey := some (E.shahash (E.keybuf w.nkeys)) }
    (E.OSRF_CHAT_S2S_CHALLENGE (E.shahash (E.keybuf w.nkeys)))
    (by simp [hn, osrfChatMkAuthKey])
  simp only [osrfChatStartElement, hn, hs, osrfChatHandleNewConnection, hns, hne,
    ne_eq, not_true_eq_false, if_false, if_true]
  simp only [osrfChatMkAuthKey] at hraw ⊢
  rw [hraw]
  simp [Stepped, modifyNode, hn]

/-- An outbound node in `S2S_CHALLENGE` that receives the stream id answers with its key and
enters `S2S_VERIFY`. -/
theorem startElement_s2s_challenge (E : Env) (w : osrfChatServer) (p : Nat) (n : osrfChatNode)
    (atts : List (String × String)) (id : String)
    (hn : w.heap p = some n) (hs : n.state = .S2S_CHALLENGE)
    (hid : xmlSaxAttr atts "id" = some id) :
    Stepped w (osrfChatStartElement E w p "stream:stream" atts) p
      { n with state := .S2S_VERIFY }
      [(n.sockid, E.OSRF_CHAT_S2S_RESPONSE (fmtS n.remote) n.domain
        (E.shahash (E.shahash (E.shahash w.secret ++ n.domain) ++ id)))] := by
  have hraw := osrfChatSendRaw_state E w p n
    (E.OSRF_CHAT_S2S_RESPONSE (fmtS n.remote) n.domain
      (E.shahash (E.shahash (E.shahash w.secret ++ n.domain) ++ id))) hn
  simp only [osrfChatStartElement, hn, hs, osrfChatHandleS2SChallenge, if_true, hid,
    osrfChatGenerateS2SKey]
  simp only [ne_eq, not_true_eq_false, if_false]
  simp only [fmtS, Option.getD_some] at hraw ⊢
  rw [hraw]
  simp [Stepped, modifyNode, hn]

/-- An inbound node in `S2S_RESPONSE` that receives the start of `db:result` stores the
attribute `from` as its `remote` and waits for the key. -/
theorem startElement_s2s_result (E : Env) (w : osrfChatServer) (p : Nat) (n : osrfChatNode)
    (atts : List (String × String)) (f : String)
    (hn : w.heap p = some n) (hs : n.state = .S2S_RESPONSE)
    (hf : xmlSaxAttr atts "from" = some f) :
    Stepped w (osrfChatStartElement E w p "db:result" atts) p
      { n with remote := some f, xmlstate := { n.xmlstate with INS2SRESULT := true } }
      [] := by
  simp [osrfChatStartElement, hn, hs, hf, modifyNode, Stepped]

/-- An inbound node that waits for the key and receives the text it computes itself asks for
the verification and enters `S2S_VERIFY_RESPONSE`. -/
theorem characters_s2s_key (E : Env) (w : osrfChatServer) (p : Nat) (n : osrfChatNode)
    (f k key : String)
    (hn : w.heap p = some n) (hs : n.state = .S2S_RESPONSE)
    (hx : n.xmlstate.INS2SRESULT = true) (hr : n.remote = some f) (hk : n.authkey = some k)
    (hkey : key = E.shahash (E.shahash (E.shahash w.secret ++ f) ++ k))
    (hlen : key.length ≠ 0) :
    Stepped w (osrfChatHandleCharacter E w p key) p
      { n with state := .S2S_VERIFY_RESPONSE, xmlstate := XmlState.zero }
      [(n.sockid, E.OSRF_CHAT_S2S_VERIFY_REQUEST k n.domain f key)] := by
  subst hkey
  have hraw := osrfChatSendRaw_state E w p n
    (E.OSRF_CHAT_S2S_VERIFY_REQUEST k n.domain f
      (E.shahash (E.shahash (E.shahash w.secret ++ f) ++ k))) hn
  simp only [osrfChatHandleCharacter, hn, hs, hx, hr, hk, hlen, if_false, and_self, if_true,
    osrfChatGenerateS2SKey, eq, decide_True, fmtS, Option.getD_some]
  simp only [reduceCtorEq, if_false]
  rw [hraw]
  simp [Stepped, modifyNode, hn, hr, hk]

/-- An outbound node in `S2S_VERIFY` that receives `db:verify` with an id echoes it and enters
`S2S_VERIFY_FINAL`. -/
theorem startElement_s2s_verify (E : Env) (w : osrfChatServer) (p : Nat) (n : osrfChatNode)
    (atts : List (String × String)) (id : String)
    (hn : w.heap p = some n) (hs : n.state = .S2S_VERIFY)
    (hid : xmlSaxAttr atts "id" = some id) :
    Stepped w (osrfChatStartElement E w p "db:verify" atts) p
      { n with state := .S2S_VERIFY_FINAL }
      [(n.sockid, E.OSRF_CHAT_S2S_VERIFY_RESPONSE (fmtS n.remote) n.domain id)] := by
  have hraw := osrfChatSendRaw_state E w p n
    (E.OSRF_CHAT_S2S_VERIFY_RESPONSE (fmtS n.remote) n.domain id) hn
  simp only [osrfChatStartElement, hn, hs, if_true, hid]
  simp only [ne_eq, not_true_eq_false, if_false]
  rw [hraw]
  simp [Stepped, modifyNode, hn]

/-- A node in the state `S2S_VERIFY_RESPONSE` or `S2S_VERIFY_FINAL` that receives `db:verify`
sends the final stanza and enters `CONNECTED`; its queue is not touched. -/
theorem startElement_s2s_connected_verify (E : Env) (w : osrfChatServer) (p : Nat)
    (n : osrfChatNode) (atts : List (String × String))
    (hn : w.heap p = some n)
    (hs : n.state = .S2S_VERIFY_RESPONSE ∨ n.state = .S2S_VERIFY_FINAL) :
    Stepped w (osrfChatStartElement E w p "db:verify" atts) p
      { n with state := .CONNECTED, xmlstate := XmlState.zero }
      [(n.sockid, E.OSRF_CHAT_S2S_VERIFY_FINAL n.domain (fmtS n.remote))] := by
  have hraw := osrfChatSendRaw_state E w p n
    (E.OSRF_CHAT_S2S_VERIFY_FINAL n.domain (fmtS n.remote)) hn
  rcases hs with hs | hs
  · simp only [osrfChatStartElement, hn, hs, osrfChatHandleS2SConnected, if_true]
    simp only [ne_eq, not_true_eq_false, if_false]
    rw [hraw]
    simp [Stepped, modifyNode, hn]
  · simp only [osrfChatStartElement, hn, hs, osrfChatHandleS2SConnected, if_true]
    simp only [ne_eq, not_true_eq_false, if_false]
    rw [hraw]
    simp [Stepped, modifyNode, hn]

/-- The end of an element other than `stream:stream` and `message` changes nothing on a node
that is not logging in. -/
theorem osrfChatEndElement_idle (E : Env) (w : osrfChatServer) (p : Nat) (n : osrfChatNode)
    (nm : String) (hn : w.heap p = some n) (hs : n.state ≠ .CONNECTING)
    (h1 : nm ≠ "stream:stream") (h2 : nm ≠ "message") :
    osrfChatEndElement E w p nm = w := by
  have hc : endElementConnected E w p nm = w := by
    simp [endElementConnected, hn, h2]
  simp only [osrfChatEndElement, h1, if_false, hc]
  exact endElementConnecting_of_state E w p nm n hn hs

/-- Character data changes nothing on a node that is past the key check of the handshake. -/
theorem osrfChatHandleCharacter_idle (E : Env) (w : osrfChatServer) (p : Nat)
    (n : osrfChatNode) (ch : String) (hn : w.heap p = some n)
    (h1 : n.state ≠ .CONNECTING) (h2 : n.state ≠ .CONNECTED) (h3 : n.state ≠ .S2S_RESPONSE) :
    osrfChatHandleCharacter E w p ch = w := by
  simp [osrfChatHandleCharacter, hn, h1, h2, h3]

/-- An outbound node in `S2S_VERIFY_FINAL`, bound under its `remote`, that receives the final
`db:result` enters `CONNECTED` and sends its queue, when the sends succeed. -/
theorem startElement_s2s_final_result (E : Env) (w : osrfChatServer) (p : Nat)
    (n : osrfChatNode) (r : String) (q : List String) (atts : List (String × String))
    (hn : w.heap p = some n) (hstate : n.state = .S2S_VERIFY_FINAL) (hq : n.msgs = some q)
    (hhash : w.nodeHash r = some p) (hdom : r ≠ w.domain)
    (hparse : ∀ x ∈ q, ∃ doc toAddr, E.xmlParseMemory x = some doc ∧
        xmlGetProp (some doc) "to" = some toAddr ∧ jid_get_domain toAddr = r)
    (hsend : ∀ i x, q[i]? = some x → E.send (w.sent.length + i) n.sockid x = true) :
    (osrfChatStartElement E w p "db:result" atts).sent =
        w.sent ++ q.map (fun x => (n.sockid, x)) ∧
    (osrfChatStartElement E w p "db:result" atts).heap = Function.update w.heap p
      (some { n with state := .CONNECTED, msgs := none, xmlstate := XmlState.zero }) ∧
    (osrfChatStartElement E w p "db:result" atts).xmlError = w.xmlError ∧
    (osrfChatStartElement E w p "db:result" atts).nodeHash = w.nodeHash ∧
    (osrfChatStartElement E w p "db:result" atts).nodeList = w.nodeList := by
  have hne : ("db:result" : String) ≠ "db:verify" := by decide
  have hfl := flushMsgs_ok E p { n with state := .CONNECTED } r q
    (modifyNode w p (fun n => { n with state := .CONNECTED }))
    (by simp [hn]) rfl (by simpa using hhash) (by simpa using hdom) hparse
    (by simpa using hsend)
  simp only [osrfChatStartElement, hn, hstate, osrfChatHandleS2SConnected, hne, if_false,
    if_true, hq, Option.getD_some]
  simp only [ne_eq, not_true_eq_false, if_false]
  refine ⟨?_, ?_, ?_, ?_, ?_⟩
  · simpa using hfl.1
  · simp [hfl.2.1, hn]
  · simpa using hfl.2.2.2.2.2
  · simpa using hfl.2.2.1
  · simpa using hfl.2.2.2.1

/-- The responder's side of the handshake: a new inbound node that receives the stream
opening, then `db:result` from the domain `f` with the key it computes itself, then
`db:verify`, ends in `CONNECTED`. -/
theorem responder_run (E : Env) (w : osrfChatServer) (R : Nat) (r : osrfChatNode)
    (f key : String) (a1 a2 a3 : List (String × String))
    (hR : w.heap R = some r) (hRs : r.state = .NONE)
    (h1 : xmlSaxAttr a1 "xmlns" = some "jabber:server")
    (h2 : xmlSaxAttr a2 "from" = some f)
    (hkey : key = E.shahash (E.shahash (E.shahash w.secret ++ f) ++
      E.shahash (E.keybuf w.nkeys)))
    (hlen : key.length ≠ 0) :
    Stepped w
      (xmlParseChunk E
        (xmlParseChunk E
          (xmlParseChunk E w R [.startElement "stream:stream" a1]) R
          [.startElement "db:result" a2, .characters key, .endElement "db:result"]) R
        [.startElement "db:verify" a3, .endElement "db:verify"]) R
      { r with authkey := some (E.shahash (E.keybuf w.nkeys)), type := 1,
               remote := some f, state := .CONNECTED, xmlstate := XmlState.zero }
      [(r.sockid, E.OSRF_CHAT_S2S_CHALLENGE (E.shahash (E.keybuf w.nkeys))),
       (r.sockid, E.OSRF_CHAT_S2S_VERIFY_REQUEST (E.shahash (E.keybuf w.nkeys)) r.domain f
          key),
       (r.sockid, E.OSRF_CHAT_S2S_VERIFY_FINAL r.domain f)] := by
  simp only [xmlParseChunk, List.foldl, saxDispatch]
  have s1 := startElement_s2s_open E w R r a1 hR hRs h1
  have s2 := startElement_s2s_result E _ R _ a2 f s1.heap_eq rfl h2
  have s3 := characters_s2s_key E _ R _ f (E.shahash (E.keybuf w.nkeys)) key s2.heap_eq
    rfl rfl rfl rfl (by rw [s2.2.2.2.2.2.1, s1.2.2.2.2.2.1]; exact hkey) hlen
  have e3 := osrfChatEndElement_idle E _ R _ "db:result" s3.heap_eq (by simp) (by decide)
    (by decide)
  have s4 := startElement_s2s_connected_verify E _ R _ a3 s3.heap_eq (Or.inl rfl)
  have e4 := osrfChatEndElement_idle E _ R _ "db:verify" s4.heap_eq (by simp) (by decide)
    (by decide)
  rw [e3, e4]
  exact ((s1.trans s2).trans s3).trans s4

/-- The initiator's side of the handshake up to the final stanza: an outbound node in
`S2S_CHALLENGE` that receives the stream id and then `db:verify` is in `S2S_VERIFY_FINAL`. -/
theorem initiator_run (E : Env) (w : osrfChatServer) (I : Nat) (i : osrfChatNode)
    (k key : String) (a1 a2 : List (String × String))
    (hI : w.heap I = some i) (hIs : i.state = .S2S_CHALLENGE)
    (h1 : xmlSaxAttr a1 "id" = some k) (h2 : xmlSaxAttr a2 "id" = some k) :
    Stepped w
      (xmlParseChunk E
        (xmlParseChunk E w I [.startElement "stream:stream" a1]) I
        [.startElement "db:verify" a2, .characters key, .endElement "db:verify"]) I
      { i with state := .S2S_VERIFY_FINAL }
      [(i.sockid, E.OSRF_CHAT_S2S_RESPONSE (fmtS i.remote) i.domain
          (E.shahash (E.shahash (E.shahash w.secret ++ i.domain) ++ k))),
       (i.sockid, E.OSRF_CHAT_S2S_VERIFY_RESPONSE (fmtS i.remote) i.domain k)] := by
  simp only [xmlParseChunk, List.foldl, saxDispatch]
  have s1 := startElement_s2s_challenge E w I i a1 k hI hIs h1
  have s2 := startElement_s2s_verify E _ I _ a2 k s1.heap_eq rfl h2
  have c2 := osrfChatHandleCharacter_idle E _ I _ key s2.heap_eq (by simp) (by simp) (by simp)
  have e2 := osrfChatEndElement_idle E _ I _ "db:verify" s2.heap_eq (by simp) (by decide)
    (by decide)
  rw [c2, e2]
  exact s1.trans s2

/-! ## A wrong key in the handshake -/

/-- C17 fails on the code: a peer opens a server stream on socket 5 of a new
server and presents the wrong key for `peer.org`. After the chunk its node (address 0) is
still stored in `nodeList` at socket 5, in state `S2S_RESPONSE` and still waiting for the key;
it is not on `deadNodes`, no socket was closed, only the challenge was sent and no error was
raised. When the peer then sends the right key and `db:verify`, the same node becomes
`CONNECTED`. -/
theorem C17_wrong_key_kept :
    (sampleWrongKey.heap 0).map (fun n => (n.state, n.remote, n.xmlstate.INS2SRESULT)) =
      some (OSRF_CHAT_STATE.S2S_RESPONSE, some "peer.org", true) ∧
    sampleWrongKey.nodeList 5 = some 0 ∧
    sampleWrongKey.deadNodes = [] ∧ sampleWrongKey.closed = [] ∧
    sampleWrongKey.sent = [(5, "S2S_CHALLENGE H(17000000004242host)")] ∧
    sampleWrongKey.xmlError = false ∧
    (sampleWrongKeyRetry.heap 0).map (fun n => n.state) = some .CONNECTED ∧
    sampleWrongKeyRetry.nodeList 5 = some 0 ∧ sampleWrongKeyRetry.closed = [] := by
  decide!

/-- The general form: on a node in `S2S_RESPONSE` that waits for the key, a text that is not
the key the node computes changes nothing in the server. -/
theorem osrfChatHandleCharacter_mismatch (E : Env) (w : osrfChatServer) (p : Nat)
    (n : osrfChatNode) (ch : String)
    (hn : w.heap p = some n) (hs : n.state = .S2S_RESPONSE)
    (hne : osrfChatGenerateS2SKey E (some w.secret) n.remote n.authkey ≠ some ch) :
    osrfChatHandleCharacter E w p ch = w := by
  have he : eq (some ch) (osrfChatGenerateS2SKey E (some w.secret) n.remote n.authkey) =
      false := by
    cases h : osrfChatGenerateS2SKey E (some w.secret) n.remote n.authkey with
    | none => rfl
    | some e =>
      rw [h] at hne
      simp only [eq, decide_eq_false_iff_not]
      intro hc
      exact hne (by rw [hc])
  simp [osrfChatHandleCharacter, hn, hs, he]

/-! ## Removal of a node: deferred release, and removal twice -/

/-- The store and the dead list after the removal of a node that is stored in `nodeList` at
its socket id. -/
theorem osrfChatRemoveNode_registered (w : osrfChatServer) (node : Nat) (n : osrfChatNode)
    (hn : w.heap node = some n) (hl : w.nodeList n.sockid = some node) :
    (osrfChatRemoveNode w node).heap = Function.update w.heap node
      (if n.inparse then some { n with inparse := false } else none) ∧
    (osrfChatRemoveNode w node).deadNodes =
      if n.inparse then w.deadNodes ++ [node] else w.deadNodes := by
  simp only [osrfChatRemoveNode, hn]
  cases hr : n.remote with
  | none =>
    have h1 : (socket_disconnect w n.sockid).nodeList n.sockid = some node := by
      simpa using hl
    simp only [nodeListRemove, h1, osrfChatNodeFree]
    simp only [socket_disconnect_fields, hn]
    cases n.inparse <;> simp [hr]
  | some r =>
    have h1 : (osrfHashRemove (socket_disconnect w n.sockid) r).nodeList n.sockid =
        some node := by
      simpa using hl
    simp only [nodeListRemove, h1, osrfChatNodeFree]
    simp only [osrfHashRemove_fields, socket_disconnect_fields, hn]
    cases n.inparse <;> simp [hr]

/-- Whatever arrives on a socket, `osrfChatHandleData` returns with an empty dead list. -/
theorem osrfChatHandleData_deadNodes (E : Env) (w : osrfChatServer) (sockid : Int)
    (data : List SaxEvent) (h : sockid ≠ 0) :
    (osrfChatHandleData E w sockid data).deadNodes = [] := by
  simp only [osrfChatHandleData, h, if_false]
  split
  · split <;> rfl
  · rfl

/-- C18: a node that is stored in `nodeList` at its socket id is removed with
`osrfChatRemoveNode`. Its slot of `nodeList` is emptied and `nodeHash` holds nothing under its
`remote`. With `inparse` set the node stays allocated with all its fields (only `inparse` is
cleared) and is appended to `deadNodes`; with `inparse` clear it is released at once and
`deadNodes` is unchanged. And `osrfChatHandleData`, for a socket id other than 0, returns with
`deadNodes` empty, whatever was removed during the call. -/
theorem C18_deferred_release (E : Env) (w : osrfChatServer) (p : Nat) (n : osrfChatNode)
    (hn : w.heap p = some n) (hl : w.nodeList n.sockid = some p) :
    (osrfChatRemoveNode w p).nodeList n.sockid = none ∧
    (∀ r, n.remote = some r → (osrfChatRemoveNode w p).nodeHash r = none) ∧
    (n.inparse = true →
      (osrfChatRemoveNode w p).heap p = some { n with inparse := false } ∧
      (osrfChatRemoveNode w p).deadNodes = w.deadNodes ++ [p]) ∧
    (n.inparse = false →
      (osrfChatRemoveNode w p).heap p = none ∧
      (osrfChatRemoveNode w p).deadNodes = w.deadNodes) ∧
    (∀ (w1 : osrfChatServer) (sockid : Int) (data : List SaxEvent), sockid ≠ 0 →
      (osrfChatHandleData E w1 sockid data).deadNodes = []) := by
  have he := osrfChatRemoveNode_eq w p n hn
  have hr := osrfChatRemoveNode_registered w p n hn hl
  refine ⟨?_, ?_, ?_, ?_, ?_⟩
  · rw [he.2.1]; simp
  · intro r hrem
    rw [he.1, hrem]
    simp
  · intro hp
    rw [hr.1, hr.2, hp]
    simp
  · intro hp
    rw [hr.1, hr.2, hp]
    simp
  · intro w1 sockid data h
    exact osrfChatHandleData_deadNodes E w1 sockid data h

/-- Instance of C18: on the sample server the sender (address 0, socket 5) is being parsed;
its removal empties slot 5 and the binding of `a@ex.org/r1`, keeps the record and puts the
node on the dead list. The node at address 1 (socket 6) is not being parsed and is released
at once. -/
theorem C18_deferred_release_witness :
    (osrfChatRemoveNode sampleServer 0).nodeList 5 = none ∧
    (osrfChatRemoveNode sampleServer 0).nodeHash "a@ex.org/r1" = none ∧
    (osrfChatRemoveNode sampleServer 0).heap 0 = some { sampleSender with inparse := false } ∧
    (osrfChatRemoveNode sampleServer 0).deadNodes = [0] ∧
    (osrfChatRemoveNode sampleServer 1).heap 1 = none ∧
    (osrfChatRemoveNode sampleServer 1).deadNodes = [] :=
  have h0 := C18_deferred_release sampleEnvOk sampleServer 0 sampleSender (by decide)
    (by decide)
  have h1 := C18_deferred_release sampleEnvOk sampleServer 1 (sampleClient 6 "b@ex.org/r2")
    (by decide) (by decide)
  ⟨h0.1, h0.2.1 _ rfl, (h0.2.2.1 rfl).1, (h0.2.2.1 rfl).2, (h1.2.2.2.1 rfl).1,
    (h1.2.2.2.1 rfl).2⟩

/-- Unlinking a descriptor that the socket list does not hold changes nothing. -/
theorem socket_remove_node_absent (l : List socket_node) (fd : Int)
    (h : fd ∉ l.map (fun s => s.sock_fd)) : socket_remove_node l fd = l := by
  induction l with
  | nil => rfl
  | cons a rest ih =>
    simp only [List.map_cons, List.mem_cons, not_or] at h
    have ha : a.sock_fd ≠ fd := fun e => h.1 e.symm
    simp [socket_remove_node, ha, ih h.2]

/-- In a socket list that holds each descriptor once, a descriptor is gone after it was
unlinked. -/
theorem socket_remove_node_gone (l : List socket_node) (fd : Int)
    (h : (l.map (fun s => s.sock_fd)).Nodup) :
    fd ∉ (socket_remove_node l fd).map (fun s => s.sock_fd) := by
  induction l with
  | nil => simp [socket_remove_node]
  | cons a rest ih =>
    simp only [List.map_cons, List.nodup_cons] at h
    by_cases ha : a.sock_fd = fd
    · simp only [socket_remove_node, ha, if_true]
      rw [← ha]
      exact h.1
    · simp only [socket_remove_node, ha, if_false, List.map_cons, List.mem_cons, not_or]
      exact ⟨fun e => ha e.symm, ih h.2⟩

/-- The record of a node after its removal: released, or as before up to `inparse`. -/
theorem osrfChatRemoveNode_heap_cases (w : osrfChatServer) (p : Nat) (n : osrfChatNode)
    (hn : w.heap p = some n) :
    (osrfChatRemoveNode w p).heap p = none ∨ (osrfChatRemoveNode w p).heap p = some n ∨
    (osrfChatRemoveNode w p).heap p = some { n with inparse := false } := by
  cases hl : w.nodeList n.sockid with
  | none =>
    rw [osrfChatRemoveNode_heap_unregistered w p n hn hl]
    exact Or.inr (Or.inl hn)
  | some q =>
    by_cases hq : q = p
    · subst hq
      rw [(osrfChatRemoveNode_registered w q n hn hl).1]
      cases n.inparse <;> simp
    · have hne : w.nodeList n.sockid ≠ some p := by
        rw [hl]
        exact fun e => hq (Option.some.inj e)
      have h1 : (osrfChatRemoveNode w p).heap p = w.heap p := by
        simp only [osrfChatRemoveNode, hn]
        rw [nodeListRemove_heap_of_ne]
        · cases n.remote <;> simp [hn]
        · cases n.remote <;> simpa using hne
      rw [h1]
      exact Or.inr (Or.inl hn)

/-- The removal of a node whose slot of `nodeList` is empty leaves the dead list as it is. -/
theorem osrfChatRemoveNode_deadNodes_unregistered (w : osrfChatServer) (p : Nat)
    (n : osrfChatNode) (hn : w.heap p = some n) (hl : w.nodeList n.sockid = none) :
    (osrfChatRemoveNode w p).deadNodes = w.deadNodes := by
  simp only [osrfChatRemoveNode, hn]
  cases n.remote with
  | none =>
    have h1 : (socket_disconnect w n.sockid).nodeList n.sockid = none := by simpa using hl
    simp [nodeListRemove, h1]
  | some r =>
    have h1 : (osrfHashRemove (socket_disconnect w n.sockid) r).nodeList n.sockid = none := by
      simpa using hl
    simp [nodeListRemove, h1]

/-- The removal of a node that is allocated does not read a released record. -/
theorem osrfChatRemoveNode_useAfterFree (w : osrfChatServer) (p : Nat) (n : osrfChatNode)
    (hn : w.heap p = some n) :
    (osrfChatRemoveNode w p).useAfterFree = w.useAfterFree := by
  simp only [osrfChatRemoveNode, hn, nodeListRemove]
  cases n.remote <;>
    (simp only [socket_disconnect, osrfHashRemove]
     split
     · rfl
     · simp only [osrfChatNodeFree]
       split
       · rfl
       · split <;> rfl)

/-- The record of a node after its removal, when the node is being parsed or is not the node
stored in `nodeList` at its socket id: it is still allocated. -/
theorem osrfChatRemoveNode_heap_kept (w : osrfChatServer) (p : Nat) (n : osrfChatNode)
    (hn : w.heap p = some n)
    (hkept : n.inparse = true ∨ w.nodeList n.sockid ≠ some p) :
    (osrfChatRemoveNode w p).heap p = some n ∨
    (osrfChatRemoveNode w p).heap p = some { n with inparse := false } := by
  by_cases hl : w.nodeList n.sockid = some p
  · rcases hkept with hp | hne
    · rw [(osrfChatRemoveNode_registered w p n hn hl).1, hp]
      simp
    · exact absurd hl hne
  · have h1 : (osrfChatRemoveNode w p).heap p = w.heap p := by
      simp only [osrfChatRemoveNode, hn]
      rw [nodeListRemove_heap_of_ne]
      · cases n.remote <;> simp [hn]
      · cases n.remote <;> simpa using hl
    rw [h1]
    exact Or.inl hn

/-- C19 (as amended): in a server state whose socket list holds each descriptor once, a node
that is allocated and whose release is deferred or does not happen (it is being parsed, or it
is not the node stored in `nodeList` at its socket id) is removed twice. The second removal
leaves `nodeList`, `nodeHash`, `deadNodes` and the socket list as the first removal left them,
and no released record is read. -/
theorem C19_remove_twice (w : osrfChatServer) (p : Nat) (n : osrfChatNode)
    (hn : w.heap p = some n)
    (hkept : n.inparse = true ∨ w.nodeList n.sockid ≠ some p)
    (hfd : (w.mgr.map (fun s => s.sock_fd)).Nodup) :
    (osrfChatRemoveNode (osrfChatRemoveNode w p) p).nodeList =
      (osrfChatRemoveNode w p).nodeList ∧
    (osrfChatRemoveNode (osrfChatRemoveNode w p) p).nodeHash =
      (osrfChatRemoveNode w p).nodeHash ∧
    (osrfChatRemoveNode (osrfChatRemoveNode w p) p).deadNodes =
      (osrfChatRemoveNode w p).deadNodes ∧
    (osrfChatRemoveNode (osrfChatRemoveNode w p) p).mgr = (osrfChatRemoveNode w p).mgr ∧
    (osrfChatRemoveNode (osrfChatRemoveNode w p) p).useAfterFree = w.useAfterFree := by
  have he := osrfChatRemoveNode_eq w p n hn
  -- the record the second removal finds
  have key : ∀ m : osrfChatNode, m.sockid = n.sockid → m.remote = n.remote →
      (osrfChatRemoveNode w p).heap p = some m →
      (osrfChatRemoveNode (osrfChatRemoveNode w p) p).nodeList =
        (osrfChatRemoveNode w p).nodeList ∧
      (osrfChatRemoveNode (osrfChatRemoveNode w p) p).nodeHash =
        (osrfChatRemoveNode w p).nodeHash ∧
      (osrfChatRemoveNode (osrfChatRemoveNode w p) p).deadNodes =
        (osrfChatRemoveNode w p).deadNodes ∧
      (osrfChatRemoveNode (osrfChatRemoveNode w p) p).mgr =
        (osrfChatRemoveNode w p).mgr ∧
      (osrfChatRemoveNode (osrfChatRemoveNode w p) p).useAfterFree = w.useAfterFree := by
    intro m hs hr hm
    have he2 := osrfChatRemoveNode_eq (osrfChatRemoveNode w p) p m hm
    have hslot : (osrfChatRemoveNode w p).nodeList m.sockid = none := by
      rw [he.2.1, hs]; simp
    refine ⟨?_, ?_, ?_, ?_, ?_⟩
    · rw [he2.2.1, he.2.1, hs]; simp
    · rw [he2.1, he.1, hr]
      cases n.remote <;> simp
    · exact osrfChatRemoveNode_deadNodes_unregistered _ p m hm hslot
    · rw [he2.2.2.2, he.2.2.2, hs]
      exact socket_remove_node_absent _ _ (socket_remove_node_gone _ _ hfd)
    · rw [osrfChatRemoveNode_useAfterFree _ p m hm, osrfChatRemoveNode_useAfterFree w p n hn]
  rcases osrfChatRemoveNode_heap_kept w p n hn hkept with h | h
  · exact key n rfl rfl h
  · exact key { n with inparse := false } rfl rfl h

/-- Instance of C19: on the sample server the sender (address 0, socket 5, being parsed) is
removed twice; the second removal changes none of the four structures and reads no released
record. -/
theorem C19_remove_twice_witness :
    (osrfChatRemoveNode (osrfChatRemoveNode sampleServer 0) 0).nodeList =
      (osrfChatRemoveNode sampleServer 0).nodeList ∧
    (osrfChatRemoveNode (osrfChatRemoveNode sampleServer 0) 0).nodeHash =
      (osrfChatRemoveNode sampleServer 0).nodeHash ∧
    (osrfChatRemoveNode (osrfChatRemoveNode sampleServer 0) 0).deadNodes = [0] ∧
    (osrfChatRemoveNode (osrfChatRemoveNode sampleServer 0) 0).mgr =
      [⟨CLIENT_SOCKET, INET, 6, 4⟩, ⟨SERVER_SOCKET, INET, 4, 0⟩] ∧
    (osrfChatRemoveNode (osrfChatRemoveNode sampleServer 0) 0).useAfterFree = false :=
  have h := C19_remove_twice sampleServer 0 sampleSender (by decide) (Or.inl rfl) (by decide)
  ⟨h.1, h.2.1, by rw [h.2.2.1]; decide, by rw [h.2.2.2.1]; decide, by rw [h.2.2.2.2]; rfl⟩

/-- C19 fails as stated: on the sample server the node at address 1 (socket 6) is stored in
`nodeList` and is not being parsed, so its removal releases it at once; the second removal is
called with the address of the released node and reads `sockid` and `remote` from the released
record. -/
theorem C19_released_counterexample :
    sampleServer.nodeList 6 = some 1 ∧
    (sampleServer.heap 1).map (fun n => (n.sockid, n.inparse)) = some (6, false) ∧
    (osrfChatRemoveNode sampleServer 1).heap 1 = none ∧
    (osrfChatRemoveNode sampleServer 1).useAfterFree = false ∧
    (osrfChatRemoveNode (osrfChatRemoveNode sampleServer 1) 1).useAfterFree = true := by
  decide!

/-! ## A queue left on a connected node -/

/-- C20 fails on the code: from the initial state a client logs in and sends a
stanza to `c@peer.org`, which opens the outbound link (node at address 1, descriptor 100) and
queues the stanza; the peer answers with its stream opening and sends `db:verify` twice. The
first `db:verify` takes the node to `S2S_VERIFY_FINAL`, the second one is accepted there and
takes it to `CONNECTED`: the node is an S2S node, `CONNECTED`, bound under `peer.org`, and its
queue still holds the stanza, which was never sent. The same on the sample server with two
queued stanzas. -/
theorem C20_connected_with_queue :
    (sampleRun2.heap 1).map (fun n => (n.state, n.type, n.msgs)) =
      some (OSRF_CHAT_STATE.S2S_CHALLENGE, 1,
        some ["<message to=c@peer.org from=a@ex.org/r1><body>hi</body></message>"]) ∧
    (sampleRunVerifyTwice.heap 1).map (fun n => (n.state, n.type, n.msgs)) =
      some (OSRF_CHAT_STATE.CONNECTED, 1,
        some ["<message to=c@peer.org from=a@ex.org/r1><body>hi</body></message>"]) ∧
    sampleRunVerifyTwice.nodeHash "peer.org" = some 1 ∧
    sampleRunVerifyTwice.nodeList 100 = some 1 ∧
    sampleRunVerifyTwice.xmlError = false ∧
    sampleRunVerifyTwice.sent.map Prod.fst = [5, 5, 100, 100, 100, 100] ∧
    ((osrfChatStartElement sampleEnvOk (sampleServerS2S .S2S_VERIFY_FINAL ["<m1/>", "<m2/>"]) 2
        "db:verify" []).heap 2).map (fun n => (n.state, n.msgs)) =
      some (OSRF_CHAT_STATE.CONNECTED, some ["<m1/>", "<m2/>"]) ∧
    (osrfChatStartElement sampleEnvOk (sampleServerS2S .S2S_VERIFY_FINAL ["<m1/>", "<m2/>"]) 2
        "db:verify" []).sent = [(7, "S2S_VERIFY_FINAL ex.org peer.org")] := by
  decide!

/-! ## The error flag during a parse -/

theorem osrfChatInitS2S_xmlError (E : Env) (w : osrfChatServer) (remote toAddr msgXML : String) :
    (osrfChatInitS2S E w remote toAddr msgXML).1.xmlError = w.xmlError := by
  unfold osrfChatInitS2S
  split
  · rfl
  · simp only []
    split <;> simp

theorem osrfChatSend_xmlError (E : Env) (w : osrfChatServer) (node : Nat)
    (toAddr fromAddr : Option String) (msgXML : String) :
    (osrfChatSend E w node toAddr fromAddr msgXML).1.xmlError = w.xmlError := by
  unfold osrfChatSend
  split
  · rfl
  · simp only []
    split
    · split
      · split
        · split <;> simp
        · simp
      · split <;> simp
    · split
      · split
        · split
          · split <;> simp
          · simp
        · simp
      · split <;> simp [osrfChatInitS2S_xmlError]

theorem flushMsgs_xmlError (E : Env) (node : Nat) :
    ∀ (q : List String) (w : osrfChatServer), (flushMsgs E node q w).xmlError = w.xmlError := by
  intro q
  induction q with
  | nil => intro w; rfl
  | cons x rest ih =>
    intro w
    simp only [flushMsgs]
    split
    · rw [ih, osrfChatSend_xmlError]
    · rw [ih]

theorem osrfChatEndElement_xmlError (E : Env) (w : osrfChatServer) (node : Nat) (nm : String) :
    (osrfChatEndElement E w node nm).xmlError = w.xmlError := by
  have h1 : ∀ w : osrfChatServer, (endElementConnected E w node nm).xmlError = w.xmlError := by
    intro w
    unfold endElementConnected
    split
    · rfl
    · split
      · rw [osrfChatSend_xmlError]; simp
      · rfl
  have h2 : ∀ w : osrfChatServer, (endElementConnecting E w node nm).xmlError = w.xmlError := by
    intro w
    unfold endElementConnecting
    split
    · rfl
    · split
      · simp only [modifyNode_fields, osrfHashSet_fields]
        split <;> simp
      · rfl
  unfold osrfChatEndElement
  split
  · simp [osrfChatNodeFinish]
  · rw [h2, h1]

theorem osrfChatHandleCharacter_xmlError (E : Env) (w : osrfChatServer) (node : Nat)
    (ch : String) : (osrfChatHandleCharacter E w node ch).xmlError = w.xmlError := by
  unfold osrfChatHandleCharacter
  split
  · rfl
  · split
    · rfl
    · split
      · split
        · split <;> split <;> simp
        · rfl
      · split
        · simp
        · split
          · simp only []
            split <;> simp
          · rfl

/-- The handler of a start element leaves the error flag alone; it is `osrfChatStartElement`
that raises it on a status other than 0. -/
theorem startHandler_xmlError (E : Env) (w : osrfChatServer) (node : Nat) (name : String)
    (atts : List (String × String)) :
    (osrfChatHandleNewConnection E w node name atts).1.xmlError = w.xmlError ∧
    (osrfChatHandleConnecting w node name atts).1.xmlError = w.xmlError ∧
    (osrfChatHandleConnected w node name atts).1.xmlError = w.xmlError ∧
    (osrfChatHandleS2SChallenge E w node name atts).1.xmlError = w.xmlError ∧
    (osrfChatHandleS2SConnected E w node name atts).1.xmlError = w.xmlError := by
  refine ⟨?_, ?_, ?_, ?_, ?_⟩
  · unfold osrfChatHandleNewConnection
    split
    · rfl
    · split
      · rfl
      · simp only []
        split
        · simp
        · split
          · split
            · simp
            · split <;> simp
          · split <;> simp
  · unfold osrfChatHandleConnecting
    split
    · simp
    · split
      · simp
      · split <;> simp
  · unfold osrfChatHandleConnected
    split <;> simp
  · unfold osrfChatHandleS2SChallenge
    split
    · rfl
    · split
      · split <;> simp
      · rfl
  · unfold osrfChatHandleS2SConnected
    split
    · rfl
    · split
      · simp
      · split
        · simp [flushMsgs_xmlError]
        · rfl

/-- The error flag after a start element: as before, or raised. -/
theorem osrfChatStartElement_xmlError (E : Env) (w : osrfChatServer) (node : Nat)
    (name : String) (atts : List (String × String)) :
    (osrfChatStartElement E w node name atts).xmlError = w.xmlError ∨
    (osrfChatStartElement E w node name atts).xmlError = true := by
  have hh := startHandler_xmlError E w node name atts
  have key : ∀ r : osrfChatServer × Int, r.1.xmlError = w.xmlError →
      (if r.2 ≠ 0 then osrfChatParseError r.1 else r.1).xmlError = w.xmlError ∨
      (if r.2 ≠ 0 then osrfChatParseError r.1 else r.1).xmlError = true := by
    intro r hr
    split
    · exact Or.inr (by simp)
    · exact Or.inl hr
  unfold osrfChatStartElement
  split
  · exact Or.inl rfl
  · rename_i n hn
    apply key
    cases n.state
    · exact hh.1
    · exact hh.2.1
    · exact hh.2.2.1
    · exact hh.2.2.2.1
    · simp only []
      split <;> simp
    · simp only []
      split
      · split <;> simp
      · rfl
    · exact hh.2.2.2.2
    · exact hh.2.2.2.2

/-- Once raised, the error flag stays raised through every event of the parser. -/
theorem saxDispatch_xmlError (E : Env) (w : osrfChatServer) (node : Nat) (ev : SaxEvent)
    (h : w.xmlError = true) : (saxDispatch E w node ev).xmlError = true := by
  cases ev with
  | startElement name atts =>
    rcases osrfChatStartElement_xmlError E w node name atts with h1 | h1
    · simpa [saxDispatch, h1] using h
    · simpa [saxDispatch] using h1
  | endElement name => simpa [saxDispatch, osrfChatEndElement_xmlError] using h
  | characters ch => simpa [saxDispatch, osrfChatHandleCharacter_xmlError] using h
  | error => simp [saxDispatch]

theorem xmlParseChunk_xmlError (E : Env) (node : Nat) :
    ∀ (data : List SaxEvent) (w : osrfChatServer), w.xmlError = true →
      (xmlParseChunk E w node data).xmlError = true := by
  intro data
  induction data with
  | nil => intro w h; exact h
  | cons ev rest ih =>
    intro w h
    have := ih (saxDispatch E w node ev) (saxDispatch_xmlError E w node ev h)
    simpa [xmlParseChunk] using this

theorem xmlParseChunk_append (E : Env) (node : Nat) (a b : List SaxEvent)
    (w : osrfChatServer) :
    xmlParseChunk E w node (a ++ b) = xmlParseChunk E (xmlParseChunk E w node a) node b := by
  simp [xmlParseChunk, List.foldl_append]

/-! ## An element the state does not expect -/

/-- A start element that the node's state does not expect, other than the two names
`osrfChatHandleS2SConnected` takes in its two states, only raises the error flag: the node
keeps its socket id, `remote`, state and `inparse` (a node in state `NONE` may get its
`authkey`), nothing is sent and the indices are as before. -/
theorem startElement_unexpected (E : Env) (w : osrfChatServer) (p : Nat) (n : osrfChatNode)
    (name : String) (atts : List (String × String))
    (hn : w.heap p = some n) (hrej : specExpects n.domain n.state name atts = false)
    (hns : ¬ sharedHandlerCase n.state name) :
    ∃ n1, (osrfChatStartElement E w p name atts).heap = Function.update w.heap p (some n1) ∧
      n1.sockid = n.sockid ∧ n1.remote = n.remote ∧ n1.state = n.state ∧
      n1.inparse = n.inparse ∧
      (osrfChatStartElement E w p name atts).xmlError = true ∧
      (osrfChatStartElement E w p name atts).sent = w.sent ∧
      (osrfChatStartElement E w p name atts).nodeList = w.nodeList ∧
      (osrfChatStartElement E w p name atts).nodeHash = w.nodeHash ∧
      (osrfChatStartElement E w p name atts).deadNodes = w.deadNodes ∧
      (osrfChatStartElement E w p name atts).closed = w.closed ∧
      (osrfChatStartElement E w p name atts).mgr = w.mgr := by
  have hself : Function.update w.heap p (some n) = w.heap := by
    rw [← hn]; exact Function.update_eq_self p w.heap
  cases hs : n.state with
  | NONE =>
    simp only [specExpects, hs] at hrej
    by_cases hname : name = "stream:stream"
    · subst hname
      refine ⟨{ n with authkey := some (E.shahash (E.keybuf w.nkeys)) }, ?_⟩
      cases hx : xmlSaxAttr atts "xmlns" with
      | none =>
        simp [osrfChatStartElement, hn, hs, osrfChatHandleNewConnection, hx, osrfChatMkAuthKey]
      | some ns =>
        simp only [hx, decide_True, Bool.true_and, Bool.or_eq_false_iff, Bool.and_eq_false_iff,
          decide_eq_false_iff_not] at hrej
        obtain ⟨h1, h2⟩ := hrej
        by_cases hc : ns = "jabber:client"
        · have hto : xmlSaxAttr atts "to" ≠ some n.domain := by
            rcases h1 with h | h
            · exact absurd hc h
            · exact h
          cases ht : xmlSaxAttr atts "to" with
          | none =>
            simp [osrfChatStartElement, hn, hs, osrfChatHandleNewConnection, hx, hc, ht,
              osrfChatMkAuthKey]
          | some d =>
            have hd : d ≠ n.domain := by
              intro e
              apply hto
              rw [ht, e]
            simp [osrfChatStartElement, hn, hs, osrfChatHandleNewConnection, hx, hc, ht, hd,
              osrfChatMkAuthKey]
        · simp [osrfChatStartElement, hn, hs, osrfChatHandleNewConnection, hx, hc, h2,
            osrfChatMkAuthKey]
    · refine ⟨n, ?_⟩
      simp [osrfChatStartElement, hn, hs, osrfChatHandleNewConnection, hname, hself]
  | CONNECTING => simp [specExpects, hs] at hrej
  | CONNECTED => simp [specExpects, hs] at hrej
  | S2S_CHALLENGE =>
    simp only [specExpects, hs, Bool.and_eq_false_iff, decide_eq_false_iff_not] at hrej
    refine ⟨n, ?_⟩
    by_cases hname : name = "stream:stream"
    · have hid : xmlSaxAttr atts "id" = none := by
        rcases hrej with h | h
        · exact absurd hname h
        · simpa using h
      simp [osrfChatStartElement, hn, hs, osrfChatHandleS2SChallenge, hname, hid, hself]
    · simp [osrfChatStartElement, hn, hs, osrfChatHandleS2SChallenge, hname, hself]
  | S2S_RESPONSE =>
    simp only [specExpects, hs, decide_eq_false_iff_not] at hrej
    exact ⟨n, by simp [osrfChatStartElement, hn, hs, hrej, hself]⟩
  | S2S_VERIFY =>
    simp only [specExpects, hs, Bool.and_eq_false_iff, decide_eq_false_iff_not] at hrej
    refine ⟨n, ?_⟩
    by_cases hname : name = "db:verify"
    · have hid : xmlSaxAttr atts "id" = none := by
        rcases hrej with h | h
        · exact absurd hname h
        · simpa using h
      simp [osrfChatStartElement, hn, hs, hname, hid, hself]
    · simp [osrfChatStartElement, hn, hs, hname, hself]
  | S2S_VERIFY_RESPONSE =>
    have h1 : name ≠ "db:verify" := fun e => hns ⟨Or.inl hs, Or.inl e⟩
    have h2 : name ≠ "db:result" := fun e => hns ⟨Or.inl hs, Or.inr e⟩
    exact ⟨n, by simp [osrfChatStartElement, hn, hs, osrfChatHandleS2SConnected, h1, h2,
      hself]⟩
  | S2S_VERIFY_FINAL =>
    have h1 : name ≠ "db:verify" := fun e => hns ⟨Or.inr hs, Or.inl e⟩
    have h2 : name ≠ "db:result" := fun e => hns ⟨Or.inr hs, Or.inr e⟩
    exact ⟨n, by simp [osrfChatStartElement, hn, hs, osrfChatHandleS2SConnected, h1, h2,
      hself]⟩

/-- In the two states of `osrfChatHandleS2SConnected` an element with one of the two names the
handler takes does not raise the flag. -/
theorem startElement_shared (E : Env) (w : osrfChatServer) (p : Nat) (n : osrfChatNode)
    (name : String) (atts : List (String × String))
    (hn : w.heap p = some n) (hsh : sharedHandlerCase n.state name) :
    (osrfChatStartElement E w p name atts).xmlError = w.xmlError := by
  obtain ⟨hs, hname⟩ := hsh
  rcases hs with hs | hs <;> rcases hname with h | h
  · simp [osrfChatStartElement, hn, hs, osrfChatHandleS2SConnected, h]
  · have hne : name ≠ "db:verify" := by rw [h]; decide
    simp [osrfChatStartElement, hn, hs, osrfChatHandleS2SConnected, h, flushMsgs_xmlError]
  · simp [osrfChatStartElement, hn, hs, osrfChatHandleS2SConnected, h]
  · have hne : name ≠ "db:verify" := by rw [h]; decide
    simp [osrfChatStartElement, hn, hs, osrfChatHandleS2SConnected, h, flushMsgs_xmlError]

/-- In the two states of `osrfChatHandleS2SConnected` the element `db:result` takes a node
with no queued stanzas to `CONNECTED` and sends nothing. -/
theorem startElement_shared_result (E : Env) (w : osrfChatServer) (p : Nat) (n : osrfChatNode)
    (atts : List (String × String))
    (hn : w.heap p = some n)
    (hs : n.state = .S2S_VERIFY_RESPONSE ∨ n.state = .S2S_VERIFY_FINAL)
    (hq : n.msgs.getD [] = []) :
    (osrfChatStartElement E w p "db:result" atts).heap p =
        some { n with state := .CONNECTED, msgs := none, xmlstate := XmlState.zero } ∧
    (osrfChatStartElement E w p "db:result" atts).sent = w.sent ∧
    (osrfChatStartElement E w p "db:result" atts).nodeList = w.nodeList ∧
    (osrfChatStartElement E w p "db:result" atts).nodeHash = w.nodeHash := by
  have hne : ("db:result" : String) ≠ "db:verify" := by decide
  rcases hs with hs | hs <;>
    simp [osrfChatStartElement, hn, hs, osrfChatHandleS2SConnected, hne, hq, flushMsgs]

/-- C21 on the code: a node stored in `nodeList` at its socket id, with the server's domain in
its field `domain` (as every node has), receives a start element that its state does not
expect (`specExpects`). In the two states that share the handler
`osrfChatHandleS2SConnected`, an element named `db:verify` or `db:result` is taken all the
same: no error is raised, the push of the element returns 0 when the flag was clear,
`db:verify` takes the node to `CONNECTED` with the final stanza sent and `db:result` takes a
node with nothing queued to `CONNECTED` with nothing sent, so that `db:verify` in
`S2S_VERIFY_FINAL` and `db:result` in `S2S_VERIFY_RESPONSE` are not answered as C21 says. For
every other unexpected element `osrfChatPushData` returns -1 for every chunk that starts with
it; and when the element is the chunk, `osrfChatHandleData` sends exactly the parse-error
stanza, on the node's socket, empties the node's slot of `nodeList` and the binding of its
`remote` in `nodeHash`, closes the socket and releases the node, as it does for malformed XML
(the event `error`). -/
theorem C21_protocol_error (E : Env) (w : osrfChatServer) (p : Nat) (n : osrfChatNode)
    (name : String) (atts : List (String × String))
    (hn : w.heap p = some n) (hl : w.nodeList n.sockid = some p) (h0 : n.sockid ≠ 0)
    (hd : n.domain = w.domain) (hrej : specExpects w.domain n.state name atts = false) :
    (sharedHandlerCase n.state name →
      (osrfChatStartElement E w p name atts).xmlError = w.xmlError ∧
      (w.xmlError = false → (osrfChatPushData E w p [.startElement name atts]).2 = 0) ∧
      (name = "db:verify" →
        (osrfChatStartElement E w p name atts).heap p =
          some { n with state := .CONNECTED, xmlstate := XmlState.zero } ∧
        (osrfChatStartElement E w p name atts).sent =
          w.sent ++ [(n.sockid, E.OSRF_CHAT_S2S_VERIFY_FINAL n.domain (fmtS n.remote))] ∧
        (osrfChatStartElement E w p name atts).nodeList = w.nodeList ∧
        (osrfChatStartElement E w p name atts).nodeHash = w.nodeHash) ∧
      (name = "db:result" → n.msgs.getD [] = [] →
        (osrfChatStartElement E w p name atts).heap p =
          some { n with state := .CONNECTED, msgs := none, xmlstate := XmlState.zero } ∧
        (osrfChatStartElement E w p name atts).sent = w.sent ∧
        (osrfChatStartElement E w p name atts).nodeList = w.nodeList ∧
        (osrfChatStartElement E w p name atts).nodeHash = w.nodeHash)) ∧
    (¬ sharedHandlerCase n.state name →
      (∀ post, (osrfChatPushData E w p (.startElement name atts :: post)).2 = -1) ∧
      (osrfChatHandleData E w n.sockid [.startElement name atts]).sent =
        w.sent ++ [(n.sockid, E.OSRF_CHAT_PARSE_ERROR)] ∧
      (osrfChatHandleData E w n.sockid [.startElement name atts]).nodeList n.sockid = none ∧
      (∀ r, n.remote = some r →
        (osrfChatHandleData E w n.sockid [.startElement name atts]).nodeHash r = none) ∧
      (osrfChatHandleData E w n.sockid [.startElement name atts]).heap p = none ∧
      (osrfChatHandleData E w n.sockid [.startElement name atts]).closed =
        w.closed ++ [n.sockid] ∧
      (osrfChatHandleData E w n.sockid [.startElement name atts]).nodeList =
        (osrfChatHandleData E w n.sockid [.error]).nodeList ∧
      (osrfChatHandleData E w n.sockid [.startElement name atts]).nodeHash =
        (osrfChatHandleData E w n.sockid [.error]).nodeHash ∧
      (osrfChatHandleData E w n.sockid [.startElement name atts]).sent =
        (osrfChatHandleData E w n.sockid [.error]).sent) := by
  refine ⟨?_, ?_⟩
  · intro hsh
    refine ⟨startElement_shared E w p n name atts hn hsh, ?_, ?_, ?_⟩
    · intro hclear
      have hx := startElement_shared E (modifyNode w p (fun n => { n with inparse := true })) p
        { n with inparse := true } name atts (by simp [hn]) hsh
      simp only [osrfChatPushData, xmlParseChunk, List.foldl_cons, List.foldl_nil, saxDispatch,
        modifyNode_fields] at hx ⊢
      simp [hx, hclear]
    · intro hname
      subst hname
      have hst := startElement_s2s_connected_verify E w p n atts hn hsh.1
      exact ⟨hst.heap_eq, hst.2.1, hst.2.2.2.1, hst.2.2.1⟩
    · intro hname hq
      subst hname
      exact startElement_shared_result E w p n atts hn hsh.1 hq
  intro hns
  -- the state after the event, with `inparse` set
  obtain ⟨n1, h1, hs1, hr1, _, hp1, he1, hsent1, hl1, hh1, _, hc1, _⟩ :=
    startElement_unexpected E (modifyNode w p (fun n => { n with inparse := true })) p
      { n with inparse := true } name atts (by simp [hn]) (by rw [← hd] at hrej; exact hrej)
      hns
  -- the general form of the outcome of `osrfChatHandleData` when the push fails
  have key : ∀ (w2 : osrfChatServer) (m : osrfChatNode),
      w2.heap = Function.update w.heap p (some m) → m.sockid = n.sockid →
      m.remote = n.remote → w2.xmlError = true → w2.sent = w.sent →
      w2.nodeList = w.nodeList → w2.nodeHash = w.nodeHash → w2.closed = w.closed →
      (osrfChatCleanupClients (osrfChatRemoveNode (osrfChatSendRaw E
          { modifyNode w2 p (fun n => { n with inparse := false }) with xmlError := false } p
          E.OSRF_CHAT_PARSE_ERROR).1 p)).sent = w.sent ++ [(n.sockid, E.OSRF_CHAT_PARSE_ERROR)] ∧
      (osrfChatCleanupClients (osrfChatRemoveNode (osrfChatSendRaw E
          { modifyNode w2 p (fun n => { n with inparse := false }) with xmlError := false } p
          E.OSRF_CHAT_PARSE_ERROR).1 p)).nodeList = Function.update w.nodeList n.sockid none ∧
      (osrfChatCleanupClients (osrfChatRemoveNode (osrfChatSendRaw E
          { modifyNode w2 p (fun n => { n with inparse := false }) with xmlError := false } p
          E.OSRF_CHAT_PARSE_ERROR).1 p)).nodeHash =
        (match n.remote with
         | some r => Function.update w.nodeHash r none
         | none => w.nodeHash) ∧
      (osrfChatCleanupClients (osrfChatRemoveNode (osrfChatSendRaw E
          { modifyNode w2 p (fun n => { n with inparse := false }) with xmlError := false } p
          E.OSRF_CHAT_PARSE_ERROR).1 p)).heap p = none ∧
      (osrfChatCleanupClients (osrfChatRemoveNode (osrfChatSendRaw E
          { modifyNode w2 p (fun n => { n with inparse := false }) with xmlError := false } p
          E.OSRF_CHAT_PARSE_ERROR).1 p)).closed = w.closed ++ [n.sockid] := by
    intro w2 m hm hms hmr _ hsent hlist hhash hclosed
    have hheap : (osrfChatSendRaw E
        { modifyNode w2 p (fun n => { n with inparse := false }) with xmlError := false } p
        E.OSRF_CHAT_PARSE_ERROR).1.heap p = some { m with inparse := false } := by
      simp [hm]
    have hraw := osrfChatSendRaw_eq E
      { modifyNode w2 p (fun n => { n with inparse := false }) with xmlError := false } p
      { m with inparse := false } E.OSRF_CHAT_PARSE_ERROR (by simp [hm])
    have hreg : (osrfChatSendRaw E
        { modifyNode w2 p (fun n => { n with inparse := false }) with xmlError := false } p
        E.OSRF_CHAT_PARSE_ERROR).1.nodeList ({ m with inparse := false } : osrfChatNode).sockid =
        some p := by
      simpa [hlist, hms] using hl
    have he := osrfChatRemoveNode_eq _ p _ hheap
    have hr := osrfChatRemoveNode_registered _ p _ hheap hreg
    refine ⟨?_, ?_, ?_, ?_, ?_⟩
    · simp only [osrfChatCleanupClients_fields, osrfChatRemoveNode_fields]
      rw [hraw.1]
      simp [hsent, hms]
    · simp only [osrfChatCleanupClients_fields]
      rw [he.2.1]
      simp [hlist, hms]
    · simp only [osrfChatCleanupClients_fields]
      rw [he.1]
      cases hrn : n.remote <;> simp [hhash, hmr, hrn]
    · simp only [osrfChatCleanupClients_fields]
      rw [hr.1]
      simp
    · simp only [osrfChatCleanupClients_fields]
      rw [he.2.2.1]
      simp [hclosed, hms]
  -- the two chunks
  have hstart : osrfChatHandleData E w n.sockid [.startElement name atts] =
      osrfChatCleanupClients (osrfChatRemoveNode (osrfChatSendRaw E
        { modifyNode (osrfChatStartElement E
            (modifyNode w p (fun n => { n with inparse := true })) p name atts) p
            (fun n => { n with inparse := false }) with xmlError := false } p
        E.OSRF_CHAT_PARSE_ERROR).1 p) := by
    simp [osrfChatHandleData, h0, hl, osrfChatPushData, xmlParseChunk, saxDispatch, he1]
  have herr : osrfChatHandleData E w n.sockid [.error] =
      osrfChatCleanupClients (osrfChatRemoveNode (osrfChatSendRaw E
        { modifyNode (osrfChatParseError
            (modifyNode w p (fun n => { n with inparse := true }))) p
            (fun n => { n with inparse := false }) with xmlError := false } p
        E.OSRF_CHAT_PARSE_ERROR).1 p) := by
    simp [osrfChatHandleData, h0, hl, osrfChatPushData, xmlParseChunk, saxDispatch]
  have k1 := key _ n1 (by rw [h1]; simp) (by simpa using hs1) (by simpa using hr1) he1
    (by simpa using hsent1) (by simpa using hl1) (by simpa using hh1) (by simpa using hc1)
  have k2 := key (osrfChatParseError (modifyNode w p (fun n => { n with inparse := true })))
    { n with inparse := true } (by simp [hn]) rfl rfl (by simp) (by simp) (by simp) (by simp)
    (by simp)
  refine ⟨?_, ?_, ?_, ?_, ?_, ?_, ?_, ?_, ?_⟩
  · intro post
    have hx := xmlParseChunk_xmlError E p post _ he1
    simp only [osrfChatPushData, xmlParseChunk, List.foldl_cons, saxDispatch,
      modifyNode_fields] at hx ⊢
    simp [hx]
  · rw [hstart]; exact k1.1
  · rw [hstart, k1.2.1]; simp
  · intro r hr
    rw [hstart, k1.2.2.1, hr]
    simp
  · rw [hstart]; exact k1.2.2.2.1
  · rw [hstart]; exact k1.2.2.2.2
  · rw [hstart, herr, k1.2.1, k2.2.1]
  · rw [hstart, herr, k1.2.2.1, k2.2.2.1]
  · rw [hstart, herr, k1.1, k2.1]

/-- Instance of C21. The outbound node for `peer.org` (address 2, socket 7) waits in
`S2S_VERIFY` for `db:verify` and receives the start of `message` instead: the parse-error
stanza goes out on socket 7 and the node leaves both indices. The same node waits in
`S2S_VERIFY_FINAL` for the final `db:result` and receives `db:verify` instead, which the
specification does not expect there: the push returns 0, no error is raised, and the node is
`CONNECTED`. -/
theorem C21_protocol_error_witness :
    ((osrfChatPushData sampleEnvOk (sampleServerS2S .S2S_VERIFY []) 2
      [.startElement "message" [], .endElement "message"]).2 = -1 ∧
    (osrfChatHandleData sampleEnvOk (sampleServerS2S .S2S_VERIFY []) 7
      [.startElement "message" []]).sent = [(7, "PARSE_ERROR")] ∧
    (osrfChatHandleData sampleEnvOk (sampleServerS2S .S2S_VERIFY []) 7
      [.startElement "message" []]).nodeList 7 = none ∧
    (osrfChatHandleData sampleEnvOk (sampleServerS2S .S2S_VERIFY []) 7
      [.startElement "message" []]).nodeHash "peer.org" = none) ∧
    (specExpects "ex.org" .S2S_VERIFY_FINAL "db:verify" [("id", "s1")] = false ∧
    (osrfChatPushData sampleEnvOk (sampleServerS2S .S2S_VERIFY_FINAL ["<m1/>"]) 2
      [.startElement "db:verify" [("id", "s1")]]).2 = 0 ∧
    (osrfChatStartElement sampleEnvOk (sampleServerS2S .S2S_VERIFY_FINAL ["<m1/>"]) 2
      "db:verify" [("id", "s1")]).xmlError = false ∧
    ((osrfChatStartElement sampleEnvOk (sampleServerS2S .S2S_VERIFY_FINAL ["<m1/>"]) 2
      "db:verify" [("id", "s1")]).heap 2).map (fun n => n.state) =
        some OSRF_CHAT_STATE.CONNECTED) :=
  have h := C21_protocol_error sampleEnvOk (sampleServerS2S .S2S_VERIFY []) 2
    (samplePeer .S2S_VERIFY []) "message" [] (by decide) (by decide) (by decide) rfl
    (by decide)
  have hA := h.2 (by simp [sharedHandlerCase, samplePeer])
  have g := C21_protocol_error sampleEnvOk (sampleServerS2S .S2S_VERIFY_FINAL ["<m1/>"]) 2
    (samplePeer .S2S_VERIFY_FINAL ["<m1/>"]) "db:verify" [("id", "s1")] (by decide) (by decide)
    (by decide) rfl (by decide)
  have hB := g.1 ⟨Or.inr rfl, Or.inl rfl⟩
  ⟨⟨hA.1 _, hA.2.1, hA.2.2.1, hA.2.2.2.1 _ rfl⟩,
   ⟨by decide, hB.2.1 rfl, hB.1, by rw [(hB.2.2.1 rfl).1]; rfl⟩⟩

/-! ## The error flag across chunks -/

/-- The flag is set at the end of a chunk exactly when some event of the chunk raised it,
when it was clear at the start. -/
theorem xmlError_raised_iff (E : Env) (node : Nat) :
    ∀ (data : List SaxEvent) (w : osrfChatServer), w.xmlError = false →
      ((xmlParseChunk E w node data).xmlError = true ↔ ∃ i, raisedAt E w node data i) := by
  intro data
  induction data using List.reverseRecOn with
  | nil =>
    intro w hw
    constructor
    · intro h
      simp [xmlParseChunk, hw] at h
    · rintro ⟨i, hi, _⟩
      simp at hi
  | append_singleton rest ev ih =>
    intro w hw
    constructor
    · intro h
      cases hr : (xmlParseChunk E w node rest).xmlError with
      | true =>
        obtain ⟨i, hi, h1, h2⟩ := (ih w hw).mp hr
        refine ⟨i, ?_, ?_, ?_⟩
        · simp only [List.length_append, List.length_singleton]
          omega
        · rw [List.take_append_of_le_length (by omega)]
          exact h1
        · rw [List.take_append_of_le_length (by omega)]
          exact h2
      | false =>
        refine ⟨rest.length, by simp, ?_, ?_⟩
        · rw [List.take_append_of_le_length (le_refl _), List.take_length]
          exact hr
        · have : (rest ++ [ev]).take (rest.length + 1) = rest ++ [ev] := by
            apply List.take_of_length_le
            simp
          rw [this]
          exact h
    · rintro ⟨i, hi, _, h2⟩
      have hsplit : rest ++ [ev] =
          (rest ++ [ev]).take (i + 1) ++ (rest ++ [ev]).drop (i + 1) :=
        (List.take_append_drop _ _).symm
      rw [hsplit, xmlParseChunk_append]
      exact xmlParseChunk_xmlError E node _ _ h2

/-- The flag is clear after every push. -/
theorem osrfChatPushData_xmlError (E : Env) (w : osrfChatServer) (p : Nat)
    (d : List SaxEvent) : (osrfChatPushData E w p d).1.xmlError = false := by
  simp only [osrfChatPushData]
  split
  · rfl
  · rename_i hx
    simpa using hx

theorem osrfChatAddNode_xmlError (w : osrfChatServer) (sockid : Int) :
    (osrfChatAddNode w sockid).1.xmlError = w.xmlError := by
  unfold osrfChatAddNode
  split
  · rfl
  · split
    · rfl
    · simp

/-- The flag is clear after `osrfChatHandleData` when it was clear before. -/
theorem osrfChatHandleData_xmlError (E : Env) (w : osrfChatServer) (sockid : Int)
    (data : List SaxEvent) (hw : w.xmlError = false) :
    (osrfChatHandleData E w sockid data).xmlError = false := by
  have ha : (match w.nodeList sockid with
      | some node => (w, some node)
      | none => osrfChatAddNode w sockid).1.xmlError = false := by
    split
    · exact hw
    · rw [osrfChatAddNode_xmlError]; exact hw
  unfold osrfChatHandleData
  split
  · exact hw
  · simp only []
    split
    · split
      · simp [osrfChatPushData_xmlError]
      · simp [osrfChatPushData_xmlError]
    · simpa using ha

/-- C22: `osrfChatPushData` leaves the error flag clear on every return and returns -1 or 0.
When the flag is clear at the start (as it is in the initial state and after every push), the
push returns -1 exactly when an event of the chunk raised the flag. So for two pushes in a
row, on any two nodes, the second returns -1 exactly when an event of its own chunk raised the
flag, whatever happened during the first. `osrfChatHandleData` keeps the flag clear too. -/
theorem C22_error_flag (E : Env) (w : osrfChatServer) (p q : Nat) (d1 d2 : List SaxEvent) :
    (osrfChatPushData E w p d1).1.xmlError = false ∧
    ((osrfChatPushData E w p d1).2 = -1 ∨ (osrfChatPushData E w p d1).2 = 0) ∧
    (w.xmlError = false →
      ((osrfChatPushData E w p d1).2 = -1 ↔
        ∃ i, raisedAt E (modifyNode w p (fun n => { n with inparse := true })) p d1 i)) ∧
    ((osrfChatPushData E (osrfChatPushData E w p d1).1 q d2).2 = -1 ↔
      ∃ i, raisedAt E
        (modifyNode (osrfChatPushData E w p d1).1 q (fun n => { n with inparse := true }))
        q d2 i) ∧
    (w.xmlError = false → ∀ sockid, (osrfChatHandleData E w sockid d1).xmlError = false) := by
  have hclear : ∀ (w0 : osrfChatServer) (p0 : Nat) (d : List SaxEvent),
      (osrfChatPushData E w0 p0 d).1.xmlError = false :=
    fun w0 p0 d => osrfChatPushData_xmlError E w0 p0 d
  have hiff : ∀ (w0 : osrfChatServer) (p0 : Nat) (d : List SaxEvent), w0.xmlError = false →
      ((osrfChatPushData E w0 p0 d).2 = -1 ↔
        ∃ i, raisedAt E (modifyNode w0 p0 (fun n => { n with inparse := true })) p0 d i) := by
    intro w0 p0 d hw0
    rw [← xmlError_raised_iff E p0 d _ (by simpa using hw0)]
    simp only [osrfChatPushData, modifyNode_fields]
    split
    · rename_i hx
      simp [hx]
    · rename_i hx
      simp [hx]
  refine ⟨hclear w p d1, ?_, hiff w p d1, hiff _ q d2 (hclear w p d1), ?_⟩
  · simp only [osrfChatPushData]
    split
    · exact Or.inl rfl
    · exact Or.inr rfl
  · intro hw sockid
    exact osrfChatHandleData_xmlError E w sockid d1 hw

/-- Instance of C22 on the sample server: the sender's chunk holds an element that the parser
reports as an error, so the push returns -1 and clears the flag; the push of a well-formed
stanza right after it, on the node at address 1, returns 0. -/
theorem C22_error_flag_witness :
    (osrfChatPushData sampleEnvOk sampleServer 0 [.error]).2 = -1 ∧
    (osrfChatPushData sampleEnvOk sampleServer 0 [.error]).1.xmlError = false ∧
    (osrfChatPushData sampleEnvOk (osrfChatPushData sampleEnvOk sampleServer 0 [.error]).1 1
      (saxEvents flatStanza)).2 = 0 :=
  have h := C22_error_flag sampleEnvOk sampleServer 0 1 [.error] (saxEvents flatStanza)
  ⟨(h.2.2.1 rfl).mpr ⟨0, by decide, by decide, by decide⟩, h.1, by decide!⟩

/-! ## The binding of another node at a removal -/

/-- The removal of a node leaves every binding of `nodeHash` under a key other than the node's
`remote` as it is. -/
theorem osrfChatRemoveNode_nodeHash_other (w : osrfChatServer) (A : Nat) (a : osrfChatNode)
    (r : String) (hA : w.heap A = some a) (hr : a.remote ≠ some r) :
    (osrfChatRemoveNode w A).nodeHash r = w.nodeHash r := by
  rw [(osrfChatRemoveNode_eq w A a hA).1]
  cases h : a.remote with
  | none => rfl
  | some k =>
    have hk : r ≠ k := by
      intro e
      apply hr
      rw [h, e]
    simp [Function.update_noteq hk]

/-- C27 fails on the code: two clients log in as `a@ex.org/r1`, on socket 5 (node at address
0) and then on socket 6 (node at address 1), so that `nodeHash` binds the name to the second
node; then socket 5 closes. The removal of the first node, whose `remote` is the same name,
empties the binding, although the second node is still connected and stored in `nodeList`: a
stanza for `a@ex.org/r1` is answered with the no-recipient stanza. -/
theorem C27_eviction_then_close :
    sampleRunTwice.nodeHash "a@ex.org/r1" = some 1 ∧
    (sampleRunTwice.heap 0).bind (fun n => n.remote) = some "a@ex.org/r1" ∧
    sampleRunTwiceClosed.nodeHash "a@ex.org/r1" = none ∧
    sampleRunTwiceClosed.nodeList 6 = some 1 ∧
    (sampleRunTwiceClosed.heap 1).map (fun n => (n.state, n.remote)) =
      some (OSRF_CHAT_STATE.CONNECTED, some "a@ex.org/r1") ∧
    (osrfChatSend sampleEnvFresh sampleRunTwiceClosed 1 (some "a@ex.org/r1")
      (some "a@ex.org/r1") "<m/>").1.sent.drop sampleRunTwiceClosed.sent.length =
      [(6, "NO_RECIPIENT a@ex.org/r1 a@ex.org/r1")] := by
  decide!

/-! ## `socket_disconnect` on the socket list -/

theorem socket_find_node_none (l : List socket_node) (fd : Int) :
    socket_find_node l fd = none ↔ fd ∉ l.map (fun s => s.sock_fd) := by
  induction l with
  | nil => simp [socket_find_node]
  | cons a rest ih =>
    by_cases ha : a.sock_fd = fd
    · simp [socket_find_node, ha]
    · have hb : fd ≠ a.sock_fd := fun e => ha e.symm
      simp [socket_find_node, ha, ih, hb]

/-- In a list that holds each descriptor once, unlinking a descriptor leaves exactly the records
of the other descriptors, in their order. -/
theorem socket_remove_node_filter (l : List socket_node) (fd : Int)
    (h : (l.map (fun s => s.sock_fd)).Nodup) :
    socket_remove_node l fd = l.filter (fun s => decide (s.sock_fd ≠ fd)) := by
  induction l with
  | nil => rfl
  | cons a rest ih =>
    simp only [List.map_cons, List.nodup_cons] at h
    by_cases ha : a.sock_fd = fd
    · have hrest : rest.filter (fun s => decide (s.sock_fd ≠ fd)) = rest := by
        rw [List.filter_eq_self]
        intro s hs
        have : s.sock_fd ≠ fd := by
          intro e
          apply h.1
          rw [ha, ← e]
          exact List.mem_map_of_mem _ hs
        simpa using this
      rw [List.filter_cons, hrest]
      simp [socket_remove_node, ha]
    · simp [socket_remove_node, ha, ih h.2]

/-- C25: in a socket list that holds each socket id once, after `socket_disconnect` with the
descriptor `fd` the list holds no record with `fd` (`socket_find_node` finds none), it consists
of the records with another descriptor in their previous order, and the descriptor was
closed; when `fd` is not in the list the list is unchanged. -/
theorem C25_disconnect (w : osrfChatServer) (fd : Int)
    (hu : (w.mgr.map (fun s => s.sock_fd)).Nodup) :
    (∀ s ∈ (socket_disconnect w fd).mgr, s.sock_fd ≠ fd) ∧
    socket_find_node (socket_disconnect w fd).mgr fd = none ∧
    (socket_disconnect w fd).mgr = w.mgr.filter (fun s => decide (s.sock_fd ≠ fd)) ∧
    (socket_disconnect w fd).closed = w.closed ++ [fd] ∧
    (fd ∉ w.mgr.map (fun s => s.sock_fd) → (socket_disconnect w fd).mgr = w.mgr) := by
  have hf := socket_remove_node_filter w.mgr fd hu
  have hg := socket_remove_node_gone w.mgr fd hu
  refine ⟨?_, ?_, ?_, ?_, ?_⟩
  · intro s hs e
    apply hg
    simp only [socket_disconnect_fields] at hs
    have := List.mem_map_of_mem (fun s : socket_node => s.sock_fd) hs
    simpa only [e] using this
  · rw [socket_find_node_none]
    simpa using hg
  · simpa using hf
  · simp
  · intro habs
    simpa using socket_remove_node_absent w.mgr fd habs

/-- Instance of C25 on the socket list of the sample server (descriptors 6, 5 and 4):
disconnecting 5 leaves the records of 6 and 4 in that order; disconnecting 9 changes nothing. -/
theorem C25_disconnect_witness :
    (socket_disconnect sampleServer 5).mgr =
      [⟨CLIENT_SOCKET, INET, 6, 4⟩, ⟨SERVER_SOCKET, INET, 4, 0⟩] ∧
    socket_find_node (socket_disconnect sampleServer 5).mgr 5 = none ∧
    (socket_disconnect sampleServer 9).mgr = sampleServer.mgr :=
  have h5 := C25_disconnect sampleServer 5 (by decide)
  have h9 := C25_disconnect sampleServer 9 (by decide)
  ⟨by rw [h5.2.2.1]; decide, h5.2.1, h9.2.2.2.2 (by decide)⟩

/-! ## The doubling loop of `buffer_add` -/

/-- From the size 0 the doubling loop never ends when there is something to add. -/
theorem buffer_grow_zero (total_len : Int) (h : 0 ≤ total_len) :
    ∀ fuel, buffer_grow fuel total_len 0 = none := by
  intro fuel
  induction fuel with
  | zero => rfl
  | succ k ih =>
    have h0 : int32 (0 * 2) = 0 := by decide
    simp only [buffer_grow, ge_iff_le, h, if_true, h0]
    exact ih

/-- From a size of at least 1 the doubling loop ends, at a size above `total_len`, within
`fuel` tests when `size * 2 ^ (fuel - 1)` is above `total_len` (no size computed leaves the
range of `int`). -/
theorem buffer_grow_ends : ∀ (k : Nat) (total_len size : Int), 1 ≤ size →
    2 * total_len < 2147483648 → size < 2147483648 → total_len < size * 2 ^ k →
    ∃ r, buffer_grow (k + 1) total_len size = some r ∧ total_len < r ∧
      (r = size ∨ r ≤ 2 * total_len) := by
  intro k
  induction k with
  | zero =>
    intro total_len size _ _ _ hlt
    have : ¬ total_len ≥ size := by simpa using hlt
    exact ⟨size, by simp [buffer_grow, this], by simpa using hlt, Or.inl rfl⟩
  | succ k ih =>
    intro total_len size h1 ht hs hlt
    by_cases hc : total_len ≥ size
    · have h2 : int32 (size * 2) = size * 2 := by
        unfold int32
        omega
      obtain ⟨r, hr, hgt, hor⟩ := ih total_len (size * 2) (by omega) ht (by omega)
        (by rw [pow_succ] at hlt; linarith)
      refine ⟨r, ?_, hgt, Or.inr ?_⟩
      · rw [buffer_grow]
        simp only [hc, if_true, h2]
        exact hr
      · rcases hor with h | h
        · rw [h]; omega
        · exact h
    · exact ⟨size, by simp [buffer_grow, hc], by omega, Or.inl rfl⟩

/-- C29 fails on the code: `buffer_init(0)` returns a buffer of size 0 (0 is not above
`BUFFER_MAX_SIZE`), and `buffer_add` of a string that is not empty (and whose length is an
`int`) to a buffer of size 0 never leaves the doubling loop: whatever number of tests it is
given, the loop has not ended. -/
theorem C29_zero_size_loops (BUFFER_MAX_SIZE : Int) (fuel : Nat) (data : List Nat)
    (hne : data ≠ []) (hlen : (data.length : Int) < 2147483648) :
    buffer_init BUFFER_MAX_SIZE 0 =
      (if 0 > BUFFER_MAX_SIZE then none else some { buf := [], n_used := 0, size := 0 }) ∧
    buffer_add BUFFER_MAX_SIZE fuel (some { buf := [], n_used := 0, size := 0 }) data =
      none := by
  refine ⟨rfl, ?_⟩
  have hpos : 0 < (data.length : Int) := by
    have := List.length_pos.mpr hne
    omega
  have hne0 : ¬ (data.length : Int) = 0 := by omega
  have ht : 0 ≤ int32 ((data.length : Int) + 0) := by
    unfold int32
    omega
  simp only [buffer_add, hne0, if_false, ge_iff_le, ht, if_true,
    buffer_grow_zero _ ht fuel]

/-- Instance of C29: with the maximum 10485760, `buffer_init(0)` returns the buffer of size 0,
and adding the string `a` to it has not ended after a million tests of the loop. -/
theorem C29_zero_size_loops_witness :
    buffer_init 10485760 0 = some { buf := [], n_used := 0, size := 0 } ∧
    buffer_add 10485760 1000000 (buffer_init 10485760 0) [97] = none :=
  have h := C29_zero_size_loops 10485760 1000000 [97] (by decide) (by decide)
  ⟨by decide, h.2⟩

/-! ## The loops of `_socket_route_data` -/

theorem routeLoop_limit (E : MuxEnv) (na : Int) (f : Nat) (mgr : socket_manager)
    (rs : List Int) (lf : Int) (n : socket_node) (next : List socket_node) (handled : Int)
    (h : ¬ handled < na) :
    routeLoop E na (f + 1) mgr rs lf (n :: next) handled = some (mgr, rs) := by
  simp [routeLoop, h]

theorem routeLoop_failed (E : MuxEnv) (na : Int) (f : Nat) (mgr : socket_manager)
    (rs : List Int) (lf : Int) (n : socket_node) (next : List socket_node) (handled : Int)
    (h : handled < na) (hlf : lf ≠ -1) :
    routeLoop E na (f + 1) mgr rs lf (n :: next) handled =
      routeLoop E na f
        { mgr with socket := socket_remove_node mgr.socket lf, scans := [] :: mgr.scans } rs
        (-1) (socket_remove_node mgr.socket lf) 0 := by
  simp [routeLoop, h, hlf]

theorem routeLoop_skip (E : MuxEnv) (na : Int) (f : Nat) (mgr : socket_manager)
    (rs : List Int) (n : socket_node) (next : List socket_node) (handled : Int)
    (h : handled < na) (hr : n.sock_fd ∉ rs) :
    routeLoop E na (f + 1) mgr rs (-1) (n :: next) handled =
      routeLoop E na f mgr rs (-1) next handled := by
  simp [routeLoop, h, hr]

theorem routeLoop_server (E : MuxEnv) (na : Int) (f : Nat) (mgr : socket_manager)
    (rs : List Int) (n : socket_node) (next : List socket_node) (handled : Int)
    (h : handled < na) (hr : n.sock_fd ∈ rs) (hs : n.endpoint = SERVER_SOCKET) :
    routeLoop E na (f + 1) mgr rs (-1) (n :: next) handled =
      routeLoop E na f
        (_socket_handle_new_client E { mgr with scans := noteDispatch mgr.scans n.sock_fd } n).1
        (rs.filter (fun fd => decide (fd ≠ n.sock_fd))) (-1) next (handled + 1) := by
  simp [routeLoop, h, hr, hs]

theorem routeLoop_client_fail (E : MuxEnv) (na : Int) (f : Nat) (mgr : socket_manager)
    (rs : List Int) (n : socket_node) (next : List socket_node) (handled : Int)
    (h : handled < na) (hr : n.sock_fd ∈ rs) (hs : n.endpoint ≠ SERVER_SOCKET)
    (hst : (_socket_handle_client_data E
      { mgr with scans := noteDispatch mgr.scans n.sock_fd } n).2 = -1) :
    routeLoop E na (f + 1) mgr rs (-1) (n :: next) handled =
      routeLoop E na f
        { (_socket_handle_client_data E
            { mgr with scans := noteDispatch mgr.scans n.sock_fd } n).1 with
          scans := [] :: (_socket_handle_client_data E
            { mgr with scans := noteDispatch mgr.scans n.sock_fd } n).1.scans }
        (rs.filter (fun fd => decide (fd ≠ n.sock_fd))) n.sock_fd
        (_socket_handle_client_data E
          { mgr with scans := noteDispatch mgr.scans n.sock_fd } n).1.socket 0 := by
  simp [routeLoop, h, hr, hs, hst]

theorem routeLoop_client_ok (E : MuxEnv) (na : Int) (f : Nat) (mgr : socket_manager)
    (rs : List Int) (n : socket_node) (next : List socket_node) (handled : Int)
    (h : handled < na) (hr : n.sock_fd ∈ rs) (hs : n.endpoint ≠ SERVER_SOCKET)
    (hst : (_socket_handle_client_data E
      { mgr with scans := noteDispatch mgr.scans n.sock_fd } n).2 ≠ -1) :
    routeLoop E na (f + 1) mgr rs (-1) (n :: next) handled =
      routeLoop E na f
        (_socket_handle_client_data E
          { mgr with scans := noteDispatch mgr.scans n.sock_fd } n).1
        (rs.filter (fun fd => decide (fd ≠ n.sock_fd))) (-1)
        (nextOf (_socket_handle_client_data E
          { mgr with scans := noteDispatch mgr.scans n.sock_fd } n).1.socket n.sock_fd)
        (handled + 1) := by
  simp [routeLoop, h, hr, hs, hst]

/-- More rounds do not change a result. -/
theorem routeLoop_mono (E : MuxEnv) (na : Int) :
    ∀ (f : Nat) (mgr : socket_manager) (rs : List Int) (lf : Int) (node : List socket_node)
      (handled : Int) (r : socket_manager × List Int),
      routeLoop E na f mgr rs lf node handled = some r →
      routeLoop E na (f + 1) mgr rs lf node handled = some r := by
  intro f
  induction f with
  | zero =>
    intro mgr rs lf node handled r h
    simp [routeLoop] at h
  | succ k ih =>
    intro mgr rs lf node handled r h
    cases node with
    | nil => simpa [routeLoop] using h
    | cons n next =>
      by_cases h1 : handled < na
      · by_cases hlf : lf = -1
        · subst hlf
          by_cases hr : n.sock_fd ∈ rs
          · by_cases hs : n.endpoint = SERVER_SOCKET
            · rw [routeLoop_server E na _ mgr rs n next handled h1 hr hs] at h ⊢
              exact ih _ _ _ _ _ _ h
            · by_cases hst : (_socket_handle_client_data E
                  { mgr with scans := noteDispatch mgr.scans n.sock_fd } n).2 = -1
              · rw [routeLoop_client_fail E na _ mgr rs n next handled h1 hr hs hst] at h ⊢
                exact ih _ _ _ _ _ _ h
              · rw [routeLoop_client_ok E na _ mgr rs n next handled h1 hr hs hst] at h ⊢
                exact ih _ _ _ _ _ _ h
          · rw [routeLoop_skip E na _ mgr rs n next handled h1 hr] at h ⊢
            exact ih _ _ _ _ _ _ h
        · rw [routeLoop_failed E na _ mgr rs lf n next handled h1 hlf] at h ⊢
          exact ih _ _ _ _ _ _ h
      · rw [routeLoop_limit E na _ mgr rs lf n next handled h1] at h ⊢
        exact h

theorem routeLoop_mono_le (E : MuxEnv) (na : Int) (f g : Nat) (hfg : f ≤ g)
    (mgr : socket_manager) (rs : List Int) (lf : Int) (node : List socket_node)
    (handled : Int) (r : socket_manager × List Int)
    (h : routeLoop E na f mgr rs lf node handled = some r) :
    routeLoop E na g mgr rs lf node handled = some r := by
  induction hfg with
  | refl => exact h
  | step _ ih => exact routeLoop_mono E na _ _ _ _ _ _ _ ih

theorem filter_ne_length_lt (rs : List Int) (fd : Int) (h : fd ∈ rs) :
    (rs.filter (fun x => decide (x ≠ fd))).length < rs.length := by
  apply List.length_filter_lt_length_iff_exists.mpr
  exact ⟨fd, h, by simp⟩

/-- The loops end, whatever the callbacks do to the socket list: each dispatch clears a bit
of the set, and no bit is set. -/
theorem routeLoop_ends (E : MuxEnv) (na : Int) :
    ∀ (k : Nat) (rs : List Int), rs.length = k →
      ∀ (mgr : socket_manager) (lf : Int) (node : List socket_node) (handled : Int),
        ∃ f r, routeLoop E na f mgr rs lf node handled = some r := by
  intro k
  induction k using Nat.strong_induction_on with
  | _ k ihk =>
    intro rs hk
    -- no failed descriptor pending
    have hA : ∀ (node : List socket_node) (mgr : socket_manager) (handled : Int),
        ∃ f r, routeLoop E na f mgr rs (-1) node handled = some r := by
      intro node
      induction node with
      | nil =>
        intro mgr handled
        exact ⟨1, (mgr, rs), rfl⟩
      | cons n next ihn =>
        intro mgr handled
        by_cases h1 : handled < na
        · by_cases hr : n.sock_fd ∈ rs
          · have hlt := filter_ne_length_lt rs n.sock_fd hr
            by_cases hs : n.endpoint = SERVER_SOCKET
            · obtain ⟨f, r, hf⟩ := ihk _ (by rw [← hk]; exact hlt) _ rfl
                (_socket_handle_new_client E
                  { mgr with scans := noteDispatch mgr.scans n.sock_fd } n).1 (-1) next
                (handled + 1)
              exact ⟨f + 1, r, by rw [routeLoop_server E na f mgr rs n next handled h1 hr hs]; exact hf⟩
            · by_cases hst : (_socket_handle_client_data E
                  { mgr with scans := noteDispatch mgr.scans n.sock_fd } n).2 = -1
              · obtain ⟨f, r, hf⟩ := ihk _ (by rw [← hk]; exact hlt) _ rfl
                  { (_socket_handle_client_data E
                      { mgr with scans := noteDispatch mgr.scans n.sock_fd } n).1 with
                    scans := [] :: (_socket_handle_client_data E
                      { mgr with scans := noteDispatch mgr.scans n.sock_fd } n).1.scans }
                  n.sock_fd
                  (_socket_handle_client_data E
                    { mgr with scans := noteDispatch mgr.scans n.sock_fd } n).1.socket 0
                exact ⟨f + 1, r, by
                  rw [routeLoop_client_fail E na f mgr rs n next handled h1 hr hs hst]
                  exact hf⟩
              · obtain ⟨f, r, hf⟩ := ihk _ (by rw [← hk]; exact hlt) _ rfl
                  (_socket_handle_client_data E
                    { mgr with scans := noteDispatch mgr.scans n.sock_fd } n).1 (-1)
                  (nextOf (_socket_handle_client_data E
                    { mgr with scans := noteDispatch mgr.scans n.sock_fd } n).1.socket
                    n.sock_fd) (handled + 1)
                exact ⟨f + 1, r, by
                  rw [routeLoop_client_ok E na f mgr rs n next handled h1 hr hs hst]
                  exact hf⟩
          · obtain ⟨f, r, hf⟩ := ihn mgr handled
            exact ⟨f + 1, r, by rw [routeLoop_skip E na f mgr rs n next handled h1 hr]; exact hf⟩
        · exact ⟨1, (mgr, rs), routeLoop_limit E na 0 mgr rs (-1) n next handled h1⟩
    intro mgr lf node handled
    by_cases hlf : lf = -1
    · subst hlf
      exact hA node mgr handled
    · cases node with
      | nil => exact ⟨1, (mgr, rs), rfl⟩
      | cons n next =>
        by_cases h1 : handled < na
        · obtain ⟨f, r, hf⟩ := hA (socket_remove_node mgr.socket lf)
            { mgr with socket := socket_remove_node mgr.socket lf, scans := [] :: mgr.scans } 0
          exact ⟨f + 1, r, by
            rw [routeLoop_failed E na f mgr rs lf n next handled h1 hlf]
            exact hf⟩
        · exact ⟨1, (mgr, rs), routeLoop_limit E na 0 mgr rs lf n next handled h1⟩

theorem noteDispatch_cons (cur : List Int) (older : List (List Int)) (fd : Int) :
    noteDispatch (cur :: older) fd = (cur ++ [fd]) :: older := rfl

theorem recvLoop_scans (E : MuxEnv) (sock_fd parent_id : Int) :
    ∀ (chunks : List String) (mgr : socket_manager),
      (recvLoop E sock_fd parent_id chunks mgr).scans = mgr.scans := by
  intro chunks
  induction chunks with
  | nil => intro mgr; rfl
  | cons c rest ih => intro mgr; simp [recvLoop, ih]

theorem _socket_handle_new_client_scans (E : MuxEnv) (mgr : socket_manager) (n : socket_node) :
    (_socket_handle_new_client E mgr n).1.scans = mgr.scans := by
  unfold _socket_handle_new_client
  simp only []
  split_ifs <;> rfl

theorem _socket_handle_client_data_scans (E : MuxEnv) (mgr : socket_manager) (n : socket_node) :
    (_socket_handle_client_data E mgr n).1.scans = mgr.scans := by
  unfold _socket_handle_client_data
  simp only []
  split <;> (try split_ifs) <;> simp [recvLoop_scans]

theorem RoutePost.done (na : Int) (rs : List Int) (flag : Nat) (cur : List Int)
    (older : List (List Int)) (mgr : socket_manager) (h : mgr.scans = cur :: older) :
    RoutePost na rs flag cur older (mgr, rs) [] [] where
  scans := by simp [h]
  perScan := by simp
  current := Or.inl rfl
  nodup := by simp
  ready := by simp
  left := by simp
  count := by simp
  restarts := by simp

theorem RoutePost.unlinked (na : Int) (rs : List Int) (cur : List Int)
    (older : List (List Int)) (r : socket_manager × List Int) (d0 : List Int)
    (newer : List (List Int)) (hna : 0 ≤ na)
    (p : RoutePost na rs 0 [] (cur :: older) r d0 newer) :
    RoutePost na rs 1 cur older r [] (newer ++ [d0]) where
  scans := by simp [p.scans]
  perScan := by
    intro s hs
    rcases List.mem_append.mp hs with h | h
    · exact p.perScan s h
    · rw [List.mem_singleton.mp h]
      rcases p.current with h0 | h0
      · simp [h0, hna]
      · simpa using h0
  current := Or.inl rfl
  nodup := by simpa using p.nodup
  ready := by simpa using p.ready
  left := by simpa using p.left
  count := by simpa using p.count
  restarts := by
    have := p.restarts
    simp at this ⊢
    omega

theorem filter_notMem_cons (rs D : List Int) (fd : Int) :
    (rs.filter (fun x => decide (x ≠ fd))).filter (fun x => decide (x ∉ D)) =
      rs.filter (fun x => decide (x ∉ fd :: D)) := by
  rw [List.filter_filter]
  apply List.filter_congr
  intro x _
  simp [Bool.and_comm]

theorem RoutePost.sameScan (na : Int) (rs : List Int) (cur : List Int)
    (older : List (List Int)) (r : socket_manager × List Int) (d0 : List Int)
    (newer : List (List Int)) (fd : Int) (hfd : fd ∈ rs)
    (hna : ((cur ++ [fd]).length : Int) ≤ na)
    (p : RoutePost na (rs.filter (fun x => decide (x ≠ fd))) 0 (cur ++ [fd]) older r d0 newer) :
    RoutePost na rs 0 cur older r (fd :: d0) newer where
  scans := by simp [p.scans]
  perScan := p.perScan
  current := by
    right
    rcases p.current with h0 | h0
    · simpa [h0] using hna
    · simpa using h0
  nodup := by
    have hn : fd ∉ d0 ++ newer.reverse.flatten := fun hm => by
      have := p.ready fd hm
      simp at this
    simpa using And.intro (by simpa using hn) p.nodup
  ready := by
    intro x hx
    have hx1 : x ∈ fd :: (d0 ++ newer.reverse.flatten) := by simpa using hx
    rcases List.mem_cons.mp hx1 with h | h
    · rw [h]; exact hfd
    · exact (List.mem_filter.mp (p.ready x h)).1
  left := by
    rw [p.left, filter_notMem_cons]
    rfl
  count := by
    have h1 := p.count
    have h2 := filter_ne_length_lt rs fd hfd
    simp at h1 h2 ⊢
    omega
  restarts := by
    have := p.restarts
    simp at this ⊢
    omega

theorem RoutePost.newScan (na : Int) (rs : List Int) (flag : Nat) (cur : List Int)
    (older : List (List Int)) (r : socket_manager × List Int) (d0 : List Int)
    (newer : List (List Int)) (fd : Int) (hfd : fd ∈ rs) (hflag : flag ≤ 1)
    (hna : ((cur ++ [fd]).length : Int) ≤ na)
    (p : RoutePost na (rs.filter (fun x => decide (x ≠ fd))) flag []
      ((cur ++ [fd]) :: older) r d0 newer) :
    RoutePost na rs 0 cur older r [fd] (newer ++ [d0]) where
  scans := by simp [p.scans]
  perScan := by
    intro s hs
    rcases List.mem_append.mp hs with h | h
    · exact p.perScan s h
    · rw [List.mem_singleton.mp h]
      rcases p.current with h0 | h0
      · have : (0 : Int) ≤ na := le_trans (by positivity) hna
        simp [h0, this]
      · simpa using h0
  current := Or.inr hna
  nodup := by
    have hn : fd ∉ d0 ++ newer.reverse.flatten := fun hm => by
      have := p.ready fd hm
      simp at this
    simpa using And.intro (by simpa using hn) p.nodup
  ready := by
    intro x hx
    have hx1 : x ∈ fd :: (d0 ++ newer.reverse.flatten) := by simpa using hx
    rcases List.mem_cons.mp hx1 with h | h
    · rw [h]; exact hfd
    · exact (List.mem_filter.mp (p.ready x h)).1
  left := by
    rw [p.left, filter_notMem_cons]
    simp
  count := by
    have h1 := p.count
    have h2 := filter_ne_length_lt rs fd hfd
    simp at h1 h2 ⊢
    omega
  restarts := by
    have := p.restarts
    simp at this ⊢
    omega

/-- What a run of the loops that returns has done: see `RoutePost`. -/
theorem routeLoop_post (E : MuxEnv) (na : Int) :
    ∀ (f : Nat) (mgr : socket_manager) (rs : List Int) (lf : Int) (node : List socket_node)
      (handled : Int) (r : socket_manager × List Int) (cur : List Int)
      (older : List (List Int)),
      routeLoop E na f mgr rs lf node handled = some r →
      mgr.scans = cur :: older → (cur.length : Int) = handled →
      ∃ d0 newer, RoutePost na rs (if lf = -1 then 0 else 1) cur older r d0 newer := by
  intro f
  induction f with
  | zero =>
    intro mgr rs lf node handled r cur older h
    simp [routeLoop] at h
  | succ k ih =>
    intro mgr rs lf node handled r cur older h hs hh
    cases node with
    | nil =>
      have hr : r = (mgr, rs) := by simpa [routeLoop] using h.symm
      rw [hr]
      exact ⟨[], [], RoutePost.done na rs _ cur older mgr hs⟩
    | cons n next =>
      by_cases h1 : handled < na
      · have hna0 : (0 : Int) ≤ na := by
          have : (0 : Int) ≤ (cur.length : Int) := by positivity
          omega
        have hna1 : ((cur ++ [n.sock_fd]).length : Int) ≤ na := by
          simp
          omega
        by_cases hlf : lf = -1
        · subst hlf
          simp only [if_true]
          by_cases hr : n.sock_fd ∈ rs
          · by_cases hsv : n.endpoint = SERVER_SOCKET
            · rw [routeLoop_server E na _ mgr rs n next handled h1 hr hsv] at h
              obtain ⟨d0, newer, p⟩ := ih _ _ _ _ _ _ (cur ++ [n.sock_fd]) older h
                (by rw [_socket_handle_new_client_scans]; simp [hs, noteDispatch_cons])
                (by simp; omega)
              exact ⟨n.sock_fd :: d0, newer,
                RoutePost.sameScan na rs cur older r d0 newer n.sock_fd hr hna1
                  (by simpa using p)⟩
            · by_cases hst : (_socket_handle_client_data E
                  { mgr with scans := noteDispatch mgr.scans n.sock_fd } n).2 = -1
              · rw [routeLoop_client_fail E na _ mgr rs n next handled h1 hr hsv hst] at h
                obtain ⟨d0, newer, p⟩ := ih _ _ _ _ _ _ [] ((cur ++ [n.sock_fd]) :: older) h
                  (by simp [_socket_handle_client_data_scans, hs, noteDispatch_cons])
                  (by simp)
                exact ⟨[n.sock_fd], newer ++ [d0],
                  RoutePost.newScan na rs _ cur older r d0 newer n.sock_fd hr
                    (by split <;> omega) hna1 p⟩
              · rw [routeLoop_client_ok E na _ mgr rs n next handled h1 hr hsv hst] at h
                obtain ⟨d0, newer, p⟩ := ih _ _ _ _ _ _ (cur ++ [n.sock_fd]) older h
                  (by rw [_socket_handle_client_data_scans]; simp [hs, noteDispatch_cons])
                  (by simp; omega)
                exact ⟨n.sock_fd :: d0, newer,
                  RoutePost.sameScan na rs cur older r d0 newer n.sock_fd hr hna1
                    (by simpa using p)⟩
          · rw [routeLoop_skip E na _ mgr rs n next handled h1 hr] at h
            obtain ⟨d0, newer, p⟩ := ih _ _ _ _ _ _ cur older h hs hh
            exact ⟨d0, newer, by simpa using p⟩
        · rw [routeLoop_failed E na _ mgr rs lf n next handled h1 hlf] at h
          obtain ⟨d0, newer, p⟩ := ih _ _ _ _ _ _ [] (cur :: older) h (by simp [hs]) (by simp)
          simp only [hlf, if_false]
          exact ⟨[], newer ++ [d0],
            RoutePost.unlinked na rs cur older r d0 newer hna0 (by simpa using p)⟩
      · rw [routeLoop_limit E na _ mgr rs lf n next handled h1] at h
        have hr : r = (mgr, rs) := by simpa using h.symm
        rw [hr]
        exact ⟨[], [], RoutePost.done na rs _ cur older mgr hs⟩

theorem _socket_route_data_ends (E : MuxEnv) (mgr : socket_manager) (num_active : Int)
    (read_set : List Int) :
    ∃ fuel r, ∀ g, fuel ≤ g → _socket_route_data E g mgr num_active read_set = some r := by
  obtain ⟨f, r, h⟩ := routeLoop_ends E num_active read_set.length read_set rfl
    { mgr with scans := [] :: mgr.scans } (-1) mgr.socket 0
  exact ⟨f, r, fun g hg => routeLoop_mono_le E num_active f g hg _ _ _ _ _ _ h⟩

theorem _socket_route_data_post (E : MuxEnv) (fuel : Nat) (mgr : socket_manager)
    (num_active : Int) (read_set : List Int) (r : socket_manager × List Int)
    (h : _socket_route_data E fuel mgr num_active read_set = some r) :
    ∃ first restarts, RoutePost num_active read_set 0 [] mgr.scans r first restarts := by
  obtain ⟨d0, newer, p⟩ := routeLoop_post E num_active fuel _ _ _ _ _ r [] mgr.scans h rfl rfl
  exact ⟨d0, newer, by simpa using p⟩

/-- C23 fails on the code for the timeout 0: `socket_wait_all` then calls `select` not at
all and hands 0 for `num_active` to `_socket_route_data`, with the bit of every registered
descriptor set, so that no socket is dispatched, whatever is ready: the manager is as before
but for the record of one scan that dispatched nothing, and the value returned is 0. For any
other timeout there is one call of `select` over the descriptors of all records, without a
timeout when `timeout` is negative and with `timeout` seconds otherwise, and what it reports
goes to `_socket_route_data`. -/
theorem C23_timeout_zero_no_wait (E : MuxEnv) (mgr : socket_manager) (fuel : Nat)
    (timeout : Int) :
    socket_wait_all E (fuel + 1) mgr timeout =
      if timeout = 0 then some ({ mgr with scans := [] :: mgr.scans }, 0)
      else
        let r := E.select mgr.selects.length (mgr.socket.map (fun s => s.sock_fd))
          (if timeout < 0 then none else some timeout)
        let mgr1 := { mgr with
          selects := mgr.selects ++ [if timeout < 0 then none else some timeout] }
        if r.1 = -1 then some (mgr1, -1)
        else (_socket_route_data E (fuel + 1) mgr1 r.1 r.2).map (fun x => (x.1, 0)) := by
  by_cases h0 : timeout = 0
  · subst h0
    cases hs : mgr.socket with
    | nil => simp [socket_wait_all, _socket_route_data, routeLoop, hs]
    | cons n next => simp [socket_wait_all, _socket_route_data, routeLoop, hs]
  · by_cases hneg : timeout < 0
    · simp [socket_wait_all, h0, hneg]
    · simp [socket_wait_all, h0, hneg]

/-- C24 fails as stated: with `num_active` 1, the client sockets 5 and 6 both ready and the
peer of 5 gone, `_socket_route_data` dispatches socket 5, starts again from the head of the
list with the count at 0, and dispatches socket 6 as well: two dispatches. -/
theorem C24_num_active_counterexample :
    (_socket_route_data sampleMuxEnv 20 sampleMgr 1 [5, 6, 4]).map
        (fun r => (r.1.scans, r.2, r.1.socket.map (fun s => s.sock_fd))) =
      some ([[6], [], [5]], [4], [6, 4]) := by
  decide!

/-- C24 (as amended): for every socket list, ready set, `num_active` and callbacks,
`_socket_route_data` returns, and it has dispatched at most `num_active` sockets in each
scan of the list (`first` is the scan from the call, `restarts` are the scans after it, the
latest first), and in all scans together at most as many as there are descriptors in the
ready set, less those whose bit is still set at the end. -/
theorem C24_dispatch_bound (E : MuxEnv) (mgr : socket_manager) (num_active : Int)
    (read_set : List Int) :
    ∃ fuel r, (∀ g, fuel ≤ g → _socket_route_data E g mgr num_active read_set = some r) ∧
      ∃ first restarts, r.1.scans = restarts ++ first :: mgr.scans ∧
        (∀ s ∈ first :: restarts, s = [] ∨ (s.length : Int) ≤ num_active) ∧
        (first ++ restarts.reverse.flatten).length + r.2.length ≤ read_set.length := by
  obtain ⟨fuel, r, h⟩ := _socket_route_data_ends E mgr num_active read_set
  obtain ⟨first, restarts, p⟩ :=
    _socket_route_data_post E fuel mgr num_active read_set r (h fuel le_rfl)
  refine ⟨fuel, r, h, first, restarts, by simpa using p.scans, ?_, p.count⟩
  intro s hs
  rcases List.mem_cons.mp hs with h1 | h1
  · rw [h1]
    simpa using p.current
  · exact Or.inr (p.perScan s h1)

/-- C28: for every socket list, ready set, `num_active` and callbacks (given by what they
return), `_socket_route_data` returns: there is a number of rounds of the inner loop from
which on the result is there. The descriptors dispatched (`first` in the scan from the call,
`restarts` in the scans after it, the latest first) are pairwise different and were all in
the ready set, the bits set at the end are those of the ready set less the dispatched ones,
and there are at most two restarts per dispatch (one when the dispatch fails, one when the
failed descriptor is unlinked). -/
theorem C28_route_data_terminates (E : MuxEnv) (mgr : socket_manager) (num_active : Int)
    (read_set : List Int) :
    ∃ fuel r, (∀ g, fuel ≤ g → _socket_route_data E g mgr num_active read_set = some r) ∧
      ∃ first restarts, r.1.scans = restarts ++ first :: mgr.scans ∧
        (first ++ restarts.reverse.flatten).Nodup ∧
        (∀ fd ∈ first ++ restarts.reverse.flatten, fd ∈ read_set) ∧
        r.2 = read_set.filter (fun fd => decide (fd ∉ first ++ restarts.reverse.flatten)) ∧
        restarts.length ≤ 2 * (first ++ restarts.reverse.flatten).length := by
  obtain ⟨fuel, r, h⟩ := _socket_route_data_ends E mgr num_active read_set
  obtain ⟨first, restarts, p⟩ :=
    _socket_route_data_post E fuel mgr num_active read_set r (h fuel le_rfl)
  exact ⟨fuel, r, h, first, restarts, by simpa using p.scans, p.nodup, p.ready, p.left,
    by simpa using p.restarts⟩

/-! ## The messages of the client session -/

/-- The result of `atoi` is an `int`: a numeral beyond its range comes back wrapped. -/
theorem atoi_wraps :
    atoi "1" = 1 ∧ atoi " -12x" = -12 ∧ atoi "99999999999" = 1215752191 ∧
    atoi "2147483648" = -2147483648 := by
  decide

/-- C26 fails on the code: `reset_session_buffers` leaves `router_broadcast` as it is, and the
start of a `message` element only sets it when the element has the attribute `broadcast`. Fed
with a message with `broadcast='1'` and then a message without that attribute, the session
calls the callback once per message, each with the sender, recipient and texts of its own
stanza, but hands the value 1 of the first stanza to `message_set_router_info` for the second
message too; fed with the second stanza alone it hands 0. -/
theorem C26_broadcast_kept :
    (∀ ses, (reset_session_buffers ses).router_broadcast = ses.router_broadcast) ∧
    (grab_incoming sampleSession (saxEventsList [sampleBroadcast, samplePlain])).map
        (fun s => s.calls) =
      some [{ body := "x", subject := "", thread := "", recipient := "b@ex.org/r",
              sender := "a@ex.org/r", router_from := "", router_to := "", router_class := "",
              router_command := "", router_broadcast := 1, osrf_xid := "", error := none },
            { body := "y", subject := "", thread := "t1", recipient := "d@ex.org/r",
              sender := "c@ex.org/r", router_from := "", router_to := "", router_class := "",
              router_command := "", router_broadcast := 1, osrf_xid := "", error := none }] ∧
    (grab_incoming sampleSession (saxEventsList [samplePlain])).map (fun s => s.calls) =
      some [{ body := "y", subject := "", thread := "t1", recipient := "d@ex.org/r",
              sender := "c@ex.org/r", router_from := "", router_to := "", router_class := "",
              router_command := "", router_broadcast := 0, osrf_xid := "", error := none }] := by
  refine ⟨fun ses => rfl, ?_, ?_⟩
  · decide!
  · decide!

/-! ## `uescape` on valid UTF-8 -/

theorem int32_id (x : Int) (h1 : -2147483648 ≤ x) (h2 : x < 2147483648) : int32 x = x := by
  unfold int32
  omega

/-- What the lemmas on `uescape` keep of its buffer: `n_used` is the length of the text, and
the size is from 1 to the maximum. -/
theorem uescapeAdd_ok (MAX : Int) (fuel : Nat) (g : growing_buffer) (data : List Nat)
    (hmax : MAX < 1073741824) (hfuel : 32 ≤ fuel) (hn : g.n_used = g.buf.length)
    (hs1 : 1 ≤ g.size) (hs2 : g.size ≤ MAX) (hd : data ≠ [])
    (hfit : 2 * ((g.buf.length : Int) + data.length) ≤ MAX) :
    ∃ g1, uescapeAdd MAX fuel (some g) data = some (some g1) ∧ g1.buf = g.buf ++ data ∧
      g1.n_used = g1.buf.length ∧ 1 ≤ g1.size ∧ g1.size ≤ MAX := by
  have hpos : 0 < (data.length : Int) := by
    have := List.length_pos.mpr hd
    omega
  have hne0 : ¬ (data.length : Int) = 0 := by omega
  have ht : int32 ((data.length : Int) + g.n_used) = (data.length : Int) + g.buf.length := by
    rw [hn]
    exact int32_id _ (by omega) (by omega)
  by_cases hc : (data.length : Int) + g.buf.length ≥ g.size
  · obtain ⟨k, hk⟩ : ∃ k, fuel = k + 1 := ⟨fuel - 1, by omega⟩
    have hpow : (2147483648 : Int) ≤ 2 ^ k := by
      have h31 : 31 ≤ k := by omega
      have : (2 : Int) ^ 31 ≤ 2 ^ k := pow_le_pow_right₀ (by norm_num) h31
      simpa using this
    obtain ⟨r, hr, hgt, hor⟩ := buffer_grow_ends k ((data.length : Int) + g.buf.length)
      g.size hs1 (by omega) (by omega) (by nlinarith)
    have hr2 : r ≤ MAX := by
      rcases hor with h | h
      · omega
      · omega
    refine ⟨{ buf := g.buf ++ data, n_used := (data.length : Int) + g.buf.length, size := r },
      ?_, rfl, ?_, by show (1 : Int) ≤ r; omega, hr2⟩
    · have hnot : ¬ r > MAX := by omega
      simp only [uescapeAdd, buffer_add, hne0, if_false, ht, hc, if_true, hk, hr, hnot]
    · simp
      omega
  · refine ⟨{ g with buf := g.buf ++ data, n_used := (data.length : Int) + g.buf.length },
      ?_, rfl, ?_, hs1, hs2⟩
    · simp only [uescapeAdd, buffer_add, hne0, if_false, ht, hc]
    · simp
      omega

theorem OSRF_BUFFER_ADD_CHAR_ok (MAX : Int) (fuel : Nat) (g : growing_buffer) (c : Nat)
    (hmax : MAX < 1073741824) (hfuel : 32 ≤ fuel) (hn : g.n_used = g.buf.length)
    (hs1 : 1 ≤ g.size) (hs2 : g.size ≤ MAX) (hc : c ≠ 0)
    (hfit : 2 * ((g.buf.length : Int) + 1) ≤ MAX) :
    ∃ g1, OSRF_BUFFER_ADD_CHAR MAX fuel (some g) c = some (some g1) ∧ g1.buf = g.buf ++ [c] ∧
      g1.n_used = g1.buf.length ∧ 1 ≤ g1.size ∧ g1.size ≤ MAX := by
  by_cases hfast : g.n_used < int32 (g.size - 1)
  · refine ⟨{ g with buf := g.buf ++ [c], n_used := int32 (g.n_used + 1) }, ?_, rfl, ?_, hs1,
      hs2⟩
    · simp only [OSRF_BUFFER_ADD_CHAR, hfast, if_true]
    · rw [int32_id _ (by omega) (by omega)]
      simp [hn]
  · obtain ⟨g1, h1, h2, h3, h4, h5⟩ := uescapeAdd_ok MAX fuel g [c] hmax hfuel hn hs1 hs2
      (by simp) (by simpa using hfit)
    exact ⟨g1, by simp only [OSRF_BUFFER_ADD_CHAR, hfast, if_false, buffer_add_char, hc, h1],
      h2, h3, h4, h5⟩

theorem cont_low (l : Nat) (hl : l < 64) : (0x80 + l) &&& 0x3F = l := by
  revert l
  decide

theorem cont_step (c l : Nat) (hl : l < 64) : (c <<< 6) ||| ((0x80 + l) &&& 0x3F) = c * 64 + l := by
  have h := Nat.mul_add_lt_is_or (show l < 2 ^ 6 by simpa using hl) c
  rw [cont_low l hl, Nat.shiftLeft_eq, Nat.mul_comm c (2 ^ 6), ← h]

theorem lead2 (a : Nat) (ha : a < 32) :
    ¬ (0xC0 + a) &&& 0xF0 = 0xF0 ∧ ¬ (0xC0 + a) &&& 0xE0 = 0xE0 ∧
      (0xC0 + a) &&& 0xC0 = 0xC0 ∧ (0xC0 + a) ^^^ 0xC0 = a := by
  revert a
  decide

theorem lead3 (a : Nat) (ha : a < 16) :
    ¬ (0xE0 + a) &&& 0xF0 = 0xF0 ∧ (0xE0 + a) &&& 0xE0 = 0xE0 ∧ (0xE0 + a) ^^^ 0xE0 = a := by
  revert a
  decide

theorem lead4 (a : Nat) (ha : a < 5) :
    (0xF0 + a) &&& 0xF0 = 0xF0 ∧ (0xF0 + a) ^^^ 0xF0 = a := by
  revert a
  decide

theorem uescapeLoop_ascii (MAX : Int) (fuel n : Nat) (b : Nat) (rest : List Nat)
    (buf : Option growing_buffer) (hb : b < 0x80) :
    uescapeLoop MAX false fuel (n + 1) (b :: rest) buf =
      match OSRF_BUFFER_ADD_CHAR MAX fuel buf b with
      | none => none
      | some buf1 => uescapeLoop MAX false fuel n rest buf1 := by
  have h : ¬ b ≥ 0x80 := by omega
  simp [uescapeLoop, h]

theorem uescapeLoop_bad (MAX : Int) (fe : Bool) (fuel n : Nat) (b : Nat) (rest : List Nat)
    (buf : Option growing_buffer) (hb : 0x80 ≤ b ∧ b ≤ 0xBF ∨ 0xF4 < b) :
    uescapeLoop MAX fe fuel (n + 1) (b :: rest) buf = some none := by
  have h1 : b ≥ 0x80 := by omega
  have h2 : ¬ (b ≥ 0xC0 ∧ b ≤ 0xF4) := by omega
  simp only [uescapeLoop, h1, h2, if_true, if_false]

theorem uescapeLoop_two (MAX : Int) (fe : Bool) (fuel n : Nat) (a l : Nat) (rest : List Nat)
    (buf : Option growing_buffer) (ha : a < 32) (hl : l < 64) :
    uescapeLoop MAX fe fuel (n + 1) ((0xC0 + a) :: (0x80 + l) :: rest) buf =
      match buffer_fadd_u MAX fuel buf (a * 64 + l) with
      | none => none
      | some buf1 => uescapeLoop MAX fe fuel n rest buf1 := by
  obtain ⟨h1, h2, h3, h4⟩ := lead2 a ha
  have g1 : 0xC0 + a ≥ 0x80 := by omega
  have g2 : 0xC0 + a ≥ 0xC0 ∧ 0xC0 + a ≤ 0xF4 := by omega
  simp only [uescapeLoop, g1, g2, and_self, if_true, h1, h2, h3, h4, if_false, uescapeFor,
    cont_step _ l hl]

theorem uescapeLoop_three (MAX : Int) (fe : Bool) (fuel n : Nat) (a m l : Nat)
    (rest : List Nat) (buf : Option growing_buffer) (ha : a < 16) (hm : m < 64) (hl : l < 64) :
    uescapeLoop MAX fe fuel (n + 1) ((0xE0 + a) :: (0x80 + m) :: (0x80 + l) :: rest) buf =
      match buffer_fadd_u MAX fuel buf ((a * 64 + m) * 64 + l) with
      | none => none
      | some buf1 => uescapeLoop MAX fe fuel n rest buf1 := by
  obtain ⟨h1, h2, h3⟩ := lead3 a ha
  have g1 : 0xE0 + a ≥ 0x80 := by omega
  have g2 : 0xE0 + a ≥ 0xC0 ∧ 0xE0 + a ≤ 0xF4 := by omega
  simp only [uescapeLoop, g1, g2, and_self, if_true, h1, h2, h3, if_false, uescapeFor,
    cont_step _ m hm, cont_step _ l hl]

theorem uescapeLoop_four (MAX : Int) (fe : Bool) (fuel n : Nat) (a k m l : Nat)
    (rest : List Nat) (buf : Option growing_buffer) (ha : a < 5) (hk : k < 64) (hm : m < 64)
    (hl : l < 64) :
    uescapeLoop MAX fe fuel (n + 1)
        ((0xF0 + a) :: (0x80 + k) :: (0x80 + m) :: (0x80 + l) :: rest) buf =
      match buffer_fadd_u MAX fuel buf (((a * 64 + k) * 64 + m) * 64 + l) with
      | none => none
      | some buf1 => uescapeLoop MAX fe fuel n rest buf1 := by
  obtain ⟨h1, h2⟩ := lead4 a ha
  have g1 : 0xF0 + a ≥ 0x80 := by omega
  have g2 : 0xF0 + a ≥ 0xC0 ∧ 0xF0 + a ≤ 0xF4 := by omega
  simp only [uescapeLoop, g1, g2, and_self, if_true, h1, h2, uescapeFor,
    cont_step _ k hk, cont_step _ m hm, cont_step _ l hl]

theorem hexDigit_ascii (d : Nat) (h : d < 16) : hexDigit d < 128 ∧ hexDigit d ≠ 0 := by
  unfold hexDigit
  split <;> omega

theorem fmt04x_ascii (c : Nat) : ∀ b ∈ fmt04x c, b < 128 := by
  intro b hb
  simp only [fmt04x, List.mem_append, List.mem_map] at hb
  rcases hb with ⟨d, hd, rfl⟩ | ⟨d, hd, rfl⟩
  · have hd1 := (List.dropWhile_sublist _).subset hd
    simp at hd1
    exact (hexDigit_ascii d (by omega)).1
  · simp at hd
    exact (hexDigit_ascii d (by omega)).1

theorem uescapeOut_cons (cp : Nat) (cps : List Nat) :
    uescapeOut (cp :: cps) =
      (if cp < 0x80 then [cp] else [92, 117] ++ fmt04x cp) ++ uescapeOut cps := by
  simp [uescapeOut]

theorem uescapeOut_ascii (cps : List Nat) : ∀ b ∈ uescapeOut cps, b < 128 := by
  intro b hb
  simp only [uescapeOut, List.mem_flatMap] at hb
  obtain ⟨cp, _, hcp⟩ := hb
  split at hcp
  · simp at hcp
    omega
  · simp only [List.mem_append, List.mem_cons, List.mem_singleton, List.not_mem_nil,
      or_false] at hcp
    rcases hcp with (h | h) | h
    · omega
    · omega
    · exact fmt04x_ascii cp b h

/-- One character of valid UTF-8: the loop goes from the bytes of the code point `cp` to the
bytes after them, with the escaped text of `cp` added to the buffer. -/
theorem uescapeLoop_char (MAX : Int) (fuel : Nat) (g : growing_buffer) (cp : Nat)
    (hmax : MAX < 1073741824) (hfuel : 32 ≤ fuel) (hn : g.n_used = g.buf.length)
    (hs1 : 1 ≤ g.size) (hs2 : g.size ≤ MAX) (hcp : 0 < cp ∧ cp < 0x110000)
    (hfit : 2 * ((g.buf.length : Int) + (uescapeOut [cp]).length) ≤ MAX) :
    ∃ g1, g1.buf = g.buf ++ uescapeOut [cp] ∧ g1.n_used = g1.buf.length ∧ 1 ≤ g1.size ∧
      g1.size ≤ MAX ∧
      ∀ n rest, uescapeLoop MAX false fuel (n + 1) (utf8Encode cp ++ rest) (some g) =
        uescapeLoop MAX false fuel n rest (some g1) := by
  by_cases h1 : cp < 0x80
  · have hsp : uescapeOut [cp] = [cp] := by simp [uescapeOut, h1]
    rw [hsp] at hfit ⊢
    obtain ⟨g1, e1, e2, e3, e4, e5⟩ := OSRF_BUFFER_ADD_CHAR_ok MAX fuel g cp hmax hfuel hn hs1
      hs2 (by omega) (by simpa using hfit)
    refine ⟨g1, e2, e3, e4, e5, ?_⟩
    intro n rest
    have he : utf8Encode cp = [cp] := by simp [utf8Encode, h1]
    rw [he, List.singleton_append, uescapeLoop_ascii MAX fuel n cp rest (some g) h1, e1]
  · have hsp : uescapeOut [cp] = [92, 117] ++ fmt04x cp := by simp [uescapeOut, h1]
    rw [hsp] at hfit ⊢
    obtain ⟨g1, e1, e2, e3, e4, e5⟩ := uescapeAdd_ok MAX fuel g ([92, 117] ++ fmt04x cp) hmax
      hfuel hn hs1 hs2 (by simp) hfit
    refine ⟨g1, e2, e3, e4, e5, ?_⟩
    intro n rest
    by_cases h2 : cp < 0x800
    · have he : utf8Encode cp = [0xC0 + cp / 64, 0x80 + cp % 64] := by
        simp [utf8Encode, h1, h2]
      have hv : cp / 64 * 64 + cp % 64 = cp := by omega
      rw [he]
      simp only [List.cons_append, List.nil_append]
      rw [uescapeLoop_two MAX false fuel n (cp / 64) (cp % 64) rest (some g) (by omega)
        (by omega), hv, buffer_fadd_u, e1]
    · by_cases h3 : cp < 0x10000
      · have he : utf8Encode cp =
            [0xE0 + cp / 4096, 0x80 + cp / 64 % 64, 0x80 + cp % 64] := by
          simp [utf8Encode, h1, h2, h3]
        have hv : (cp / 4096 * 64 + cp / 64 % 64) * 64 + cp % 64 = cp := by omega
        rw [he]
        simp only [List.cons_append, List.nil_append]
        rw [uescapeLoop_three MAX false fuel n (cp / 4096) (cp / 64 % 64) (cp % 64) rest
          (some g) (by omega) (by omega) (by omega), hv, buffer_fadd_u, e1]
      · have he : utf8Encode cp =
            [0xF0 + cp / 262144, 0x80 + cp / 4096 % 64, 0x80 + cp / 64 % 64,
              0x80 + cp % 64] := by
          simp [utf8Encode, h1, h2, h3]
        have hv : ((cp / 262144 * 64 + cp / 4096 % 64) * 64 + cp / 64 % 64) * 64 + cp % 64 =
            cp := by omega
        rw [he]
        simp only [List.cons_append, List.nil_append]
        rw [uescapeLoop_four MAX false fuel n (cp / 262144) (cp / 4096 % 64) (cp / 64 % 64)
          (cp % 64) rest (some g) (by omega) (by omega) (by omega) (by omega), hv,
          buffer_fadd_u, e1]

theorem uescapeOut_length_cons (cp : Nat) (cps : List Nat) :
    (uescapeOut (cp :: cps)).length = (uescapeOut [cp]).length + (uescapeOut cps).length := by
  simp [uescapeOut]

/-- A string of valid UTF-8: the loop goes from the bytes of the code points `cps` to the
bytes after them, with the escaped text of `cps` added to the buffer. -/
theorem uescapeLoop_valid (MAX : Int) (fuel : Nat) (hmax : MAX < 1073741824)
    (hfuel : 32 ≤ fuel) :
    ∀ (cps : List Nat) (g : growing_buffer), g.n_used = g.buf.length → 1 ≤ g.size →
      g.size ≤ MAX → (∀ cp ∈ cps, 0 < cp ∧ cp < 0x110000) →
      2 * ((g.buf.length : Int) + (uescapeOut cps).length) ≤ MAX →
      ∃ g1, g1.buf = g.buf ++ uescapeOut cps ∧
        ∀ n tail, uescapeLoop MAX false fuel (n + cps.length)
            (cps.flatMap utf8Encode ++ tail) (some g) =
          uescapeLoop MAX false fuel n tail (some g1) := by
  intro cps
  induction cps with
  | nil =>
    intro g _ _ _ _ _
    exact ⟨g, by simp [uescapeOut], fun n tail => by simp⟩
  | cons cp cps ih =>
    intro g hn hs1 hs2 hcp hfit
    rw [uescapeOut_length_cons] at hfit
    obtain ⟨g1, e1, e2, e3, e4, e5⟩ := uescapeLoop_char MAX fuel g cp hmax hfuel hn hs1 hs2
      (hcp cp (List.mem_cons_self _ _)) (by push_cast at hfit ⊢; omega)
    obtain ⟨g2, f1, f2⟩ := ih g1 e2 e3 e4 (fun c hc => hcp c (List.mem_cons_of_mem _ hc))
      (by rw [e1, List.length_append]; push_cast at hfit ⊢; omega)
    refine ⟨g2, ?_, ?_⟩
    · rw [f1, e1, List.append_assoc]
      have : uescapeOut (cp :: cps) = uescapeOut [cp] ++ uescapeOut cps := by
        simp [uescapeOut]
      rw [this]
    · intro n tail
      have hl : n + (cp :: cps).length = (n + cps.length) + 1 := by simp; omega
      rw [hl, List.flatMap_cons, List.append_assoc, e5, f2]

theorem uescape_start (MAX : Int) (fuel : Nat) (string : List Nat) (size : Int)
    (hmax : MAX < 1073741824) (hsize : 0 ≤ size) (hfit : size + 64 ≤ MAX) :
    uescape MAX fuel string size 0 =
      uescapeLoop MAX false fuel fuel string
        (some { buf := [], n_used := 0, size := size + 64 }) := by
  have h1 : int32 (size + 64) = size + 64 := int32_id _ (by omega) (by omega)
  have h2 : ¬ size + 64 > MAX := by omega
  simp [uescape, buffer_init, h1, h2]

/-- The table of `specHexChar` and the arithmetic of `hexDigit` give the same characters. -/
theorem hexDigit_spec : ∀ d, d < 16 → specHexChar d = hexDigit d := by
  decide

/-- One step of the hexadecimal digits of a number that is not 0. -/
theorem digits16_step (n : Nat) (h : 0 < n) :
    Nat.digits 16 n = n % 16 :: Nat.digits 16 (n / 16) :=
  Nat.digits_def' (by norm_num) h

/-- The conversion `%04x` gives the hexadecimal numeral `specHex` for every code point that
is not ASCII. -/
theorem fmt04x_spec (cp : Nat) (h1 : 0x80 ≤ cp) (h2 : cp < 0x110000) :
    fmt04x cp = specHex cp := by
  have hv : cp % 4294967296 = cp := Nat.mod_eq_of_lt (by omega)
  have hd := hexDigit_spec
  have h0 : hexDigit 0 = 48 := rfl
  have e7 : cp / 268435456 % 16 = 0 := by omega
  have e6 : cp / 16777216 % 16 = 0 := by omega
  by_cases c2 : cp < 0x100
  · have hdig : Nat.digits 16 cp = [cp % 16, cp / 16 % 16] := by
      rw [digits16_step cp (by omega), digits16_step (cp / 16) (by omega)]
      have : cp / 16 / 16 = 0 := by omega
      rw [this, Nat.digits_zero]
    have e5 : cp / 1048576 % 16 = 0 := by omega
    have e4 : cp / 65536 % 16 = 0 := by omega
    have e3 : cp / 4096 % 16 = 0 := by omega
    have e2 : cp / 256 % 16 = 0 := by omega
    simp only [fmt04x, specHex, hv, hdig, e7, e6, e5, e4, e3, e2]
    simp [h0, hd (cp / 16 % 16) (by omega), hd (cp % 16) (by omega)]
  by_cases c3 : cp < 0x1000
  · have hdig : Nat.digits 16 cp = [cp % 16, cp / 16 % 16, cp / 256 % 16] := by
      rw [digits16_step cp (by omega), digits16_step (cp / 16) (by omega),
        digits16_step (cp / 16 / 16) (by omega)]
      have : cp / 16 / 16 / 16 = 0 := by omega
      have e : cp / 16 / 16 = cp / 256 := by omega
      rw [this, Nat.digits_zero, e]
    have e5 : cp / 1048576 % 16 = 0 := by omega
    have e4 : cp / 65536 % 16 = 0 := by omega
    have e3 : cp / 4096 % 16 = 0 := by omega
    simp only [fmt04x, specHex, hv, hdig, e7, e6, e5, e4, e3]
    simp [h0, hd (cp / 256 % 16) (by omega), hd (cp / 16 % 16) (by omega),
      hd (cp % 16) (by omega)]
  by_cases c4 : cp < 0x10000
  · have hdig : Nat.digits 16 cp = [cp % 16, cp / 16 % 16, cp / 256 % 16, cp / 4096 % 16] := by
      rw [digits16_step cp (by omega), digits16_step (cp / 16) (by omega),
        digits16_step (cp / 16 / 16) (by omega), digits16_step (cp / 16 / 16 / 16) (by omega)]
      have : cp / 16 / 16 / 16 / 16 = 0 := by omega
      have e : cp / 16 / 16 = cp / 256 := by omega
      have ea : cp / 256 / 16 = cp / 4096 := by omega
      rw [this, Nat.digits_zero, e, ea]
    have e5 : cp / 1048576 % 16 = 0 := by omega
    have e4 : cp / 65536 % 16 = 0 := by omega
    simp only [fmt04x, specHex, hv, hdig, e7, e6, e5, e4]
    simp [hd (cp / 4096 % 16) (by omega), hd (cp / 256 % 16) (by omega),
      hd (cp / 16 % 16) (by omega), hd (cp % 16) (by omega)]
  by_cases c5 : cp < 0x100000
  · have hdig : Nat.digits 16 cp =
        [cp % 16, cp / 16 % 16, cp / 256 % 16, cp / 4096 % 16, cp / 65536 % 16] := by
      rw [digits16_step cp (by omega), digits16_step (cp / 16) (by omega),
        digits16_step (cp / 16 / 16) (by omega), digits16_step (cp / 16 / 16 / 16) (by omega),
        digits16_step (cp / 16 / 16 / 16 / 16) (by omega)]
      have : cp / 16 / 16 / 16 / 16 / 16 = 0 := by omega
      have e : cp / 16 / 16 = cp / 256 := by omega
      have ea : cp / 256 / 16 = cp / 4096 := by omega
      have eb : cp / 4096 / 16 = cp / 65536 := by omega
      rw [this, Nat.digits_zero, e, ea, eb]
    have e5 : cp / 1048576 % 16 = 0 := by omega
    have n4 : cp / 65536 % 16 ≠ 0 := by omega
    simp only [fmt04x, specHex, hv, hdig, e7, e6, e5]
    simp [n4, hd (cp / 65536 % 16) (by omega), hd (cp / 4096 % 16) (by omega),
      hd (cp / 256 % 16) (by omega), hd (cp / 16 % 16) (by omega), hd (cp % 16) (by omega)]
  · have hdig : Nat.digits 16 cp =
        [cp % 16, cp / 16 % 16, cp / 256 % 16, cp / 4096 % 16, cp / 65536 % 16,
         cp / 1048576 % 16] := by
      rw [digits16_step cp (by omega), digits16_step (cp / 16) (by omega),
        digits16_step (cp / 16 / 16) (by omega), digits16_step (cp / 16 / 16 / 16) (by omega),
        digits16_step (cp / 16 / 16 / 16 / 16) (by omega),
        digits16_step (cp / 16 / 16 / 16 / 16 / 16) (by omega)]
      have : cp / 16 / 16 / 16 / 16 / 16 / 16 = 0 := by omega
      have e : cp / 16 / 16 = cp / 256 := by omega
      have ea : cp / 256 / 16 = cp / 4096 := by omega
      have eb : cp / 4096 / 16 = cp / 65536 := by omega
      have ec : cp / 65536 / 16 = cp / 1048576 := by omega
      rw [this, Nat.digits_zero, e, ea, eb, ec]
    have n5 : cp / 1048576 % 16 ≠ 0 := by omega
    simp only [fmt04x, specHex, hv, hdig, e7, e6]
    simp [n5, hd (cp / 1048576 % 16) (by omega), hd (cp / 65536 % 16) (by omega),
      hd (cp / 4096 % 16) (by omega),
      hd (cp / 256 % 16) (by omega), hd (cp / 16 % 16) (by omega), hd (cp % 16) (by omega)]

/-- For code points up to 0x10FFFF the text the rounds add is the text `uescapeSpec`. -/
theorem uescapeSpec_out (cps : List Nat) (hcp : ∀ cp ∈ cps, 0 < cp ∧ cp < 0x110000) :
    uescapeSpec cps = uescapeOut cps := by
  induction cps with
  | nil => rfl
  | cons cp cps ih =>
    have h1 := hcp cp (List.mem_cons_self _ _)
    have h2 := ih (fun c hc => hcp c (List.mem_cons_of_mem _ hc))
    simp only [uescapeSpec, uescapeOut, List.flatMap_cons] at h2 ⊢
    rw [h2]
    by_cases hc : cp < 0x80
    · simp [hc]
    · simp only [hc, if_false]
      rw [fmt04x_spec cp (by omega) h1.2]
      rfl

/-- With a NULL buffer the loop of `uescape` adds nothing for ASCII bytes and then hands NULL
to `buffer_data`: no result, whatever the number of rounds. -/
theorem uescapeLoop_null (MAX : Int) (fuel : Nat) :
    ∀ (n : Nat) (string : List Nat), (∀ b ∈ string, b < 0x80) →
      uescapeLoop MAX false fuel n string none = none := by
  intro n
  induction n with
  | zero => intro string _; simp [uescapeLoop]
  | succ n ih =>
    intro string hs
    cases string with
    | nil => simp [uescapeLoop]
    | cons b rest =>
      rw [uescapeLoop_ascii MAX fuel n b rest none (hs b (List.mem_cons_self _ _))]
      simp only [OSRF_BUFFER_ADD_CHAR]
      exact ih rest (fun c hc => hs c (List.mem_cons_of_mem _ hc))

/-- Adding six bytes to a buffer of `uescape` whose size is 2621442 or twice that, under the
limit 10485760: either the text is added and the size stays one of the two, or there is no
result, because the third doubling passes the limit and `buffer_add` releases the buffer
that `uescape` goes on using (or because the doubling loop was cut short). -/
theorem uescapeAdd_overflow (fuel : Nat) (g : growing_buffer) (data : List Nat)
    (hd : data.length = 6) (hn : g.n_used = g.buf.length) (hlt : g.n_used < g.size)
    (hsz : g.size = 2621442 ∨ g.size = 5242884) :
    uescapeAdd 10485760 fuel (some g) data = none ∨
    ∃ g1, uescapeAdd 10485760 fuel (some g) data = some (some g1) ∧
      g1.n_used = g1.buf.length ∧ g1.n_used = g.n_used + 6 ∧ g1.n_used < g1.size ∧
      (g1.size = 2621442 ∨ g1.size = 5242884) := by
  have hne0 : ¬ (data.length : Int) = 0 := by omega
  have hn0 : (0 : Int) ≤ g.n_used := by rw [hn]; exact Int.natCast_nonneg _
  have hub : g.n_used < 5242884 := by rcases hsz with h | h <;> omega
  have ht : int32 ((data.length : Int) + g.n_used) = g.n_used + 6 := by
    rw [hd, int32_id _ (by omega) (by omega)]
    push_cast
    omega
  by_cases hc : g.n_used + 6 ≥ g.size
  · rcases fuel with _ | _ | fuel
    · left
      simp [uescapeAdd, buffer_add, hne0, ht, hc, buffer_grow]
    · left
      simp [uescapeAdd, buffer_add, hne0, ht, hc, buffer_grow]
    · rcases hsz with h | h
      · right
        have h2 : int32 5242884 = 5242884 := by decide
        have h3a : ¬ (5242884 : Int) ≤ g.n_used + 6 := by omega
        have h3 : ¬ g.n_used + 6 ≥ 5242884 := by omega
        have h4 : g.n_used + 6 ≥ 2621442 := by omega
        refine ⟨{ buf := g.buf ++ data, n_used := g.n_used + 6, size := 5242884 }, ?_, ?_, rfl,
          ?_, Or.inr rfl⟩
        · simp [uescapeAdd, buffer_add, hne0, ht, h, h4, buffer_grow, h2, h3a]
        · simp [hn, hd]
        · show g.n_used + 6 < 5242884
          omega
      · left
        have h2 : int32 10485768 = 10485768 := by decide
        have h3a : ¬ (10485768 : Int) ≤ g.n_used + 6 := by omega
        have h3 : ¬ g.n_used + 6 ≥ 10485768 := by omega
        have h4 : g.n_used + 6 ≥ 5242884 := by omega
        simp [uescapeAdd, buffer_add, hne0, ht, h, h4, buffer_grow, h2, h3a]
  · right
    refine ⟨{ g with buf := g.buf ++ data, n_used := g.n_used + 6 }, ?_, ?_, rfl, ?_, hsz⟩
    · simp [uescapeAdd, buffer_add, hne0, ht, hc]
    · simp [hn, hd]
    · show g.n_used + 6 < g.size
      omega

/-- A run of the character U+00E9 that does not fit: from a buffer of the size 2621442 or
twice that, when the text with six bytes for each character left reaches 5242884 bytes, the
loop of `uescape` has no result, whatever the number of rounds. -/
theorem uescapeLoop_overflow (fuel : Nat) :
    ∀ (m n : Nat) (g : growing_buffer), g.n_used = g.buf.length → g.n_used < g.size →
      (g.size = 2621442 ∨ g.size = 5242884) → (5242884 : Int) ≤ g.n_used + 6 * m →
      uescapeLoop 10485760 false fuel n ((List.replicate m 0xe9).flatMap utf8Encode) (some g)
        = none := by
  intro m
  induction m with
  | zero =>
    intro n g hn hlt hsz hm
    rcases hsz with h | h <;> omega
  | succ m ih =>
    intro n g hn hlt hsz hm
    cases n with
    | zero => simp [uescapeLoop]
    | succ n =>
      have he : (List.replicate (m + 1) 0xe9).flatMap utf8Encode =
          (0xC0 + 3) :: (0x80 + 41) :: (List.replicate m 0xe9).flatMap utf8Encode := by
        simp [List.replicate_succ, utf8Encode]
      rw [he, uescapeLoop_two 10485760 false fuel n 3 41 _ (some g) (by decide) (by decide)]
      have hlen : ([92, 117] ++ fmt04x (3 * 64 + 41)).length = 6 := by decide
      rcases uescapeAdd_overflow fuel g _ hlen hn hlt hsz with h | ⟨g1, h, e1, e2, e3, e4⟩
      · simp only [buffer_fadd_u, h]
      · simp only [buffer_fadd_u, h]
        exact ih n g1 e1 e3 e4 (by push_cast at hm ⊢; omega)

/-- The call of `uescape` with `full_escape` 0 is its loop on the buffer of `buffer_init`. -/
theorem uescape_loop (MAX : Int) (fuel : Nat) (string : List Nat) (size : Int) :
    uescape MAX fuel string size 0 =
      uescapeLoop MAX false fuel fuel string (buffer_init MAX (int32 (size + 64))) := by
  simp [uescape]

/-- The UTF-8 text of a run of the character U+00E9 has two bytes for each. -/
theorem utf8_run_length (m : Nat) :
    ((List.replicate m 0xe9).flatMap utf8Encode).length = 2 * m := by
  induction m with
  | zero => rfl
  | succ m ih =>
    rw [List.replicate_succ, List.flatMap_cons, List.length_append, ih]
    have : (utf8Encode 0xe9).length = 2 := by decide
    omega

/-- C30 (as amended): for a string that is the UTF-8 encoding of code points from 1 to
0x10FFFF, with `full_escape` 0, a size that is not negative, and the buffer limit not reached
(the first size `size + 64` and twice the length of the escaped text are at most
`BUFFER_MAX_SIZE`, which is below 2^30), `uescape` returns the text `uescapeSpec` in which an
ASCII character stays and any other character is a backslash, the letter u and the lower-case
hexadecimal digits of its code point, at least four; all its bytes are ASCII; and when the
encoding is followed by a byte from 0x80 to 0xBF or above 0xF4 where a character starts,
`uescape` returns NULL. -/
theorem C30_uescape_valid (BUFFER_MAX_SIZE : Int) (fuel : Nat) (cps : List Nat) (size : Int)
    (hcp : ∀ cp ∈ cps, 0 < cp ∧ cp < 0x110000) (hsize : 0 ≤ size)
    (hfit : size + 64 ≤ BUFFER_MAX_SIZE)
    (hout : 2 * ((uescapeSpec cps).length : Int) ≤ BUFFER_MAX_SIZE)
    (hmax : BUFFER_MAX_SIZE < 1073741824) (hfuel : cps.length + 32 ≤ fuel) :
    uescape BUFFER_MAX_SIZE fuel (cps.flatMap utf8Encode) size 0 =
      some (some (uescapeSpec cps)) ∧
    (∀ b ∈ uescapeSpec cps, b < 128) ∧
    (∀ b rest, (0x80 ≤ b ∧ b ≤ 0xBF ∨ 0xF4 < b) →
      uescape BUFFER_MAX_SIZE fuel (cps.flatMap utf8Encode ++ b :: rest) size 0 =
        some none) := by
  rw [uescapeSpec_out cps hcp] at hout ⊢
  obtain ⟨g1, e1, e2⟩ := uescapeLoop_valid BUFFER_MAX_SIZE fuel hmax (by omega) cps
    { buf := [], n_used := 0, size := size + 64 } rfl (by show (1 : Int) ≤ size + 64; omega)
    hfit hcp (by simpa using hout)
  obtain ⟨m, hm⟩ : ∃ m, fuel = (m + 1) + cps.length := ⟨fuel - cps.length - 1, by omega⟩
  refine ⟨?_, uescapeOut_ascii cps, ?_⟩
  · have h := e2 (m + 1) []
    rw [List.append_nil, ← hm] at h
    rw [uescape_start _ _ _ _ hmax hsize hfit, h]
    simp [uescapeLoop, e1]
  · intro b rest hb
    have h := e2 (m + 1) (b :: rest)
    rw [← hm] at h
    rw [uescape_start _ _ _ _ hmax hsize hfit, h]
    exact uescapeLoop_bad _ _ _ _ _ _ _ hb

/-- Instance of C30: the string of the letter a, U+00E9, U+20AC, U+1F600 and the letter b,
with its length in bytes for the size and the limit 10485760; the text returned is the letter
a, `é`, `€`, `ὠ0` and the letter b. -/
theorem C30_uescape_valid_witness :
    (∀ cp ∈ [97, 0xe9, 0x20ac, 0x1f600, 98], 0 < cp ∧ cp < 0x110000) ∧
    uescapeSpec [97, 0xe9, 0x20ac, 0x1f600, 98] =
      [97, 92, 117, 48, 48, 101, 57, 92, 117, 50, 48, 97, 99, 92, 117, 49, 102, 54, 48, 48,
       98] ∧
    (uescape 10485760 40 ([97, 0xe9, 0x20ac, 0x1f600, 98].flatMap utf8Encode) 11 0 =
        some (some (uescapeSpec [97, 0xe9, 0x20ac, 0x1f600, 98])) ∧
      (∀ b ∈ uescapeSpec [97, 0xe9, 0x20ac, 0x1f600, 98], b < 128) ∧
      (∀ b rest, (0x80 ≤ b ∧ b ≤ 0xBF ∨ 0xF4 < b) →
        uescape 10485760 40 ([97, 0xe9, 0x20ac, 0x1f600, 98].flatMap utf8Encode ++ b :: rest)
          11 0 = some none)) :=
  ⟨by decide, (uescapeSpec_out _ (by decide)).trans (by decide),
   C30_uescape_valid 10485760 40 [97, 0xe9, 0x20ac, 0x1f600, 98] 11 (by decide)
    (by decide) (by decide) (by rw [uescapeSpec_out _ (by decide)]; decide) (by decide)
    (by decide)⟩

/-- C30 fails as stated: two strings of valid UTF-8 beyond the buffer limit 10485760, each
with its length in bytes for the size. For 10485697 letters a, `buffer_init` refuses the
first size and returns NULL, the loop adds nothing, and `buffer_data` is called with NULL.
For 1310689 times the character U+00E9 (2621378 bytes) the buffer starts at 2621442 bytes,
is doubled once, and at the second doubling passes the limit: `buffer_add` releases the
buffer, and `uescape` goes on using it. In neither case does `uescape` return the escaped
text, or NULL, whatever the number of rounds. -/
theorem C30_limit_counterexample :
    (buffer_init 10485760 (int32 (10485697 + 64)) = none ∧
      ¬ ∃ fuel r, uescape 10485760 fuel (List.replicate 10485697 97) 10485697 0 = some r) ∧
    (buffer_init 10485760 (int32 (2621378 + 64)) =
        some { buf := [], n_used := 0, size := 2621442 } ∧
      ((List.replicate 1310689 0xe9).flatMap utf8Encode).length = 2621378 ∧
      ¬ ∃ fuel r, uescape 10485760 fuel ((List.replicate 1310689 0xe9).flatMap utf8Encode)
        2621378 0 = some r) := by
  have h1 : buffer_init 10485760 (int32 (10485697 + 64)) = none := by decide
  have h2 : buffer_init 10485760 (int32 (2621378 + 64)) =
      some { buf := [], n_used := 0, size := 2621442 } := by decide
  refine ⟨⟨h1, ?_⟩, h2, utf8_run_length 1310689, ?_⟩
  · rintro ⟨fuel, r, h⟩
    rw [uescape_loop, h1, uescapeLoop_null 10485760 fuel fuel _
      (fun b hb => by rw [List.eq_of_mem_replicate hb]; decide)] at h
    cases h
  · rintro ⟨fuel, r, h⟩
    rw [uescape_loop, h2, uescapeLoop_overflow fuel 1310689 fuel _ rfl (by decide)
      (Or.inl rfl) (by decide)] at h
    cases h

/-! ## An outbound link that lost its binding -/

/-- C5 fails as stated: a client sends a stanza to `c@peer.org`, which opens the outbound link
(node at address 1, descriptor 100) and queues the stanza; `peer.org` opens a link of its own
(socket 8), whose node takes the `remote` `peer.org` too, and closes it again, which removes the
binding of `peer.org` although it led to the outbound node. When the outbound node then
receives the final `db:result` it enters `CONNECTED` and its queue is released, but the queued
stanza is not sent on the link: the flush finds no binding, opens a second connection
(descriptor 101) and leaves the stanza in the queue of the new node (address 3). And on the
sample server, when no send on the link (socket 7) succeeds, the node with two queued stanzas
that receives the final `db:result` tries the first stanza and the reply to itself, both in
vain, and is removed; the second stanza is never sent on the link but queued for a new
connection (descriptor 100, node at address 3). -/
theorem C5_unbound_counterexample :
    (sampleRunInbound.nodeHash "peer.org" = some 1 ∧
    sampleRunInboundClosed.nodeHash "peer.org" = none ∧
    (sampleRunInboundClosed.heap 1).map (fun n => (n.sockid, n.state, n.msgs)) =
      some (100, OSRF_CHAT_STATE.S2S_CHALLENGE,
        some ["<message to=c@peer.org from=a@ex.org/r1><body>hi</body></message>"]) ∧
    (sampleRunUnbound.heap 1).map (fun n => (n.sockid, n.state, n.msgs)) =
      some (100, OSRF_CHAT_STATE.CONNECTED, none) ∧
    sampleRunUnbound.sent.drop sampleRunInboundClosed.sent.length =
      [(100, "S2S_RESPONSE peer.org ex.org H(H(H(secret)ex.org)s1)"),
       (100, "S2S_VERIFY_RESPONSE peer.org ex.org s1"), (101, "S2S_INIT")] ∧
    (sampleRunUnbound.heap 3).map (fun n => (n.sockid, n.state, n.msgs)) =
      some (101, OSRF_CHAT_STATE.S2S_CHALLENGE,
        some ["<message to=c@peer.org from=a@ex.org/r1><body>hi</body></message>"])) ∧
    ((osrfChatStartElement sampleEnvDeaf7 (sampleServerS2S .S2S_VERIFY_FINAL ["<m1/>", "<m2/>"])
      2 "db:result" []).sent =
      [(7, "<m1/>"), (7, "NO_RECIPIENT c@peer.org (null)"), (100, "S2S_INIT")] ∧
    (osrfChatStartElement sampleEnvDeaf7 (sampleServerS2S .S2S_VERIFY_FINAL ["<m1/>", "<m2/>"])
      2 "db:result" []).nodeList 7 = none ∧
    (osrfChatStartElement sampleEnvDeaf7 (sampleServerS2S .S2S_VERIFY_FINAL ["<m1/>", "<m2/>"])
      2 "db:result" []).deadNodes = [2] ∧
    ((osrfChatStartElement sampleEnvDeaf7 (sampleServerS2S .S2S_VERIFY_FINAL ["<m1/>", "<m2/>"])
      2 "db:result" []).heap 3).map (fun n => (n.sockid, n.state, n.msgs)) =
      some (100, OSRF_CHAT_STATE.S2S_CHALLENGE, some ["<m2/>"])) :=
  ⟨by decide!, by decide!⟩

/-! ## The handshake between two servers -/

/-- What was sent on a descriptor since an earlier state, when the later record of the sends
is the earlier one extended. -/
theorem sentSince_of_sent (w w1 : osrfChatServer) (ms : List (Int × String)) (fd : Int)
    (h : w1.sent = w.sent ++ ms) :
    sentSince w w1 fd = (ms.filter (fun m => decide (m.1 = fd))).map (fun m => m.2) := by
  simp [sentSince, h]

/-- A chunk on the socket of a registered node, outside any parse and with the error flag
clear: when the events of the chunk, delivered to the node marked as being parsed, change
the node's record, extend the sends and raise no error, the data callback does the same and
leaves the node unmarked. -/
theorem handleData_stepped (E : Env) (w : osrfChatServer) (p : Nat) (n1 : osrfChatNode)
    (sockid : Int) (data : List SaxEvent) (ms : List (Int × String))
    (hl : w.nodeList sockid = some p) (h0 : sockid ≠ 0)
    (hd : w.deadNodes = []) (he : w.xmlError = false)
    (S : Stepped (modifyNode w p (fun n => { n with inparse := true }))
      (xmlParseChunk E (modifyNode w p (fun n => { n with inparse := true })) p data) p n1 ms) :
    Stepped w (osrfChatHandleData E w sockid data) p { n1 with inparse := false } ms := by
  obtain ⟨a1, a2, a3, a4, a5, a6, a7, a8⟩ := S
  simp only [modifyNode_fields] at a1 a2 a3 a4 a5 a6 a7 a8
  rw [he] at a8
  have hres : osrfChatHandleData E w sockid data =
      osrfChatCleanupClients (modifyNode
        (xmlParseChunk E (modifyNode w p (fun n => { n with inparse := true })) p data) p
        (fun n => { n with inparse := false })) := by
    rw [osrfChatHandleData_eq E w sockid data h0]
    simp [dataNode, hl, osrfChatPushData, a8]
  rw [hres]
  generalize xmlParseChunk E (modifyNode w p (fun n => { n with inparse := true })) p data = w2
    at a1 a2 a3 a4 a5 a6 a7 a8
  refine ⟨?_, ?_, ?_, ?_, ?_, ?_, ?_, ?_⟩
  · simp [osrfChatCleanupClients, modifyNode, a1]
  · simp [osrfChatCleanupClients, modifyNode, a2]
  · simp [osrfChatCleanupClients, modifyNode, a3]
  · simp [osrfChatCleanupClients, modifyNode, a4]
  · simp [osrfChatCleanupClients, hd]
  · simp [osrfChatCleanupClients, modifyNode, a6]
  · simp [osrfChatCleanupClients, modifyNode, a7]
  · simp [osrfChatCleanupClients, modifyNode, a8, he]

/-- The same for a chunk of which only the store, the sends, the indices and the error flag
are known. -/
theorem handleData_frame (E : Env) (w : osrfChatServer) (p : Nat) (n1 : osrfChatNode)
    (sockid : Int) (data : List SaxEvent) (ms : List (Int × String))
    (hl : w.nodeList sockid = some p) (h0 : sockid ≠ 0) (he : w.xmlError = false)
    (c1 : (xmlParseChunk E (modifyNode w p (fun n => { n with inparse := true })) p data).heap =
      Function.update (modifyNode w p (fun n => { n with inparse := true })).heap p (some n1))
    (c2 : (xmlParseChunk E (modifyNode w p (fun n => { n with inparse := true })) p data).sent =
      (modifyNode w p (fun n => { n with inparse := true })).sent ++ ms)
    (c3 : (xmlParseChunk E (modifyNode w p (fun n => { n with inparse := true })) p
      data).xmlError = (modifyNode w p (fun n => { n with inparse := true })).xmlError)
    (c4 : (xmlParseChunk E (modifyNode w p (fun n => { n with inparse := true })) p
      data).nodeHash = (modifyNode w p (fun n => { n with inparse := true })).nodeHash)
    (c5 : (xmlParseChunk E (modifyNode w p (fun n => { n with inparse := true })) p
      data).nodeList = (modifyNode w p (fun n => { n with inparse := true })).nodeList) :
    (osrfChatHandleData E w sockid data).heap =
      Function.update w.heap p (some { n1 with inparse := false }) ∧
    (osrfChatHandleData E w sockid data).sent = w.sent ++ ms ∧
    (osrfChatHandleData E w sockid data).nodeHash = w.nodeHash ∧
    (osrfChatHandleData E w sockid data).nodeList = w.nodeList ∧
    (osrfChatHandleData E w sockid data).xmlError = false := by
  simp only [modifyNode_fields] at c1 c2 c3 c4 c5
  rw [he] at c3
  have hres : osrfChatHandleData E w sockid data =
      osrfChatCleanupClients (modifyNode
        (xmlParseChunk E (modifyNode w p (fun n => { n with inparse := true })) p data) p
        (fun n => { n with inparse := false })) := by
    rw [osrfChatHandleData_eq E w sockid data h0]
    simp [dataNode, hl, osrfChatPushData, c3]
  rw [hres]
  generalize xmlParseChunk E (modifyNode w p (fun n => { n with inparse := true })) p data = w2
    at c1 c2 c3 c4 c5
  refine ⟨?_, ?_, ?_, ?_, ?_⟩
  · simp [osrfChatCleanupClients, modifyNode, c1]
  · simp [osrfChatCleanupClients, modifyNode, c2]
  · simp [osrfChatCleanupClients, modifyNode, c4]
  · simp [osrfChatCleanupClients, modifyNode, c5]
  · simp [osrfChatCleanupClients, modifyNode, c3]

/-- The node marked as being parsed. -/
theorem heap_marked (w : osrfChatServer) (p : Nat) (n : osrfChatNode) (hn : w.heap p = some n) :
    (modifyNode w p (fun n => { n with inparse := true })).heap p =
      some { n with inparse := true } := by
  simp [modifyNode, hn]

/-- One stanza is one call of the data callback. -/
theorem s2sDeliver_one (E : Env) (parse : String → List SaxEvent) (w : osrfChatServer)
    (fd : Int) (s : String) :
    s2sDeliver E parse w fd [s] = osrfChatHandleData E w fd (parse s) := rfl

/-- A node in `S2S_VERIFY_FINAL` that receives the final `db:result` is, whatever the flush of
its queue did, either released or `CONNECTED` with no queue. -/
theorem final_result_connected (E : Env) (w : osrfChatServer) (p : Nat) (n : osrfChatNode)
    (atts : List (String × String))
    (hn : w.heap p = some n) (hs : n.state = .S2S_VERIFY_FINAL) :
    ∀ m, (xmlParseChunk E w p [.startElement "db:result" atts, .endElement "db:result"]).heap p
        = some m → m.state = .CONNECTED ∧ m.msgs = none := by
  have hne : ("db:result" : String) ≠ "db:verify" := by decide
  have hst : osrfChatStartElement E w p "db:result" atts =
      modifyNode (modifyNode (flushMsgs E p (n.msgs.getD [])
        (modifyNode w p (fun n => { n with state := .CONNECTED }))) p
          (fun n => { n with msgs := none })) p
          (fun n => { n with state := .CONNECTED, xmlstate := XmlState.zero }) := by
    simp [osrfChatStartElement, hn, hs, osrfChatHandleS2SConnected, hne]
  simp only [xmlParseChunk, List.foldl, saxDispatch]
  rw [hst]
  generalize flushMsgs E p (n.msgs.getD [])
    (modifyNode w p (fun n => { n with state := .CONNECTED })) = w2
  cases h2 : w2.heap p with
  | none =>
    intro m hm
    have hnone : (modifyNode (modifyNode w2 p (fun n => { n with msgs := none })) p
        (fun n => { n with state := .CONNECTED, xmlstate := XmlState.zero })).heap p = none := by
      simp [modifyNode, h2]
    have he : osrfChatEndElement E (modifyNode (modifyNode w2 p
        (fun n => { n with msgs := none })) p
        (fun n => { n with state := .CONNECTED, xmlstate := XmlState.zero })) p "db:result" =
        (modifyNode (modifyNode w2 p (fun n => { n with msgs := none })) p
        (fun n => { n with state := .CONNECTED, xmlstate := XmlState.zero })) := by
      have hc : ("db:result" : String) ≠ "stream:stream" := by decide
      simp only [osrfChatEndElement, hc, if_false]
      simp [endElementConnected, endElementConnecting, hnone]
    rw [he, hnone] at hm
    cases hm
  | some m2 =>
    intro m hm
    have hsome : (modifyNode (modifyNode w2 p (fun n => { n with msgs := none })) p
        (fun n => { n with state := .CONNECTED, xmlstate := XmlState.zero })).heap p =
        some { m2 with msgs := none, state := .CONNECTED, xmlstate := XmlState.zero } := by
      simp [modifyNode, h2]
    rw [endElement_connected_other E _ p _ "db:result" hsome rfl (by decide) (by decide),
      hsome] at hm
    cases hm
    exact ⟨rfl, rfl⟩

/-- The same on the data callback: after the chunk with the final `db:result` on the socket of
a registered node in `S2S_VERIFY_FINAL`, the node is either released or `CONNECTED` with no
queue. -/
theorem final_result_connected_data (E : Env) (w : osrfChatServer) (p : Nat) (n : osrfChatNode)
    (sockid : Int) (atts : List (String × String))
    (hn : w.heap p = some n) (hs : n.state = .S2S_VERIFY_FINAL)
    (hl : w.nodeList sockid = some p) (h0 : sockid ≠ 0) (he : w.xmlError = false) :
    ∀ m, (osrfChatHandleData E w sockid
        [.startElement "db:result" atts, .endElement "db:result"]).heap p = some m →
      m.state = .CONNECTED ∧ m.msgs = none := by
  have hc := final_result_connected E (modifyNode w p (fun n => { n with inparse := true })) p
    { n with inparse := true } atts (heap_marked w p n hn) hs
  have hx : (xmlParseChunk E (modifyNode w p (fun n => { n with inparse := true })) p
      [.startElement "db:result" atts, .endElement "db:result"]).xmlError = false := by
    simp only [xmlParseChunk, List.foldl, saxDispatch]
    rw [osrfChatEndElement_xmlError, startElement_shared E _ p { n with inparse := true }
      "db:result" atts (heap_marked w p n hn) ⟨Or.inr hs, Or.inr rfl⟩]
    simpa using he
  have hres : osrfChatHandleData E w sockid
      [.startElement "db:result" atts, .endElement "db:result"] =
      osrfChatCleanupClients (modifyNode
        (xmlParseChunk E (modifyNode w p (fun n => { n with inparse := true })) p
          [.startElement "db:result" atts, .endElement "db:result"]) p
        (fun n => { n with inparse := false })) := by
    rw [osrfChatHandleData_eq E w sockid _ h0]
    simp [dataNode, hl, osrfChatPushData, hx]
  rw [hres]
  generalize xmlParseChunk E (modifyNode w p (fun n => { n with inparse := true })) p
    [.startElement "db:result" atts, .endElement "db:result"] = w2 at hc
  intro m hm
  cases h2 : w2.heap p with
  | none => simp [osrfChatCleanupClients, modifyNode, h2] at hm
  | some m2 =>
    simp [osrfChatCleanupClients, modifyNode, h2] at hm
    obtain ⟨e1, e2⟩ := hc m2 h2
    rw [← hm]
    exact ⟨e1, e2⟩

/-- C16 (as amended): an outbound node `I` in state `S2S_CHALLENGE` of one server and a new
inbound node `R` (state `NONE`) of another server, each stored in `nodeList` at its socket,
the two servers holding the same secret and using the same digest (whose values are not
empty), outside any parse and with the error flag clear, exchange the stanzas each side sends
(`s2sExchange`), the stream id being the `authkey` the responder mints. The stanzas are read
as section 4.4 describes them, except that the initiator's echo is an element named
`db:verify`, the name `osrfChatHandleS2SConnected` tests, and the key arrives as one piece of
text. Then the key the responder recomputes from its secret, the `remote` it stored and its
`authkey` is the key the initiator sent in `db:result` (built over the initiator's own
domain), and the responder ends in `CONNECTED`, still stored in `nodeList`, having sent the
challenge, the request for verification and the final stanza; the initiator, unless the flush
of its queue released it, ends in `CONNECTED` with its queue gone; and when the initiator is
bound under its `remote`, the queued stanzas are addressed to that domain and their sends
succeed, it ends in `CONNECTED`, still in both indices, having sent its key, its echo and then
its queue. -/
theorem C16_handshake_converges (EI ER : Env) (parse : String → List SaxEvent)
    (wI wR : osrfChatServer) (I R : Nat) (i r : osrfChatNode) (dR : String) (q : List String)
    (hI : wI.heap I = some i) (hIs : i.state = .S2S_CHALLENGE) (hIr : i.remote = some dR)
    (hq : i.msgs = some q)
    (hIl : wI.nodeList i.sockid = some I) (hI0 : i.sockid ≠ 0)
    (hId : wI.deadNodes = []) (hIe : wI.xmlError = false)
    (hR : wR.heap R = some r) (hRs : r.state = .NONE)
    (hRl : wR.nodeList r.sockid = some R) (hR0 : r.sockid ≠ 0)
    (hRd : wR.deadNodes = []) (hRe : wR.xmlError = false)
    (hsec : wI.secret = wR.secret) (hsha : EI.shahash = ER.shahash)
    (hlen : ∀ s, (EI.shahash s).length ≠ 0)
    (hwire : s2sWire EI ER parse "db:verify" i.domain dR r.domain
      (ER.shahash (ER.keybuf wR.nkeys))
      (EI.shahash (EI.shahash (EI.shahash wI.secret ++ i.domain) ++
        ER.shahash (ER.keybuf wR.nkeys)))) :
    (s2sExchange EI ER parse wI wR i.sockid r.sockid).2.heap R =
      some { r with authkey := some (ER.shahash (ER.keybuf wR.nkeys)), type := 1,
                    remote := some i.domain, state := .CONNECTED,
                    xmlstate := XmlState.zero, inparse := false } ∧
    osrfChatGenerateS2SKey ER (some wR.secret) (some i.domain)
        (some (ER.shahash (ER.keybuf wR.nkeys))) =
      some (EI.shahash (EI.shahash (EI.shahash wI.secret ++ i.domain) ++
        ER.shahash (ER.keybuf wR.nkeys))) ∧
    (s2sExchange EI ER parse wI wR i.sockid r.sockid).2.sent = wR.sent ++
      [(r.sockid, ER.OSRF_CHAT_S2S_CHALLENGE (ER.shahash (ER.keybuf wR.nkeys))),
       (r.sockid, ER.OSRF_CHAT_S2S_VERIFY_REQUEST (ER.shahash (ER.keybuf wR.nkeys)) r.domain
          i.domain
          (EI.shahash (EI.shahash (EI.shahash wI.secret ++ i.domain) ++
            ER.shahash (ER.keybuf wR.nkeys)))),
       (r.sockid, ER.OSRF_CHAT_S2S_VERIFY_FINAL r.domain i.domain)] ∧
    (s2sExchange EI ER parse wI wR i.sockid r.sockid).2.nodeList r.sockid = some R ∧
    (∀ m, (s2sExchange EI ER parse wI wR i.sockid r.sockid).1.heap I = some m →
      m.state = .CONNECTED ∧ m.msgs = none) ∧
    (wI.nodeHash dR = some I → dR ≠ wI.domain →
      (∀ x ∈ q, ∃ doc toAddr, EI.xmlParseMemory x = some doc ∧
        xmlGetProp (some doc) "to" = some toAddr ∧ jid_get_domain toAddr = dR) →
      (∀ j x, q[j]? = some x → EI.send (wI.sent.length + 2 + j) i.sockid x = true) →
      (s2sExchange EI ER parse wI wR i.sockid r.sockid).1.heap I =
        some { i with state := .CONNECTED, msgs := none, xmlstate := XmlState.zero,
                      inparse := false } ∧
      (s2sExchange EI ER parse wI wR i.sockid r.sockid).1.sent = wI.sent ++
        [(i.sockid, EI.OSRF_CHAT_S2S_RESPONSE dR i.domain
            (EI.shahash (EI.shahash (EI.shahash wI.secret ++ i.domain) ++
              ER.shahash (ER.keybuf wR.nkeys)))),
         (i.sockid, EI.OSRF_CHAT_S2S_VERIFY_RESPONSE dR i.domain
            (ER.shahash (ER.keybuf wR.nkeys)))] ++ q.map (fun x => (i.sockid, x)) ∧
      (s2sExchange EI ER parse wI wR i.sockid r.sockid).1.nodeList i.sockid = some I ∧
      (s2sExchange EI ER parse wI wR i.sockid r.sockid).1.nodeHash dR = some I) := by
  obtain ⟨⟨a1, hp1, ha1⟩, ⟨a2, hp2, ha2⟩, ⟨a3, hp3, ha3⟩, ⟨a4, hp4, ha4⟩, ⟨a5, hp5⟩,
    ⟨a6, hp6⟩⟩ := hwire
  have hkey : EI.shahash (EI.shahash (EI.shahash wI.secret ++ i.domain) ++
      ER.shahash (ER.keybuf wR.nkeys)) =
      ER.shahash (ER.shahash (ER.shahash wR.secret ++ i.domain) ++
        ER.shahash (ER.keybuf wR.nkeys)) := by
    rw [hsha, hsec]
  generalize hk : ER.shahash (ER.keybuf wR.nkeys) = k at *
  generalize hkn : EI.shahash (EI.shahash (EI.shahash wI.secret ++ i.domain) ++ k) = key at *
  have hklen : key.length ≠ 0 := by rw [← hkn]; exact hlen _
  -- the responder's first turn: the stream opening
  have cR1 := startElement_s2s_open ER _ R _ a1 (heap_marked wR R r hR) hRs ha1
  simp only [modifyNode_fields, hk] at cR1
  have R1 := handleData_stepped ER wR R _ r.sockid [.startElement "stream:stream" a1] _ hRl hR0
    hRd hRe cR1
  have eR1 : s2sDeliver ER parse wR r.sockid [EI.OSRF_CHAT_S2S_INIT] =
      osrfChatHandleData ER wR r.sockid [.startElement "stream:stream" a1] := by
    rw [s2sDeliver_one, hp1]
  rw [← eR1] at R1
  generalize hwR1 : s2sDeliver ER parse wR r.sockid [EI.OSRF_CHAT_S2S_INIT] = wR1 at R1
  have sR1 : sentSince wR wR1 r.sockid = [ER.OSRF_CHAT_S2S_CHALLENGE k] := by
    rw [sentSince_of_sent _ _ _ _ R1.2.1]; simp
  have lR1 : wR1.nodeList r.sockid = some R := by rw [R1.2.2.2.1]; exact hRl
  have dR1 : wR1.deadNodes = [] := by rw [R1.2.2.2.2.1]; exact hRd
  have xR1 : wR1.xmlError = false := by rw [R1.2.2.2.2.2.2.2]; exact hRe
  -- the initiator's first turn: the stream id
  have cI1 := startElement_s2s_challenge EI _ I _ a2 k (heap_marked wI I i hI) hIs ha2
  simp only [modifyNode_fields, hkn, hIr, fmtS, Option.getD_some] at cI1
  have I1 := handleData_stepped EI wI I _ i.sockid [.startElement "stream:stream" a2] _ hIl hI0
    hId hIe cI1
  have eI1 : s2sDeliver EI parse wI i.sockid [ER.OSRF_CHAT_S2S_CHALLENGE k] =
      osrfChatHandleData EI wI i.sockid [.startElement "stream:stream" a2] := by
    rw [s2sDeliver_one, hp2]
  rw [← eI1] at I1
  generalize hwI1 : s2sDeliver EI parse wI i.sockid [ER.OSRF_CHAT_S2S_CHALLENGE k] = wI1 at I1
  have sI1 : sentSince wI wI1 i.sockid = [EI.OSRF_CHAT_S2S_RESPONSE dR i.domain key] := by
    rw [sentSince_of_sent _ _ _ _ I1.2.1]; simp
  have lI1 : wI1.nodeList i.sockid = some I := by rw [I1.2.2.2.1]; exact hIl
  have dI1 : wI1.deadNodes = [] := by rw [I1.2.2.2.2.1]; exact hId
  have xI1 : wI1.xmlError = false := by rw [I1.2.2.2.2.2.2.2]; exact hIe
  -- the responder's second turn: the key
  have cR2a := startElement_s2s_result ER _ R _ a3 i.domain (heap_marked wR1 R _ R1.heap_eq)
    rfl ha3
  have cR2b := characters_s2s_key ER _ R _ i.domain k key cR2a.heap_eq rfl rfl rfl rfl
    (by
      rw [cR2a.2.2.2.2.2.1]
      simp only [modifyNode_fields]
      rw [R1.2.2.2.2.2.1]
      exact hkey) hklen
  have cR2c := osrfChatEndElement_idle ER _ R _ "db:result" cR2b.heap_eq (by simp) (by decide)
    (by decide)
  have cR2 := cR2a.trans cR2b
  have ecR2 : xmlParseChunk ER (modifyNode wR1 R (fun n => { n with inparse := true })) R
      [.startElement "db:result" a3, .characters key, .endElement "db:result"] =
      osrfChatHandleCharacter ER (osrfChatStartElement ER
        (modifyNode wR1 R (fun n => { n with inparse := true })) R "db:result" a3) R key := by
    simp only [xmlParseChunk, List.foldl, saxDispatch]
    rw [cR2c]
  rw [← ecR2] at cR2
  have R2 := handleData_stepped ER wR1 R _ r.sockid _ _ lR1 hR0 dR1 xR1 cR2
  have eR2 : s2sDeliver ER parse wR1 r.sockid [EI.OSRF_CHAT_S2S_RESPONSE dR i.domain key] =
      osrfChatHandleData ER wR1 r.sockid
        [.startElement "db:result" a3, .characters key, .endElement "db:result"] := by
    rw [s2sDeliver_one, hp3]
  rw [← eR2] at R2
  generalize hwR2 : s2sDeliver ER parse wR1 r.sockid
    [EI.OSRF_CHAT_S2S_RESPONSE dR i.domain key] = wR2 at R2
  simp only [List.nil_append] at R2
  have sR2 : sentSince wR1 wR2 r.sockid =
      [ER.OSRF_CHAT_S2S_VERIFY_REQUEST k r.domain i.domain key] := by
    rw [sentSince_of_sent _ _ _ _ R2.2.1]; simp
  have lR2 : wR2.nodeList r.sockid = some R := by rw [R2.2.2.2.1]; exact lR1
  have dR2 : wR2.deadNodes = [] := by rw [R2.2.2.2.2.1]; exact dR1
  have xR2 : wR2.xmlError = false := by rw [R2.2.2.2.2.2.2.2]; exact xR1
  -- the initiator's second turn: the request for verification
  have cI2 := startElement_s2s_verify EI _ I _ a4 k (heap_marked wI1 I _ I1.heap_eq) rfl ha4
  have cI2b := osrfChatHandleCharacter_idle EI _ I _ key cI2.heap_eq (by simp) (by simp)
    (by simp)
  have cI2c := osrfChatEndElement_idle EI _ I _ "db:verify" cI2.heap_eq (by simp) (by decide)
    (by decide)
  have ecI2 : xmlParseChunk EI (modifyNode wI1 I (fun n => { n with inparse := true })) I
      [.startElement "db:verify" a4, .characters key, .endElement "db:verify"] =
      osrfChatStartElement EI (modifyNode wI1 I (fun n => { n with inparse := true })) I
        "db:verify" a4 := by
    simp only [xmlParseChunk, List.foldl, saxDispatch]
    rw [cI2b, cI2c]
  rw [← ecI2] at cI2
  simp only [fmtS, Option.getD_some] at cI2
  have I2 := handleData_stepped EI wI1 I _ i.sockid _ _ lI1 hI0 dI1 xI1 cI2
  have eI2 : s2sDeliver EI parse wI1 i.sockid
      [ER.OSRF_CHAT_S2S_VERIFY_REQUEST k r.domain i.domain key] =
      osrfChatHandleData EI wI1 i.sockid
        [.startElement "db:verify" a4, .characters key, .endElement "db:verify"] := by
    rw [s2sDeliver_one, hp4]
  rw [← eI2] at I2
  generalize hwI2 : s2sDeliver EI parse wI1 i.sockid
    [ER.OSRF_CHAT_S2S_VERIFY_REQUEST k r.domain i.domain key] = wI2 at I2
  have sI2 : sentSince wI1 wI2 i.sockid =
      [EI.OSRF_CHAT_S2S_VERIFY_RESPONSE dR i.domain k] := by
    rw [sentSince_of_sent _ _ _ _ I2.2.1]; simp
  have lI2 : wI2.nodeList i.sockid = some I := by rw [I2.2.2.2.1]; exact lI1
  have dI2 : wI2.deadNodes = [] := by rw [I2.2.2.2.2.1]; exact dI1
  have xI2 : wI2.xmlError = false := by rw [I2.2.2.2.2.2.2.2]; exact xI1
  -- the responder's third turn: the echo
  have cR3 := startElement_s2s_connected_verify ER _ R _ a5 (heap_marked wR2 R _ R2.heap_eq)
    (Or.inl rfl)
  have cR3c := osrfChatEndElement_idle ER _ R _ "db:verify" cR3.heap_eq (by simp) (by decide)
    (by decide)
  have ecR3 : xmlParseChunk ER (modifyNode wR2 R (fun n => { n with inparse := true })) R
      [.startElement "db:verify" a5, .endElement "db:verify"] =
      osrfChatStartElement ER (modifyNode wR2 R (fun n => { n with inparse := true })) R
        "db:verify" a5 := by
    simp only [xmlParseChunk, List.foldl, saxDispatch]
    rw [cR3c]
  rw [← ecR3] at cR3
  simp only [fmtS, Option.getD_some] at cR3
  have R3 := handleData_stepped ER wR2 R _ r.sockid _ _ lR2 hR0 dR2 xR2 cR3
  have eR3 : s2sDeliver ER parse wR2 r.sockid
      [EI.OSRF_CHAT_S2S_VERIFY_RESPONSE dR i.domain k] =
      osrfChatHandleData ER wR2 r.sockid
        [.startElement "db:verify" a5, .endElement "db:verify"] := by
    rw [s2sDeliver_one, hp5]
  rw [← eR3] at R3
  generalize hwR3 : s2sDeliver ER parse wR2 r.sockid
    [EI.OSRF_CHAT_S2S_VERIFY_RESPONSE dR i.domain k] = wR3 at R3
  have sR3 : sentSince wR2 wR3 r.sockid = [ER.OSRF_CHAT_S2S_VERIFY_FINAL r.domain i.domain] := by
    rw [sentSince_of_sent _ _ _ _ R3.2.1]; simp
  -- the exchange, turn by turn
  have hx : s2sExchange EI ER parse wI wR i.sockid r.sockid =
      (s2sDeliver EI parse wI2 i.sockid [ER.OSRF_CHAT_S2S_VERIFY_FINAL r.domain i.domain],
        wR3) := by
    simp only [s2sExchange, hwR1, sR1, hwI1, sI1, hwR2, sR2, hwI2, sI2, hwR3, sR3]
  have RR := (R1.trans R2).trans R3
  have II := I1.trans I2
  rw [hx]
  refine ⟨?_, ?_, ?_, ?_, ?_, ?_⟩
  · rw [RR.heap_eq]
  · simp [osrfChatGenerateS2SKey, hkey]
  · rw [RR.2.1]; simp
  · rw [RR.2.2.2.1]; exact hRl
  · rw [s2sDeliver_one, hp6]
    exact final_result_connected_data EI wI2 I _ i.sockid a6 II.heap_eq rfl lI2 hI0 xI2
  · intro hhash hdom hparse hsend
    have hf := startElement_s2s_final_result EI _ I _ dR q a6
      (heap_marked wI2 I _ II.heap_eq) rfl hq
      (by simp only [modifyNode_fields]; rw [II.2.2.1]; exact hhash)
      (by simp only [modifyNode_fields]; rw [II.2.2.2.2.2.2.1]; exact hdom) hparse
      (by
        intro j x hx
        simp only [modifyNode_fields]
        rw [II.2.1]
        simpa using hsend j x hx)
    have hend := endElement_connected_other EI _ I _ "db:result"
      (by rw [hf.2.1]; exact Function.update_same _ _ _) rfl (by decide) (by decide)
    have ecI3 : xmlParseChunk EI (modifyNode wI2 I (fun n => { n with inparse := true })) I
        [.startElement "db:result" a6, .endElement "db:result"] =
        osrfChatStartElement EI (modifyNode wI2 I (fun n => { n with inparse := true })) I
          "db:result" a6 := by
      simp only [xmlParseChunk, List.foldl, saxDispatch]
      rw [hend]
    rw [← ecI3] at hf
    have F := handleData_frame EI wI2 I _ i.sockid _ _ lI2 hI0 xI2 hf.2.1 hf.1 hf.2.2.1
      hf.2.2.2.1 hf.2.2.2.2
    rw [s2sDeliver_one, hp6]
    refine ⟨?_, ?_, ?_, ?_⟩
    · rw [F.1]; simp [hIr]
    · rw [F.2.1, II.2.1]; simp
    · rw [F.2.2.2.1]; exact lI2
    · rw [F.2.2.1, II.2.2.1]; exact hhash

/-- Instance of C16: the outbound node of `ex.org` for `peer.org` (address 2, socket 7, one
stanza queued) and a new inbound node of `peer.org` (address 0, socket 9) exchange what they
send, the echo being read as `db:verify`; both end `CONNECTED`, and the queued stanza follows
the handshake on socket 7. -/
theorem C16_handshake_converges_witness :
    ((s2sExchange sampleEnvOk sampleEnvOk (sampleWire "db:verify" false)
      (sampleServerS2S .S2S_CHALLENGE ["<m1/>"]) samplePeerServer 7 9).1.heap 2).map
        (fun n => (n.state, n.msgs)) = some (OSRF_CHAT_STATE.CONNECTED, none) ∧
    ((s2sExchange sampleEnvOk sampleEnvOk (sampleWire "db:verify" false)
      (sampleServerS2S .S2S_CHALLENGE ["<m1/>"]) samplePeerServer 7 9).2.heap 0).map
        (fun n => (n.state, n.remote)) = some (OSRF_CHAT_STATE.CONNECTED, some "ex.org") ∧
    (s2sExchange sampleEnvOk sampleEnvOk (sampleWire "db:verify" false)
      (sampleServerS2S .S2S_CHALLENGE ["<m1/>"]) samplePeerServer 7 9).1.sent =
      [(7, "S2S_RESPONSE peer.org ex.org H(H(H(secret)ex.org)H(17000000004242host))"),
       (7, "S2S_VERIFY_RESPONSE peer.org ex.org H(17000000004242host)"), (7, "<m1/>")] ∧
    (s2sExchange sampleEnvOk sampleEnvOk (sampleWire "db:verify" false)
      (sampleServerS2S .S2S_CHALLENGE ["<m1/>"]) samplePeerServer 7 9).2.sent =
      [(9, "S2S_CHALLENGE H(17000000004242host)"),
       (9, "S2S_VERIFY_REQUEST H(17000000004242host) peer.org ex.org " ++
          "H(H(H(secret)ex.org)H(17000000004242host))"),
       (9, "S2S_VERIFY_FINAL peer.org ex.org")] :=
  have h := C16_handshake_converges sampleEnvOk sampleEnvOk (sampleWire "db:verify" false)
    (sampleServerS2S .S2S_CHALLENGE ["<m1/>"]) samplePeerServer 2 0
    (samplePeer .S2S_CHALLENGE ["<m1/>"])
    { sockid := 9, type := 0, state := .NONE, xmlstate := XmlState.zero, inparse := false,
      remote := none, to_ := none, username := none, resource := none, domain := "peer.org",
      authkey := none, msgs := none, msgDoc := none }
    "peer.org" ["<m1/>"] (by decide) rfl rfl rfl (by decide) (by decide) (by decide)
    (by decide) (by decide) rfl (by decide) (by decide) (by decide) (by decide) rfl rfl
    (fun s => by
      show ("H(" ++ s ++ ")").length ≠ 0
      have h2 : ("H(" : String).length = 2 := by decide
      rw [String.length_append, String.length_append, h2]
      omega)
    ⟨⟨[("xmlns", "jabber:server"), ("xmlns:db", "jabber:server:dialback")], by decide!,
        by decide!⟩,
     ⟨[("xmlns", "jabber:server"), ("xmlns:db", "jabber:server:dialback"),
        ("id", "H(17000000004242host)")], by decide!, by decide!⟩,
     ⟨[("to", "peer.org"), ("from", "ex.org")], by decide!, by decide!⟩,
     ⟨[("id", "H(17000000004242host)"), ("from", "peer.org"), ("to", "ex.org")], by decide!,
        by decide!⟩,
     ⟨[("type", "valid"), ("to", "peer.org"), ("from", "ex.org"),
        ("id", "H(17000000004242host)")], by decide!⟩,
     ⟨[("type", "valid"), ("from", "peer.org"), ("to", "ex.org")], by decide!⟩⟩
  have g := h.2.2.2.2.2 (by decide) (by decide)
    (fun _ _ => ⟨_, "c@peer.org", rfl, by decide, by decide⟩)
    (fun _ _ _ => rfl)
  ⟨(congrArg (Option.map (fun n => (n.state, n.msgs))) g.1).trans rfl,
   (congrArg (Option.map (fun n => (n.state, n.remote))) h.1).trans rfl,
   g.2.1.trans (by decide), h.2.2.1.trans (by decide)⟩

/-- C16 fails as stated: the same two nodes, the stanzas read as section 4.4 words them. With
the initiator's echo named `db:verify-response` (step 5) the responder, which waits in
`S2S_VERIFY_RESPONSE`, answers with the parse-error stanza instead of the final stanza and is
removed; the initiator, in `S2S_VERIFY_FINAL` with its queue, receives that stanza, answers in
kind and is removed too: neither node is `CONNECTED`, both have left the indices and the
queued stanza was never sent. With the echo named `db:verify` but the key reported in two
pieces of text, the responder compares each piece with the key, stays in `S2S_RESPONSE` and
never asks for the verification, and the initiator stays in `S2S_VERIFY`. -/
theorem C16_wire_counterexample :
    ((s2sExchange sampleEnvOk sampleEnvOk (sampleWire "db:verify-response" false)
      (sampleServerS2S .S2S_CHALLENGE ["<m1/>"]) samplePeerServer 7 9).1.heap 2 = none ∧
     (s2sExchange sampleEnvOk sampleEnvOk (sampleWire "db:verify-response" false)
      (sampleServerS2S .S2S_CHALLENGE ["<m1/>"]) samplePeerServer 7 9).2.heap 0 = none ∧
     (s2sExchange sampleEnvOk sampleEnvOk (sampleWire "db:verify-response" false)
      (sampleServerS2S .S2S_CHALLENGE ["<m1/>"]) samplePeerServer 7 9).1.nodeList 7 = none ∧
     (s2sExchange sampleEnvOk sampleEnvOk (sampleWire "db:verify-response" false)
      (sampleServerS2S .S2S_CHALLENGE ["<m1/>"]) samplePeerServer 7 9).1.nodeHash "peer.org"
        = none ∧
     (s2sExchange sampleEnvOk sampleEnvOk (sampleWire "db:verify-response" false)
      (sampleServerS2S .S2S_CHALLENGE ["<m1/>"]) samplePeerServer 7 9).2.nodeList 9 = none ∧
     (s2sExchange sampleEnvOk sampleEnvOk (sampleWire "db:verify-response" false)
      (sampleServerS2S .S2S_CHALLENGE ["<m1/>"]) samplePeerServer 7 9).1.sent =
      [(7, "S2S_RESPONSE peer.org ex.org H(H(H(secret)ex.org)H(17000000004242host))"),
       (7, "S2S_VERIFY_RESPONSE peer.org ex.org H(17000000004242host)"),
       (7, "PARSE_ERROR")] ∧
     (s2sExchange sampleEnvOk sampleEnvOk (sampleWire "db:verify-response" false)
      (sampleServerS2S .S2S_CHALLENGE ["<m1/>"]) samplePeerServer 7 9).2.sent =
      [(9, "S2S_CHALLENGE H(17000000004242host)"),
       (9, "S2S_VERIFY_REQUEST H(17000000004242host) peer.org ex.org " ++
          "H(H(H(secret)ex.org)H(17000000004242host))"),
       (9, "PARSE_ERROR")]) ∧
    (((s2sExchange sampleEnvOk sampleEnvOk (sampleWire "db:verify" true)
      (sampleServerS2S .S2S_CHALLENGE ["<m1/>"]) samplePeerServer 7 9).1.heap 2).map
        (fun n => (n.state, n.msgs)) = some (OSRF_CHAT_STATE.S2S_VERIFY, some ["<m1/>"]) ∧
     ((s2sExchange sampleEnvOk sampleEnvOk (sampleWire "db:verify" true)
      (sampleServerS2S .S2S_CHALLENGE ["<m1/>"]) samplePeerServer 7 9).2.heap 0).map
        (fun n => (n.state, n.remote)) = some (OSRF_CHAT_STATE.S2S_RESPONSE, some "ex.org") ∧
     (s2sExchange sampleEnvOk sampleEnvOk (sampleWire "db:verify" true)
      (sampleServerS2S .S2S_CHALLENGE ["<m1/>"]) samplePeerServer 7 9).1.sent =
      [(7, "S2S_RESPONSE peer.org ex.org H(H(H(secret)ex.org)H(17000000004242host))")] ∧
     (s2sExchange sampleEnvOk sampleEnvOk (sampleWire "db:verify" true)
      (sampleServerS2S .S2S_CHALLENGE ["<m1/>"]) samplePeerServer 7 9).2.sent =
      [(9, "S2S_CHALLENGE H(17000000004242host)")]) :=
  ⟨by decide!, by decide!⟩

end OpenSRF
